import Mathlib

/-!
# go-microfoxx: response classification and the cursor protocol

A shallow embedding of the `client` package of go-microfoxx.

* HTTP bodies are modelled by the JSON value the byte stream starts with
  (`Body.value`), or by the reason `json.Decoder.Decode` cannot read one
  (`Body.empty`, `Body.malformed`).
* `encoding/json` is modelled at the level of JSON syntax trees: decoding into
  a struct walks the members of an object in order, selects the field by exact
  name and then by case folding, and stores by the static type of the field.
* The standard-library pieces that are not part of the repository
  (`strconv.ParseFloat`, the float formatter of the JSON encoder and the
  validation done by `http.NewRequest`) are the fields of `GoRuntime`.
-/

namespace Microfoxx

/-! ## JSON syntax -/

/-- A JSON number literal as written on the wire: sign, integer part, the
digits after the point (empty when there is no fraction) and the exponent. -/
structure JNumber where
  neg : Bool
  int : Nat
  frac : List Nat
  exp : Option Int
deriving DecidableEq, Repr

/-- JSON syntax trees; the members of an object keep their textual order. -/
inductive JSON where
  | null
  | bool (b : Bool)
  | num (n : JNumber)
  | str (s : String)
  | arr (xs : List JSON)
  | obj (kvs : List (String × JSON))

/-- What an `io.Reader` holding a response (or result) body delivers to
`json.NewDecoder(r).Decode`. -/
inductive Body where
  | empty
  | malformed
  | value (j : JSON)

/-- The errors `json.Decoder.Decode` reports: `io.EOF` on an empty stream, a
`*json.SyntaxError`, or a `*json.UnmarshalTypeError`. -/
inductive DecodeError where
  | eof
  | badSyntax
  | unmarshalType
deriving DecidableEq, Repr

/-- Values of Go's `error` type that reach the results of this package.  The
first three are the package-level variables of `client.go`. -/
inductive GoError where
  | ErrBadRequest
  | ErrGeneral
  | ErrNotFound
  | decode (e : DecodeError)
  | encode (msg : String)
  | transport (msg : String)
deriving DecidableEq, Repr

/-- Run-time panics the package can raise. -/
inductive GoPanic where
  | interfaceConversion
  | nilDereference
deriving DecidableEq, Repr

/-- The part of `*http.Response` the package reads. -/
structure Response where
  StatusCode : Int
  Body : Body

/-! ## Values of type `interface{}` produced by `encoding/json` -/

/-- The dynamic values `encoding/json` stores into an `interface{}`:
`nil`, `bool`, `float64`, `string`, `[]interface{}` and
`map[string]interface{}`.  A Go map is unordered; it is represented by its
entries in ascending key order, the order in which the encoder writes them. -/
inductive GoValue (F : Type) where
  | nil
  | bool (b : Bool)
  | float64 (f : F)
  | string (s : String)
  | slice (xs : List (GoValue F))
  | map (kvs : List (String × GoValue F))

/-- A value of type `map[string]interface{}`; `none` is the nil map. -/
abbrev GoMap (F : Type) := Option (List (String × GoValue F))

/-- The standard-library functions the package relies on, for a carrier `F`
of the finite `float64` values. -/
structure GoRuntime (F : Type) where
  /-- Models `strconv.ParseFloat(lit, 64)`; `none` is a range error. -/
  parseFloat : JNumber → Option F
  /-- The literal the JSON encoder writes for a `float64`. -/
  formatFloat : F → JNumber
  /-- Whether `http.NewRequest(method, url, body)` returns a request. -/
  newRequestOk : String → String → Bool
  /-- The conversion `int(f)` of a `float64`. -/
  floatToInt : F → Int

/-- Go compares strings bytewise; on UTF-8 this is the lexicographic order of
the code points. -/
def runesLess : List Char → List Char → Bool
  | [], [] => false
  | [], _ :: _ => true
  | _ :: _, [] => false
  | a :: as, b :: bs =>
    if a.toNat < b.toNat then true
    else if a.toNat = b.toNat then runesLess as bs
    else false

/-- The order `sort.Strings` puts map keys in. -/
def keyLess (a b : String) : Bool := runesLess a.data b.data

/-- Assignment `m[k] = v` on a map kept in ascending key order. -/
def mapInsert {α : Type} (k : String) (v : α) : List (String × α) → List (String × α)
  | [] => [(k, v)]
  | (k2, v2) :: rest =>
    if keyLess k k2 then (k, v) :: (k2, v2) :: rest
    else if k = k2 then (k, v) :: rest
    else (k2, v2) :: mapInsert k v rest

/-- The index expression `m[k]`; `none` is the zero value (a nil interface)
returned for a nil map or a missing key. -/
def mapIndex {α : Type} (m : Option (List (String × α))) (k : String) : Option α :=
  match m with
  | none => none
  | some kvs => kvs.lookup k

/-! ## Decoding -/

/-- Case folding of one rune as done by `encoding/json` when matching keys
against ASCII field names: ASCII letters fold to upper case, and the long s
and the Kelvin sign fold to `S` and `K`. -/
def foldRune (c : Char) : Char :=
  if c = Char.ofNat 0x017F then 'S'
  else if c = Char.ofNat 0x212A then 'K'
  else c.toUpper

/-- Models `foldName` of `encoding/json`. -/
def foldName (s : String) : List Char := s.data.map foldRune

/-- The struct field a JSON key selects: the field of exactly that name, else
the first field whose folded name equals the folded key. -/
def findField (names : List String) (key : String) : Option String :=
  if names.contains key then some key
  else names.find? (fun n => foldName n = foldName key)

/-- Storing a JSON value into a `string` field holding `cur`. -/
def storeString (cur : String) : JSON → Except DecodeError String
  | .str s => .ok s
  | .null => .ok cur
  | _ => .error .unmarshalType

/-- Storing a JSON value into a `bool` field holding `cur`. -/
def storeBool (cur : Bool) : JSON → Except DecodeError Bool
  | .bool b => .ok b
  | .null => .ok cur
  | _ => .error .unmarshalType

/-- Models `strconv.ParseInt(lit, 10, 64)` on a JSON number literal. -/
def parseInt (n : JNumber) : Option Int :=
  if n.frac = [] ∧ n.exp = none then
    let v : Int := if n.neg then -(n.int : Int) else (n.int : Int)
    if -(2 ^ 63 : Int) ≤ v ∧ v < (2 ^ 63 : Int) then some v else none
  else none

/-- Storing a JSON value into an `int` field holding `cur`. -/
def storeInt (cur : Int) : JSON → Except DecodeError Int
  | .num n =>
    match parseInt n with
    | some v => .ok v
    | none => .error .unmarshalType
  | .null => .ok cur
  | _ => .error .unmarshalType

/-- A Go slice `s` that is not nil: `elems` are the elements `s[0:len(s)]`, and
`spare` are the elements its backing array holds from index `len(s)` up to the
furthest index written so far.  They stay in memory when the decoder shortens
the slice and come back when it lengthens the slice again. -/
structure GoSlice (α : Type) where
  elems : List α
  spare : List α := []
deriving DecidableEq, Repr

/-- Decoding the elements of a JSON array one by one into the elements of a
backing array: element `i` is decoded into what the array holds at index `i`,
and into the zero value beyond what was ever written. -/
def decodeElemsInto {α : Type} (store : α → JSON → Except DecodeError α) (zero : α) :
    List α → List JSON → Except DecodeError (List α)
  | _, [] => .ok []
  | backing, x :: xs =>
    match store (backing.headD zero) x with
    | .ok e =>
      match decodeElemsInto store zero backing.tail xs with
      | .ok es => .ok (e :: es)
      | .error err => .error err
    | .error err => .error err

/-- Storing a JSON value into a slice holding `cur`, as `encoding/json` does:
`null` makes the slice nil, the empty array makes it a new empty slice, and
the elements of any other array are decoded into the elements the backing array
already holds, the slice ending up as long as the array. -/
def storeSlice {α : Type} (store : α → JSON → Except DecodeError α) (zero : α)
    (cur : Option (GoSlice α)) : JSON → Except DecodeError (Option (GoSlice α))
  | .null => .ok none
  | .arr [] => .ok (some { elems := [], spare := [] })
  | .arr (x :: xs) =>
    let backing :=
      match cur with
      | none => []
      | some sl => sl.elems ++ sl.spare
    match decodeElemsInto store zero backing (x :: xs) with
    | .ok es => .ok (some { elems := es, spare := backing.drop (x :: xs).length })
    | .error err => .error err
  | _ => .error .unmarshalType

/-- Models `Decode(&v)` for a struct `v` holding `zero`: `store` is the
per-member step of the struct. -/
def decodeStruct {σ : Type} (store : σ → String → JSON → Except DecodeError σ) (zero : σ) :
    Body → Except DecodeError σ
  | .empty => .error .eof
  | .malformed => .error .badSyntax
  | .value .null => .ok zero
  | .value (.obj kvs) => kvs.foldlM (fun st kv => store st kv.1 kv.2) zero
  | .value _ => .error .unmarshalType

mutual
/-- Decoding a JSON value into an `interface{}`. -/
def decodeInterface {F : Type} (rt : GoRuntime F) : JSON → Except DecodeError (GoValue F)
  | .null => .ok .nil
  | .bool b => .ok (.bool b)
  | .num n =>
    match rt.parseFloat n with
    | some f => .ok (.float64 f)
    | none => .error .unmarshalType
  | .str s => .ok (.string s)
  | .arr xs =>
    match decodeElems rt xs with
    | .ok vs => .ok (.slice vs)
    | .error e => .error e
  | .obj kvs =>
    match decodeMembers rt kvs [] with
    | .ok m => .ok (.map m)
    | .error e => .error e
/-- Decoding the elements of a JSON array into a `[]interface{}`. -/
def decodeElems {F : Type} (rt : GoRuntime F) : List JSON → Except DecodeError (List (GoValue F))
  | [] => .ok []
  | x :: xs =>
    match decodeInterface rt x with
    | .ok v =>
      match decodeElems rt xs with
      | .ok vs => .ok (v :: vs)
      | .error e => .error e
    | .error e => .error e
/-- Decoding the members of a JSON object into the map holding `acc`: every
member is assigned in order, so a later duplicate replaces an earlier one. -/
def decodeMembers {F : Type} (rt : GoRuntime F) :
    List (String × JSON) → List (String × GoValue F) → Except DecodeError (List (String × GoValue F))
  | [], acc => .ok acc
  | (k, x) :: rest, acc =>
    match decodeInterface rt x with
    | .ok v => decodeMembers rt rest (mapInsert k v acc)
    | .error e => .error e
end

/-- Storing a JSON value into a `map[string]interface{}` holding `cur`: an
object is decoded into the existing map, `null` makes the map nil. -/
def storeMap {F : Type} (rt : GoRuntime F) (cur : GoMap F) : JSON → Except DecodeError (GoMap F)
  | .null => .ok none
  | .obj kvs =>
    match decodeMembers rt kvs (cur.getD []) with
    | .ok m => .ok (some m)
    | .error e => .error e
  | _ => .error .unmarshalType

/-- Models `Decode(&m)` for a variable `m` of type `map[string]interface{}`
that holds the nil map. -/
def decodeMap {F : Type} (rt : GoRuntime F) : Body → Except DecodeError (GoMap F)
  | .empty => .error .eof
  | .malformed => .error .badSyntax
  | .value j => storeMap rt none j

/-- The values a JSON object gives for one field of a struct with field names
`names`: the values of the members whose key selects `field`, in order. -/
def memberValues (names : List String) (field : String) (kvs : List (String × JSON)) : List JSON :=
  (kvs.filter (fun kv => findField names kv.1 = some field)).map Prod.snd

/-- Storing a sequence of JSON values one after the other into one field. -/
def storeAll {α : Type} (store : α → JSON → Except DecodeError α) (cur : α) (vals : List JSON) :
    Except DecodeError α :=
  vals.foldlM store cur

/-! ## The response classifier (`client.go`) -/

/-- The anonymous struct `intermediary` of `prepareExceptionResponse`. -/
structure ExceptionEnvelope where
  Message : String
  ErrMessage : String
deriving DecidableEq, Repr

/-- One member of the error envelope stored into `intermediary`. -/
def ExceptionEnvelope.store (st : ExceptionEnvelope) (key : String) (v : JSON) :
    Except DecodeError ExceptionEnvelope :=
  match findField ["exception", "errorMessage"] key with
  | some "exception" =>
    match storeString st.Message v with
    | .ok s => .ok { st with Message := s }
    | .error e => .error e
  | some "errorMessage" =>
    match storeString st.ErrMessage v with
    | .ok s => .ok { st with ErrMessage := s }
    | .error e => .error e
  | _ => .ok st

/-- Models `json.NewDecoder(resp.Body).Decode(&intermediary)` in
`prepareExceptionResponse`. -/
def decodeExceptionEnvelope (b : Body) : Except DecodeError ExceptionEnvelope :=
  decodeStruct ExceptionEnvelope.store { Message := "", ErrMessage := "" } b

/-- Models `prepareExceptionResponse` of `client.go`. -/
def prepareExceptionResponse (resp : Response) : String × Option GoError :=
  match decodeExceptionEnvelope resp.Body with
  | .ok intermediary =>
    let message :=
      if intermediary.Message ≠ "" then intermediary.Message
      else if intermediary.ErrMessage ≠ "" then intermediary.ErrMessage
      else ""
    let err :=
      if resp.StatusCode = 400 then GoError.ErrBadRequest
      else if resp.StatusCode = 404 then GoError.ErrNotFound
      else GoError.ErrGeneral
    (message, some err)
  | .error e => ("", some (.decode e))

/-- Models `prepareExceptionResponseFromMap` of `client.go`: the type assertion
`respMap["exception"].(string)` panics unless the entry holds a string. -/
def prepareExceptionResponseFromMap {F : Type} (statusCode : Int) (respMap : GoMap F) :
    Except GoPanic (String × Option GoError) :=
  match mapIndex respMap "exception" with
  | some (.string message) =>
    let err :=
      if statusCode = 400 then GoError.ErrBadRequest
      else if statusCode = 404 then GoError.ErrNotFound
      else GoError.ErrGeneral
    .ok (message, some err)
  | _ => .error .interfaceConversion

/-! ## Requests and the client (`client.go`) -/

/-- Status codes of `net/http` the package compares against. -/
abbrev StatusOK : Int := 200
/-- Status `201 Created`. -/
abbrev StatusCreated : Int := 201
/-- Status `400 Bad Request`. -/
abbrev StatusBadRequest : Int := 400
/-- Status `404 Not Found`. -/
abbrev StatusNotFound : Int := 404

/-- A value of type `url.Values`: keys in ascending order, each with its
values in the order they were added. -/
abbrev Values := List (String × List String)

/-- Models `url.Values.Add`. -/
def Values.Add (k v : String) : Values → Values
  | [] => [(k, [v])]
  | (k2, vs) :: rest =>
    if keyLess k k2 then (k, [v]) :: (k2, vs) :: rest
    else if k = k2 then (k2, vs ++ [v]) :: rest
    else (k2, vs) :: Values.Add k v rest

/-- Upper-case hexadecimal digit. -/
def hexDigit (n : Nat) : Char :=
  if n < 10 then Char.ofNat (48 + n) else Char.ofNat (55 + n)

/-- Whether `url.QueryEscape` leaves a byte as it is: ASCII letters, digits
and `-`, `_`, `.`, `~`. -/
def unreservedByte (n : Nat) : Bool :=
  (97 ≤ n && n ≤ 122) || (65 ≤ n && n ≤ 90) || (48 ≤ n && n ≤ 57) ||
    n = 45 || n = 95 || n = 46 || n = 126

/-- How `url.QueryEscape` writes one byte. -/
def escapeByte (b : UInt8) : List Char :=
  let n := b.toNat
  if unreservedByte n then [Char.ofNat n]
  else if n = 32 then ['+']
  else ['%', hexDigit (n / 16), hexDigit (n % 16)]

/-- Models `url.QueryEscape`. -/
def QueryEscape (s : String) : String :=
  String.mk ((s.data.flatMap String.utf8EncodeChar).flatMap escapeByte)

/-- Models `url.Values.Encode`. -/
def Values.Encode (v : Values) : String :=
  String.intercalate "&"
    (v.flatMap (fun kv => kv.2.map (fun x => QueryEscape kv.1 ++ "=" ++ QueryEscape x)))

/-- The part of `*http.Request` the package sets.  `RawQuery` is `some q` when
`prepareRequest` assigned `req.URL.RawQuery`, and `none` when the query is left
as parsed from `URL`; `Body` is `none` for a nil reader. -/
structure Request where
  Method : String
  URL : String
  RawQuery : Option String
  SessionID : String
  Body : Option Body

/-- The `WebClient` interface: the injected HTTP transport. -/
structure WebClient where
  Do : Request → Except GoError Response
  Post : String → String → Body → Except GoError Response

/-- Holds `types.SessionInfo`. -/
structure SessionInfo where
  SID : String
  UID : String
deriving DecidableEq, Repr

/-- Holds `types.ConnectionParams`. -/
structure ConnectionParams where
  Host : String
  Port : String
  Database : String
  Scheme : String
  Username : String
  Password : String
deriving DecidableEq, Repr

/-- The struct `clientImpl`; `sessionInfo` is a pointer and `none` is nil. -/
structure clientImpl where
  httpClient : WebClient
  connectionParams : ConnectionParams
  endpoint : String
  sessionInfo : Option SessionInfo

/-- Models `prepareRequest`: `http.NewRequest` builds the request (its error is
discarded, so a nil request is dereferenced when it fails), the query is
assigned when there is at least one parameter, and the session header is read
through the `sessionInfo` pointer. -/
def prepareRequest {F : Type} (rt : GoRuntime F) (c : clientImpl) (method path : String)
    (qParams : Option Values) (body : Option Body) : Except GoPanic Request :=
  if rt.newRequestOk method (c.endpoint ++ path) then
    match c.sessionInfo with
    | none => .error .nilDereference
    | some sessionInfo =>
      .ok { Method := method
            URL := c.endpoint ++ path
            RawQuery :=
              match qParams with
              | some (kv :: kvs) => some (Values.Encode (kv :: kvs))
              | _ => none
            SessionID := sessionInfo.SID
            Body := body }
  else .error .nilDereference

/-! ## Encoding -/

/-- The literal the JSON encoder writes for a Go `int`. -/
def JNumber.ofInt (i : Int) : JNumber :=
  { neg := decide (i < 0), int := i.natAbs, frac := [], exp := none }

mutual
/-- Encoding an `interface{}` that holds a decoded value. -/
def encodeValue {F : Type} (rt : GoRuntime F) : GoValue F → JSON
  | .nil => .null
  | .bool b => .bool b
  | .float64 f => .num (rt.formatFloat f)
  | .string s => .str s
  | .slice xs => .arr (encodeValues rt xs)
  | .map kvs => .obj (encodeEntries rt kvs)
/-- Encoding the elements of a `[]interface{}`. -/
def encodeValues {F : Type} (rt : GoRuntime F) : List (GoValue F) → List JSON
  | [] => []
  | x :: xs => encodeValue rt x :: encodeValues rt xs
/-- Encoding the entries of a map, written in ascending key order. -/
def encodeEntries {F : Type} (rt : GoRuntime F) : List (String × GoValue F) → List (String × JSON)
  | [] => []
  | (k, x) :: rest => (k, encodeValue rt x) :: encodeEntries rt rest
end

/-- Encoding a `map[string]interface{}`: a nil map is written `null`. -/
def encodeMap {F : Type} (rt : GoRuntime F) : GoMap F → JSON
  | none => .null
  | some kvs => .obj (encodeEntries rt kvs)

/-- Encoding a `[]map[string]interface{}`: a nil slice is written `null`. -/
def encodeMapSlice {F : Type} (rt : GoRuntime F) : Option (GoSlice (GoMap F)) → JSON
  | none => .null
  | some ms => .arr (ms.elems.map (encodeMap rt))

/-- Models `json.NewEncoder(buf).Encode(v)` for a value that came out of the
decoder: the encoder has no failing case on such values, and the buffer then
holds the JSON text. -/
def encodeToBuffer (j : JSON) : Except GoError Body := .ok (.value j)

/-- An argument of static type `interface{}` supplied by the caller; the
package only hands it to `json.Encoder`, so it is represented by the outcome
of encoding it. -/
abbrev GoAny := Except GoError JSON

/-- Encoding a caller-supplied `map[string]interface{}`: keys are written in
ascending order and the first value that cannot be encoded fails the call. -/
def encodeAnyEntries : List (String × GoAny) → Except GoError (List (String × JSON))
  | [] => .ok []
  | (k, x) :: rest =>
    match x with
    | .ok j =>
      match encodeAnyEntries rest with
      | .ok js => .ok ((k, j) :: js)
      | .error e => .error e
    | .error e => .error e

/-- Encoding a caller-supplied map given by its assignments; `none` is nil. -/
def encodeAnyMap : Option (List (String × GoAny)) → Except GoError JSON
  | none => .ok .null
  | some kvs =>
    match encodeAnyEntries (kvs.foldl (fun acc kv => mapInsert kv.1 kv.2 acc) []) with
    | .ok js => .ok (.obj js)
    | .error e => .error e

/-! ## Cursors (`cursors.go`) -/

/-- Holds `types.CursorQueryParams`. -/
structure CursorQueryParams where
  Query : String
  BindVars : Option (List (String × GoAny))
  BatchSize : Int
  Count : Bool

/-- Holds `types.CursorQueryResult`; the defaults are Go's zero values. -/
structure CursorQueryResult where
  Err : Option GoError := none
  StatusCode : Int := 0
  Message : String := ""
  Documents : Option Body := none
  Cursor : String := ""
  HasMore : Bool := false

/-- Models `json.NewEncoder(b).Encode(params)` for `*types.CursorQueryParams`;
a nil pointer is written `null`. -/
def encodeCursorQueryParams : Option CursorQueryParams → Except GoError JSON
  | none => .ok .null
  | some p =>
    match encodeAnyMap p.BindVars with
    | .ok bv =>
      .ok (.obj [("query", .str p.Query), ("bindVars", bv),
                 ("batchSize", .num (JNumber.ofInt p.BatchSize)), ("count", .bool p.Count)])
    | .error e => .error e

/-- Decoding the elements of a JSON array into a nil
`[]map[string]interface{}`: each element starts from a nil map. -/
def decodeMapElems {F : Type} (rt : GoRuntime F) : List JSON → Except DecodeError (List (GoMap F))
  | [] => .ok []
  | x :: xs =>
    match storeMap rt none x with
    | .ok m =>
      match decodeMapElems rt xs with
      | .ok ms => .ok (m :: ms)
      | .error e => .error e
    | .error e => .error e

/-- Storing a JSON value into a `[]map[string]interface{}` field holding
`cur`: an object met at an index the backing array already holds a map for is
decoded into that map. -/
def storeMapSlice {F : Type} (rt : GoRuntime F) (cur : Option (GoSlice (GoMap F))) :
    JSON → Except DecodeError (Option (GoSlice (GoMap F))) :=
  storeSlice (storeMap rt) none cur

/-- Models `Decode(&docs)` for a nil variable `docs` of type
`[]map[string]interface{}`: `GetDocs` decodes its response this way, and the
callers of the package read `Documents` back this way. -/
def decodeMapSlice {F : Type} (rt : GoRuntime F) :
    Body → Except DecodeError (Option (GoSlice (GoMap F)))
  | .empty => .error .eof
  | .malformed => .error .badSyntax
  | .value j => storeMapSlice rt none j

/-- The anonymous struct `intermediary` of `CursorQuery`. -/
structure CursorQueryBody (F : Type) where
  Results : Option (GoSlice (GoMap F))
  Cursor : String
  HasMore : Bool
  Count : Int

/-- One member of the response stored into the `intermediary` of `CursorQuery`. -/
def CursorQueryBody.store {F : Type} (rt : GoRuntime F) (st : CursorQueryBody F) (key : String)
    (v : JSON) : Except DecodeError (CursorQueryBody F) :=
  match findField ["results", "cursor", "hasMore", "count"] key with
  | some "results" =>
    match storeMapSlice rt st.Results v with
    | .ok r => .ok { st with Results := r }
    | .error e => .error e
  | some "cursor" =>
    match storeString st.Cursor v with
    | .ok s => .ok { st with Cursor := s }
    | .error e => .error e
  | some "hasMore" =>
    match storeBool st.HasMore v with
    | .ok b => .ok { st with HasMore := b }
    | .error e => .error e
  | some "count" =>
    match storeInt st.Count v with
    | .ok n => .ok { st with Count := n }
    | .error e => .error e
  | _ => .ok st

/-- Models `Decode(&intermediary)` in `CursorQuery`. -/
def decodeCursorQueryBody {F : Type} (rt : GoRuntime F) (b : Body) :
    Except DecodeError (CursorQueryBody F) :=
  decodeStruct (CursorQueryBody.store rt)
    { Results := none, Cursor := "", HasMore := false, Count := 0 } b

/-- The anonymous struct `intermediary` of `CursorGetNextBatch`. -/
structure NextBatchBody (F : Type) where
  Results : Option (GoSlice (GoMap F))
  HasMore : Bool

/-- One member of the response stored into the `intermediary` of
`CursorGetNextBatch`. -/
def NextBatchBody.store {F : Type} (rt : GoRuntime F) (st : NextBatchBody F) (key : String)
    (v : JSON) : Except DecodeError (NextBatchBody F) :=
  match findField ["results", "hasMore"] key with
  | some "results" =>
    match storeMapSlice rt st.Results v with
    | .ok r => .ok { st with Results := r }
    | .error e => .error e
  | some "hasMore" =>
    match storeBool st.HasMore v with
    | .ok b => .ok { st with HasMore := b }
    | .error e => .error e
  | _ => .ok st

/-- Models `Decode(&intermediary)` in `CursorGetNextBatch`. -/
def decodeNextBatchBody {F : Type} (rt : GoRuntime F) (b : Body) :
    Except DecodeError (NextBatchBody F) :=
  decodeStruct (NextBatchBody.store rt) { Results := none, HasMore := false } b

/-- The constant `cursorEndpoint`. -/
def cursorEndpoint : String := "/cursor"

/-- Models `CursorQuery` of `cursors.go`.  The outer `Except` is a panic. -/
def CursorQuery {F : Type} (rt : GoRuntime F) (c : clientImpl) (params : Option CursorQueryParams) :
    Except GoPanic CursorQueryResult :=
  match encodeCursorQueryParams params with
  | .error err => .ok { Err := some err }
  | .ok b =>
    match prepareRequest rt c "POST" cursorEndpoint none (some (.value b)) with
    | .error p => .error p
    | .ok req =>
      match c.httpClient.Do req with
      | .error err => .ok { Err := some err }
      | .ok resp =>
        if resp.StatusCode = StatusOK ∨ resp.StatusCode = StatusCreated then
          match decodeCursorQueryBody rt resp.Body with
          | .error err => .ok { Err := some (.decode err) }
          | .ok intermediary =>
            match encodeToBuffer (encodeMapSlice rt intermediary.Results) with
            | .error err => .ok { Err := some err }
            | .ok docBytes =>
              .ok { StatusCode := resp.StatusCode
                    Cursor := intermediary.Cursor
                    HasMore := intermediary.HasMore
                    Documents := some docBytes }
        else
          let (msg, err) := prepareExceptionResponse resp
          .ok { StatusCode := resp.StatusCode, Message := msg, Err := err }

/-- Models `CursorGetNextBatch` of `cursors.go`. -/
def CursorGetNextBatch {F : Type} (rt : GoRuntime F) (c : clientImpl) (cursorID : String) :
    Except GoPanic CursorQueryResult :=
  match prepareRequest rt c "PUT" (cursorEndpoint ++ "/" ++ cursorID) none none with
  | .error p => .error p
  | .ok req =>
    match c.httpClient.Do req with
    | .error err => .ok { Err := some err }
    | .ok resp =>
      if resp.StatusCode = StatusOK ∨ resp.StatusCode = StatusCreated then
        match decodeNextBatchBody rt resp.Body with
        | .error err => .ok { Err := some (.decode err) }
        | .ok intermediary =>
          match encodeToBuffer (encodeMapSlice rt intermediary.Results) with
          | .error err => .ok { Err := some err }
          | .ok docBytes =>
            .ok { StatusCode := resp.StatusCode
                  HasMore := intermediary.HasMore
                  Documents := some docBytes }
      else
        let (msg, err) := prepareExceptionResponse resp
        .ok { StatusCode := resp.StatusCode, Message := msg, Err := err }

/-- The field names of the `intermediary` of `CursorQuery`. -/
abbrev cursorQueryFields : List String := ["results", "cursor", "hasMore", "count"]

/-- The field names of the `intermediary` of `CursorGetNextBatch`. -/
abbrev nextBatchFields : List String := ["results", "hasMore"]

/-! ## Result and parameter types (`types.go`) -/

/-- Holds `types.Relation`. -/
structure Relation where
  Name : String
  From : Option (List String)
  To : Option (List String)

/-- Holds `types.Graph`; `Relations` is a slice of pointers. -/
structure Graph where
  Name : String
  Relations : Option (List (Option Relation))
  Orphans : Option (List String)

/-- Holds `types.CreationResult`. -/
structure CreationResult where
  Err : Option GoError := none
  CreatedIDs : Option (List String) := none
  Message : String := ""
  StatusCode : Int := 0

/-- Holds `types.DocumentOpResult`. -/
structure DocumentOpResult where
  Err : Option GoError := none
  StatusCode : Int := 0
  Message : String := ""
  Event : Option Body := none
  Document : Option Body := none

/-- Holds `types.DocumentsOpResult`. -/
structure DocumentsOpResult where
  Err : Option GoError := none
  StatusCode : Int := 0
  Message : String := ""
  Events : Option Body := none
  Documents : Option Body := none

/-- Holds `types.DocumentsResult`. -/
structure DocumentsResult where
  Err : Option GoError := none
  StatusCode : Int := 0
  Message : String := ""
  Documents : Option Body := none

/-- Holds `types.DocumentCountResult`. -/
structure DocumentCountResult where
  Err : Option GoError := none
  StatusCode : Int := 0
  Message : String := ""
  Count : Int := 0

/-- Holds `types.DocumentResult`. -/
structure DocumentResult where
  Err : Option GoError := none
  StatusCode : Int := 0
  Message : String := ""
  Document : Option Body := none

/-- Holds `types.DocumentRetrievalParams`; `Fields` lists the entries of the
map (`none` is the nil map). -/
structure DocumentRetrievalParams where
  Fields : Option (List (String × String))
  SortFields : List String
  SortOrder : String
  LimitOffset : Int
  LimitCount : Int

/-- Holds `types.ModifyingQueryParams`; the struct has no JSON tags. -/
structure ModifyingQueryParams where
  WriteCollection : String
  ReadCollections : Option (List String)
  Query : String
  BindVars : Option (List (String × GoAny))

/-- Holds `types.IndexParams`. -/
structure IndexParams where
  Collection : String
  Type_ : String
  Fields : Option (List String)
  Sparse : Bool
  Unique : Bool

/-- Holds `types.Index`. -/
structure Index where
  ID : String
  Type_ : String
  Fields : Option (GoSlice String)
  SelectivityEstimate : Int
  Unique : Bool
  Sparse : Bool

/-- Holds `types.IndexListResult`; `Indexes` is a slice of pointers. -/
structure IndexListResult where
  Err : Option GoError := none
  StatusCode : Int := 0
  Message : String := ""
  Indexes : Option (List (Option Index)) := none

/-- Holds `types.IndexOpResult`. -/
structure IndexOpResult where
  Err : Option GoError := none
  StatusCode : Int := 0
  Message : String := ""

/-! ## Encoding request bodies -/

/-- Encoding a `[]string`; a nil slice is written `null`. -/
def encodeStrings : Option (List String) → JSON
  | none => .null
  | some xs => .arr (xs.map JSON.str)

/-- Encoding a `types.Relation`. -/
def encodeRelationValue (r : Relation) : JSON :=
  .obj [("name", .str r.Name), ("from", encodeStrings r.From), ("to", encodeStrings r.To)]

/-- Encoding a `*types.Relation`; a nil pointer is written `null`. -/
def encodeRelation : Option Relation → Except GoError JSON
  | none => .ok .null
  | some r => .ok (encodeRelationValue r)

/-- Encoding a `*types.Graph`. -/
def encodeGraph : Option Graph → Except GoError JSON
  | none => .ok .null
  | some g =>
    .ok (.obj [("name", .str g.Name),
               ("relations",
                 match g.Relations with
                 | none => .null
                 | some rs =>
                   .arr (rs.map (fun r =>
                     match r with
                     | none => JSON.null
                     | some r => encodeRelationValue r))),
               ("orphans", encodeStrings g.Orphans)])

/-- Encoding a `*types.IndexParams`. -/
def encodeIndexParams : Option IndexParams → Except GoError JSON
  | none => .ok .null
  | some p =>
    .ok (.obj [("collection", .str p.Collection), ("type", .str p.Type_),
               ("fields", encodeStrings p.Fields), ("sparse", .bool p.Sparse),
               ("unique", .bool p.Unique)])

/-- Encoding a `*types.ModifyingQueryParams`: without tags the keys are the
field names. -/
def encodeModifyingQueryParams : Option ModifyingQueryParams → Except GoError JSON
  | none => .ok .null
  | some p =>
    match encodeAnyMap p.BindVars with
    | .ok bv =>
      .ok (.obj [("WriteCollection", .str p.WriteCollection),
                 ("ReadCollections", encodeStrings p.ReadCollections),
                 ("Query", .str p.Query), ("BindVars", bv)])
    | .error e => .error e

/-- Encoding the anonymous struct `{Name string}` of `CreateColl`. -/
def encodeCollName (name : String) : Except GoError JSON :=
  .ok (.obj [("name", .str name)])

/-! ## Collections (`collections.go`) -/

/-- The constant `createCollEndpoint`. -/
def createCollEndpoint : String := "/collection"

/-- The anonymous struct `intermediary` of `CreateColl`. -/
structure CreateCollBody where
  ID : String
  Message : String

/-- One member of the response stored into the `intermediary` of `CreateColl`. -/
def CreateCollBody.store (st : CreateCollBody) (key : String) (v : JSON) :
    Except DecodeError CreateCollBody :=
  match findField ["_id", "message"] key with
  | some "_id" =>
    match storeString st.ID v with
    | .ok s => .ok { st with ID := s }
    | .error e => .error e
  | some "message" =>
    match storeString st.Message v with
    | .ok s => .ok { st with Message := s }
    | .error e => .error e
  | _ => .ok st

/-- Models `CreateColl` of `collections.go`. -/
def CreateColl {F : Type} (rt : GoRuntime F) (c : clientImpl) (name : String) :
    Except GoPanic CreationResult :=
  match encodeCollName name with
  | .error err => .ok { Err := some err }
  | .ok b =>
    match prepareRequest rt c "POST" createCollEndpoint none (some (.value b)) with
    | .error p => .error p
    | .ok req =>
      match c.httpClient.Do req with
      | .error err => .ok { Err := some err }
      | .ok resp =>
        if resp.StatusCode = StatusCreated ∨ resp.StatusCode = StatusOK then
          match decodeStruct CreateCollBody.store { ID := "", Message := "" } resp.Body with
          | .error err => .ok { StatusCode := resp.StatusCode, Err := some (.decode err) }
          | .ok intermediary =>
            .ok { StatusCode := resp.StatusCode
                  CreatedIDs := some [intermediary.ID]
                  Message := intermediary.Message }
        else
          let (msg, err) := prepareExceptionResponse resp
          .ok { StatusCode := resp.StatusCode, Message := msg, Err := err }

/-! ## Graphs (`graphs.go`) -/

/-- The constant `graphEndpoint`. -/
def graphEndpoint : String := "/graph"

/-- The constant `relationEndpoint`. -/
def relationEndpoint : String := "/relation"

/-- The anonymous struct `{Message string}` decoded by `CreateGraph`,
`CreateRelation` and `RemoveIndex`. -/
structure MessageBody where
  Message : String

/-- One member of the response stored into a `{Message string}` struct. -/
def MessageBody.store (st : MessageBody) (key : String) (v : JSON) :
    Except DecodeError MessageBody :=
  match findField ["message"] key with
  | some "message" =>
    match storeString st.Message v with
    | .ok s => .ok { st with Message := s }
    | .error e => .error e
  | _ => .ok st

/-- Models `CreateGraph` of `graphs.go`. -/
def CreateGraph {F : Type} (rt : GoRuntime F) (c : clientImpl) (graphDef : Option Graph) :
    Except GoPanic CreationResult :=
  match encodeGraph graphDef with
  | .error err => .ok { Err := some err }
  | .ok b =>
    match prepareRequest rt c "POST" graphEndpoint none (some (.value b)) with
    | .error p => .error p
    | .ok req =>
      match c.httpClient.Do req with
      | .error err => .ok { Err := some err }
      | .ok resp =>
        if resp.StatusCode = StatusCreated ∨ resp.StatusCode = StatusOK then
          match decodeStruct MessageBody.store { Message := "" } resp.Body with
          | .error err => .ok { StatusCode := resp.StatusCode, Err := some (.decode err) }
          | .ok intermediary =>
            .ok { StatusCode := resp.StatusCode, Message := intermediary.Message }
        else
          let (msg, err) := prepareExceptionResponse resp
          .ok { StatusCode := resp.StatusCode, Message := msg, Err := err }

/-- Models `CreateRelation` of `graphs.go`. -/
def CreateRelation {F : Type} (rt : GoRuntime F) (c : clientImpl) (graph : String)
    (relation : Option Relation) : Except GoPanic CreationResult :=
  match encodeRelation relation with
  | .error err => .ok { Err := some err }
  | .ok b =>
    match prepareRequest rt c "POST" (graphEndpoint ++ "/" ++ graph ++ relationEndpoint) none
        (some (.value b)) with
    | .error p => .error p
    | .ok req =>
      match c.httpClient.Do req with
      | .error err => .ok { Err := some err }
      | .ok resp =>
        if resp.StatusCode = StatusCreated ∨ resp.StatusCode = StatusOK then
          match decodeStruct MessageBody.store { Message := "" } resp.Body with
          | .error err => .ok { StatusCode := resp.StatusCode, Err := some (.decode err) }
          | .ok intermediary =>
            .ok { StatusCode := resp.StatusCode, Message := intermediary.Message }
        else
          let (msg, err) := prepareExceptionResponse resp
          .ok { StatusCode := resp.StatusCode, Message := msg, Err := err }

/-! ## Indexes (`index.go`) -/

/-- The constant `indexEndpoint`. -/
def indexEndpoint : String := "/index"

/-- Storing a JSON value into a `[]string` field holding `cur`: a `null`
element keeps the string the backing array holds at its index. -/
def storeStrings (cur : Option (GoSlice String)) :
    JSON → Except DecodeError (Option (GoSlice String)) :=
  storeSlice storeString "" cur

/-- One member of an index description stored into a `types.Index`. -/
def Index.store (st : Index) (key : String) (v : JSON) : Except DecodeError Index :=
  match findField ["id", "type", "fields", "selectivityEstimate", "unique", "sparse"] key with
  | some "id" =>
    match storeString st.ID v with
    | .ok s => .ok { st with ID := s }
    | .error e => .error e
  | some "type" =>
    match storeString st.Type_ v with
    | .ok s => .ok { st with Type_ := s }
    | .error e => .error e
  | some "fields" =>
    match storeStrings st.Fields v with
    | .ok s => .ok { st with Fields := s }
    | .error e => .error e
  | some "selectivityEstimate" =>
    match storeInt st.SelectivityEstimate v with
    | .ok n => .ok { st with SelectivityEstimate := n }
    | .error e => .error e
  | some "unique" =>
    match storeBool st.Unique v with
    | .ok b => .ok { st with Unique := b }
    | .error e => .error e
  | some "sparse" =>
    match storeBool st.Sparse v with
    | .ok b => .ok { st with Sparse := b }
    | .error e => .error e
  | _ => .ok st

/-- Storing a JSON value into a nil `*types.Index`: `null` keeps the pointer
nil, an object allocates a zero `Index` and decodes into it. -/
def storeIndexPtr : JSON → Except DecodeError (Option Index)
  | .null => .ok none
  | .obj kvs =>
    match kvs.foldlM (fun st kv => Index.store st kv.1 kv.2)
        { ID := "", Type_ := "", Fields := none, SelectivityEstimate := 0,
          Unique := false, Sparse := false } with
    | .ok ix => .ok (some ix)
    | .error e => .error e
  | _ => .error .unmarshalType

/-- Decoding the elements of a JSON array into a `[]*types.Index`. -/
def decodeIndexElems : List JSON → Except DecodeError (List (Option Index))
  | [] => .ok []
  | x :: xs =>
    match storeIndexPtr x with
    | .ok ix =>
      match decodeIndexElems xs with
      | .ok rest => .ok (ix :: rest)
      | .error e => .error e
    | .error e => .error e

/-- Models `Decode(&indexes)` for the nil slice `indexes` of `GetIndexes`. -/
def decodeIndexes : Body → Except DecodeError (Option (List (Option Index)))
  | .empty => .error .eof
  | .malformed => .error .badSyntax
  | .value .null => .ok none
  | .value (.arr xs) =>
    match decodeIndexElems xs with
    | .ok ixs => .ok (some ixs)
    | .error e => .error e
  | .value _ => .error .unmarshalType

/-- Models `GetIndexes` of `index.go`. -/
def GetIndexes {F : Type} (rt : GoRuntime F) (c : clientImpl) (coll : String) :
    Except GoPanic IndexListResult :=
  match prepareRequest rt c "GET" (indexEndpoint ++ "/" ++ coll) none none with
  | .error p => .error p
  | .ok req =>
    match c.httpClient.Do req with
    | .error err => .ok { Err := some err }
    | .ok resp =>
      if resp.StatusCode = StatusOK then
        match decodeIndexes resp.Body with
        | .error err => .ok { Err := some (.decode err) }
        | .ok indexes => .ok { StatusCode := resp.StatusCode, Indexes := indexes }
      else
        let (msg, err) := prepareExceptionResponse resp
        .ok { StatusCode := resp.StatusCode, Message := msg, Err := err }

/-- Models `RemoveIndex` of `index.go`. -/
def RemoveIndex {F : Type} (rt : GoRuntime F) (c : clientImpl) (handle : String) :
    Except GoPanic IndexOpResult :=
  match prepareRequest rt c "DELETE" (indexEndpoint ++ "/" ++ handle) none none with
  | .error p => .error p
  | .ok req =>
    match c.httpClient.Do req with
    | .error err => .ok { Err := some err }
    | .ok resp =>
      if resp.StatusCode = StatusOK then
        match decodeStruct MessageBody.store { Message := "" } resp.Body with
        | .error err => .ok { Err := some (.decode err) }
        | .ok intermediary =>
          .ok { StatusCode := resp.StatusCode, Message := intermediary.Message }
      else
        let (msg, err) := prepareExceptionResponse resp
        .ok { StatusCode := resp.StatusCode, Message := msg, Err := err }

/-- Models `CreateIndex` of `index.go`. -/
def CreateIndex {F : Type} (rt : GoRuntime F) (c : clientImpl) (params : Option IndexParams) :
    Except GoPanic IndexOpResult :=
  match encodeIndexParams params with
  | .error err => .ok { Err := some err }
  | .ok b =>
    match prepareRequest rt c "POST" indexEndpoint none (some (.value b)) with
    | .error p => .error p
    | .ok req =>
      match c.httpClient.Do req with
      | .error err => .ok { Err := some err }
      | .ok resp =>
        if resp.StatusCode ≠ StatusCreated then
          let (msg, err) := prepareExceptionResponse resp
          .ok { StatusCode := resp.StatusCode, Message := msg, Err := err }
        else .ok { StatusCode := resp.StatusCode }

/-! ## Documents (`documents.go`) -/

/-- The anonymous struct `intermediary` of `CreateDoc` and `UpdateDoc`. -/
structure DocEventBody (F : Type) where
  Document : GoMap F
  Event : GoMap F

/-- One member of the response stored into the `intermediary` of `CreateDoc`
and `UpdateDoc`. -/
def DocEventBody.store {F : Type} (rt : GoRuntime F) (st : DocEventBody F) (key : String)
    (v : JSON) : Except DecodeError (DocEventBody F) :=
  match findField ["doc", "event"] key with
  | some "doc" =>
    match storeMap rt st.Document v with
    | .ok m => .ok { st with Document := m }
    | .error e => .error e
  | some "event" =>
    match storeMap rt st.Event v with
    | .ok m => .ok { st with Event := m }
    | .error e => .error e
  | _ => .ok st

/-- Models `CreateDoc` of `documents.go`. -/
def CreateDoc {F : Type} (rt : GoRuntime F) (c : clientImpl) (coll : String) (doc : GoAny) :
    Except GoPanic DocumentOpResult :=
  match doc with
  | .error err => .ok { Err := some err }
  | .ok b =>
    match prepareRequest rt c "POST" ("/" ++ coll) none (some (.value b)) with
    | .error p => .error p
    | .ok req =>
      match c.httpClient.Do req with
      | .error err => .ok { Err := some err }
      | .ok resp =>
        if resp.StatusCode = StatusCreated ∨ resp.StatusCode = StatusOK then
          match decodeStruct (DocEventBody.store rt) { Document := none, Event := none }
              resp.Body with
          | .error err => .ok { StatusCode := resp.StatusCode, Err := some (.decode err) }
          | .ok intermediary =>
            match encodeToBuffer (encodeMap rt intermediary.Document) with
            | .error err => .ok { Err := some err }
            | .ok bd =>
              match encodeToBuffer (encodeMap rt intermediary.Event) with
              | .error err => .ok { Err := some err }
              | .ok be =>
                .ok { StatusCode := resp.StatusCode, Document := some bd, Event := some be }
        else
          let (msg, err) := prepareExceptionResponse resp
          .ok { StatusCode := resp.StatusCode, Message := msg, Err := err }

/-- Models `strconv.Itoa`. -/
def Itoa (i : Int) : String :=
  if i < 0 then "-" ++ Nat.repr i.natAbs else Nat.repr i.natAbs

/-- The loop of `GetDocs` and `GetDocCount` adding one escaped value per field. -/
def addFields (fields : Option (List (String × String))) (qParams : Values) : Values :=
  (fields.getD []).foldl (fun q kv => Values.Add kv.1 (QueryEscape kv.2) q) qParams

/-- The loop of `GetDocs` over `params.SortFields`: the field at index `i` is
appended to `sortValues`, followed by a comma when `i < sortFieldCount - 1`. -/
def sortLoop (sortFieldCount : Nat) : Nat → List String → String → String
  | _, [], sortValues => sortValues
  | i, sortField :: rest, sortValues =>
    sortLoop sortFieldCount (i + 1) rest
      (if i < sortFieldCount - 1 then sortValues ++ sortField ++ "," else sortValues ++ sortField)

/-- The value `GetDocs` builds for the `sort` parameter. -/
def sortValues (params : DocumentRetrievalParams) : String :=
  let joined := sortLoop params.SortFields.length 0 params.SortFields ""
  if params.SortOrder ≠ "" then joined ++ "::" ++ params.SortOrder else joined

/-- The `url.Values` built by `GetDocs`. -/
def getDocsParams (params : DocumentRetrievalParams) : Values :=
  let q1 := addFields params.Fields []
  let q2 := if params.SortFields.length > 0 then Values.Add "sort" (sortValues params) q1 else q1
  if params.LimitCount > 0 then
    Values.Add "limit" (Itoa params.LimitOffset ++ "," ++ Itoa params.LimitCount) q2
  else q2

/-- Models `GetDocs` of `documents.go`; a nil `params` is dereferenced. -/
def GetDocs {F : Type} (rt : GoRuntime F) (c : clientImpl) (coll : String)
    (params : Option DocumentRetrievalParams) : Except GoPanic DocumentsResult :=
  match params with
  | none => .error .nilDereference
  | some params =>
    match prepareRequest rt c "GET" ("/" ++ coll) (some (getDocsParams params)) none with
    | .error p => .error p
    | .ok req =>
      match c.httpClient.Do req with
      | .error err => .ok { Err := some err }
      | .ok resp =>
        if resp.StatusCode = StatusOK then
          match decodeMapSlice rt resp.Body with
          | .error err => .ok { StatusCode := resp.StatusCode, Err := some (.decode err) }
          | .ok intermediary =>
            match encodeToBuffer (encodeMapSlice rt intermediary) with
            | .error err => .ok { Err := some err }
            | .ok bd => .ok { StatusCode := resp.StatusCode, Documents := some bd }
        else
          let (msg, err) := prepareExceptionResponse resp
          .ok { StatusCode := resp.StatusCode, Message := msg, Err := err }

/-- Models `GetDocCount` of `documents.go`. -/
def GetDocCount {F : Type} (rt : GoRuntime F) (c : clientImpl) (coll : String)
    (params : Option DocumentRetrievalParams) : Except GoPanic DocumentCountResult :=
  match params with
  | none => .error .nilDereference
  | some params =>
    match prepareRequest rt c "GET" ("/" ++ coll ++ "/count")
        (some (addFields params.Fields [])) none with
    | .error p => .error p
    | .ok req =>
      match c.httpClient.Do req with
      | .error err => .ok { Count := -1, Err := some err }
      | .ok resp =>
        match decodeMap rt resp.Body with
        | .error err => .ok { Count := -1, Err := some (.decode err) }
        | .ok respItems =>
          if resp.StatusCode = StatusOK then
            match mapIndex respItems "count" with
            | some (.float64 count) => .ok { Count := rt.floatToInt count }
            | _ => .ok { Count := -1, Err := some .ErrGeneral }
          else
            match prepareExceptionResponseFromMap resp.StatusCode respItems with
            | .error p => .error p
            | .ok (message, err) =>
              .ok { Count := -1, Err := err, Message := message, StatusCode := resp.StatusCode }

/-- Models `RemoveDoc` of `documents.go`: the type assertions on `doc` and
`event` panic unless the entries hold maps. -/
def RemoveDoc {F : Type} (rt : GoRuntime F) (c : clientImpl) (coll key : String) :
    Except GoPanic DocumentOpResult :=
  match prepareRequest rt c "DELETE" ("/" ++ coll ++ "/" ++ key) none none with
  | .error p => .error p
  | .ok req =>
    match c.httpClient.Do req with
    | .error err => .ok { Err := some err }
    | .ok resp =>
      match decodeMap rt resp.Body with
      | .error err => .ok { Err := some (.decode err) }
      | .ok respData =>
        if resp.StatusCode = StatusOK then
          match mapIndex respData "doc" with
          | some (.map intermediary) =>
            match encodeToBuffer (encodeMap rt (some intermediary)) with
            | .error err => .ok { Err := some err }
            | .ok bd =>
              match mapIndex respData "event" with
              | some (.map evtIntermediary) =>
                match encodeToBuffer (encodeMap rt (some evtIntermediary)) with
                | .error err => .ok { Err := some err }
                | .ok be =>
                  .ok { Document := some bd, Event := some be, StatusCode := resp.StatusCode }
              | _ => .error .interfaceConversion
          | _ => .error .interfaceConversion
        else
          match prepareExceptionResponseFromMap resp.StatusCode respData with
          | .error p => .error p
          | .ok (message, err) =>
            .ok { Err := err, Message := message, StatusCode := resp.StatusCode }

/-- Models `GetDoc` of `documents.go`: on status 200 the body is handed over
undecoded. -/
def GetDoc {F : Type} (rt : GoRuntime F) (c : clientImpl) (coll key : String) :
    Except GoPanic DocumentResult :=
  match prepareRequest rt c "GET" ("/" ++ coll ++ "/" ++ key) none none with
  | .error p => .error p
  | .ok req =>
    match c.httpClient.Do req with
    | .error err => .ok { Err := some err }
    | .ok resp =>
      if resp.StatusCode = StatusOK then
        .ok { Document := some resp.Body, StatusCode := resp.StatusCode }
      else
        let (msg, err) := prepareExceptionResponse resp
        .ok { Err := err, Message := msg, StatusCode := resp.StatusCode }

/-- Models `UpdateDoc` of `documents.go`. -/
def UpdateDoc {F : Type} (rt : GoRuntime F) (c : clientImpl) (coll key : String) (doc : GoAny) :
    Except GoPanic DocumentOpResult :=
  match doc with
  | .error err => .ok { Err := some err }
  | .ok b =>
    match prepareRequest rt c "PUT" ("/" ++ coll ++ "/" ++ key) none (some (.value b)) with
    | .error p => .error p
    | .ok req =>
      match c.httpClient.Do req with
      | .error err => .ok { Err := some err }
      | .ok resp =>
        if resp.StatusCode = StatusOK then
          match decodeStruct (DocEventBody.store rt) { Document := none, Event := none }
              resp.Body with
          | .error err => .ok { StatusCode := resp.StatusCode, Err := some (.decode err) }
          | .ok intermediary =>
            match encodeToBuffer (encodeMap rt intermediary.Document) with
            | .error err => .ok { Err := some err }
            | .ok bd =>
              match encodeToBuffer (encodeMap rt intermediary.Event) with
              | .error err => .ok { Err := some err }
              | .ok be =>
                .ok { StatusCode := resp.StatusCode, Document := some bd, Event := some be }
        else
          let (msg, err) := prepareExceptionResponse resp
          .ok { Err := err, Message := msg, StatusCode := resp.StatusCode }

/-! ## Modifying queries (`queries.go`) -/

/-- The anonymous struct `intermediary` of the modifying queries. -/
structure ModifyingQueryBody (F : Type) where
  Events : Option (GoSlice (GoMap F))
  Documents : Option (GoSlice (GoMap F))

/-- One member of the response stored into the `intermediary` of a modifying
query. -/
def ModifyingQueryBody.store {F : Type} (rt : GoRuntime F) (st : ModifyingQueryBody F)
    (key : String) (v : JSON) : Except DecodeError (ModifyingQueryBody F) :=
  match findField ["events", "docs"] key with
  | some "events" =>
    match storeMapSlice rt st.Events v with
    | .ok r => .ok { st with Events := r }
    | .error e => .error e
  | some "docs" =>
    match storeMapSlice rt st.Documents v with
    | .ok r => .ok { st with Documents := r }
    | .error e => .error e
  | _ => .ok st

/-- Models `InsertQuery` of `queries.go`. -/
def InsertQuery {F : Type} (rt : GoRuntime F) (c : clientImpl)
    (params : Option ModifyingQueryParams) : Except GoPanic DocumentsOpResult :=
  match encodeModifyingQueryParams params with
  | .error err => .ok { Err := some err }
  | .ok b =>
    match prepareRequest rt c "POST" "/insert" none (some (.value b)) with
    | .error p => .error p
    | .ok req =>
      match c.httpClient.Do req with
      | .error err => .ok { Err := some err }
      | .ok resp =>
        if resp.StatusCode = StatusCreated ∨ resp.StatusCode = StatusOK then
          match decodeStruct (ModifyingQueryBody.store rt) { Events := none, Documents := none }
              resp.Body with
          | .error err => .ok { Err := some (.decode err) }
          | .ok intermediary =>
            match encodeToBuffer (encodeMapSlice rt intermediary.Documents) with
            | .error err => .ok { Err := some err }
            | .ok bd =>
              match encodeToBuffer (encodeMapSlice rt intermediary.Events) with
              | .error err => .ok { Err := some err }
              | .ok be =>
                .ok { StatusCode := resp.StatusCode, Documents := some bd, Events := some be }
        else
          let (msg, err) := prepareExceptionResponse resp
          .ok { Err := err, Message := msg, StatusCode := resp.StatusCode }

/-- Models `UpdateQuery` of `queries.go`. -/
def UpdateQuery {F : Type} (rt : GoRuntime F) (c : clientImpl)
    (params : Option ModifyingQueryParams) : Except GoPanic DocumentsOpResult :=
  match encodeModifyingQueryParams params with
  | .error err => .ok { Err := some err }
  | .ok b =>
    match prepareRequest rt c "POST" "/update" none (some (.value b)) with
    | .error p => .error p
    | .ok req =>
      match c.httpClient.Do req with
      | .error err => .ok { Err := some err }
      | .ok resp =>
        if resp.StatusCode = StatusCreated ∨ resp.StatusCode = StatusOK then
          match decodeStruct (ModifyingQueryBody.store rt) { Events := none, Documents := none }
              resp.Body with
          | .error err => .ok { Err := some (.decode err) }
          | .ok intermediary =>
            match encodeToBuffer (encodeMapSlice rt intermediary.Documents) with
            | .error err => .ok { Err := some err }
            | .ok bd =>
              match encodeToBuffer (encodeMapSlice rt intermediary.Events) with
              | .error err => .ok { Err := some err }
              | .ok be =>
                .ok { StatusCode := resp.StatusCode, Documents := some bd, Events := some be }
        else
          let (msg, err) := prepareExceptionResponse resp
          .ok { Err := err, Message := msg, StatusCode := resp.StatusCode }

/-- Models `RemoveQuery` of `queries.go`. -/
def RemoveQuery {F : Type} (rt : GoRuntime F) (c : clientImpl)
    (params : Option ModifyingQueryParams) : Except GoPanic DocumentsOpResult :=
  match encodeModifyingQueryParams params with
  | .error err => .ok { Err := some err }
  | .ok b =>
    match prepareRequest rt c "POST" "/remove" none (some (.value b)) with
    | .error p => .error p
    | .ok req =>
      match c.httpClient.Do req with
      | .error err => .ok { Err := some err }
      | .ok resp =>
        if resp.StatusCode = StatusCreated ∨ resp.StatusCode = StatusOK then
          match decodeStruct (ModifyingQueryBody.store rt) { Events := none, Documents := none }
              resp.Body with
          | .error err => .ok { Err := some (.decode err) }
          | .ok intermediary =>
            match encodeToBuffer (encodeMapSlice rt intermediary.Documents) with
            | .error err => .ok { Err := some err }
            | .ok bd =>
              match encodeToBuffer (encodeMapSlice rt intermediary.Events) with
              | .error err => .ok { Err := some err }
              | .ok be =>
                .ok { StatusCode := resp.StatusCode, Documents := some bd, Events := some be }
        else
          let (msg, err) := prepareExceptionResponse resp
          .ok { Err := err, Message := msg, StatusCode := resp.StatusCode }

/-- The transport answered `resp` to the request an operation prepared. -/
def dispatched (c : clientImpl) (prepared : Except GoPanic Request) (resp : Response) : Prop :=
  ∃ req, prepared = .ok req ∧ c.httpClient.Do req = .ok resp

/-- The transport returned the error `err` for the request an operation
prepared. -/
def refused (c : clientImpl) (prepared : Except GoPanic Request) (err : GoError) : Prop :=
  ∃ req, prepared = .ok req ∧ c.httpClient.Do req = .error err

/-! ## Reading `Documents` back, and canonical JSON -/

/-- Whether a list of keys is strictly ascending in the order of `keyLess`. -/
def keysAscending : List String → Bool
  | [] => true
  | k :: ks => ks.all (fun k2 => keyLess k k2) && keysAscending ks

mutual
/-- JSON in the form the encoder writes: at every depth the keys of an object
are strictly ascending and every number is the literal the float formatter
writes for its `float64`. -/
def canonical {F : Type} [DecidableEq F] (rt : GoRuntime F) : JSON → Bool
  | .null => true
  | .bool _ => true
  | .num n =>
    match rt.parseFloat n with
    | some f => decide (rt.formatFloat f = n)
    | none => false
  | .str _ => true
  | .arr xs => canonicalElems rt xs
  | .obj kvs => keysAscending (kvs.map Prod.fst) && canonicalMembers rt kvs
/-- All elements of an array are canonical. -/
def canonicalElems {F : Type} [DecidableEq F] (rt : GoRuntime F) : List JSON → Bool
  | [] => true
  | x :: xs => canonical rt x && canonicalElems rt xs
/-- All member values of an object are canonical. -/
def canonicalMembers {F : Type} [DecidableEq F] (rt : GoRuntime F) : List (String × JSON) → Bool
  | [] => true
  | (_, x) :: rest => canonical rt x && canonicalMembers rt rest
end

mutual
/-- The representation invariant of decoded values: at every depth the
entries of a map are in strictly ascending key order. -/
def GoValue.WF {F : Type} : GoValue F → Prop
  | .nil => True
  | .bool _ => True
  | .float64 _ => True
  | .string _ => True
  | .slice xs => GoValue.WFList xs
  | .map kvs => keysAscending (kvs.map Prod.fst) = true ∧ GoValue.WFEntries kvs
/-- The invariant on the elements of a slice. -/
def GoValue.WFList {F : Type} : List (GoValue F) → Prop
  | [] => True
  | x :: xs => GoValue.WF x ∧ GoValue.WFList xs
/-- The invariant on the values of the entries of a map. -/
def GoValue.WFEntries {F : Type} : List (String × GoValue F) → Prop
  | [] => True
  | (_, x) :: rest => GoValue.WF x ∧ GoValue.WFEntries rest
end

/-- The invariant on a `map[string]interface{}`. -/
def GoMap.WF {F : Type} : GoMap F → Prop
  | none => True
  | some kvs => keysAscending (kvs.map Prod.fst) = true ∧ GoValue.WFEntries kvs

/-- A response whose record has its keys in descending order. -/
def unsortedPage : Response :=
  ⟨200, .value (.obj [("results", .arr [.obj [("name", .str "n1"), ("_key", .str "1")]]),
                      ("hasMore", .bool false)])⟩

/-! ## Sessions (`client.go`) -/

/-- The constant `mountEndpoint`. -/
def mountEndpoint : String := "/microfoxx"

/-- The constant `loginEndpoint`. -/
def loginEndpoint : String := "/login"

/-- Encoding the anonymous struct `{Username, Password}` of `newSession`. -/
def encodeCredentials (p : ConnectionParams) : Except GoError JSON :=
  .ok (.obj [("username", .str p.Username), ("password", .str p.Password)])

/-- One member of the login response stored into a `types.SessionInfo`. -/
def SessionInfo.store (st : SessionInfo) (key : String) (v : JSON) :
    Except DecodeError SessionInfo :=
  match findField ["sid", "uid"] key with
  | some "sid" =>
    match storeString st.SID v with
    | .ok s => .ok { st with SID := s }
    | .error e => .error e
  | some "uid" =>
    match storeString st.UID v with
    | .ok s => .ok { st with UID := s }
    | .error e => .error e
  | _ => .ok st

/-- What a struct holds after a `Decode` that reported an error: a member whose
value does not fit its field is skipped, the others are stored. -/
def decodeStructLenient {σ : Type} (store : σ → String → JSON → Except DecodeError σ) (zero : σ) :
    Body → σ
  | .value (.obj kvs) =>
    kvs.foldl (fun st kv =>
      match store st kv.1 kv.2 with
      | .ok st2 => st2
      | .error _ => st) zero
  | _ => zero

/-- Models `newSession`: the pair is Go's `(*types.SessionInfo, error)`.  The
status of the login response is not read. -/
def newSession (c : clientImpl) : Option SessionInfo × Option GoError :=
  match encodeCredentials c.connectionParams with
  | .error err => (none, some err)
  | .ok b =>
    match c.httpClient.Post (c.endpoint ++ loginEndpoint) "application/json; charset=utf-8"
        (.value b) with
    | .error err => (none, some err)
    | .ok resp =>
      match decodeStruct SessionInfo.store { SID := "", UID := "" } resp.Body with
      | .ok sessionInfo => (some sessionInfo, none)
      | .error err =>
        (some (decodeStructLenient SessionInfo.store { SID := "", UID := "" } resp.Body),
         some (.decode err))

/-- Models `NewClient`.  `stdClient` stands for the `&http.Client{Timeout: 10s}`
used when no transport is passed; a nil `cParams` is dereferenced.  The client
is returned together with the error of the login. -/
def NewClient (stdClient : WebClient) (cParams : Option ConnectionParams)
    (httpClient : List WebClient) : Except GoPanic (clientImpl × Option GoError) :=
  match cParams with
  | none => .error .nilDereference
  | some cParams =>
    let transport :=
      match httpClient with
      | first :: _ => first
      | [] => stdClient
    let p1 := if cParams.Scheme = "" then { cParams with Scheme := "http" } else cParams
    let p2 := if p1.Host = "" then { p1 with Host := "localhost" } else p1
    let p3 := if p2.Port = "" then { p2 with Port := "80" } else p2
    let cli : clientImpl :=
      { httpClient := transport
        connectionParams := p3
        endpoint := p3.Scheme ++ "://" ++ p3.Host ++ ":" ++ p3.Port ++ "/_db/" ++ p3.Database
          ++ mountEndpoint
        sessionInfo := none }
    match newSession cli with
    | (sessionInfo, none) => .ok ({ cli with sessionInfo := sessionInfo }, none)
    | (_, some err) => .ok (cli, some err)

/-- Models `Refresh`: the client after the call and the returned error. -/
def Refresh (c : clientImpl) : clientImpl × Option GoError :=
  match newSession c with
  | (sessionInfo, none) => ({ c with sessionInfo := sessionInfo }, none)
  | (_, some err) => (c, some err)

/-! ## The query a request carries -/

/-- The part of a list of characters before the first `c`. -/
def beforeChar (c : Char) : List Char → List Char
  | [] => []
  | x :: xs => if x = c then [] else x :: beforeChar c xs

/-- The part of a list of characters after the first `c`; empty when there is
none. -/
def afterChar (c : Char) : List Char → List Char
  | [] => []
  | x :: xs => if x = c then xs else afterChar c xs

/-- The `RawQuery` that `url.Parse` (called by `http.NewRequest`) extracts from
a URL string: the text after the first `?`, the fragment cut off. -/
def urlQuery (url : String) : String :=
  String.mk (afterChar '?' (beforeChar '#' url.data))

/-- The value of `req.URL.RawQuery` when the request is dispatched. -/
def Request.query (r : Request) : String :=
  match r.RawQuery with
  | some q => q
  | none => urlQuery r.URL

/-! ## Transports with state -/

/-- A `WebClient` whose answers depend on what it was asked before (for
instance a server holding a table of open cursors): `Do` and `Post` answer in
a state and give the next state. -/
structure StatefulTransport (σ : Type) where
  Do : σ → Request → Except GoError Response × σ
  Post : σ → String → String → Body → Except GoError Response × σ

/-- The client `c` talking to the transport `t` in state `s`. -/
def clientAt {σ : Type} (c : clientImpl) (t : StatefulTransport σ) (s : σ) : clientImpl :=
  { c with httpClient :=
      { Do := fun req => (t.Do s req).1
        Post := fun url contentType body => (t.Post s url contentType body).1 } }

/-! ## The methods as steps of a world

A method of `*clientImpl` runs in a world: the struct behind its receiver and
the state of the transport behind `c.httpClient`.  A step gives what the method
returns together with the world it leaves; every call of `c.httpClient.Do` or
`c.httpClient.Post` in the source moves the transport on, and every assignment
to a field of `c` changes the struct. -/

/-- The struct behind the receiver and the state of its transport.  The steps
use the transport given beside the world and do not read `client.httpClient`. -/
structure World (σ : Type) where
  client : clientImpl
  server : σ

/-- Models `CursorQuery` of `cursors.go` as a step of the world. -/
def CursorQueryStep {F σ : Type} (rt : GoRuntime F) (t : StatefulTransport σ) (w : World σ)
    (params : Option CursorQueryParams) : Except GoPanic (CursorQueryResult × World σ) :=
  match encodeCursorQueryParams params with
  | .error err => .ok ({ Err := some err }, w)
  | .ok b =>
    match prepareRequest rt w.client "POST" cursorEndpoint none (some (.value b)) with
    | .error p => .error p
    | .ok req =>
      match t.Do w.server req with
      | (.error err, s) => .ok ({ Err := some err }, ⟨w.client, s⟩)
      | (.ok resp, s) =>
        if resp.StatusCode = StatusOK ∨ resp.StatusCode = StatusCreated then
          match decodeCursorQueryBody rt resp.Body with
          | .error err => .ok ({ Err := some (.decode err) }, ⟨w.client, s⟩)
          | .ok intermediary =>
            match encodeToBuffer (encodeMapSlice rt intermediary.Results) with
            | .error err => .ok ({ Err := some err }, ⟨w.client, s⟩)
            | .ok docBytes =>
              .ok ({ StatusCode := resp.StatusCode
                     Cursor := intermediary.Cursor
                     HasMore := intermediary.HasMore
                     Documents := some docBytes }, ⟨w.client, s⟩)
        else
          let (msg, err) := prepareExceptionResponse resp
          .ok ({ StatusCode := resp.StatusCode, Message := msg, Err := err }, ⟨w.client, s⟩)

/-- Models `CursorGetNextBatch` of `cursors.go` as a step of the world. -/
def CursorGetNextBatchStep {F σ : Type} (rt : GoRuntime F) (t : StatefulTransport σ) (w : World σ)
    (cursorID : String) : Except GoPanic (CursorQueryResult × World σ) :=
  match prepareRequest rt w.client "PUT" (cursorEndpoint ++ "/" ++ cursorID) none none with
  | .error p => .error p
  | .ok req =>
    match t.Do w.server req with
    | (.error err, s) => .ok ({ Err := some err }, ⟨w.client, s⟩)
    | (.ok resp, s) =>
      if resp.StatusCode = StatusOK ∨ resp.StatusCode = StatusCreated then
        match decodeNextBatchBody rt resp.Body with
        | .error err => .ok ({ Err := some (.decode err) }, ⟨w.client, s⟩)
        | .ok intermediary =>
          match encodeToBuffer (encodeMapSlice rt intermediary.Results) with
          | .error err => .ok ({ Err := some err }, ⟨w.client, s⟩)
          | .ok docBytes =>
            .ok ({ StatusCode := resp.StatusCode
                   HasMore := intermediary.HasMore
                   Documents := some docBytes }, ⟨w.client, s⟩)
      else
        let (msg, err) := prepareExceptionResponse resp
        .ok ({ StatusCode := resp.StatusCode, Message := msg, Err := err }, ⟨w.client, s⟩)

/-- Models `CreateColl` of `collections.go` as a step of the world. -/
def CreateCollStep {F σ : Type} (rt : GoRuntime F) (t : StatefulTransport σ) (w : World σ)
    (name : String) : Except GoPanic (CreationResult × World σ) :=
  match encodeCollName name with
  | .error err => .ok ({ Err := some err }, w)
  | .ok b =>
    match prepareRequest rt w.client "POST" createCollEndpoint none (some (.value b)) with
    | .error p => .error p
    | .ok req =>
      match t.Do w.server req with
      | (.error err, s) => .ok ({ Err := some err }, ⟨w.client, s⟩)
      | (.ok resp, s) =>
        if resp.StatusCode = StatusCreated ∨ resp.StatusCode = StatusOK then
          match decodeStruct CreateCollBody.store { ID := "", Message := "" } resp.Body with
          | .error err => .ok ({ StatusCode := resp.StatusCode, Err := some (.decode err) }, ⟨w.client, s⟩)
          | .ok intermediary =>
            .ok ({ StatusCode := resp.StatusCode
                   CreatedIDs := some [intermediary.ID]
                   Message := intermediary.Message }, ⟨w.client, s⟩)
        else
          let (msg, err) := prepareExceptionResponse resp
          .ok ({ StatusCode := resp.StatusCode, Message := msg, Err := err }, ⟨w.client, s⟩)

/-- Models `CreateGraph` of `graphs.go` as a step of the world. -/
def CreateGraphStep {F σ : Type} (rt : GoRuntime F) (t : StatefulTransport σ) (w : World σ)
    (graphDef : Option Graph) : Except GoPanic (CreationResult × World σ) :=
  match encodeGraph graphDef with
  | .error err => .ok ({ Err := some err }, w)
  | .ok b =>
    match prepareRequest rt w.client "POST" graphEndpoint none (some (.value b)) with
    | .error p => .error p
    | .ok req =>
      match t.Do w.server req with
      | (.error err, s) => .ok ({ Err := some err }, ⟨w.client, s⟩)
      | (.ok resp, s) =>
        if resp.StatusCode = StatusCreated ∨ resp.StatusCode = StatusOK then
          match decodeStruct MessageBody.store { Message := "" } resp.Body with
          | .error err => .ok ({ StatusCode := resp.StatusCode, Err := some (.decode err) }, ⟨w.client, s⟩)
          | .ok intermediary =>
            .ok ({ StatusCode := resp.StatusCode, Message := intermediary.Message }, ⟨w.client, s⟩)
        else
          let (msg, err) := prepareExceptionResponse resp
          .ok ({ StatusCode := resp.StatusCode, Message := msg, Err := err }, ⟨w.client, s⟩)

/-- Models `CreateRelation` of `graphs.go` as a step of the world. -/
def CreateRelationStep {F σ : Type} (rt : GoRuntime F) (t : StatefulTransport σ) (w : World σ)
    (graph : String) (relation : Option Relation) : Except GoPanic (CreationResult × World σ) :=
  match encodeRelation relation with
  | .error err => .ok ({ Err := some err }, w)
  | .ok b =>
    match prepareRequest rt w.client "POST" (graphEndpoint ++ "/" ++ graph ++ relationEndpoint) none
        (some (.value b)) with
    | .error p => .error p
    | .ok req =>
      match t.Do w.server req with
      | (.error err, s) => .ok ({ Err := some err }, ⟨w.client, s⟩)
      | (.ok resp, s) =>
        if resp.StatusCode = StatusCreated ∨ resp.StatusCode = StatusOK then
          match decodeStruct MessageBody.store { Message := "" } resp.Body with
          | .error err => .ok ({ StatusCode := resp.StatusCode, Err := some (.decode err) }, ⟨w.client, s⟩)
          | .ok intermediary =>
            .ok ({ StatusCode := resp.StatusCode, Message := intermediary.Message }, ⟨w.client, s⟩)
        else
          let (msg, err) := prepareExceptionResponse resp
          .ok ({ StatusCode := resp.StatusCode, Message := msg, Err := err }, ⟨w.client, s⟩)

/-- Models `GetIndexes` of `index.go` as a step of the world. -/
def GetIndexesStep {F σ : Type} (rt : GoRuntime F) (t : StatefulTransport σ) (w : World σ)
    (coll : String) : Except GoPanic (IndexListResult × World σ) :=
  match prepareRequest rt w.client "GET" (indexEndpoint ++ "/" ++ coll) none none with
  | .error p => .error p
  | .ok req =>
    match t.Do w.server req with
    | (.error err, s) => .ok ({ Err := some err }, ⟨w.client, s⟩)
    | (.ok resp, s) =>
      if resp.StatusCode = StatusOK then
        match decodeIndexes resp.Body with
        | .error err => .ok ({ Err := some (.decode err) }, ⟨w.client, s⟩)
        | .ok indexes => .ok ({ StatusCode := resp.StatusCode, Indexes := indexes }, ⟨w.client, s⟩)
      else
        let (msg, err) := prepareExceptionResponse resp
        .ok ({ StatusCode := resp.StatusCode, Message := msg, Err := err }, ⟨w.client, s⟩)

/-- Models `RemoveIndex` of `index.go` as a step of the world. -/
def RemoveIndexStep {F σ : Type} (rt : GoRuntime F) (t : StatefulTransport σ) (w : World σ)
    (handle : String) : Except GoPanic (IndexOpResult × World σ) :=
  match prepareRequest rt w.client "DELETE" (indexEndpoint ++ "/" ++ handle) none none with
  | .error p => .error p
  | .ok req =>
    match t.Do w.server req with
    | (.error err, s) => .ok ({ Err := some err }, ⟨w.client, s⟩)
    | (.ok resp, s) =>
      if resp.StatusCode = StatusOK then
        match decodeStruct MessageBody.store { Message := "" } resp.Body with
        | .error err => .ok ({ Err := some (.decode err) }, ⟨w.client, s⟩)
        | .ok intermediary =>
          .ok ({ StatusCode := resp.StatusCode, Message := intermediary.Message }, ⟨w.client, s⟩)
      else
        let (msg, err) := prepareExceptionResponse resp
        .ok ({ StatusCode := resp.StatusCode, Message := msg, Err := err }, ⟨w.client, s⟩)

/-- Models `CreateIndex` of `index.go` as a step of the world. -/
def CreateIndexStep {F σ : Type} (rt : GoRuntime F) (t : StatefulTransport σ) (w : World σ)
    (params : Option IndexParams) : Except GoPanic (IndexOpResult × World σ) :=
  match encodeIndexParams params with
  | .error err => .ok ({ Err := some err }, w)
  | .ok b =>
    match prepareRequest rt w.client "POST" indexEndpoint none (some (.value b)) with
    | .error p => .error p
    | .ok req =>
      match t.Do w.server req with
      | (.error err, s) => .ok ({ Err := some err }, ⟨w.client, s⟩)
      | (.ok resp, s) =>
        if resp.StatusCode ≠ StatusCreated then
          let (msg, err) := prepareExceptionResponse resp
          .ok ({ StatusCode := resp.StatusCode, Message := msg, Err := err }, ⟨w.client, s⟩)
        else .ok ({ StatusCode := resp.StatusCode }, ⟨w.client, s⟩)

/-- Models `CreateDoc` of `documents.go` as a step of the world. -/
def CreateDocStep {F σ : Type} (rt : GoRuntime F) (t : StatefulTransport σ) (w : World σ)
    (coll : String) (doc : GoAny) : Except GoPanic (DocumentOpResult × World σ) :=
  match doc with
  | .error err => .ok ({ Err := some err }, w)
  | .ok b =>
    match prepareRequest rt w.client "POST" ("/" ++ coll) none (some (.value b)) with
    | .error p => .error p
    | .ok req =>
      match t.Do w.server req with
      | (.error err, s) => .ok ({ Err := some err }, ⟨w.client, s⟩)
      | (.ok resp, s) =>
        if resp.StatusCode = StatusCreated ∨ resp.StatusCode = StatusOK then
          match decodeStruct (DocEventBody.store rt) { Document := none, Event := none }
              resp.Body with
          | .error err => .ok ({ StatusCode := resp.StatusCode, Err := some (.decode err) }, ⟨w.client, s⟩)
          | .ok intermediary =>
            match encodeToBuffer (encodeMap rt intermediary.Document) with
            | .error err => .ok ({ Err := some err }, ⟨w.client, s⟩)
            | .ok bd =>
              match encodeToBuffer (encodeMap rt intermediary.Event) with
              | .error err => .ok ({ Err := some err }, ⟨w.client, s⟩)
              | .ok be =>
                .ok ({ StatusCode := resp.StatusCode, Document := some bd, Event := some be }, ⟨w.client, s⟩)
        else
          let (msg, err) := prepareExceptionResponse resp
          .ok ({ StatusCode := resp.StatusCode, Message := msg, Err := err }, ⟨w.client, s⟩)

/-- Models `GetDocs` of `documents.go` as a step of the world. -/
def GetDocsStep {F σ : Type} (rt : GoRuntime F) (t : StatefulTransport σ) (w : World σ)
    (coll : String) (params : Option DocumentRetrievalParams) : Except GoPanic (DocumentsResult × World σ) :=
  match params with
  | none => .error .nilDereference
  | some params =>
    match prepareRequest rt w.client "GET" ("/" ++ coll) (some (getDocsParams params)) none with
    | .error p => .error p
    | .ok req =>
      match t.Do w.server req with
      | (.error err, s) => .ok ({ Err := some err }, ⟨w.client, s⟩)
      | (.ok resp, s) =>
        if resp.StatusCode = StatusOK then
          match decodeMapSlice rt resp.Body with
          | .error err => .ok ({ StatusCode := resp.StatusCode, Err := some (.decode err) }, ⟨w.client, s⟩)
          | .ok intermediary =>
            match encodeToBuffer (encodeMapSlice rt intermediary) with
            | .error err => .ok ({ Err := some err }, ⟨w.client, s⟩)
            | .ok bd => .ok ({ StatusCode := resp.StatusCode, Documents := some bd }, ⟨w.client, s⟩)
        else
          let (msg, err) := prepareExceptionResponse resp
          .ok ({ StatusCode := resp.StatusCode, Message := msg, Err := err }, ⟨w.client, s⟩)

/-- Models `GetDocCount` of `documents.go` as a step of the world. -/
def GetDocCountStep {F σ : Type} (rt : GoRuntime F) (t : StatefulTransport σ) (w : World σ)
    (coll : String) (params : Option DocumentRetrievalParams) : Except GoPanic (DocumentCountResult × World σ) :=
  match params with
  | none => .error .nilDereference
  | some params =>
    match prepareRequest rt w.client "GET" ("/" ++ coll ++ "/count")
        (some (addFields params.Fields [])) none with
    | .error p => .error p
    | .ok req =>
      match t.Do w.server req with
      | (.error err, s) => .ok ({ Count := -1, Err := some err }, ⟨w.client, s⟩)
      | (.ok resp, s) =>
        match decodeMap rt resp.Body with
        | .error err => .ok ({ Count := -1, Err := some (.decode err) }, ⟨w.client, s⟩)
        | .ok respItems =>
          if resp.StatusCode = StatusOK then
            match mapIndex respItems "count" with
            | some (.float64 count) => .ok ({ Count := rt.floatToInt count }, ⟨w.client, s⟩)
            | _ => .ok ({ Count := -1, Err := some .ErrGeneral }, ⟨w.client, s⟩)
          else
            match prepareExceptionResponseFromMap resp.StatusCode respItems with
            | .error p => .error p
            | .ok (message, err) =>
              .ok ({ Count := -1, Err := err, Message := message, StatusCode := resp.StatusCode }, ⟨w.client, s⟩)

/-- Models `RemoveDoc` of `documents.go` as a step of the world. -/
def RemoveDocStep {F σ : Type} (rt : GoRuntime F) (t : StatefulTransport σ) (w : World σ)
    (coll key : String) : Except GoPanic (DocumentOpResult × World σ) :=
  match prepareRequest rt w.client "DELETE" ("/" ++ coll ++ "/" ++ key) none none with
  | .error p => .error p
  | .ok req =>
    match t.Do w.server req with
    | (.error err, s) => .ok ({ Err := some err }, ⟨w.client, s⟩)
    | (.ok resp, s) =>
      match decodeMap rt resp.Body with
      | .error err => .ok ({ Err := some (.decode err) }, ⟨w.client, s⟩)
      | .ok respData =>
        if resp.StatusCode = StatusOK then
          match mapIndex respData "doc" with
          | some (.map intermediary) =>
            match encodeToBuffer (encodeMap rt (some intermediary)) with
            | .error err => .ok ({ Err := some err }, ⟨w.client, s⟩)
            | .ok bd =>
              match mapIndex respData "event" with
              | some (.map evtIntermediary) =>
                match encodeToBuffer (encodeMap rt (some evtIntermediary)) with
                | .error err => .ok ({ Err := some err }, ⟨w.client, s⟩)
                | .ok be =>
                  .ok ({ Document := some bd, Event := some be, StatusCode := resp.StatusCode }, ⟨w.client, s⟩)
              | _ => .error .interfaceConversion
          | _ => .error .interfaceConversion
        else
          match prepareExceptionResponseFromMap resp.StatusCode respData with
          | .error p => .error p
          | .ok (message, err) =>
            .ok ({ Err := err, Message := message, StatusCode := resp.StatusCode }, ⟨w.client, s⟩)

/-- Models `GetDoc` of `documents.go` as a step of the world. -/
def GetDocStep {F σ : Type} (rt : GoRuntime F) (t : StatefulTransport σ) (w : World σ)
    (coll key : String) : Except GoPanic (DocumentResult × World σ) :=
  match prepareRequest rt w.client "GET" ("/" ++ coll ++ "/" ++ key) none none with
  | .error p => .error p
  | .ok req =>
    match t.Do w.server req with
    | (.error err, s) => .ok ({ Err := some err }, ⟨w.client, s⟩)
    | (.ok resp, s) =>
      if resp.StatusCode = StatusOK then
        .ok ({ Document := some resp.Body, StatusCode := resp.StatusCode }, ⟨w.client, s⟩)
      else
        let (msg, err) := prepareExceptionResponse resp
        .ok ({ Err := err, Message := msg, StatusCode := resp.StatusCode }, ⟨w.client, s⟩)

/-- Models `UpdateDoc` of `documents.go` as a step of the world. -/
def UpdateDocStep {F σ : Type} (rt : GoRuntime F) (t : StatefulTransport σ) (w : World σ)
    (coll key : String) (doc : GoAny) : Except GoPanic (DocumentOpResult × World σ) :=
  match doc with
  | .error err => .ok ({ Err := some err }, w)
  | .ok b =>
    match prepareRequest rt w.client "PUT" ("/" ++ coll ++ "/" ++ key) none (some (.value b)) with
    | .error p => .error p
    | .ok req =>
      match t.Do w.server req with
      | (.error err, s) => .ok ({ Err := some err }, ⟨w.client, s⟩)
      | (.ok resp, s) =>
        if resp.StatusCode = StatusOK then
          match decodeStruct (DocEventBody.store rt) { Document := none, Event := none }
              resp.Body with
          | .error err => .ok ({ StatusCode := resp.StatusCode, Err := some (.decode err) }, ⟨w.client, s⟩)
          | .ok intermediary =>
            match encodeToBuffer (encodeMap rt intermediary.Document) with
            | .error err => .ok ({ Err := some err }, ⟨w.client, s⟩)
            | .ok bd =>
              match encodeToBuffer (encodeMap rt intermediary.Event) with
              | .error err => .ok ({ Err := some err }, ⟨w.client, s⟩)
              | .ok be =>
                .ok ({ StatusCode := resp.StatusCode, Document := some bd, Event := some be }, ⟨w.client, s⟩)
        else
          let (msg, err) := prepareExceptionResponse resp
          .ok ({ Err := err, Message := msg, StatusCode := resp.StatusCode }, ⟨w.client, s⟩)

/-- Models `InsertQuery` of `queries.go` as a step of the world. -/
def InsertQueryStep {F σ : Type} (rt : GoRuntime F) (t : StatefulTransport σ) (w : World σ)
    (params : Option ModifyingQueryParams) : Except GoPanic (DocumentsOpResult × World σ) :=
  match encodeModifyingQueryParams params with
  | .error err => .ok ({ Err := some err }, w)
  | .ok b =>
    match prepareRequest rt w.client "POST" "/insert" none (some (.value b)) with
    | .error p => .error p
    | .ok req =>
      match t.Do w.server req with
      | (.error err, s) => .ok ({ Err := some err }, ⟨w.client, s⟩)
      | (.ok resp, s) =>
        if resp.StatusCode = StatusCreated ∨ resp.StatusCode = StatusOK then
          match decodeStruct (ModifyingQueryBody.store rt) { Events := none, Documents := none }
              resp.Body with
          | .error err => .ok ({ Err := some (.decode err) }, ⟨w.client, s⟩)
          | .ok intermediary =>
            match encodeToBuffer (encodeMapSlice rt intermediary.Documents) with
            | .error err => .ok ({ Err := some err }, ⟨w.client, s⟩)
            | .ok bd =>
              match encodeToBuffer (encodeMapSlice rt intermediary.Events) with
              | .error err => .ok ({ Err := some err }, ⟨w.client, s⟩)
              | .ok be =>
                .ok ({ StatusCode := resp.StatusCode, Documents := some bd, Events := some be }, ⟨w.client, s⟩)
        else
          let (msg, err) := prepareExceptionResponse resp
          .ok ({ Err := err, Message := msg, StatusCode := resp.StatusCode }, ⟨w.client, s⟩)

/-- Models `UpdateQuery` of `queries.go` as a step of the world. -/
def UpdateQueryStep {F σ : Type} (rt : GoRuntime F) (t : StatefulTransport σ) (w : World σ)
    (params : Option ModifyingQueryParams) : Except GoPanic (DocumentsOpResult × World σ) :=
  match encodeModifyingQueryParams params with
  | .error err => .ok ({ Err := some err }, w)
  | .ok b =>
    match prepareRequest rt w.client "POST" "/update" none (some (.value b)) with
    | .error p => .error p
    | .ok req =>
      match t.Do w.server req with
      | (.error err, s) => .ok ({ Err := some err }, ⟨w.client, s⟩)
      | (.ok resp, s) =>
        if resp.StatusCode = StatusCreated ∨ resp.StatusCode = StatusOK then
          match decodeStruct (ModifyingQueryBody.store rt) { Events := none, Documents := none }
              resp.Body with
          | .error err => .ok ({ Err := some (.decode err) }, ⟨w.client, s⟩)
          | .ok intermediary =>
            match encodeToBuffer (encodeMapSlice rt intermediary.Documents) with
            | .error err => .ok ({ Err := some err }, ⟨w.client, s⟩)
            | .ok bd =>
              match encodeToBuffer (encodeMapSlice rt intermediary.Events) with
              | .error err => .ok ({ Err := some err }, ⟨w.client, s⟩)
              | .ok be =>
                .ok ({ StatusCode := resp.StatusCode, Documents := some bd, Events := some be }, ⟨w.client, s⟩)
        else
          let (msg, err) := prepareExceptionResponse resp
          .ok ({ Err := err, Message := msg, StatusCode := resp.StatusCode }, ⟨w.client, s⟩)

/-- Models `RemoveQuery` of `queries.go` as a step of the world. -/
def RemoveQueryStep {F σ : Type} (rt : GoRuntime F) (t : StatefulTransport σ) (w : World σ)
    (params : Option ModifyingQueryParams) : Except GoPanic (DocumentsOpResult × World σ) :=
  match encodeModifyingQueryParams params with
  | .error err => .ok ({ Err := some err }, w)
  | .ok b =>
    match prepareRequest rt w.client "POST" "/remove" none (some (.value b)) with
    | .error p => .error p
    | .ok req =>
      match t.Do w.server req with
      | (.error err, s) => .ok ({ Err := some err }, ⟨w.client, s⟩)
      | (.ok resp, s) =>
        if resp.StatusCode = StatusCreated ∨ resp.StatusCode = StatusOK then
          match decodeStruct (ModifyingQueryBody.store rt) { Events := none, Documents := none }
              resp.Body with
          | .error err => .ok ({ Err := some (.decode err) }, ⟨w.client, s⟩)
          | .ok intermediary =>
            match encodeToBuffer (encodeMapSlice rt intermediary.Documents) with
            | .error err => .ok ({ Err := some err }, ⟨w.client, s⟩)
            | .ok bd =>
              match encodeToBuffer (encodeMapSlice rt intermediary.Events) with
              | .error err => .ok ({ Err := some err }, ⟨w.client, s⟩)
              | .ok be =>
                .ok ({ StatusCode := resp.StatusCode, Documents := some bd, Events := some be }, ⟨w.client, s⟩)
        else
          let (msg, err) := prepareExceptionResponse resp
          .ok ({ Err := err, Message := msg, StatusCode := resp.StatusCode }, ⟨w.client, s⟩)

/-- Models `newSession` as a step of the world: the pair Go returns and the
state the transport is left in. -/
def newSessionStep {σ : Type} (t : StatefulTransport σ) (w : World σ) :
    (Option SessionInfo × Option GoError) × σ :=
  match encodeCredentials w.client.connectionParams with
  | .error err => ((none, some err), w.server)
  | .ok b =>
    match t.Post w.server (w.client.endpoint ++ loginEndpoint) "application/json; charset=utf-8"
        (.value b) with
    | (.error err, s) => ((none, some err), s)
    | (.ok resp, s) =>
      match decodeStruct SessionInfo.store { SID := "", UID := "" } resp.Body with
      | .ok sessionInfo => ((some sessionInfo, none), s)
      | .error err =>
        ((some (decodeStructLenient SessionInfo.store { SID := "", UID := "" } resp.Body),
          some (.decode err)), s)

/-- Models `Refresh` as a step of the world: the only assignment to a field of
the receiver in the package, `c.sessionInfo = sessionInfo`, is made when the
login returned no error. -/
def RefreshStep {σ : Type} (t : StatefulTransport σ) (w : World σ) : Option GoError × World σ :=
  match newSessionStep t w with
  | ((sessionInfo, none), s) => (none, ⟨{ w.client with sessionInfo := sessionInfo }, s⟩)
  | ((_, some err), s) => (some err, ⟨w.client, s⟩)

/-- The request `CursorGetNextBatch` builds for a handle on a client holding
the session `sessionInfo`. -/
def nextBatchRequestFor (c : clientImpl) (sessionInfo : SessionInfo) (cursorID : String) :
    Request :=
  { Method := "PUT", URL := c.endpoint ++ (cursorEndpoint ++ "/" ++ cursorID), RawQuery := none,
    SessionID := sessionInfo.SID, Body := none }

/-- A history of `CursorGetNextBatch` calls made one after the other: the
results in order and the world after the last call. -/
def nextBatchHistory {F σ : Type} (rt : GoRuntime F) (t : StatefulTransport σ) :
    World σ → List String → Except GoPanic (List CursorQueryResult × World σ)
  | w, [] => .ok ([], w)
  | w, cursorID :: rest =>
    match CursorGetNextBatchStep rt t w cursorID with
    | .error p => .error p
    | .ok (r, w2) =>
      match nextBatchHistory rt t w2 rest with
      | .error p => .error p
      | .ok (rs, w3) => .ok (r :: rs, w3)

/-- The state of a transport that was handed, one after the other, the
next-batch requests for the handles of a history. -/
def serverAfter {σ : Type} (t : StatefulTransport σ) (c : clientImpl) (sessionInfo : SessionInfo) :
    σ → List String → σ
  | s, [] => s
  | s, cursorID :: rest =>
    serverAfter t c sessionInfo (t.Do s (nextBatchRequestFor c sessionInfo cursorID)).2 rest

/-! ## The `sort` parameter as the specification words it -/

/-- The `sort` parameter in the words of the specification: none without sort
fields, otherwise the fields joined with `,`, followed by `::` and the sort
order when an order is given. -/
def sortParameter (params : DocumentRetrievalParams) : Option String :=
  if params.SortFields = [] then none
  else
    some (String.intercalate "," params.SortFields ++
      (if params.SortOrder = "" then "" else "::" ++ params.SortOrder))

/-- The values the request of `GetDocs` carries under `sort`, in the words of
the specification amended for a field filter that is itself named `sort`: the
escaped values of such filters, followed by the `sort` parameter. -/
def sortValuesSent (params : DocumentRetrievalParams) : List String :=
  ((params.Fields.getD []).filter (fun kv => kv.1 = "sort")).map (fun kv => QueryEscape kv.2)
    ++ (sortParameter params).toList

/-- The value of the last member of a JSON object with the key `k`. -/
def lastMember (k : String) : List (String × JSON) → Option JSON
  | [] => none
  | (k1, x) :: rest =>
    match lastMember k rest with
    | some y => some y
    | none => if k1 = k then some x else none

/-! ## Decoding a query string -/

/-- The value of a hexadecimal digit. -/
def unhex (c : Char) : Option Nat :=
  if '0' ≤ c ∧ c ≤ '9' then some (c.toNat - 48)
  else if 'a' ≤ c ∧ c ≤ 'f' then some (c.toNat - 87)
  else if 'A' ≤ c ∧ c ≤ 'F' then some (c.toNat - 55)
  else none

/-- Models `url.QueryUnescape` on the characters of an escaped component,
giving the bytes of the result: `+` is a space, `%XX` is the byte `XX`, and a
`%` that is not followed by two hexadecimal digits is an error. -/
def unescapeBytes : List Char → Option (List UInt8)
  | [] => some []
  | '%' :: a :: b :: rest =>
    match unhex a, unhex b, unescapeBytes rest with
    | some hi, some lo, some bytes => some (UInt8.ofNat (16 * hi + lo) :: bytes)
    | _, _, _ => none
  | '%' :: _ => none
  | '+' :: rest =>
    match unescapeBytes rest with
    | some bytes => some (32 :: bytes)
    | none => none
  | c :: rest =>
    match unescapeBytes rest with
    | some bytes => some (String.utf8EncodeChar c ++ bytes)
    | none => none

/-- The bytes of a Go string. -/
def stringBytes (s : String) : List UInt8 := s.data.flatMap String.utf8EncodeChar

/-- Splits a list of characters at every occurrence of `sep`. -/
def splitChars (sep : Char) : List Char → List (List Char)
  | [] => [[]]
  | c :: rest =>
    if c = sep then [] :: splitChars sep rest
    else
      match splitChars sep rest with
      | [] => [[c]]
      | seg :: segs => (c :: seg) :: segs

/-- Models `url.ParseQuery`: the pairs of `&`-separated `key=value` settings of
a query string, key and value unescaped (`none` where the escaping is
invalid), in the order of the string. -/
def ParseQuery (query : String) : List (Option (List UInt8) × Option (List UInt8)) :=
  ((splitChars '&' query.data).filter (fun seg => !seg.isEmpty)).map
    (fun seg => (unescapeBytes (beforeChar '=' seg), unescapeBytes (afterChar '=' seg)))

/-! ## The modifying queries as the specification words them -/

/-- One operation for the three modifying queries, in the words of the
specification: the parameters are posted to `path`, a response with status 200
or 201 is decoded into documents and events, any other is classified. -/
def modifyingQuery {F : Type} (rt : GoRuntime F) (c : clientImpl) (path : String)
    (params : Option ModifyingQueryParams) : Except GoPanic DocumentsOpResult :=
  match encodeModifyingQueryParams params with
  | .error err => .ok { Err := some err }
  | .ok b =>
    match prepareRequest rt c "POST" path none (some (.value b)) with
    | .error p => .error p
    | .ok req =>
      match c.httpClient.Do req with
      | .error err => .ok { Err := some err }
      | .ok resp =>
        if resp.StatusCode = StatusCreated ∨ resp.StatusCode = StatusOK then
          match decodeStruct (ModifyingQueryBody.store rt) { Events := none, Documents := none }
              resp.Body with
          | .error err => .ok { Err := some (.decode err) }
          | .ok intermediary =>
            .ok { StatusCode := resp.StatusCode
                  Documents := some (.value (encodeMapSlice rt intermediary.Documents))
                  Events := some (.value (encodeMapSlice rt intermediary.Events)) }
        else
          .ok { Err := (prepareExceptionResponse resp).2
                Message := (prepareExceptionResponse resp).1
                StatusCode := resp.StatusCode }

/-! ## Sequences of calls -/

/-- A call of one of the methods of the `Client` interface. -/
inductive Call where
  | CursorQuery (params : Option CursorQueryParams)
  | CursorGetNextBatch (cursorID : String)
  | CreateColl (name : String)
  | CreateGraph (graphDef : Option Graph)
  | CreateRelation (graph : String) (relation : Option Relation)
  | GetIndexes (coll : String)
  | RemoveIndex (handle : String)
  | CreateIndex (params : Option IndexParams)
  | CreateDoc (coll : String) (doc : GoAny)
  | GetDocs (coll : String) (params : Option DocumentRetrievalParams)
  | GetDocCount (coll : String) (params : Option DocumentRetrievalParams)
  | RemoveDoc (coll key : String)
  | GetDoc (coll key : String)
  | UpdateDoc (coll key : String) (doc : GoAny)
  | InsertQuery (params : Option ModifyingQueryParams)
  | UpdateQuery (params : Option ModifyingQueryParams)
  | RemoveQuery (params : Option ModifyingQueryParams)
  | Refresh

/-- The world after a call that returned; a call that panics leaves no world
to go on with. -/
def callStep {F σ : Type} (rt : GoRuntime F) (t : StatefulTransport σ) (w : World σ) :
    Call → Except GoPanic (World σ)
  | .CursorQuery params => (CursorQueryStep rt t w params).map Prod.snd
  | .CursorGetNextBatch cursorID => (CursorGetNextBatchStep rt t w cursorID).map Prod.snd
  | .CreateColl name => (CreateCollStep rt t w name).map Prod.snd
  | .CreateGraph graphDef => (CreateGraphStep rt t w graphDef).map Prod.snd
  | .CreateRelation graph relation => (CreateRelationStep rt t w graph relation).map Prod.snd
  | .GetIndexes coll => (GetIndexesStep rt t w coll).map Prod.snd
  | .RemoveIndex handle => (RemoveIndexStep rt t w handle).map Prod.snd
  | .CreateIndex params => (CreateIndexStep rt t w params).map Prod.snd
  | .CreateDoc coll doc => (CreateDocStep rt t w coll doc).map Prod.snd
  | .GetDocs coll params => (GetDocsStep rt t w coll params).map Prod.snd
  | .GetDocCount coll params => (GetDocCountStep rt t w coll params).map Prod.snd
  | .RemoveDoc coll key => (RemoveDocStep rt t w coll key).map Prod.snd
  | .GetDoc coll key => (GetDocStep rt t w coll key).map Prod.snd
  | .UpdateDoc coll key doc => (UpdateDocStep rt t w coll key doc).map Prod.snd
  | .InsertQuery params => (InsertQueryStep rt t w params).map Prod.snd
  | .UpdateQuery params => (UpdateQueryStep rt t w params).map Prod.snd
  | .RemoveQuery params => (RemoveQueryStep rt t w params).map Prod.snd
  | .Refresh => .ok (RefreshStep t w).2

/-- The world after a sequence of calls, each made in the world the call before
left. -/
def runCalls {F σ : Type} (rt : GoRuntime F) (t : StatefulTransport σ) :
    World σ → List Call → Except GoPanic (World σ)
  | w, [] => .ok w
  | w, call :: rest =>
    match callStep rt t w call with
    | .ok w2 => runCalls rt t w2 rest
    | .error p => .error p

/-! ## Concrete instances used to evaluate the definitions -/

/-! ## A concrete `float64` -/

/-- A finite `float64`: the value is `mant * 2 ^ exp`, negated when `neg`, with
`mant` odd, or zero together with `exp`. -/
structure Binary64 where
  neg : Bool
  mant : Nat
  exp : Int
deriving DecidableEq, Repr

/-- Removes factors two from a mantissa, at most `fuel` of them. -/
def stripTwos : Nat → Nat → Int → Nat × Int
  | 0, m, e => (m, e)
  | fuel + 1, m, e =>
    if m = 0 then (0, 0)
    else if m % 2 = 0 then stripTwos fuel (m / 2) (e + 1)
    else (m, e)

/-- The position of the highest set bit of a positive number, searched with
`fuel` halvings. -/
def highBit : Nat → Nat → Nat
  | 0, _ => 0
  | fuel + 1, n => if n < 2 then 0 else highBit fuel (n / 2) + 1

/-- The quotient `num / (den * 2 ^ e)` as a pair of numerator and denominator. -/
def scaleByTwo (num den : Nat) (e : Int) : Nat × Nat :=
  if e ≥ 0 then (num, den * 2 ^ e.toNat) else (num * 2 ^ (-e).toNat, den)

/-- The positive rational `num / den` rounded to the nearest `float64`, ties to
the even mantissa, as mantissa and binary exponent; subnormal results lose
precision gradually, and `none` is a value beyond the largest `float64`. -/
def roundRatio (num den : Nat) : Option (Nat × Int) :=
  if num = 0 then some (0, 0)
  else
    let e1 : Int := (highBit num num : Int) - (highBit den den : Int) - 52
    let e2 : Int :=
      if (scaleByTwo num den e1).1 / (scaleByTwo num den e1).2 ≥ 2 ^ 52 then e1 else e1 - 1
    let e : Int := if e2 < -1074 then -1074 else e2
    let a := (scaleByTwo num den e).1
    let b := (scaleByTwo num den e).2
    let q := a / b
    let r := a % b
    let m := if 2 * r > b ∨ (2 * r = b ∧ q % 2 = 1) then q + 1 else q
    if e > 971 ∨ (e = 971 ∧ m ≥ 2 ^ 53) then none
    else some (stripTwos 64 m e)

/-- The value of a list of decimal digits, most significant first. -/
def digitsValue (ds : List Nat) : Nat := ds.foldl (fun acc d => 10 * acc + d) 0

/-- The decimal `n * 10 ^ k` as a pair of numerator and denominator. -/
def scaleByTen (n : Nat) (k : Int) : Nat × Nat :=
  if k ≥ 0 then (n * 10 ^ k.toNat, 1) else (n, 10 ^ (-k).toNat)

/-- Models `strconv.ParseFloat(lit, 64)` on a JSON number literal. -/
def Binary64.parse (n : JNumber) : Option Binary64 :=
  let sig := n.int * 10 ^ n.frac.length + digitsValue n.frac
  let k : Int := n.exp.getD 0 - n.frac.length
  match roundRatio (scaleByTen sig k).1 (scaleByTen sig k).2 with
  | some (m, e) => some { neg := n.neg, mant := m, exp := e }
  | none => none

/-- Models the conversion `int(f)`: the fraction is discarded.  Go leaves the
result to the platform when the value does not fit in an `int`; here it is the
discarded-fraction value throughout. -/
def Binary64.toInt (f : Binary64) : Int :=
  let v : Nat := if f.exp ≥ 0 then f.mant * 2 ^ f.exp.toNat else f.mant / 2 ^ (-f.exp).toNat
  if f.neg then -(v : Int) else (v : Int)

/-- The decimal digits of a number, most significant first; none for zero. -/
def natDigits (n : Nat) : List Nat :=
  if n = 0 then [] else (Nat.toDigits 10 n).map (fun c => c.toNat - 48)

/-- The number of digits before the decimal point of the positive rational
`a / b`: the `p` with `10 ^ (p - 1) ≤ a / b < 10 ^ p`, searched downwards with
`fuel` steps when the value is below one. -/
def pointPosition (a b : Nat) : Nat → Int → Int
  | 0, p => p
  | fuel + 1, p =>
    if a / b ≥ 1 then (natDigits (a / b)).length
    else if a * 10 ≥ b then p
    else pointPosition (a * 10) b fuel (p - 1)

/-- Removes the zeros at the end of a list of digits. -/
def dropTrailingZeros (ds : List Nat) : List Nat :=
  (ds.reverse.dropWhile (fun d => d = 0)).reverse

/-- The shortest decimal, of `n` significant digits or more, that parses back
to the `float64` `m * 2 ^ e`: its digits and the position of its decimal
point.  Among the decimals of one length the one nearest to the value wins. -/
def shortestDigits (m : Nat) (e : Int) (p : Int) : Nat → Nat → List Nat × Int
  | 0, _ => ([], 0)
  | fuel + 1, n =>
    -- the value times 10 ^ (n - p), whose integer part has n digits
    let ab := scaleByTwo m 1 (-e)
    let a := if (n : Int) - p ≥ 0 then ab.1 * 10 ^ ((n : Int) - p).toNat else ab.1
    let b := if (n : Int) - p ≥ 0 then ab.2 else ab.2 * 10 ^ (p - (n : Int)).toNat
    let lo := a / b
    let r := a % b
    let back := fun (c : Nat) =>
      decide (roundRatio (scaleByTen c (p - n)).1 (scaleByTen c (p - n)).2 = some (m, e))
    let pick := fun (c : Nat) => (dropTrailingZeros (natDigits c), p - n + (natDigits c).length)
    if r = 0 then pick lo
    else if back lo ∧ back (lo + 1) then
      (if 2 * r < b ∨ (2 * r = b ∧ lo % 2 = 0) then pick lo else pick (lo + 1))
    else if back lo then pick lo
    else if back (lo + 1) then pick (lo + 1)
    else shortestDigits m e p fuel (n + 1)

/-- The literal the JSON encoder writes for a `float64`: the shortest decimal
that parses back, in plain notation from `1e-6` up to `1e21` and with an
exponent outside. -/
def Binary64.format (f : Binary64) : JNumber :=
  if f.mant = 0 then { neg := f.neg, int := 0, frac := [], exp := none }
  else
    let ab := scaleByTwo f.mant 1 (-f.exp)
    let p := pointPosition ab.1 ab.2 400 0
    let dp := shortestDigits f.mant f.exp p 17 1
    let ds := dp.1
    let pt := dp.2
    if pt ≤ -6 ∨ pt ≥ 22 then
      { neg := f.neg, int := ds.headD 0, frac := ds.tail, exp := some (pt - 1) }
    else if pt ≤ 0 then
      { neg := f.neg, int := 0, frac := List.replicate (-pt).toNat 0 ++ ds, exp := none }
    else if pt.toNat ≥ ds.length then
      { neg := f.neg, int := digitsValue ds * 10 ^ (pt.toNat - ds.length), frac := [], exp := none }
    else
      { neg := f.neg, int := digitsValue (ds.take pt.toNat), frac := ds.drop pt.toNat, exp := none }

/-- The standard library on the concrete `float64`. -/
def binary64 : GoRuntime Binary64 where
  parseFloat := Binary64.parse
  formatFloat := Binary64.format
  newRequestOk := fun _ _ => true
  floatToInt := Binary64.toInt

/-- A runtime whose `float64` values are the whole numbers, read and written
exactly; it agrees with Go on integer literals without exponent of magnitude
up to `2 ^ 53`. -/
def wholeRuntime : GoRuntime Int where
  parseFloat := fun n =>
    if n.frac = [] ∧ n.exp = none then some (if n.neg then -(n.int : Int) else (n.int : Int))
    else none
  formatFloat := fun f => { neg := decide (f < 0), int := f.natAbs, frac := [], exp := none }
  newRequestOk := fun _ _ => true
  floatToInt := fun f => f

/-- A transport that answers every request with the same response. -/
def constClient (resp : Response) : WebClient where
  Do := fun _ => .ok resp
  Post := fun _ _ _ => .ok resp

/-- A client with an established session whose transport always answers `resp`. -/
def testClient (resp : Response) : clientImpl where
  httpClient := constClient resp
  connectionParams :=
    { Host := "localhost", Port := "80", Database := "", Scheme := "http", Username := "", Password := "" }
  endpoint := "http://localhost:80/_db//microfoxx"
  sessionInfo := some { SID := "12345", UID := "6789" }

/-- A first-page response: one record, more to come, cursor handle `7`. -/
def firstPage : Response :=
  ⟨200, .value (.obj [("results", .arr [.obj [("name", .str "testname2"), ("status", .str "enabled")]]),
                      ("hasMore", .bool true), ("cursor", .str "7")])⟩

/-- A last-batch response: two records and `hasMore` false. -/
def lastBatch : Response :=
  ⟨200, .value (.obj [("hasMore", .bool false),
                      ("results", .arr [.obj [("name", .str "testname48")],
                                        .obj [("name", .str "testname50")]])])⟩

/-- The response of the test server for an unknown cursor. -/
def cursorNotFound : Response :=
  ⟨400, .value (.obj [("exception", .str "Error 2016: Cursor not found")])⟩

/-- The request `CursorQuery` builds on `testClient` for nil parameters. -/
def nilQueryRequest : Request :=
  { Method := "POST", URL := "http://localhost:80/_db//microfoxx/cursor", RawQuery := none,
    SessionID := "12345", Body := some (.value .null) }

/-- The request `CursorGetNextBatch` builds on `testClient` for cursor `7`. -/
def nextBatchRequest : Request :=
  { Method := "PUT", URL := "http://localhost:80/_db//microfoxx/cursor/7", RawQuery := none,
    SessionID := "12345", Body := none }

/-- A response whose record is in canonical form: ascending keys and a whole
number. -/
def sortedPage : Response :=
  ⟨200, .value (.obj [("results", .arr [.obj [("_key", .num ⟨false, 1, [], none⟩),
                                              ("name", .str "n1")]]),
                      ("hasMore", .bool false)])⟩

/-- The login stub of the tests: every `Post` is answered with status 200
and the body `{"sid":"12345","uid":"6789"}`. -/
def dummySessionClient : WebClient where
  Do := fun _ => .error (.transport "not used")
  Post := fun _ _ _ =>
    .ok ⟨200, .value (.obj [("sid", .str "12345"), ("uid", .str "6789")])⟩

/-- A transport whose login fails. -/
def refusingClient : WebClient where
  Do := fun _ => .ok ⟨200, .value (.obj [])⟩
  Post := fun _ _ _ => .error (.transport "connection refused")

/-- Connection parameters with every field empty. -/
def emptyParams : ConnectionParams :=
  { Host := "", Port := "", Database := "", Scheme := "", Username := "", Password := "" }

/-- The answer of a server for a cursor that no longer exists. -/
def cursorGone : Response :=
  ⟨404, .value (.obj [("errorMessage", .str "cursor not found")])⟩

/-- A server with one cursor: the state says whether the cursor is still open.
The first call returns the last batch and closes it; later calls find nothing. -/
def oneCursorServer : StatefulTransport Bool where
  Do := fun isOpen _ => if isOpen then (.ok lastBatch, false) else (.ok cursorGone, false)
  Post := fun isOpen _ _ _ =>
    (.ok ⟨200, .value (.obj [("sid", .str "12345"), ("uid", .str "6789")])⟩, isOpen)

/-- The parameters of the count query of the tests. -/
def countParams : CursorQueryParams :=
  { Query := "FOR item in @@coll FILTER item.name == @name"
    BindVars := some [("@coll", .ok (.str "users")), ("name", .ok (.str "testname1"))]
    BatchSize := 0
    Count := true }

/-- A complete result of one record that reports a total of `n`. -/
def countPage (n : Nat) : Response :=
  ⟨200, .value (.obj [("results", .arr [.obj [("name", .str "testname1")]]),
                      ("hasMore", .bool false), ("count", .num ⟨false, n, [], none⟩)])⟩

/-- A transport that rejects every request with status 400 and reports, as the
`exception` text, the keys of the JSON object it received as request body. -/
def keyEchoClient : WebClient where
  Do := fun req =>
    match req.Body with
    | some (.value (.obj kvs)) =>
      .ok ⟨400, .value (.obj [("exception", .str (String.intercalate "," (kvs.map Prod.fst)))])⟩
    | _ => .ok ⟨400, .value (.obj [("exception", .str "no object")])⟩
  Post := fun _ _ _ => .ok ⟨200, .value (.obj [("sid", .str "12345"), ("uid", .str "6789")])⟩

/-- The parameters of the insert query of the tests. -/
def insertParams : ModifyingQueryParams :=
  { WriteCollection := "test"
    ReadCollections := none
    Query := "FOR i in 1..100 INSERT { value: i, type: @type } IN test"
    BindVars := some [("type", .ok (.str "a"))] }

/-- A transport that rejects every request with status 400 and reports, as the
`exception` text, the query string of the request. -/
def queryEchoClient : WebClient where
  Do := fun req => .ok ⟨400, .value (.obj [("exception", .str req.query)])⟩
  Post := fun _ _ _ => .ok ⟨200, .value (.obj [("sid", .str "12345"), ("uid", .str "6789")])⟩

/-- Retrieval parameters with the single field filter `name = "a b"`. -/
def spaceFilter : DocumentRetrievalParams :=
  { Fields := some [("name", "a b")], SortFields := [], SortOrder := "",
    LimitOffset := 0, LimitCount := 0 }

/-- Retrieval parameters without any filter, sort or limit. -/
def noFilter : DocumentRetrievalParams :=
  { Fields := none, SortFields := [], SortOrder := "", LimitOffset := 0, LimitCount := 0 }

/-- The retrieval parameters of the tests. -/
def testFilter : DocumentRetrievalParams :=
  { Fields := some [("rating", "high")], SortFields := ["height", "name"], SortOrder := "DESC",
    LimitOffset := 10, LimitCount := 5 }

/-- The count response of the tests. -/
def countResponse : Response := ⟨200, .value (.obj [("count", .num ⟨false, 34, [], none⟩)])⟩

/-- A not-found answer whose envelope carries `errorMessage` only. -/
def goneResponse : Response := ⟨404, .value (.obj [("errorMessage", .str "gone")])⟩

/-- The answer of the test server to the first `CreateColl`. -/
def collCreated : Response :=
  ⟨201, .value (.obj [("message", .str "Successfully created the test collection"),
                      ("_id", .str "test")])⟩

/-- The answer of the test server to a `CreateColl` of an existing collection. -/
def collExists : Response :=
  ⟨400, .value (.obj [("exception", .str "Error 2016: Collection already exists")])⟩

/-- The request `CreateColl` builds on `testClient` for the collection `test`. -/
def createCollRequest : Request :=
  { Method := "POST", URL := "http://localhost:80/_db//microfoxx/collection", RawQuery := none,
    SessionID := "12345", Body := some (.value (.obj [("name", .str "test")])) }

/-- A server fault reported in a shape without `exception`. -/
def serverFault : Response :=
  ⟨500, .value (.obj [("error", .bool true), ("code", .num ⟨false, 500, [], none⟩)])⟩

/-- A transport that keeps the requests it was handed, in order, and answers
each with an empty list of documents. -/
def recorder : StatefulTransport (List Request) where
  Do := fun log req => (.ok ⟨200, .value (.arr [])⟩, log ++ [req])
  Post := fun log _ _ _ =>
    (.ok ⟨200, .value (.obj [("sid", .str "12345"), ("uid", .str "6789")])⟩, log)

/-- Retrieval parameters whose only field filter is named `sort`. -/
def sortAsFilter : DocumentRetrievalParams :=
  { Fields := some [("sort", "f")], SortFields := [], SortOrder := "",
    LimitOffset := 0, LimitCount := 0 }

/-- A count response whose count has a fraction: `{"count":34.7}`. -/
def fractionCount : Response := ⟨200, .value (.obj [("count", .num ⟨false, 34, [7], none⟩)])⟩

/-- The request `GetDocCount` builds on `testClient` for the collection `test`
without field filters. -/
def countRequest : Request :=
  { Method := "GET", URL := "http://localhost:80/_db//microfoxx/test/count", RawQuery := none,
    SessionID := "12345", Body := none }

/-- A last batch whose record holds the number `2 ^ 53 + 1`. -/
def bigNumberPage : Response :=
  ⟨200, .value (.obj [("results", .arr [.obj [("n", .num ⟨false, 9007199254740993, [], none⟩)]]),
                      ("hasMore", .bool false)])⟩

/-- A page of two records whose keys are not in ascending order. -/
def twoRecords : Response :=
  ⟨200, .value (.obj [("results", .arr [.obj [("name", .str "n1"), ("_key", .str "1")],
                                        .obj [("name", .str "n2"), ("_key", .str "2")]]),
                      ("hasMore", .bool false)])⟩

/-! ## The response classifier: theorems -/

theorem storeAll_nil {α : Type} (store : α → JSON → Except DecodeError α) (cur : α) :
    storeAll store cur [] = .ok cur := rfl

theorem storeAll_cons_ok {α : Type} (store : α → JSON → Except DecodeError α) (cur x : α)
    (v : JSON) (vals : List JSON) (h : store cur v = .ok x) :
    storeAll store cur (v :: vals) = storeAll store x vals := by
  simp only [storeAll, List.foldlM_cons, h]
  rfl

theorem memberValues_nil (names : List String) (field : String) :
    memberValues names field [] = [] := rfl

theorem memberValues_cons_hit (names : List String) (field k : String) (v : JSON)
    (kvs : List (String × JSON)) (h : findField names k = some field) :
    memberValues names field ((k, v) :: kvs) = v :: memberValues names field kvs := by
  simp [memberValues, List.filter_cons, h]

theorem memberValues_cons_miss (names : List String) (field k : String) (v : JSON)
    (kvs : List (String × JSON)) (h : findField names k ≠ some field) :
    memberValues names field ((k, v) :: kvs) = memberValues names field kvs := by
  simp [memberValues, List.filter_cons, h]

/-- Each field of the decoded envelope is what storing, in order, the values of
the members selecting that field gives. -/
theorem exceptionEnvelope_fields (kvs : List (String × JSON)) :
    ∀ (st env : ExceptionEnvelope),
      kvs.foldlM (fun st kv => ExceptionEnvelope.store st kv.1 kv.2) st = .ok env →
      storeAll storeString st.Message
          (memberValues ["exception", "errorMessage"] "exception" kvs) = .ok env.Message ∧
      storeAll storeString st.ErrMessage
          (memberValues ["exception", "errorMessage"] "errorMessage" kvs) = .ok env.ErrMessage := by
  induction kvs with
  | nil =>
    intro st env h
    have : st = env := by simpa [List.foldlM_nil, pure, Except.pure] using h
    subst this
    exact ⟨rfl, rfl⟩
  | cons kv kvs ih =>
    intro st env h
    obtain ⟨k, v⟩ := kv
    rw [List.foldlM_cons] at h
    cases hs : ExceptionEnvelope.store st k v with
    | error e => simp [hs, bind, Except.bind] at h
    | ok st1 =>
      simp only [hs, bind, Except.bind] at h
      have ih1 := ih st1 env h
      unfold ExceptionEnvelope.store at hs
      split at hs
      · rename_i hf
        cases hm : storeString st.Message v with
        | error e => simp [hm] at hs
        | ok s =>
          simp only [hm, Except.ok.injEq] at hs
          subst hs
          rw [memberValues_cons_hit _ _ _ _ _ hf,
            memberValues_cons_miss _ _ _ _ _ (by rw [hf]; decide),
            storeAll_cons_ok _ _ _ _ _ hm]
          exact ih1
      · rename_i hf
        cases hm : storeString st.ErrMessage v with
        | error e => simp [hm] at hs
        | ok s =>
          simp only [hm, Except.ok.injEq] at hs
          subst hs
          rw [memberValues_cons_hit _ _ _ _ _ hf,
            memberValues_cons_miss _ _ _ _ _ (by rw [hf]; decide),
            storeAll_cons_ok _ _ _ _ _ hm]
          exact ih1
      · rename_i h1 h2
        simp only [Except.ok.injEq] at hs
        subst hs
        rw [memberValues_cons_miss _ _ _ _ _ (fun h => h1 h),
          memberValues_cons_miss _ _ _ _ _ (fun h => h2 h)]
        exact ih1

/-- The error returned with a decoded envelope is decided by the status alone. -/
theorem prepareExceptionResponse_of_ok (resp : Response) (env : ExceptionEnvelope)
    (h : decodeExceptionEnvelope resp.Body = .ok env) :
    prepareExceptionResponse resp =
      (if env.Message ≠ "" then env.Message
        else if env.ErrMessage ≠ "" then env.ErrMessage else "",
       some (if resp.StatusCode = 400 then GoError.ErrBadRequest
        else if resp.StatusCode = 404 then GoError.ErrNotFound
        else GoError.ErrGeneral)) := by
  simp only [prepareExceptionResponse, h]

theorem prepareExceptionResponse_of_error (resp : Response) (e : DecodeError)
    (h : decodeExceptionEnvelope resp.Body = .error e) :
    prepareExceptionResponse resp = ("", some (.decode e)) := by
  simp only [prepareExceptionResponse, h]

/-- C1: for every response whose body decodes as a JSON error envelope,
`prepareExceptionResponse` returns `ErrBadRequest` when the status is 400,
`ErrNotFound` when the status is 404, and `ErrGeneral` for every other
status outside the 2xx range. -/
theorem prepareExceptionResponse_error_kind (resp : Response) (env : ExceptionEnvelope)
    (h : decodeExceptionEnvelope resp.Body = .ok env) :
    (resp.StatusCode = 400 → (prepareExceptionResponse resp).2 = some GoError.ErrBadRequest) ∧
    (resp.StatusCode = 404 → (prepareExceptionResponse resp).2 = some GoError.ErrNotFound) ∧
    (resp.StatusCode ≠ 400 → resp.StatusCode ≠ 404 →
      ¬ (200 ≤ resp.StatusCode ∧ resp.StatusCode < 300) →
      (prepareExceptionResponse resp).2 = some GoError.ErrGeneral) := by
  rw [prepareExceptionResponse_of_ok resp env h]
  refine ⟨?_, ?_, ?_⟩
  · intro h400
    simp [h400]
  · intro h404
    simp [h404]
  · intro h400 h404 _
    simp [h400, h404]

theorem prepareExceptionResponse_error_kind_witness :
    (prepareExceptionResponse
        ⟨400, .value (.obj [("exception", .str "Error 2016: Invalid AQL query")])⟩).2
      = some GoError.ErrBadRequest ∧
    (prepareExceptionResponse ⟨404, .value (.obj [("errorMessage", .str "unknown path")])⟩).2
      = some GoError.ErrNotFound ∧
    (prepareExceptionResponse ⟨503, .value (.obj [])⟩).2 = some GoError.ErrGeneral :=
  ⟨(prepareExceptionResponse_error_kind
      ⟨400, .value (.obj [("exception", .str "Error 2016: Invalid AQL query")])⟩
      ⟨"Error 2016: Invalid AQL query", ""⟩ rfl).1 rfl,
   (prepareExceptionResponse_error_kind
      ⟨404, .value (.obj [("errorMessage", .str "unknown path")])⟩
      ⟨"", "unknown path"⟩ rfl).2.1 rfl,
   (prepareExceptionResponse_error_kind ⟨503, .value (.obj [])⟩ ⟨"", ""⟩ rfl).2.2
      (by decide) (by decide) (by decide)⟩

/-- C2 as stated fails: with status 200 (and with 201 on the map entry point)
the classifier returns `ErrGeneral`. -/
theorem classifier_2xx_counterexample :
    (prepareExceptionResponse ⟨200, .value (.obj [])⟩).2 = some GoError.ErrGeneral ∧
    prepareExceptionResponseFromMap 201 (some [("exception", GoValue.string (F := Int) "x")])
      = .ok ("x", some GoError.ErrGeneral) :=
  ⟨by decide, rfl⟩

/-- C2, amended: for every 2xx status the classifier never returns
`ErrBadRequest` or `ErrNotFound`; it has no guard for 2xx, so whenever the
body decodes (or the map holds a string `exception`) it returns `ErrGeneral`. -/
theorem classifier_2xx (resp : Response)
    (h : 200 ≤ resp.StatusCode ∧ resp.StatusCode < 300) :
    (prepareExceptionResponse resp).2 ≠ some GoError.ErrBadRequest ∧
    (prepareExceptionResponse resp).2 ≠ some GoError.ErrNotFound ∧
    (∀ env, decodeExceptionEnvelope resp.Body = .ok env →
      (prepareExceptionResponse resp).2 = some GoError.ErrGeneral) ∧
    (∀ (F : Type) (m : GoMap F) (r : String × Option GoError),
      prepareExceptionResponseFromMap resp.StatusCode m = .ok r →
      r.2 = some GoError.ErrGeneral) := by
  have h400 : resp.StatusCode ≠ 400 := by omega
  have h404 : resp.StatusCode ≠ 404 := by omega
  have key : ∀ env, decodeExceptionEnvelope resp.Body = .ok env →
      (prepareExceptionResponse resp).2 = some GoError.ErrGeneral := by
    intro env henv
    rw [prepareExceptionResponse_of_ok resp env henv]
    simp [h400, h404]
  refine ⟨?_, ?_, key, ?_⟩
  · cases hd : decodeExceptionEnvelope resp.Body with
    | ok env => rw [key env hd]; decide
    | error e => rw [prepareExceptionResponse_of_error resp e hd]; simp
  · cases hd : decodeExceptionEnvelope resp.Body with
    | ok env => rw [key env hd]; decide
    | error e => rw [prepareExceptionResponse_of_error resp e hd]; simp
  · intro F m r hr
    unfold prepareExceptionResponseFromMap at hr
    split at hr
    · simp only [Except.ok.injEq] at hr
      subst hr
      simp [h400, h404]
    · simp at hr

theorem classifier_2xx_witness :
    (prepareExceptionResponse ⟨204, .value (.obj [("exception", .str "x")])⟩).2
        ≠ some GoError.ErrBadRequest ∧
    (prepareExceptionResponse ⟨204, .value (.obj [("exception", .str "x")])⟩).2
        = some GoError.ErrGeneral :=
  have h := classifier_2xx ⟨204, .value (.obj [("exception", .str "x")])⟩ (by decide)
  ⟨h.1, h.2.2.1 ⟨"x", ""⟩ rfl⟩

/-- C3: for every response whose body decodes as an error envelope, the
message is the `exception` field when it is non-empty, otherwise the
`errorMessage` field when it is non-empty, otherwise empty, where for an
object body each field is what storing the values of its members gives; and
the error returned is decided by the status alone, not by the field that
supplied the message. -/
theorem prepareExceptionResponse_message (resp : Response) (env : ExceptionEnvelope)
    (h : decodeExceptionEnvelope resp.Body = .ok env) :
    (prepareExceptionResponse resp).1 =
      (if env.Message ≠ "" then env.Message
        else if env.ErrMessage ≠ "" then env.ErrMessage else "") ∧
    (∀ kvs, resp.Body = .value (.obj kvs) →
      storeAll storeString "" (memberValues ["exception", "errorMessage"] "exception" kvs)
        = .ok env.Message ∧
      storeAll storeString "" (memberValues ["exception", "errorMessage"] "errorMessage" kvs)
        = .ok env.ErrMessage) ∧
    (resp.Body = .value .null → env.Message = "" ∧ env.ErrMessage = "") ∧
    (∀ (resp2 : Response) (env2 : ExceptionEnvelope),
      decodeExceptionEnvelope resp2.Body = .ok env2 → resp2.StatusCode = resp.StatusCode →
      (prepareExceptionResponse resp2).2 = (prepareExceptionResponse resp).2) := by
  refine ⟨?_, ?_, ?_, ?_⟩
  · rw [prepareExceptionResponse_of_ok resp env h]
  · intro kvs hb
    rw [hb] at h
    exact exceptionEnvelope_fields kvs _ env h
  · intro hb
    rw [hb] at h
    have : (⟨"", ""⟩ : ExceptionEnvelope) = env := by
      simpa [decodeExceptionEnvelope, decodeStruct] using h
    subst this
    exact ⟨rfl, rfl⟩
  · intro resp2 env2 h2 hs
    rw [prepareExceptionResponse_of_ok resp env h, prepareExceptionResponse_of_ok resp2 env2 h2, hs]

theorem prepareExceptionResponse_message_witness :
    (prepareExceptionResponse
      ⟨500, .value (.obj [("exception", .str ""), ("errorMessage", .str "disk full")])⟩).1
      = "disk full" :=
  (prepareExceptionResponse_message
    ⟨500, .value (.obj [("exception", .str ""), ("errorMessage", .str "disk full")])⟩
    ⟨"", "disk full"⟩ rfl).1

/-- C5, the two entry points at the envelope `{"errorMessage":"gone"}` with
status 404: `prepareExceptionResponse` returns the message with `ErrNotFound`,
while `prepareExceptionResponseFromMap` on the decoded mapping panics in its
type assertion. -/
theorem classifier_entry_points_diverge :
    prepareExceptionResponse ⟨404, .value (.obj [("errorMessage", .str "gone")])⟩
      = ("gone", some GoError.ErrNotFound) ∧
    decodeMap wholeRuntime (.value (.obj [("errorMessage", .str "gone")]))
      = .ok (some [("errorMessage", .string "gone")]) ∧
    prepareExceptionResponseFromMap (F := Int) 404 (some [("errorMessage", .string "gone")])
      = .error GoPanic.interfaceConversion :=
  ⟨by decide, rfl, rfl⟩

/-! ## Cursors: theorems -/

/-- Each field of the decoded `CursorQuery` response is what storing, in
order, the values of the members selecting that field gives. -/
theorem cursorQueryBody_fields {F : Type} (rt : GoRuntime F) (kvs : List (String × JSON)) :
    ∀ (st im : CursorQueryBody F),
      kvs.foldlM (fun st kv => CursorQueryBody.store rt st kv.1 kv.2) st = .ok im →
      storeAll (storeMapSlice rt) st.Results (memberValues cursorQueryFields "results" kvs)
        = .ok im.Results ∧
      storeAll storeString st.Cursor (memberValues cursorQueryFields "cursor" kvs)
        = .ok im.Cursor ∧
      storeAll storeBool st.HasMore (memberValues cursorQueryFields "hasMore" kvs)
        = .ok im.HasMore ∧
      storeAll storeInt st.Count (memberValues cursorQueryFields "count" kvs)
        = .ok im.Count := by
  induction kvs with
  | nil =>
    intro st im h
    have : st = im := by simpa [List.foldlM_nil, pure, Except.pure] using h
    subst this
    exact ⟨rfl, rfl, rfl, rfl⟩
  | cons kv kvs ih =>
    intro st im h
    obtain ⟨k, v⟩ := kv
    rw [List.foldlM_cons] at h
    cases hs : CursorQueryBody.store rt st k v with
    | error e => simp [hs, bind, Except.bind] at h
    | ok st1 =>
      simp only [hs, bind, Except.bind] at h
      have ih1 := ih st1 im h
      unfold CursorQueryBody.store at hs
      split at hs
      · rename_i hf
        cases hm : storeMapSlice rt st.Results v with
        | error e => simp [hm] at hs
        | ok s =>
          simp only [hm, Except.ok.injEq] at hs
          subst hs
          rw [memberValues_cons_hit _ _ _ _ _ hf,
            memberValues_cons_miss _ _ _ _ _ (by rw [hf]; decide),
            memberValues_cons_miss _ _ _ _ _ (by rw [hf]; decide),
            memberValues_cons_miss _ _ _ _ _ (by rw [hf]; decide),
            storeAll_cons_ok _ _ _ _ _ hm]
          exact ih1
      · rename_i hf
        cases hm : storeString st.Cursor v with
        | error e => simp [hm] at hs
        | ok s =>
          simp only [hm, Except.ok.injEq] at hs
          subst hs
          rw [memberValues_cons_hit _ _ _ _ _ hf,
            memberValues_cons_miss _ _ _ _ _ (by rw [hf]; decide),
            memberValues_cons_miss _ _ _ _ _ (by rw [hf]; decide),
            memberValues_cons_miss _ _ _ _ _ (by rw [hf]; decide),
            storeAll_cons_ok _ _ _ _ _ hm]
          exact ih1
      · rename_i hf
        cases hm : storeBool st.HasMore v with
        | error e => simp [hm] at hs
        | ok s =>
          simp only [hm, Except.ok.injEq] at hs
          subst hs
          rw [memberValues_cons_hit _ _ _ _ _ hf,
            memberValues_cons_miss _ _ _ _ _ (by rw [hf]; decide),
            memberValues_cons_miss _ _ _ _ _ (by rw [hf]; decide),
            memberValues_cons_miss _ _ _ _ _ (by rw [hf]; decide),
            storeAll_cons_ok _ _ _ _ _ hm]
          exact ih1
      · rename_i hf
        cases hm : storeInt st.Count v with
        | error e => simp [hm] at hs
        | ok s =>
          simp only [hm, Except.ok.injEq] at hs
          subst hs
          rw [memberValues_cons_hit _ _ _ _ _ hf,
            memberValues_cons_miss _ _ _ _ _ (by rw [hf]; decide),
            memberValues_cons_miss _ _ _ _ _ (by rw [hf]; decide),
            memberValues_cons_miss _ _ _ _ _ (by rw [hf]; decide),
            storeAll_cons_ok _ _ _ _ _ hm]
          exact ih1
      · rename_i h1 h2 h3 h4
        simp only [Except.ok.injEq] at hs
        subst hs
        rw [memberValues_cons_miss _ _ _ _ _ (fun h => h1 h),
          memberValues_cons_miss _ _ _ _ _ (fun h => h2 h),
          memberValues_cons_miss _ _ _ _ _ (fun h => h3 h),
          memberValues_cons_miss _ _ _ _ _ (fun h => h4 h)]
        exact ih1

/-- Each field of the decoded `CursorGetNextBatch` response is what storing,
in order, the values of the members selecting that field gives. -/
theorem nextBatchBody_fields {F : Type} (rt : GoRuntime F) (kvs : List (String × JSON)) :
    ∀ (st im : NextBatchBody F),
      kvs.foldlM (fun st kv => NextBatchBody.store rt st kv.1 kv.2) st = .ok im →
      storeAll (storeMapSlice rt) st.Results (memberValues nextBatchFields "results" kvs)
        = .ok im.Results ∧
      storeAll storeBool st.HasMore (memberValues nextBatchFields "hasMore" kvs)
        = .ok im.HasMore := by
  induction kvs with
  | nil =>
    intro st im h
    have : st = im := by simpa [List.foldlM_nil, pure, Except.pure] using h
    subst this
    exact ⟨rfl, rfl⟩
  | cons kv kvs ih =>
    intro st im h
    obtain ⟨k, v⟩ := kv
    rw [List.foldlM_cons] at h
    cases hs : NextBatchBody.store rt st k v with
    | error e => simp [hs, bind, Except.bind] at h
    | ok st1 =>
      simp only [hs, bind, Except.bind] at h
      have ih1 := ih st1 im h
      unfold NextBatchBody.store at hs
      split at hs
      · rename_i hf
        cases hm : storeMapSlice rt st.Results v with
        | error e => simp [hm] at hs
        | ok s =>
          simp only [hm, Except.ok.injEq] at hs
          subst hs
          rw [memberValues_cons_hit _ _ _ _ _ hf,
            memberValues_cons_miss _ _ _ _ _ (by rw [hf]; decide),
            storeAll_cons_ok _ _ _ _ _ hm]
          exact ih1
      · rename_i hf
        cases hm : storeBool st.HasMore v with
        | error e => simp [hm] at hs
        | ok s =>
          simp only [hm, Except.ok.injEq] at hs
          subst hs
          rw [memberValues_cons_hit _ _ _ _ _ hf,
            memberValues_cons_miss _ _ _ _ _ (by rw [hf]; decide),
            storeAll_cons_ok _ _ _ _ _ hm]
          exact ih1
      · rename_i h1 h2
        simp only [Except.ok.injEq] at hs
        subst hs
        rw [memberValues_cons_miss _ _ _ _ _ (fun h => h1 h),
          memberValues_cons_miss _ _ _ _ _ (fun h => h2 h)]
        exact ih1

/-- What `CursorQuery` returns once the transport has answered with a
success status and the body has decoded. -/
theorem CursorQuery_of_decoded {F : Type} (rt : GoRuntime F) (c : clientImpl)
    (params : Option CursorQueryParams) (b : JSON) (req : Request) (resp : Response)
    (im : CursorQueryBody F)
    (henc : encodeCursorQueryParams params = .ok b)
    (hreq : prepareRequest rt c "POST" cursorEndpoint none (some (.value b)) = .ok req)
    (hdo : c.httpClient.Do req = .ok resp)
    (hst : resp.StatusCode = 200 ∨ resp.StatusCode = 201)
    (hdec : decodeCursorQueryBody rt resp.Body = .ok im) :
    CursorQuery rt c params =
      .ok { Err := none, StatusCode := resp.StatusCode, Message := "",
            Documents := some (.value (encodeMapSlice rt im.Results)),
            Cursor := im.Cursor, HasMore := im.HasMore } := by
  simp only [CursorQuery, henc, hreq, hdo, hdec, encodeToBuffer]
  rw [if_pos hst]

/-- What `CursorGetNextBatch` returns once the transport has answered with a
success status and the body has decoded. -/
theorem CursorGetNextBatch_of_decoded {F : Type} (rt : GoRuntime F) (c : clientImpl)
    (cursorID : String) (req : Request) (resp : Response) (im : NextBatchBody F)
    (hreq : prepareRequest rt c "PUT" (cursorEndpoint ++ "/" ++ cursorID) none none = .ok req)
    (hdo : c.httpClient.Do req = .ok resp)
    (hst : resp.StatusCode = 200 ∨ resp.StatusCode = 201)
    (hdec : decodeNextBatchBody rt resp.Body = .ok im) :
    CursorGetNextBatch rt c cursorID =
      .ok { Err := none, StatusCode := resp.StatusCode, Message := "",
            Documents := some (.value (encodeMapSlice rt im.Results)),
            Cursor := "", HasMore := im.HasMore } := by
  simp only [CursorGetNextBatch, hreq, hdo, hdec, encodeToBuffer]
  rw [if_pos hst]

/-- What `CursorQuery` returns once the transport has answered with a status
other than 200 and 201. -/
theorem CursorQuery_of_failure {F : Type} (rt : GoRuntime F) (c : clientImpl)
    (params : Option CursorQueryParams) (b : JSON) (req : Request) (resp : Response)
    (henc : encodeCursorQueryParams params = .ok b)
    (hreq : prepareRequest rt c "POST" cursorEndpoint none (some (.value b)) = .ok req)
    (hdo : c.httpClient.Do req = .ok resp)
    (hst : ¬ (resp.StatusCode = 200 ∨ resp.StatusCode = 201)) :
    CursorQuery rt c params =
      .ok { Err := (prepareExceptionResponse resp).2, StatusCode := resp.StatusCode,
            Message := (prepareExceptionResponse resp).1,
            Documents := none, Cursor := "", HasMore := false } := by
  simp only [CursorQuery, henc, hreq, hdo]
  rw [if_neg hst]

/-- What `CursorGetNextBatch` returns once the transport has answered with a
status other than 200 and 201. -/
theorem CursorGetNextBatch_of_failure {F : Type} (rt : GoRuntime F) (c : clientImpl)
    (cursorID : String) (req : Request) (resp : Response)
    (hreq : prepareRequest rt c "PUT" (cursorEndpoint ++ "/" ++ cursorID) none none = .ok req)
    (hdo : c.httpClient.Do req = .ok resp)
    (hst : ¬ (resp.StatusCode = 200 ∨ resp.StatusCode = 201)) :
    CursorGetNextBatch rt c cursorID =
      .ok { Err := (prepareExceptionResponse resp).2, StatusCode := resp.StatusCode,
            Message := (prepareExceptionResponse resp).1,
            Documents := none, Cursor := "", HasMore := false } := by
  simp only [CursorGetNextBatch, hreq, hdo]
  rw [if_neg hst]

theorem storeAll_singleton {α : Type} (store : α → JSON → Except DecodeError α) (cur : α)
    (v : JSON) : storeAll store cur [v] = store cur v := by
  simp only [storeAll, List.foldlM_cons, List.foldlM_nil]
  cases store cur v <;> rfl

theorem decodeMapElems_length {F : Type} (rt : GoRuntime F) (xs : List JSON) :
    ∀ ms, decodeMapElems rt xs = .ok ms → ms.length = xs.length := by
  induction xs with
  | nil =>
    intro ms h
    simp only [decodeMapElems, Except.ok.injEq] at h
    subst h
    rfl
  | cons x xs ih =>
    intro ms h
    unfold decodeMapElems at h
    cases hx : storeMap rt none x with
    | error e => simp [hx] at h
    | ok m =>
      cases hr : decodeMapElems rt xs with
      | error e => simp [hx, hr] at h
      | ok rest =>
        simp only [hx, hr, Except.ok.injEq] at h
        subst h
        simp [ih rest hr]

/-- Decoding into an empty backing array starts every element from a nil map. -/
theorem decodeElemsInto_nil {F : Type} (rt : GoRuntime F) (xs : List JSON) :
    decodeElemsInto (storeMap rt) none [] xs = decodeMapElems rt xs := by
  induction xs with
  | nil => rfl
  | cons x xs ih =>
    simp only [decodeElemsInto, decodeMapElems, List.headD_nil, List.tail_nil, ih]
    cases storeMap rt none x with
    | error e => rfl
    | ok m => cases decodeMapElems rt xs <;> rfl

/-- An array stored into a nil slice is decoded element by element, each from
a nil map, and leaves nothing beyond the length of the slice. -/
theorem storeMapSlice_nil {F : Type} (rt : GoRuntime F) (xs : List JSON) :
    storeMapSlice rt none (.arr xs) =
      (match decodeMapElems rt xs with
       | .ok ms => .ok (some { elems := ms, spare := [] })
       | .error e => .error e) := by
  cases xs with
  | nil => rfl
  | cons x xs =>
    simp only [storeMapSlice, storeSlice, decodeElemsInto_nil, List.drop_nil]
    cases decodeMapElems rt (x :: xs) <;> rfl

/-- A single `results` member holding an array decodes element by element. -/
theorem storeMapSlice_single {F : Type} (rt : GoRuntime F) (r : Option (GoSlice (GoMap F)))
    (xs : List JSON) (h : storeAll (storeMapSlice rt) none [.arr xs] = .ok r) :
    ∃ ms, decodeMapElems rt xs = .ok ms ∧ ms.length = xs.length ∧
      r = some { elems := ms, spare := [] } := by
  rw [storeAll_singleton, storeMapSlice_nil] at h
  cases hd : decodeMapElems rt xs with
  | error e => simp [hd] at h
  | ok ms =>
    simp only [hd, Except.ok.injEq] at h
    exact ⟨ms, rfl, decodeMapElems_length rt xs ms hd, h.symm⟩

/-- C6: for every response with status 200 or 201 and a decodable body,
`CursorQuery` returns `Err = nil`, the response status, an empty `Message`,
`HasMore` equal to the body's `hasMore` and `Cursor` equal to the body's
`cursor`; when `cursor` is absent the `Cursor` is empty whatever `hasMore` is. -/
theorem CursorQuery_success {F : Type} (rt : GoRuntime F) (c : clientImpl)
    (params : Option CursorQueryParams) (b : JSON) (req : Request) (resp : Response)
    (im : CursorQueryBody F)
    (henc : encodeCursorQueryParams params = .ok b)
    (hreq : prepareRequest rt c "POST" cursorEndpoint none (some (.value b)) = .ok req)
    (hdo : c.httpClient.Do req = .ok resp)
    (hst : resp.StatusCode = 200 ∨ resp.StatusCode = 201)
    (hdec : decodeCursorQueryBody rt resp.Body = .ok im) :
    ∃ r, CursorQuery rt c params = .ok r ∧
      r.Err = none ∧ r.StatusCode = resp.StatusCode ∧ r.Message = "" ∧
      r.HasMore = im.HasMore ∧ r.Cursor = im.Cursor ∧
      (∀ kvs, resp.Body = .value (.obj kvs) →
        storeAll storeBool false (memberValues cursorQueryFields "hasMore" kvs) = .ok r.HasMore ∧
        storeAll storeString "" (memberValues cursorQueryFields "cursor" kvs) = .ok r.Cursor ∧
        (∀ hm, memberValues cursorQueryFields "hasMore" kvs = [.bool hm] → r.HasMore = hm) ∧
        (∀ h, memberValues cursorQueryFields "cursor" kvs = [.str h] → r.Cursor = h) ∧
        (memberValues cursorQueryFields "cursor" kvs = [] → r.Cursor = "")) ∧
      (resp.Body = .value .null → r.Cursor = "" ∧ r.HasMore = false) := by
  refine ⟨_, CursorQuery_of_decoded rt c params b req resp im henc hreq hdo hst hdec,
    rfl, rfl, rfl, rfl, rfl, ?_, ?_⟩
  · intro kvs hb
    rw [hb] at hdec
    obtain ⟨_, hc, hh, _⟩ := cursorQueryBody_fields rt kvs _ im hdec
    refine ⟨hh, hc, ?_, ?_, ?_⟩
    · intro hm hmv
      rw [hmv, storeAll_singleton] at hh
      simp only [storeBool, Except.ok.injEq] at hh
      exact hh.symm
    · intro h hmv
      rw [hmv, storeAll_singleton] at hc
      simp only [storeString, Except.ok.injEq] at hc
      exact hc.symm
    · intro hmv
      rw [hmv, storeAll_nil] at hc
      simp only [Except.ok.injEq] at hc
      exact hc.symm
  · intro hb
    rw [hb] at hdec
    have : ({ Results := none, Cursor := "", HasMore := false, Count := 0 } : CursorQueryBody F)
        = im := by
      simpa [decodeCursorQueryBody, decodeStruct] using hdec
    subst this
    exact ⟨rfl, rfl⟩

theorem CursorQuery_success_witness :
    ∃ r, CursorQuery wholeRuntime (testClient firstPage) none = .ok r ∧
      r.Err = none ∧ r.StatusCode = 200 ∧ r.Message = "" ∧ r.HasMore = true ∧ r.Cursor = "7" :=
  let ⟨r, hr, he, hs, hm, hh, hc, _⟩ :=
    CursorQuery_success wholeRuntime (testClient firstPage) none .null nilQueryRequest firstPage
      { Results := some ⟨[some [("name", .string "testname2"), ("status", .string "enabled")]], []⟩,
        Cursor := "7", HasMore := true, Count := 0 }
      rfl rfl rfl (Or.inl rfl) rfl
  ⟨r, hr, he, hs, hm, hh, hc⟩

/-- C7: for every cursor handle and every response with status 200 or 201 and
a decodable body, `CursorGetNextBatch` returns `Err = nil`, the response
status, `HasMore` equal to the body's `hasMore`, and `Documents` holding the
encoding of the body's `results`, one entry per received record; the last
batch comes back with `HasMore = false` and all its records. -/
theorem CursorGetNextBatch_success {F : Type} (rt : GoRuntime F) (c : clientImpl)
    (cursorID : String) (req : Request) (resp : Response) (im : NextBatchBody F)
    (hreq : prepareRequest rt c "PUT" (cursorEndpoint ++ "/" ++ cursorID) none none = .ok req)
    (hdo : c.httpClient.Do req = .ok resp)
    (hst : resp.StatusCode = 200 ∨ resp.StatusCode = 201)
    (hdec : decodeNextBatchBody rt resp.Body = .ok im) :
    ∃ r, CursorGetNextBatch rt c cursorID = .ok r ∧
      r.Err = none ∧ r.StatusCode = resp.StatusCode ∧ r.HasMore = im.HasMore ∧
      r.Documents = some (.value (encodeMapSlice rt im.Results)) ∧
      (∀ kvs, resp.Body = .value (.obj kvs) →
        storeAll storeBool false (memberValues nextBatchFields "hasMore" kvs) = .ok r.HasMore ∧
        storeAll (storeMapSlice rt) none (memberValues nextBatchFields "results" kvs)
          = .ok im.Results ∧
        (∀ hm, memberValues nextBatchFields "hasMore" kvs = [.bool hm] → r.HasMore = hm) ∧
        (∀ xs, memberValues nextBatchFields "results" kvs = [.arr xs] →
          ∃ ms, decodeMapElems rt xs = .ok ms ∧ ms.length = xs.length ∧
            r.Documents = some (.value (.arr (ms.map (encodeMap rt)))))) := by
  refine ⟨_, CursorGetNextBatch_of_decoded rt c cursorID req resp im hreq hdo hst hdec,
    rfl, rfl, rfl, rfl, ?_⟩
  intro kvs hb
  rw [hb] at hdec
  obtain ⟨hr, hh⟩ := nextBatchBody_fields rt kvs _ im hdec
  refine ⟨hh, hr, ?_, ?_⟩
  · intro hm hmv
    rw [hmv, storeAll_singleton] at hh
    simp only [storeBool, Except.ok.injEq] at hh
    exact hh.symm
  · intro xs hmv
    rw [hmv] at hr
    obtain ⟨ms, hms, hlen, hres⟩ := storeMapSlice_single rt _ xs hr
    refine ⟨ms, hms, hlen, ?_⟩
    simp only [hres, encodeMapSlice]

theorem CursorGetNextBatch_success_witness :
    ∃ r, CursorGetNextBatch wholeRuntime (testClient lastBatch) "7" = .ok r ∧
      r.Err = none ∧ r.StatusCode = 200 ∧ r.HasMore = false ∧
      r.Documents = some (.value (.arr [.obj [("name", .str "testname48")],
                                        .obj [("name", .str "testname50")]])) :=
  let ⟨r, hr, he, hs, hh, hd, _⟩ :=
    CursorGetNextBatch_success wholeRuntime (testClient lastBatch) "7" nextBatchRequest lastBatch
      { Results := some ⟨[some [("name", .string "testname48")],
          some [("name", .string "testname50")]], []⟩,
        HasMore := false }
      rfl rfl (Or.inl rfl) rfl
  ⟨r, hr, he, hs, hh, hd⟩

/-- C8: for every response whose status is neither 200 nor 201, `CursorQuery`
and `CursorGetNextBatch` return a result with nil `Documents`, empty `Cursor`,
`HasMore` false, the response status, and the `(Message, Err)` the classifier
gives for that response. -/
theorem cursor_failure_result {F : Type} (rt : GoRuntime F) (c : clientImpl) (resp : Response)
    (hst : resp.StatusCode ≠ 200 ∧ resp.StatusCode ≠ 201) :
    (∀ params b req, encodeCursorQueryParams params = .ok b →
      prepareRequest rt c "POST" cursorEndpoint none (some (.value b)) = .ok req →
      c.httpClient.Do req = .ok resp →
      ∃ r, CursorQuery rt c params = .ok r ∧ r.Documents = none ∧ r.Cursor = "" ∧
        r.HasMore = false ∧ r.StatusCode = resp.StatusCode ∧
        (r.Message, r.Err) = prepareExceptionResponse resp) ∧
    (∀ cursorID req,
      prepareRequest rt c "PUT" (cursorEndpoint ++ "/" ++ cursorID) none none = .ok req →
      c.httpClient.Do req = .ok resp →
      ∃ r, CursorGetNextBatch rt c cursorID = .ok r ∧ r.Documents = none ∧ r.Cursor = "" ∧
        r.HasMore = false ∧ r.StatusCode = resp.StatusCode ∧
        (r.Message, r.Err) = prepareExceptionResponse resp) := by
  have hst2 : ¬ (resp.StatusCode = 200 ∨ resp.StatusCode = 201) := by
    rintro (h | h)
    · exact hst.1 h
    · exact hst.2 h
  constructor
  · intro params b req henc hreq hdo
    exact ⟨_, CursorQuery_of_failure rt c params b req resp henc hreq hdo hst2,
      rfl, rfl, rfl, rfl, rfl⟩
  · intro cursorID req hreq hdo
    exact ⟨_, CursorGetNextBatch_of_failure rt c cursorID req resp hreq hdo hst2,
      rfl, rfl, rfl, rfl, rfl⟩

theorem cursor_failure_result_witness :
    ∃ r, CursorGetNextBatch wholeRuntime (testClient cursorNotFound) "7" = .ok r ∧
      r.Documents = none ∧ r.Cursor = "" ∧ r.HasMore = false ∧ r.StatusCode = 400 ∧
      (r.Message, r.Err) = ("Error 2016: Cursor not found", some GoError.ErrBadRequest) :=
  let ⟨r, hr, hd, hc, hh, hs, hm⟩ :=
    (cursor_failure_result wholeRuntime (testClient cursorNotFound) cursorNotFound
      ⟨by decide, by decide⟩).2 "7" nextBatchRequest rfl rfl
  ⟨r, hr, hd, hc, hh, hs, hm.trans (by decide)⟩

/-! ## The order of map keys -/

theorem runesLess_irrefl : ∀ l : List Char, runesLess l l = false
  | [] => rfl
  | a :: as => by simp [runesLess, runesLess_irrefl as]

theorem runesLess_asymm : ∀ a b : List Char, runesLess a b = true → runesLess b a = false
  | [], [], _ => rfl
  | [], _ :: _, _ => rfl
  | _ :: _, [], h => by simp [runesLess] at h
  | a :: as, b :: bs, h => by
    simp only [runesLess] at h ⊢
    by_cases h1 : a.toNat < b.toNat
    · have h2 : ¬ b.toNat < a.toNat := by omega
      have h3 : ¬ b.toNat = a.toNat := by omega
      simp [h2, h3]
    · by_cases h2 : a.toNat = b.toNat
      · simp only [h1, h2, if_true, if_false, lt_self_iff_false] at h
        simp [h2, runesLess_asymm as bs h]
      · simp [h1, h2] at h

theorem runesLess_trans : ∀ a b c : List Char,
    runesLess a b = true → runesLess b c = true → runesLess a c = true
  | [], [], _, h, _ => by simp [runesLess] at h
  | [], _ :: _, [], _, h => by simp [runesLess] at h
  | [], _ :: _, _ :: _, _, _ => rfl
  | _ :: _, [], _, h, _ => by simp [runesLess] at h
  | _ :: _, _ :: _, [], _, h => by simp [runesLess] at h
  | a :: as, b :: bs, c :: cs, hab, hbc => by
    simp only [runesLess] at hab hbc ⊢
    by_cases h1 : a.toNat < b.toNat
    · by_cases h2 : b.toNat < c.toNat
      · have : a.toNat < c.toNat := by omega
        simp [this]
      · by_cases h3 : b.toNat = c.toNat
        · have : a.toNat < c.toNat := by omega
          simp [this]
        · simp [h2, h3] at hbc
    · by_cases h2 : a.toNat = b.toNat
      · simp only [h1, h2, if_true, if_false, lt_self_iff_false] at hab
        by_cases h3 : b.toNat < c.toNat
        · have : a.toNat < c.toNat := by omega
          simp [this]
        · by_cases h4 : b.toNat = c.toNat
          · simp only [h3, h4, if_true, if_false, lt_self_iff_false] at hbc
            have h5 : a.toNat = c.toNat := by omega
            simp [h5, runesLess_trans as bs cs hab hbc]
          · simp [h3, h4] at hbc
      · simp [h1, h2] at hab

theorem runesLess_total : ∀ a b : List Char,
    runesLess a b = false → runesLess b a = false → a = b
  | [], [], _, _ => rfl
  | [], _ :: _, h, _ => by simp [runesLess] at h
  | _ :: _, [], _, h => by simp [runesLess] at h
  | a :: as, b :: bs, hab, hba => by
    simp only [runesLess] at hab hba
    by_cases h1 : a.toNat < b.toNat
    · simp [h1] at hab
    · by_cases h2 : b.toNat < a.toNat
      · simp [h2] at hba
      · have h3 : a.toNat = b.toNat := by omega
        have hc : a = b := by
          have := congrArg Char.ofNat h3
          simpa using this
        subst hc
        simp only [lt_self_iff_false, if_true, if_false] at hab hba
        rw [runesLess_total as bs hab hba]

theorem keyLess_irrefl (k : String) : keyLess k k = false := runesLess_irrefl k.data

theorem keyLess_asymm {a b : String} (h : keyLess a b = true) : keyLess b a = false :=
  runesLess_asymm a.data b.data h

theorem keyLess_trans {a b c : String} (h1 : keyLess a b = true) (h2 : keyLess b c = true) :
    keyLess a c = true :=
  runesLess_trans a.data b.data c.data h1 h2

theorem keyLess_total {a b : String} (h1 : keyLess a b = false) (h2 : a ≠ b) :
    keyLess b a = true := by
  cases h : keyLess b a with
  | true => rfl
  | false => exact absurd (String.ext (runesLess_total a.data b.data h1 h)) h2

theorem keyLess_ne {a b : String} (h : keyLess a b = true) : b ≠ a := by
  intro hab
  subst hab
  rw [keyLess_irrefl] at h
  exact Bool.noConfusion h

theorem keysAscending_iff (ks : List String) :
    keysAscending ks = true ↔ ks.Pairwise (fun a b => keyLess a b = true) := by
  induction ks with
  | nil => simp [keysAscending]
  | cons k ks ih =>
    simp only [keysAscending, Bool.and_eq_true, List.all_eq_true, List.pairwise_cons, ih]

/-! ## Maps kept in key order -/

theorem mapInsert_keys {α : Type} (k : String) (v : α) (m : List (String × α)) :
    ∀ x ∈ (mapInsert k v m).map Prod.fst, x = k ∨ x ∈ m.map Prod.fst := by
  induction m with
  | nil =>
    intro x hx
    simp only [mapInsert, List.map_cons, List.map_nil, List.mem_singleton] at hx
    exact Or.inl hx
  | cons kv rest ih =>
    obtain ⟨k2, v2⟩ := kv
    intro x hx
    unfold mapInsert at hx
    split at hx
    · simp only [List.map_cons, List.mem_cons] at hx ⊢
      exact hx
    · split at hx
      · rename_i hk
        subst hk
        simp only [List.map_cons, List.mem_cons] at hx ⊢
        rcases hx with h | h
        · exact Or.inl h
        · exact Or.inr (Or.inr h)
      · simp only [List.map_cons, List.mem_cons] at hx ⊢
        rcases hx with h | h
        · exact Or.inr (Or.inl h)
        · rcases ih x h with h2 | h2
          · exact Or.inl h2
          · exact Or.inr (Or.inr h2)

/-- Assignment keeps the entries of a map in strictly ascending key order. -/
theorem mapInsert_ascending {α : Type} (k : String) (v : α) (m : List (String × α))
    (h : keysAscending (m.map Prod.fst) = true) :
    keysAscending ((mapInsert k v m).map Prod.fst) = true := by
  induction m with
  | nil => simp [mapInsert, keysAscending]
  | cons kv rest ih =>
    obtain ⟨k2, v2⟩ := kv
    rw [keysAscending_iff] at h ⊢
    simp only [List.map_cons, List.pairwise_cons] at h
    obtain ⟨hall, hrest⟩ := h
    unfold mapInsert
    split
    · rename_i hlt
      simp only [List.map_cons, List.pairwise_cons, List.mem_cons]
      refine ⟨?_, hall, hrest⟩
      intro x hx
      rcases hx with hx | hx
      · rw [hx]; exact hlt
      · exact keyLess_trans hlt (hall x hx)
    · rename_i hnlt
      split
      · rename_i hk
        subst hk
        simp only [List.map_cons, List.pairwise_cons]
        exact ⟨hall, hrest⟩
      · rename_i hne
        simp only [List.map_cons, List.pairwise_cons]
        have hgt : keyLess k2 k = true :=
          keyLess_total (by simpa using hnlt) hne
        refine ⟨?_, ?_⟩
        · intro x hx
          rcases mapInsert_keys k v rest x hx with h1 | h1
          · rw [h1]; exact hgt
          · exact hall x h1
        · rw [← keysAscending_iff]
          exact ih ((keysAscending_iff _).2 hrest)

/-- Assigning a key above all present keys appends the entry. -/
theorem mapInsert_append {α : Type} (k : String) (v : α) (m : List (String × α))
    (h : ∀ x ∈ m.map Prod.fst, keyLess x k = true) :
    mapInsert k v m = m ++ [(k, v)] := by
  induction m with
  | nil => rfl
  | cons kv rest ih =>
    obtain ⟨k2, v2⟩ := kv
    have h2 : keyLess k2 k = true := h k2 (by simp)
    have h3 : keyLess k k2 = false := keyLess_asymm h2
    have h4 : ¬ k = k2 := keyLess_ne h2
    unfold mapInsert
    simp only [h3, h4, if_false, Bool.false_eq_true, List.cons_append, List.cons.injEq, true_and]
    exact ih (fun x hx => h x (by simp only [List.map_cons, List.mem_cons]; exact Or.inr hx))

/-! ## Decoded values satisfy the representation invariant -/

theorem mapInsert_wfEntries {F : Type} (k : String) (v : GoValue F) (m : List (String × GoValue F))
    (hv : v.WF) (hm : GoValue.WFEntries m) : GoValue.WFEntries (mapInsert k v m) := by
  induction m with
  | nil => simp [mapInsert, GoValue.WFEntries, hv]
  | cons kv rest ih =>
    obtain ⟨k2, v2⟩ := kv
    simp only [GoValue.WFEntries] at hm
    unfold mapInsert
    split
    · simp only [GoValue.WFEntries]
      exact ⟨hv, hm.1, hm.2⟩
    · split
      · simp only [GoValue.WFEntries]
        exact ⟨hv, hm.2⟩
      · simp only [GoValue.WFEntries]
        exact ⟨hm.1, ih hm.2⟩

mutual
theorem decodeInterface_wf {F : Type} (rt : GoRuntime F) :
    ∀ (j : JSON) (v : GoValue F), decodeInterface rt j = .ok v → v.WF
  | .null, v, h => by
    simp only [decodeInterface, Except.ok.injEq] at h
    subst h
    simp [GoValue.WF]
  | .bool b, v, h => by
    simp only [decodeInterface, Except.ok.injEq] at h
    subst h
    simp [GoValue.WF]
  | .num n, v, h => by
    simp only [decodeInterface] at h
    cases hp : rt.parseFloat n with
    | none => simp [hp] at h
    | some f =>
      simp only [hp, Except.ok.injEq] at h
      subst h
      simp [GoValue.WF]
  | .str s, v, h => by
    simp only [decodeInterface, Except.ok.injEq] at h
    subst h
    simp [GoValue.WF]
  | .arr xs, v, h => by
    simp only [decodeInterface] at h
    cases hx : decodeElems rt xs with
    | error e => simp [hx] at h
    | ok vs =>
      simp only [hx, Except.ok.injEq] at h
      subst h
      simp only [GoValue.WF]
      exact decodeElems_wf rt xs vs hx
  | .obj kvs, v, h => by
    simp only [decodeInterface] at h
    cases hx : decodeMembers rt kvs [] with
    | error e => simp [hx] at h
    | ok m =>
      simp only [hx, Except.ok.injEq] at h
      subst h
      simp only [GoValue.WF]
      exact decodeMembers_wf rt kvs [] m hx rfl (by simp [GoValue.WFEntries])
theorem decodeElems_wf {F : Type} (rt : GoRuntime F) :
    ∀ (xs : List JSON) (vs : List (GoValue F)), decodeElems rt xs = .ok vs → GoValue.WFList vs
  | [], vs, h => by
    simp only [decodeElems, Except.ok.injEq] at h
    subst h
    simp [GoValue.WFList]
  | x :: xs, vs, h => by
    simp only [decodeElems] at h
    cases hx : decodeInterface rt x with
    | error e => simp [hx] at h
    | ok v =>
      cases hr : decodeElems rt xs with
      | error e => simp [hx, hr] at h
      | ok rest =>
        simp only [hx, hr, Except.ok.injEq] at h
        subst h
        simp only [GoValue.WFList]
        exact ⟨decodeInterface_wf rt x v hx, decodeElems_wf rt xs rest hr⟩
theorem decodeMembers_wf {F : Type} (rt : GoRuntime F) :
    ∀ (kvs : List (String × JSON)) (acc m : List (String × GoValue F)),
      decodeMembers rt kvs acc = .ok m →
      keysAscending (acc.map Prod.fst) = true → GoValue.WFEntries acc →
      keysAscending (m.map Prod.fst) = true ∧ GoValue.WFEntries m
  | [], acc, m, h, ha, hw => by
    simp only [decodeMembers, Except.ok.injEq] at h
    subst h
    exact ⟨ha, hw⟩
  | (k, x) :: rest, acc, m, h, ha, hw => by
    simp only [decodeMembers] at h
    cases hx : decodeInterface rt x with
    | error e => simp [hx] at h
    | ok v =>
      simp only [hx] at h
      exact decodeMembers_wf rt rest (mapInsert k v acc) m h
        (mapInsert_ascending k v acc ha)
        (mapInsert_wfEntries k v acc (decodeInterface_wf rt x v hx) hw)
end

theorem storeMap_wf {F : Type} (rt : GoRuntime F) (x : JSON) (m : GoMap F)
    (h : storeMap rt none x = .ok m) : GoMap.WF m := by
  unfold storeMap at h
  split at h
  · simp only [Except.ok.injEq] at h
    subst h
    simp [GoMap.WF]
  · rename_i kvs
    cases hx : decodeMembers rt kvs [] with
    | error e => simp [hx] at h
    | ok r =>
      simp only [Option.getD_none, hx, Except.ok.injEq] at h
      subst h
      simp only [GoMap.WF]
      exact decodeMembers_wf rt kvs [] r hx rfl (by simp [GoValue.WFEntries])
  · simp at h

theorem decodeMapElems_wf {F : Type} (rt : GoRuntime F) (xs : List JSON) :
    ∀ ms, decodeMapElems rt xs = .ok ms → ∀ m ∈ ms, GoMap.WF m := by
  induction xs with
  | nil =>
    intro ms h
    simp only [decodeMapElems, Except.ok.injEq] at h
    subst h
    simp
  | cons x xs ih =>
    intro ms h
    unfold decodeMapElems at h
    cases hx : storeMap rt none x with
    | error e => simp [hx] at h
    | ok m =>
      cases hr : decodeMapElems rt xs with
      | error e => simp [hx, hr] at h
      | ok rest =>
        simp only [hx, hr, Except.ok.injEq] at h
        subst h
        intro m2 hm2
        simp only [List.mem_cons] at hm2
        rcases hm2 with h1 | h1
        · subst h1
          exact storeMap_wf rt x _ hx
        · exact ih rest hr m2 h1

/-! ## Decoding what the encoder wrote -/

theorem ascending_append_cons {α : Type} (acc : List (String × α)) (k : String) (x : α)
    (rest : List (String × α))
    (h : keysAscending ((acc ++ (k, x) :: rest).map Prod.fst) = true) :
    (∀ a ∈ acc.map Prod.fst, keyLess a k = true) ∧
    keysAscending (((acc ++ [(k, x)]) ++ rest).map Prod.fst) = true := by
  refine ⟨?_, ?_⟩
  · rw [keysAscending_iff] at h
    simp only [List.map_append, List.map_cons, List.pairwise_append, List.mem_cons] at h
    intro a ha
    exact h.2.2 a ha k (Or.inl rfl)
  · simpa [List.append_assoc] using h

mutual
theorem decode_encodeValue {F : Type} (rt : GoRuntime F)
    (hrt : ∀ f, rt.parseFloat (rt.formatFloat f) = some f) :
    ∀ v : GoValue F, v.WF → decodeInterface rt (encodeValue rt v) = .ok v
  | .nil, _ => by simp [encodeValue, decodeInterface]
  | .bool b, _ => by simp [encodeValue, decodeInterface]
  | .float64 f, _ => by simp [encodeValue, decodeInterface, hrt]
  | .string s, _ => by simp [encodeValue, decodeInterface]
  | .slice xs, h => by
    simp only [GoValue.WF] at h
    simp [encodeValue, decodeInterface, decode_encodeValues rt hrt xs h]
  | .map kvs, h => by
    simp only [GoValue.WF] at h
    have := decode_encodeEntries rt hrt kvs [] (by simpa using h.1) h.2
    simp [encodeValue, decodeInterface, this]
theorem decode_encodeValues {F : Type} (rt : GoRuntime F)
    (hrt : ∀ f, rt.parseFloat (rt.formatFloat f) = some f) :
    ∀ vs : List (GoValue F), GoValue.WFList vs → decodeElems rt (encodeValues rt vs) = .ok vs
  | [], _ => by simp [encodeValues, decodeElems]
  | v :: vs, h => by
    simp only [GoValue.WFList] at h
    simp [encodeValues, decodeElems, decode_encodeValue rt hrt v h.1,
      decode_encodeValues rt hrt vs h.2]
theorem decode_encodeEntries {F : Type} (rt : GoRuntime F)
    (hrt : ∀ f, rt.parseFloat (rt.formatFloat f) = some f) :
    ∀ (kvs acc : List (String × GoValue F)),
      keysAscending ((acc ++ kvs).map Prod.fst) = true → GoValue.WFEntries kvs →
      decodeMembers rt (encodeEntries rt kvs) acc = .ok (acc ++ kvs)
  | [], acc, _, _ => by simp [encodeEntries, decodeMembers]
  | (k, x) :: rest, acc, ha, hw => by
    simp only [GoValue.WFEntries] at hw
    obtain ⟨hlt, hasc⟩ := ascending_append_cons acc k x rest ha
    simp only [encodeEntries, decodeMembers, decode_encodeValue rt hrt x hw.1,
      mapInsert_append k x acc hlt]
    rw [decode_encodeEntries rt hrt rest (acc ++ [(k, x)]) hasc hw.2]
    simp [List.append_assoc]
end

theorem decode_encodeMap {F : Type} (rt : GoRuntime F)
    (hrt : ∀ f, rt.parseFloat (rt.formatFloat f) = some f) (m : GoMap F) (h : GoMap.WF m) :
    storeMap rt none (encodeMap rt m) = .ok m := by
  cases m with
  | none => rfl
  | some kvs =>
    simp only [GoMap.WF] at h
    have := decode_encodeEntries rt hrt kvs [] (by simpa using h.1) h.2
    simp [encodeMap, storeMap, this]

theorem decode_encodeMaps {F : Type} (rt : GoRuntime F)
    (hrt : ∀ f, rt.parseFloat (rt.formatFloat f) = some f) (ms : List (GoMap F))
    (h : ∀ m ∈ ms, GoMap.WF m) :
    decodeMapElems rt (ms.map (encodeMap rt)) = .ok ms := by
  induction ms with
  | nil => rfl
  | cons m ms ih =>
    simp only [List.map_cons, decodeMapElems,
      decode_encodeMap rt hrt m (h m (List.mem_cons_self m ms)),
      ih (fun m2 hm2 => h m2 (List.mem_cons_of_mem m hm2))]

/-- The records a successful decode produced are what decoding their own
encoding produces. -/
theorem decodeMapSlice_encodeMapSlice {F : Type} (rt : GoRuntime F)
    (hrt : ∀ f, rt.parseFloat (rt.formatFloat f) = some f) (xs : List JSON) (ms : List (GoMap F))
    (h : decodeMapElems rt xs = .ok ms) :
    decodeMapSlice rt (.value (encodeMapSlice rt (some { elems := ms, spare := [] })))
      = .ok (some { elems := ms, spare := [] }) := by
  simp only [decodeMapSlice, encodeMapSlice, storeMapSlice_nil,
    decode_encodeMaps rt hrt ms (decodeMapElems_wf rt xs ms h)]

theorem decodeMapElems_get {F : Type} (rt : GoRuntime F) (xs : List JSON) :
    ∀ (ms : List (GoMap F)), decodeMapElems rt xs = .ok ms →
      ∀ (i : Nat) (x : JSON), xs[i]? = some x →
        ∃ m, ms[i]? = some m ∧ storeMap rt none x = .ok m := by
  induction xs with
  | nil =>
    intro ms _ i x hx
    simp at hx
  | cons y ys ih =>
    intro ms h i x hx
    unfold decodeMapElems at h
    cases hy : storeMap rt none y with
    | error e => simp [hy] at h
    | ok m =>
      cases hr : decodeMapElems rt ys with
      | error e => simp [hy, hr] at h
      | ok rest =>
        simp only [hy, hr, Except.ok.injEq] at h
        subst h
        cases i with
        | zero =>
          simp only [List.getElem?_cons_zero, Option.some.injEq] at hx
          subst hx
          exact ⟨m, by simp, hy⟩
        | succ n =>
          simp only [List.getElem?_cons_succ] at hx
          obtain ⟨m2, h1, h2⟩ := ih rest hr n x hx
          exact ⟨m2, by simpa using h1, h2⟩

/-! ## Re-encoding what was decoded -/

theorem ascending_keys_append_cons (acc : List String) (k : String) (rest : List String)
    (h : keysAscending (acc ++ k :: rest) = true) :
    (∀ a ∈ acc, keyLess a k = true) ∧ keysAscending ((acc ++ [k]) ++ rest) = true := by
  refine ⟨?_, ?_⟩
  · rw [keysAscending_iff] at h
    simp only [List.pairwise_append, List.mem_cons] at h
    intro a ha
    exact h.2.2 a ha k (Or.inl rfl)
  · simpa [List.append_assoc] using h

mutual
theorem encode_decodeInterface {F : Type} [DecidableEq F] (rt : GoRuntime F) :
    ∀ j : JSON, canonical rt j = true →
      ∃ v, decodeInterface rt j = .ok v ∧ encodeValue rt v = j
  | .null, _ => ⟨.nil, by simp [decodeInterface], by simp [encodeValue]⟩
  | .bool b, _ => ⟨.bool b, by simp [decodeInterface], by simp [encodeValue]⟩
  | .num n, h => by
    simp only [canonical] at h
    cases hp : rt.parseFloat n with
    | none => simp [hp] at h
    | some f =>
      simp only [hp, decide_eq_true_eq] at h
      exact ⟨.float64 f, by simp [decodeInterface, hp], by simp [encodeValue, h]⟩
  | .str s, _ => ⟨.string s, by simp [decodeInterface], by simp [encodeValue]⟩
  | .arr xs, h => by
    simp only [canonical] at h
    obtain ⟨vs, h1, h2⟩ := encode_decodeElems rt xs h
    exact ⟨.slice vs, by simp [decodeInterface, h1], by simp [encodeValue, h2]⟩
  | .obj kvs, h => by
    simp only [canonical, Bool.and_eq_true] at h
    obtain ⟨m, h1, h2⟩ := encode_decodeMembers rt kvs h.2 [] (by simpa using h.1)
    simp only [List.nil_append] at h1
    exact ⟨.map m, by simp [decodeInterface, h1], by simp [encodeValue, h2]⟩
theorem encode_decodeElems {F : Type} [DecidableEq F] (rt : GoRuntime F) :
    ∀ xs : List JSON, canonicalElems rt xs = true →
      ∃ vs, decodeElems rt xs = .ok vs ∧ encodeValues rt vs = xs
  | [], _ => ⟨[], by simp [decodeElems], by simp [encodeValues]⟩
  | x :: xs, h => by
    simp only [canonicalElems, Bool.and_eq_true] at h
    obtain ⟨v, h1, h2⟩ := encode_decodeInterface rt x h.1
    obtain ⟨vs, h3, h4⟩ := encode_decodeElems rt xs h.2
    exact ⟨v :: vs, by simp [decodeElems, h1, h3], by simp [encodeValues, h2, h4]⟩
theorem encode_decodeMembers {F : Type} [DecidableEq F] (rt : GoRuntime F) :
    ∀ kvs : List (String × JSON), canonicalMembers rt kvs = true →
      ∀ acc : List (String × GoValue F),
        keysAscending (acc.map Prod.fst ++ kvs.map Prod.fst) = true →
        ∃ m, decodeMembers rt kvs acc = .ok (acc ++ m) ∧ encodeEntries rt m = kvs
  | [], _, acc, _ => ⟨[], by simp [decodeMembers], by simp [encodeEntries]⟩
  | (k, x) :: rest, h, acc, ha => by
    simp only [canonicalMembers, Bool.and_eq_true] at h
    obtain ⟨v, h1, h2⟩ := encode_decodeInterface rt x h.1
    simp only [List.map_cons] at ha
    obtain ⟨hlt, hasc⟩ := ascending_keys_append_cons _ k _ ha
    obtain ⟨m, h3, h4⟩ := encode_decodeMembers rt rest h.2 (acc ++ [(k, v)])
      (by simpa using hasc)
    refine ⟨(k, v) :: m, ?_, by simp [encodeEntries, h2, h4]⟩
    simp only [decodeMembers, h1, mapInsert_append k v acc hlt, h3]
    simp [List.append_assoc]
end

theorem encode_storeMap {F : Type} [DecidableEq F] (rt : GoRuntime F) (x : JSON) (m : GoMap F)
    (hc : canonical rt x = true) (h : storeMap rt none x = .ok m) : encodeMap rt m = x := by
  unfold storeMap at h
  split at h
  · simp only [Except.ok.injEq] at h
    subst h
    rfl
  · rename_i kvs
    simp only [canonical, Bool.and_eq_true] at hc
    obtain ⟨r, h1, h2⟩ := encode_decodeMembers rt kvs hc.2 [] (by simpa using hc.1)
    simp only [Option.getD_none, h1, List.nil_append, Except.ok.injEq] at h
    subst h
    simp [encodeMap, h2]
  · simp at h

/-- Canonical records come back from decode and re-encode as they were. -/
theorem encode_decodeMapElems {F : Type} [DecidableEq F] (rt : GoRuntime F) (xs : List JSON) :
    ∀ ms : List (GoMap F), canonicalElems rt xs = true → decodeMapElems rt xs = .ok ms →
      ms.map (encodeMap rt) = xs := by
  induction xs with
  | nil =>
    intro ms _ h
    simp only [decodeMapElems, Except.ok.injEq] at h
    subst h
    rfl
  | cons x xs ih =>
    intro ms hc h
    simp only [canonicalElems, Bool.and_eq_true] at hc
    unfold decodeMapElems at h
    cases hx : storeMap rt none x with
    | error e => simp [hx] at h
    | ok m =>
      cases hr : decodeMapElems rt xs with
      | error e => simp [hx, hr] at h
      | ok rest =>
        simp only [hx, hr, Except.ok.injEq] at h
        subst h
        simp [encode_storeMap rt x m hc.1 hx, ih rest hc.2 hr]

/-- The keys of every object the encoder writes are strictly ascending. -/
theorem encodeEntries_keys {F : Type} (rt : GoRuntime F) (kvs : List (String × GoValue F)) :
    (encodeEntries rt kvs).map Prod.fst = kvs.map Prod.fst := by
  induction kvs with
  | nil => rfl
  | cons kv rest ih =>
    obtain ⟨k, v⟩ := kv
    simp [encodeEntries, ih]

/-! ## The `Documents` stream -/

theorem wholeRuntime_parse_format (f : Int) :
    wholeRuntime.parseFloat (wholeRuntime.formatFloat f) = some f := by
  simp only [wholeRuntime, and_self, if_true, Option.some.injEq, decide_eq_true_eq]
  split <;> omega

/-- C9 as stated fails: a record received as `{"name":"n1","_key":"1"}` comes
back in `Documents` as `{"_key":"1","name":"n1"}`, so decode followed by
re-encode is not the identity on the received value. -/
theorem documents_key_order_counterexample :
    (CursorQuery wholeRuntime (testClient unsortedPage) none).map
        (fun r => (r.Err, r.Documents))
      = .ok (none, some (.value (.arr [.obj [("_key", .str "1"), ("name", .str "n1")]]))) ∧
    JSON.arr [.obj [("_key", .str "1"), ("name", .str "n1")]]
      ≠ JSON.arr [.obj [("name", .str "n1"), ("_key", .str "1")]] :=
  ⟨rfl, by simp⟩

/-- C9, amended: for every successful `CursorQuery` or `CursorGetNextBatch`
response whose `results` member is an array, `Documents` holds the encoding of
the decoded records, whose maps are in ascending key order at every depth; it
equals the received array whenever that array is canonical (the keys of every
object strictly ascending and every number the literal the encoder writes for
its `float64`). -/
theorem documents_roundtrip_canonical {F : Type} [DecidableEq F] (rt : GoRuntime F)
    (c : clientImpl) (resp : Response) (kvs : List (String × JSON)) (xs : List JSON)
    (hst : resp.StatusCode = 200 ∨ resp.StatusCode = 201)
    (hb : resp.Body = .value (.obj kvs)) :
    (∀ params b req im, encodeCursorQueryParams params = .ok b →
      prepareRequest rt c "POST" cursorEndpoint none (some (.value b)) = .ok req →
      c.httpClient.Do req = .ok resp →
      decodeCursorQueryBody rt resp.Body = .ok im →
      memberValues cursorQueryFields "results" kvs = [.arr xs] →
      ∃ r ms, CursorQuery rt c params = .ok r ∧ decodeMapElems rt xs = .ok ms ∧
        r.Documents = some (.value (.arr (ms.map (encodeMap rt)))) ∧
        (∀ m ∈ ms, GoMap.WF m) ∧
        (canonicalElems rt xs = true → r.Documents = some (.value (.arr xs)))) ∧
    (∀ cursorID req im,
      prepareRequest rt c "PUT" (cursorEndpoint ++ "/" ++ cursorID) none none = .ok req →
      c.httpClient.Do req = .ok resp →
      decodeNextBatchBody rt resp.Body = .ok im →
      memberValues nextBatchFields "results" kvs = [.arr xs] →
      ∃ r ms, CursorGetNextBatch rt c cursorID = .ok r ∧ decodeMapElems rt xs = .ok ms ∧
        r.Documents = some (.value (.arr (ms.map (encodeMap rt)))) ∧
        (∀ m ∈ ms, GoMap.WF m) ∧
        (canonicalElems rt xs = true → r.Documents = some (.value (.arr xs)))) := by
  constructor
  · intro params b req im henc hreq hdo hdec hres
    have hdec2 := hdec
    rw [hb] at hdec2
    obtain ⟨hr, _⟩ := cursorQueryBody_fields rt kvs _ im hdec2
    rw [hres] at hr
    obtain ⟨ms, hms, _, him⟩ := storeMapSlice_single rt _ xs hr
    refine ⟨_, ms, CursorQuery_of_decoded rt c params b req resp im henc hreq hdo hst hdec,
      hms, ?_, decodeMapElems_wf rt xs ms hms, ?_⟩
    · simp only [him, encodeMapSlice]
    · intro hc
      simp only [him, encodeMapSlice, encode_decodeMapElems rt xs ms hc hms]
  · intro cursorID req im hreq hdo hdec hres
    have hdec2 := hdec
    rw [hb] at hdec2
    obtain ⟨hr, _⟩ := nextBatchBody_fields rt kvs _ im hdec2
    rw [hres] at hr
    obtain ⟨ms, hms, _, him⟩ := storeMapSlice_single rt _ xs hr
    refine ⟨_, ms, CursorGetNextBatch_of_decoded rt c cursorID req resp im hreq hdo hst hdec,
      hms, ?_, decodeMapElems_wf rt xs ms hms, ?_⟩
    · simp only [him, encodeMapSlice]
    · intro hc
      simp only [him, encodeMapSlice, encode_decodeMapElems rt xs ms hc hms]

theorem documents_roundtrip_canonical_witness :
    ∃ r, CursorGetNextBatch wholeRuntime (testClient sortedPage) "7" = .ok r ∧
      r.Documents = some (.value (.arr [.obj [("_key", .num ⟨false, 1, [], none⟩),
                                              ("name", .str "n1")]])) :=
  let ⟨r, _, hr, _, _, _, hc⟩ :=
    (documents_roundtrip_canonical wholeRuntime (testClient sortedPage) sortedPage
      [("results", .arr [.obj [("_key", .num ⟨false, 1, [], none⟩), ("name", .str "n1")]]),
       ("hasMore", .bool false)]
      [.obj [("_key", .num ⟨false, 1, [], none⟩), ("name", .str "n1")]]
      (Or.inl rfl) rfl).2 "7" nextBatchRequest
      { Results := some ⟨[some [("_key", .float64 1), ("name", .string "n1")]], []⟩,
        HasMore := false }
      rfl rfl rfl rfl
  ⟨r, hr, hc rfl⟩

/-! ## Every operation reports what the classifier returns -/

/-- What `CreateColl` returns once the transport has answered with a status
neither 200 nor 201. -/
theorem CreateColl_of_failure {F : Type} (rt : GoRuntime F) (c : clientImpl)
    (name : String) (b : JSON) (resp : Response)
    (henc : encodeCollName name = .ok b)
    (hd : dispatched c
      (prepareRequest rt c "POST" createCollEndpoint none (some (.value b))) resp)
    (h200 : resp.StatusCode ≠ 200) (h201 : resp.StatusCode ≠ 201) :
    CreateColl rt c name =
      .ok { Err := (prepareExceptionResponse resp).2, StatusCode := resp.StatusCode,
            Message := (prepareExceptionResponse resp).1 } := by
  obtain ⟨req, hreq, hdo⟩ := hd
  simp only [CreateColl, henc, hreq, hdo]
  rw [if_neg (by rintro (h | h) <;> contradiction)]

/-- What `CreateGraph` returns once the transport has answered with a status
neither 200 nor 201. -/
theorem CreateGraph_of_failure {F : Type} (rt : GoRuntime F) (c : clientImpl)
    (graphDef : Option Graph) (b : JSON) (resp : Response)
    (henc : encodeGraph graphDef = .ok b)
    (hd : dispatched c
      (prepareRequest rt c "POST" graphEndpoint none (some (.value b))) resp)
    (h200 : resp.StatusCode ≠ 200) (h201 : resp.StatusCode ≠ 201) :
    CreateGraph rt c graphDef =
      .ok { Err := (prepareExceptionResponse resp).2, StatusCode := resp.StatusCode,
            Message := (prepareExceptionResponse resp).1 } := by
  obtain ⟨req, hreq, hdo⟩ := hd
  simp only [CreateGraph, henc, hreq, hdo]
  rw [if_neg (by rintro (h | h) <;> contradiction)]

/-- What `CreateRelation` returns once the transport has answered with a status
neither 200 nor 201. -/
theorem CreateRelation_of_failure {F : Type} (rt : GoRuntime F) (c : clientImpl)
    (graph : String) (relation : Option Relation) (b : JSON) (resp : Response)
    (henc : encodeRelation relation = .ok b)
    (hd : dispatched c
      (prepareRequest rt c "POST" (graphEndpoint ++ "/" ++ graph ++ relationEndpoint) none (some (.value b))) resp)
    (h200 : resp.StatusCode ≠ 200) (h201 : resp.StatusCode ≠ 201) :
    CreateRelation rt c graph relation =
      .ok { Err := (prepareExceptionResponse resp).2, StatusCode := resp.StatusCode,
            Message := (prepareExceptionResponse resp).1 } := by
  obtain ⟨req, hreq, hdo⟩ := hd
  simp only [CreateRelation, henc, hreq, hdo]
  rw [if_neg (by rintro (h | h) <;> contradiction)]

/-- What `GetIndexes` returns once the transport has answered with a status
other than 200. -/
theorem GetIndexes_of_failure {F : Type} (rt : GoRuntime F) (c : clientImpl)
    (coll : String) (resp : Response)
    (hd : dispatched c
      (prepareRequest rt c "GET" (indexEndpoint ++ "/" ++ coll) none none) resp)
    (h200 : resp.StatusCode ≠ 200) :
    GetIndexes rt c coll =
      .ok { Err := (prepareExceptionResponse resp).2, StatusCode := resp.StatusCode,
            Message := (prepareExceptionResponse resp).1 } := by
  obtain ⟨req, hreq, hdo⟩ := hd
  simp only [GetIndexes, hreq, hdo]
  rw [if_neg h200]

/-- What `RemoveIndex` returns once the transport has answered with a status
other than 200. -/
theorem RemoveIndex_of_failure {F : Type} (rt : GoRuntime F) (c : clientImpl)
    (handle : String) (resp : Response)
    (hd : dispatched c
      (prepareRequest rt c "DELETE" (indexEndpoint ++ "/" ++ handle) none none) resp)
    (h200 : resp.StatusCode ≠ 200) :
    RemoveIndex rt c handle =
      .ok { Err := (prepareExceptionResponse resp).2, StatusCode := resp.StatusCode,
            Message := (prepareExceptionResponse resp).1 } := by
  obtain ⟨req, hreq, hdo⟩ := hd
  simp only [RemoveIndex, hreq, hdo]
  rw [if_neg h200]

/-- What `CreateIndex` returns once the transport has answered with a status
other than 201. -/
theorem CreateIndex_of_failure {F : Type} (rt : GoRuntime F) (c : clientImpl)
    (params : Option IndexParams) (b : JSON) (resp : Response)
    (henc : encodeIndexParams params = .ok b)
    (hd : dispatched c
      (prepareRequest rt c "POST" indexEndpoint none (some (.value b))) resp)
    (h201 : resp.StatusCode ≠ 201) :
    CreateIndex rt c params =
      .ok { Err := (prepareExceptionResponse resp).2, StatusCode := resp.StatusCode,
            Message := (prepareExceptionResponse resp).1 } := by
  obtain ⟨req, hreq, hdo⟩ := hd
  simp only [CreateIndex, henc, hreq, hdo]
  rw [if_pos h201]

/-- What `CreateDoc` returns once the transport has answered with a status
neither 200 nor 201. -/
theorem CreateDoc_of_failure {F : Type} (rt : GoRuntime F) (c : clientImpl)
    (coll : String) (doc : GoAny) (b : JSON) (resp : Response)
    (henc : doc = .ok b)
    (hd : dispatched c
      (prepareRequest rt c "POST" ("/" ++ coll) none (some (.value b))) resp)
    (h200 : resp.StatusCode ≠ 200) (h201 : resp.StatusCode ≠ 201) :
    CreateDoc rt c coll doc =
      .ok { Err := (prepareExceptionResponse resp).2, StatusCode := resp.StatusCode,
            Message := (prepareExceptionResponse resp).1 } := by
  obtain ⟨req, hreq, hdo⟩ := hd
  subst henc
  simp only [CreateDoc, hreq, hdo]
  rw [if_neg (by rintro (h | h) <;> contradiction)]

/-- What `GetDocs` returns once the transport has answered with a status
other than 200. -/
theorem GetDocs_of_failure {F : Type} (rt : GoRuntime F) (c : clientImpl)
    (coll : String) (params : DocumentRetrievalParams) (resp : Response)
    (hd : dispatched c
      (prepareRequest rt c "GET" ("/" ++ coll) (some (getDocsParams params)) none) resp)
    (h200 : resp.StatusCode ≠ 200) :
    GetDocs rt c coll (some params) =
      .ok { Err := (prepareExceptionResponse resp).2, StatusCode := resp.StatusCode,
            Message := (prepareExceptionResponse resp).1 } := by
  obtain ⟨req, hreq, hdo⟩ := hd
  simp only [GetDocs, hreq, hdo]
  rw [if_neg h200]

/-- What `GetDoc` returns once the transport has answered with a status
other than 200. -/
theorem GetDoc_of_failure {F : Type} (rt : GoRuntime F) (c : clientImpl)
    (coll key : String) (resp : Response)
    (hd : dispatched c
      (prepareRequest rt c "GET" ("/" ++ coll ++ "/" ++ key) none none) resp)
    (h200 : resp.StatusCode ≠ 200) :
    GetDoc rt c coll key =
      .ok { Err := (prepareExceptionResponse resp).2, StatusCode := resp.StatusCode,
            Message := (prepareExceptionResponse resp).1 } := by
  obtain ⟨req, hreq, hdo⟩ := hd
  simp only [GetDoc, hreq, hdo]
  rw [if_neg h200]

/-- What `UpdateDoc` returns once the transport has answered with a status
other than 200. -/
theorem UpdateDoc_of_failure {F : Type} (rt : GoRuntime F) (c : clientImpl)
    (coll key : String) (doc : GoAny) (b : JSON) (resp : Response)
    (henc : doc = .ok b)
    (hd : dispatched c
      (prepareRequest rt c "PUT" ("/" ++ coll ++ "/" ++ key) none (some (.value b))) resp)
    (h200 : resp.StatusCode ≠ 200) :
    UpdateDoc rt c coll key doc =
      .ok { Err := (prepareExceptionResponse resp).2, StatusCode := resp.StatusCode,
            Message := (prepareExceptionResponse resp).1 } := by
  obtain ⟨req, hreq, hdo⟩ := hd
  subst henc
  simp only [UpdateDoc, hreq, hdo]
  rw [if_neg h200]

/-- What `InsertQuery` returns once the transport has answered with a status
neither 200 nor 201. -/
theorem InsertQuery_of_failure {F : Type} (rt : GoRuntime F) (c : clientImpl)
    (params : Option ModifyingQueryParams) (b : JSON) (resp : Response)
    (henc : encodeModifyingQueryParams params = .ok b)
    (hd : dispatched c
      (prepareRequest rt c "POST" "/insert" none (some (.value b))) resp)
    (h200 : resp.StatusCode ≠ 200) (h201 : resp.StatusCode ≠ 201) :
    InsertQuery rt c params =
      .ok { Err := (prepareExceptionResponse resp).2, StatusCode := resp.StatusCode,
            Message := (prepareExceptionResponse resp).1 } := by
  obtain ⟨req, hreq, hdo⟩ := hd
  simp only [InsertQuery, henc, hreq, hdo]
  rw [if_neg (by rintro (h | h) <;> contradiction)]

/-- What `UpdateQuery` returns once the transport has answered with a status
neither 200 nor 201. -/
theorem UpdateQuery_of_failure {F : Type} (rt : GoRuntime F) (c : clientImpl)
    (params : Option ModifyingQueryParams) (b : JSON) (resp : Response)
    (henc : encodeModifyingQueryParams params = .ok b)
    (hd : dispatched c
      (prepareRequest rt c "POST" "/update" none (some (.value b))) resp)
    (h200 : resp.StatusCode ≠ 200) (h201 : resp.StatusCode ≠ 201) :
    UpdateQuery rt c params =
      .ok { Err := (prepareExceptionResponse resp).2, StatusCode := resp.StatusCode,
            Message := (prepareExceptionResponse resp).1 } := by
  obtain ⟨req, hreq, hdo⟩ := hd
  simp only [UpdateQuery, henc, hreq, hdo]
  rw [if_neg (by rintro (h | h) <;> contradiction)]

/-- What `RemoveQuery` returns once the transport has answered with a status
neither 200 nor 201. -/
theorem RemoveQuery_of_failure {F : Type} (rt : GoRuntime F) (c : clientImpl)
    (params : Option ModifyingQueryParams) (b : JSON) (resp : Response)
    (henc : encodeModifyingQueryParams params = .ok b)
    (hd : dispatched c
      (prepareRequest rt c "POST" "/remove" none (some (.value b))) resp)
    (h200 : resp.StatusCode ≠ 200) (h201 : resp.StatusCode ≠ 201) :
    RemoveQuery rt c params =
      .ok { Err := (prepareExceptionResponse resp).2, StatusCode := resp.StatusCode,
            Message := (prepareExceptionResponse resp).1 } := by
  obtain ⟨req, hreq, hdo⟩ := hd
  simp only [RemoveQuery, henc, hreq, hdo]
  rw [if_neg (by rintro (h | h) <;> contradiction)]

/-- C4: for every status and every body that cannot be decoded as the JSON
error envelope, `prepareExceptionResponse` returns the empty message and the
decode error itself, never `ErrBadRequest`, `ErrNotFound` or `ErrGeneral`; and
each of the fifteen operations that call it on a status outside its success
set reports that decode error as the `Err` of its result. -/
theorem decode_error_reported {F : Type} (rt : GoRuntime F) (c : clientImpl) (resp : Response)
    (e : DecodeError) (he : decodeExceptionEnvelope resp.Body = .error e) :
    prepareExceptionResponse resp = ("", some (.decode e)) ∧
    (prepareExceptionResponse resp).2 ≠ some GoError.ErrBadRequest ∧
    (prepareExceptionResponse resp).2 ≠ some GoError.ErrNotFound ∧
    (prepareExceptionResponse resp).2 ≠ some GoError.ErrGeneral ∧
    (resp.StatusCode ≠ 200 → resp.StatusCode ≠ 201 →
      (∀ (params : Option CursorQueryParams) (b : JSON), encodeCursorQueryParams params = .ok b →
        dispatched c
          (prepareRequest rt c "POST" cursorEndpoint none (some (.value b))) resp →
        ∃ r, CursorQuery rt c params = .ok r ∧ r.Message = "" ∧ r.Err = some (.decode e)) ∧
      (∀ (cursorID : String), dispatched c
          (prepareRequest rt c "PUT" (cursorEndpoint ++ "/" ++ cursorID) none none) resp →
        ∃ r, CursorGetNextBatch rt c cursorID = .ok r ∧ r.Message = "" ∧
          r.Err = some (.decode e)) ∧
      (∀ (name : String) (b : JSON), encodeCollName name = .ok b →
        dispatched c
          (prepareRequest rt c "POST" createCollEndpoint none (some (.value b))) resp →
        ∃ r, CreateColl rt c name = .ok r ∧ r.Message = "" ∧ r.Err = some (.decode e)) ∧
      (∀ (graphDef : Option Graph) (b : JSON), encodeGraph graphDef = .ok b →
        dispatched c
          (prepareRequest rt c "POST" graphEndpoint none (some (.value b))) resp →
        ∃ r, CreateGraph rt c graphDef = .ok r ∧ r.Message = "" ∧ r.Err = some (.decode e)) ∧
      (∀ (graph : String) (relation : Option Relation) (b : JSON), encodeRelation relation = .ok b →
        dispatched c
          (prepareRequest rt c "POST" (graphEndpoint ++ "/" ++ graph ++ relationEndpoint) none (some (.value b))) resp →
        ∃ r, CreateRelation rt c graph relation = .ok r ∧ r.Message = "" ∧ r.Err = some (.decode e)) ∧
      (∀ (coll : String) (doc : GoAny) (b : JSON), doc = .ok b →
        dispatched c
          (prepareRequest rt c "POST" ("/" ++ coll) none (some (.value b))) resp →
        ∃ r, CreateDoc rt c coll doc = .ok r ∧ r.Message = "" ∧ r.Err = some (.decode e)) ∧
      (∀ (params : Option ModifyingQueryParams) (b : JSON), encodeModifyingQueryParams params = .ok b →
        dispatched c
          (prepareRequest rt c "POST" "/insert" none (some (.value b))) resp →
        ∃ r, InsertQuery rt c params = .ok r ∧ r.Message = "" ∧ r.Err = some (.decode e)) ∧
      (∀ (params : Option ModifyingQueryParams) (b : JSON), encodeModifyingQueryParams params = .ok b →
        dispatched c
          (prepareRequest rt c "POST" "/update" none (some (.value b))) resp →
        ∃ r, UpdateQuery rt c params = .ok r ∧ r.Message = "" ∧ r.Err = some (.decode e)) ∧
      (∀ (params : Option ModifyingQueryParams) (b : JSON), encodeModifyingQueryParams params = .ok b →
        dispatched c
          (prepareRequest rt c "POST" "/remove" none (some (.value b))) resp →
        ∃ r, RemoveQuery rt c params = .ok r ∧ r.Message = "" ∧ r.Err = some (.decode e))) ∧
    (resp.StatusCode ≠ 200 →
      (∀ (coll : String), dispatched c
          (prepareRequest rt c "GET" (indexEndpoint ++ "/" ++ coll) none none) resp →
        ∃ r, GetIndexes rt c coll = .ok r ∧ r.Message = "" ∧ r.Err = some (.decode e)) ∧
      (∀ (handle : String), dispatched c
          (prepareRequest rt c "DELETE" (indexEndpoint ++ "/" ++ handle) none none) resp →
        ∃ r, RemoveIndex rt c handle = .ok r ∧ r.Message = "" ∧ r.Err = some (.decode e)) ∧
      (∀ (coll : String) (params : DocumentRetrievalParams), dispatched c
          (prepareRequest rt c "GET" ("/" ++ coll) (some (getDocsParams params)) none) resp →
        ∃ r, GetDocs rt c coll (some params) = .ok r ∧ r.Message = "" ∧ r.Err = some (.decode e)) ∧
      (∀ (coll key : String), dispatched c
          (prepareRequest rt c "GET" ("/" ++ coll ++ "/" ++ key) none none) resp →
        ∃ r, GetDoc rt c coll key = .ok r ∧ r.Message = "" ∧ r.Err = some (.decode e)) ∧
      (∀ (coll key : String) (doc : GoAny) (b : JSON), doc = .ok b →
        dispatched c
          (prepareRequest rt c "PUT" ("/" ++ coll ++ "/" ++ key) none (some (.value b))) resp →
        ∃ r, UpdateDoc rt c coll key doc = .ok r ∧ r.Message = "" ∧ r.Err = some (.decode e))) ∧
    (resp.StatusCode ≠ 201 →
      (∀ (params : Option IndexParams) (b : JSON), encodeIndexParams params = .ok b →
        dispatched c
          (prepareRequest rt c "POST" indexEndpoint none (some (.value b))) resp →
        ∃ r, CreateIndex rt c params = .ok r ∧ r.Message = "" ∧ r.Err = some (.decode e))) := by
  have hp := prepareExceptionResponse_of_error resp e he
  have hmsg : (prepareExceptionResponse resp).1 = "" := by rw [hp]
  have herr : (prepareExceptionResponse resp).2 = some (.decode e) := by rw [hp]
  refine ⟨hp, ?_, ?_, ?_, ?_, ?_, ?_⟩
  · rw [herr]; simp
  · rw [herr]; simp
  · rw [herr]; simp
  · intro h200 h201
    refine ⟨?_, ?_, ?_, ?_, ?_, ?_, ?_, ?_, ?_⟩
    · intro params b henc hd
      obtain ⟨req, hreq, hdo⟩ := hd
      exact ⟨_, CursorQuery_of_failure rt c params b req resp henc hreq hdo
        (by rintro (h | h) <;> contradiction), hmsg, herr⟩
    · intro cursorID hd
      obtain ⟨req, hreq, hdo⟩ := hd
      exact ⟨_, CursorGetNextBatch_of_failure rt c cursorID req resp hreq hdo
        (by rintro (h | h) <;> contradiction), hmsg, herr⟩
    · intro name b henc hd
      exact ⟨_, CreateColl_of_failure rt c name b resp henc hd h200 h201, hmsg, herr⟩
    · intro graphDef b henc hd
      exact ⟨_, CreateGraph_of_failure rt c graphDef b resp henc hd h200 h201, hmsg, herr⟩
    · intro graph relation b henc hd
      exact ⟨_, CreateRelation_of_failure rt c graph relation b resp henc hd h200 h201, hmsg, herr⟩
    · intro coll doc b henc hd
      exact ⟨_, CreateDoc_of_failure rt c coll doc b resp henc hd h200 h201, hmsg, herr⟩
    · intro params b henc hd
      exact ⟨_, InsertQuery_of_failure rt c params b resp henc hd h200 h201, hmsg, herr⟩
    · intro params b henc hd
      exact ⟨_, UpdateQuery_of_failure rt c params b resp henc hd h200 h201, hmsg, herr⟩
    · intro params b henc hd
      exact ⟨_, RemoveQuery_of_failure rt c params b resp henc hd h200 h201, hmsg, herr⟩
  · intro h200
    refine ⟨?_, ?_, ?_, ?_, ?_⟩
    · intro coll hd
      exact ⟨_, GetIndexes_of_failure rt c coll resp hd h200, hmsg, herr⟩
    · intro handle hd
      exact ⟨_, RemoveIndex_of_failure rt c handle resp hd h200, hmsg, herr⟩
    · intro coll params hd
      exact ⟨_, GetDocs_of_failure rt c coll params resp hd h200, hmsg, herr⟩
    · intro coll key hd
      exact ⟨_, GetDoc_of_failure rt c coll key resp hd h200, hmsg, herr⟩
    · intro coll key doc b henc hd
      exact ⟨_, UpdateDoc_of_failure rt c coll key doc b resp henc hd h200, hmsg, herr⟩
  · intro h201
    intro params b henc hd
    exact ⟨_, CreateIndex_of_failure rt c params b resp henc hd h201, hmsg, herr⟩

theorem decode_error_reported_witness :
    prepareExceptionResponse ⟨502, .malformed⟩ = ("", some (.decode .badSyntax)) ∧
    ∃ r, CreateColl wholeRuntime (testClient ⟨502, .malformed⟩) "test" = .ok r ∧
      r.Message = "" ∧ r.Err = some (.decode .badSyntax) :=
  have h := decode_error_reported wholeRuntime (testClient ⟨502, .malformed⟩) ⟨502, .malformed⟩
    .badSyntax rfl
  ⟨h.1, (h.2.2.2.2.1 (by decide) (by decide)).2.2.1 "test" (.obj [("name", .str "test")]) rfl
    ⟨{ Method := "POST", URL := "http://localhost:80/_db//microfoxx/collection",
       RawQuery := none, SessionID := "12345",
       Body := some (.value (.obj [("name", .str "test")])) }, rfl, rfl⟩⟩

/-! ## No client-side memory of cursors -/

/-! ## The total count -/

/-- C12, at the failing input: `CursorQuery` with `Count = true` on two
responses that differ only in `count` (25 and 7).  Both bodies decode, with
`Count` 25 and 7 in the intermediary, and both calls succeed, yet the two
results are equal: the total does not reach the `CursorQueryResult`. -/
theorem CursorQuery_drops_count :
    (decodeCursorQueryBody wholeRuntime (countPage 25).Body).map (fun im => im.Count) = .ok 25 ∧
    (decodeCursorQueryBody wholeRuntime (countPage 7).Body).map (fun im => im.Count) = .ok 7 ∧
    (CursorQuery wholeRuntime (testClient (countPage 25)) (some countParams)).map
      (fun r => r.Err) = .ok none ∧
    CursorQuery wholeRuntime (testClient (countPage 25)) (some countParams)
      = CursorQuery wholeRuntime (testClient (countPage 7)) (some countParams) :=
  ⟨rfl, rfl, rfl, rfl⟩

/-! ## The endpoint built by `NewClient` -/

/-- C13: for every `ConnectionParams`, `NewClient` builds the endpoint
`<scheme>://<host>:<port>/_db/<database>/microfoxx` with the caller's scheme,
host and port when non-empty and `http`, `localhost`, `80` otherwise; the
database is used as given, and empty parameters give
`http://localhost:80/_db//microfoxx`. -/
theorem NewClient_endpoint (stdClient : WebClient) (p : ConnectionParams)
    (httpClient : List WebClient) :
    (∃ cli err, NewClient stdClient (some p) httpClient = .ok (cli, err) ∧
      cli.endpoint =
        (if p.Scheme = "" then "http" else p.Scheme) ++ "://" ++
        (if p.Host = "" then "localhost" else p.Host) ++ ":" ++
        (if p.Port = "" then "80" else p.Port) ++ "/_db/" ++ p.Database ++ "/microfoxx") ∧
    (NewClient stdClient (some emptyParams) httpClient).map (fun r => r.1.endpoint)
      = .ok "http://localhost:80/_db//microfoxx" := by
  constructor
  · unfold NewClient
    simp only []
    split
    · refine ⟨_, _, rfl, ?_⟩
      by_cases h1 : p.Scheme = "" <;> by_cases h2 : p.Host = "" <;> by_cases h3 : p.Port = "" <;>
        simp [h1, h2, h3, mountEndpoint]
    · refine ⟨_, _, rfl, ?_⟩
      by_cases h1 : p.Scheme = "" <;> by_cases h2 : p.Host = "" <;> by_cases h3 : p.Port = "" <;>
        simp [h1, h2, h3, mountEndpoint]
  · unfold NewClient
    simp only []
    split <;> rfl

/-! ## The requests `prepareRequest` builds -/

theorem afterChar_of_not_mem (c : Char) (l : List Char) (h : c ∉ l) : afterChar c l = [] := by
  induction l with
  | nil => rfl
  | cons x xs ih =>
    simp only [List.mem_cons, not_or] at h
    have hx : ¬ x = c := fun e => h.1 e.symm
    simp [afterChar, hx, ih h.2]

theorem beforeChar_not_mem (c d : Char) (l : List Char) (h : c ∉ l) : c ∉ beforeChar d l := by
  induction l with
  | nil => simp [beforeChar]
  | cons x xs ih =>
    simp only [List.mem_cons, not_or] at h
    unfold beforeChar
    split
    · simp
    · simp only [List.mem_cons, not_or]
      exact ⟨h.1, ih h.2⟩

/-- C14 as stated fails: with no query parameter and the path `/users?x=1`
the request carries the query `x=1`, which is not empty. -/
theorem prepareRequest_query_counterexample :
    (prepareRequest wholeRuntime (testClient firstPage) "GET" "/users?x=1" none none).map
      Request.query = .ok "x=1" ∧ "x=1" ≠ "" :=
  ⟨rfl, by decide⟩

/-- C14, amended: for every method, path, query-parameter set and body, when
a session is held and `http.NewRequest` accepts the method and URL,
`prepareRequest` yields a request for the endpoint followed by the path, with
the given method and body, with `X-Session-Id` equal to the held `SID`, and
whose query is the encoding of the parameters when there is at least one and
otherwise the query the URL string itself carries, which is empty when that
string has no `?`. -/
theorem prepareRequest_fields {F : Type} (rt : GoRuntime F) (c : clientImpl)
    (method path : String) (qParams : Option Values) (body : Option Body) (s : SessionInfo)
    (hs : c.sessionInfo = some s) (hok : rt.newRequestOk method (c.endpoint ++ path) = true) :
    ∃ req, prepareRequest rt c method path qParams body = .ok req ∧
      req.Method = method ∧ req.URL = c.endpoint ++ path ∧ req.SessionID = s.SID ∧
      req.Body = body ∧
      (∀ kv kvs, qParams = some (kv :: kvs) → req.query = Values.Encode (kv :: kvs)) ∧
      (qParams = none ∨ qParams = some [] → req.query = urlQuery (c.endpoint ++ path)) ∧
      (qParams = none ∨ qParams = some [] → '?' ∉ (c.endpoint ++ path).data →
        req.query = "") := by
  rcases qParams with _ | (_ | ⟨kv, kvs⟩)
  · refine ⟨{ Method := method, URL := c.endpoint ++ path, RawQuery := none,
              SessionID := s.SID, Body := body },
      by simp only [prepareRequest, hok, hs, if_true], rfl, rfl, rfl, rfl, ?_, ?_, ?_⟩
    · intro kv kvs h
      exact absurd h (by simp)
    · intro _
      rfl
    · intro _ hn
      simp only [Request.query, urlQuery]
      rw [afterChar_of_not_mem '?' _ (beforeChar_not_mem '?' '#' _ hn)]
  · refine ⟨{ Method := method, URL := c.endpoint ++ path, RawQuery := none,
              SessionID := s.SID, Body := body },
      by simp only [prepareRequest, hok, hs, if_true], rfl, rfl, rfl, rfl, ?_, ?_, ?_⟩
    · intro kv kvs h
      exact absurd h (by simp)
    · intro _
      rfl
    · intro _ hn
      simp only [Request.query, urlQuery]
      rw [afterChar_of_not_mem '?' _ (beforeChar_not_mem '?' '#' _ hn)]
  · refine ⟨{ Method := method, URL := c.endpoint ++ path,
              RawQuery := some (Values.Encode (kv :: kvs)),
              SessionID := s.SID, Body := body },
      by simp only [prepareRequest, hok, hs, if_true], rfl, rfl, rfl, rfl, ?_, ?_, ?_⟩
    · intro kv2 kvs2 h
      simp only [Option.some.injEq, List.cons.injEq] at h
      obtain ⟨h1, h2⟩ := h
      subst h1
      subst h2
      rfl
    · intro h
      rcases h with h | h <;> simp at h
    · intro h
      rcases h with h | h <;> simp at h

theorem prepareRequest_fields_witness :
    ∃ req, prepareRequest wholeRuntime (testClient firstPage) "GET" "/users"
        (some [("name", ["a+b"])]) none = .ok req ∧
      req.URL = "http://localhost:80/_db//microfoxx/users" ∧ req.SessionID = "12345" ∧
      req.query = "name=a%2Bb" :=
  let ⟨req, h, _, hu, hsid, _, hq, _⟩ :=
    prepareRequest_fields wholeRuntime (testClient firstPage) "GET" "/users"
      (some [("name", ["a+b"])]) none ⟨"12345", "6789"⟩ rfl rfl
  ⟨req, h, hu.trans (by decide), hsid, (hq _ _ rfl).trans (by decide)⟩

/-! ## Sessions: theorems -/

/-- Each field of the decoded session is what storing, in order, the values of
the members selecting that field gives. -/
theorem sessionInfo_fields (kvs : List (String × JSON)) :
    ∀ (st si : SessionInfo),
      kvs.foldlM (fun st kv => SessionInfo.store st kv.1 kv.2) st = .ok si →
      storeAll storeString st.SID (memberValues ["sid", "uid"] "sid" kvs) = .ok si.SID ∧
      storeAll storeString st.UID (memberValues ["sid", "uid"] "uid" kvs) = .ok si.UID := by
  induction kvs with
  | nil =>
    intro st si h
    have : st = si := by simpa [List.foldlM_nil, pure, Except.pure] using h
    subst this
    exact ⟨rfl, rfl⟩
  | cons kv kvs ih =>
    intro st si h
    obtain ⟨k, v⟩ := kv
    rw [List.foldlM_cons] at h
    cases hs : SessionInfo.store st k v with
    | error e => simp [hs, bind, Except.bind] at h
    | ok st1 =>
      simp only [hs, bind, Except.bind] at h
      have ih1 := ih st1 si h
      unfold SessionInfo.store at hs
      split at hs
      · rename_i hf
        cases hm : storeString st.SID v with
        | error e => simp [hm] at hs
        | ok s =>
          simp only [hm, Except.ok.injEq] at hs
          subst hs
          rw [memberValues_cons_hit _ _ _ _ _ hf,
            memberValues_cons_miss _ _ _ _ _ (by rw [hf]; decide),
            storeAll_cons_ok _ _ _ _ _ hm]
          exact ih1
      · rename_i hf
        cases hm : storeString st.UID v with
        | error e => simp [hm] at hs
        | ok s =>
          simp only [hm, Except.ok.injEq] at hs
          subst hs
          rw [memberValues_cons_hit _ _ _ _ _ hf,
            memberValues_cons_miss _ _ _ _ _ (by rw [hf]; decide),
            storeAll_cons_ok _ _ _ _ _ hm]
          exact ih1
      · rename_i h1 h2
        simp only [Except.ok.injEq] at hs
        subst hs
        rw [memberValues_cons_miss _ _ _ _ _ (fun h => h1 h),
          memberValues_cons_miss _ _ _ _ _ (fun h => h2 h)]
        exact ih1

theorem newSession_of_post_error (c : clientImpl) (err : GoError)
    (h : c.httpClient.Post (c.endpoint ++ loginEndpoint) "application/json; charset=utf-8"
      (.value (.obj [("username", .str c.connectionParams.Username),
                     ("password", .str c.connectionParams.Password)])) = .error err) :
    newSession c = (none, some err) := by
  simp only [newSession, encodeCredentials, h]

theorem newSession_of_decoded (c : clientImpl) (resp : Response) (si : SessionInfo)
    (h : c.httpClient.Post (c.endpoint ++ loginEndpoint) "application/json; charset=utf-8"
      (.value (.obj [("username", .str c.connectionParams.Username),
                     ("password", .str c.connectionParams.Password)])) = .ok resp)
    (hd : decodeStruct SessionInfo.store { SID := "", UID := "" } resp.Body = .ok si) :
    newSession c = (some si, none) := by
  simp only [newSession, encodeCredentials, h, hd]

theorem newSession_of_decode_error (c : clientImpl) (resp : Response) (e : DecodeError)
    (h : c.httpClient.Post (c.endpoint ++ loginEndpoint) "application/json; charset=utf-8"
      (.value (.obj [("username", .str c.connectionParams.Username),
                     ("password", .str c.connectionParams.Password)])) = .ok resp)
    (hd : decodeStruct SessionInfo.store { SID := "", UID := "" } resp.Body = .error e) :
    newSession c =
      (some (decodeStructLenient SessionInfo.store { SID := "", UID := "" } resp.Body),
       some (.decode e)) := by
  simp only [newSession, encodeCredentials, h, hd]

/-- C15: `newSession` posts the credentials to the login endpoint and fails
exactly when the transport's `Post` returns an error or the response body
cannot be decoded; whenever the body decodes it returns, with no error, the
session whose `SID` and `UID` are the body's `sid` and `uid`, whatever the
status of the login response; the stub body `{"sid":"12345","uid":"6789"}`
gives `SID` `12345` under every status. -/
theorem newSession_outcome (c : clientImpl) :
    (∀ err,
      c.httpClient.Post (c.endpoint ++ loginEndpoint) "application/json; charset=utf-8"
        (.value (.obj [("username", .str c.connectionParams.Username),
                       ("password", .str c.connectionParams.Password)])) = .error err →
      newSession c = (none, some err)) ∧
    (∀ resp,
      c.httpClient.Post (c.endpoint ++ loginEndpoint) "application/json; charset=utf-8"
        (.value (.obj [("username", .str c.connectionParams.Username),
                       ("password", .str c.connectionParams.Password)])) = .ok resp →
      (∀ e, decodeStruct SessionInfo.store { SID := "", UID := "" } resp.Body = .error e →
        (newSession c).2 = some (.decode e)) ∧
      (∀ si, decodeStruct SessionInfo.store { SID := "", UID := "" } resp.Body = .ok si →
        newSession c = (some si, none) ∧
        (∀ kvs, resp.Body = .value (.obj kvs) →
          storeAll storeString "" (memberValues ["sid", "uid"] "sid" kvs) = .ok si.SID ∧
          storeAll storeString "" (memberValues ["sid", "uid"] "uid" kvs) = .ok si.UID))) ∧
    ((newSession c).2 ≠ none ↔
      (∃ err,
        c.httpClient.Post (c.endpoint ++ loginEndpoint) "application/json; charset=utf-8"
          (.value (.obj [("username", .str c.connectionParams.Username),
                         ("password", .str c.connectionParams.Password)])) = .error err) ∨
      (∃ resp e,
        c.httpClient.Post (c.endpoint ++ loginEndpoint) "application/json; charset=utf-8"
          (.value (.obj [("username", .str c.connectionParams.Username),
                         ("password", .str c.connectionParams.Password)])) = .ok resp ∧
        decodeStruct SessionInfo.store { SID := "", UID := "" } resp.Body = .error e)) ∧
    (∀ status : Int,
      newSession { c with httpClient := (constClient
          ⟨status, .value (.obj [("sid", .str "12345"), ("uid", .str "6789")])⟩) }
        = (some { SID := "12345", UID := "6789" }, none)) := by
  refine ⟨newSession_of_post_error c, ?_, ?_, ?_⟩
  · intro resp hp
    refine ⟨?_, ?_⟩
    · intro e he
      rw [newSession_of_decode_error c resp e hp he]
    · intro si hsi
      refine ⟨newSession_of_decoded c resp si hp hsi, ?_⟩
      intro kvs hb
      rw [hb] at hsi
      exact sessionInfo_fields kvs _ si hsi
  · cases hp : c.httpClient.Post (c.endpoint ++ loginEndpoint) "application/json; charset=utf-8"
        (.value (.obj [("username", .str c.connectionParams.Username),
                       ("password", .str c.connectionParams.Password)])) with
    | error err =>
      rw [newSession_of_post_error c err hp]
      constructor
      · intro _
        exact Or.inl ⟨err, rfl⟩
      · intro _
        simp
    | ok resp =>
      cases hd : decodeStruct SessionInfo.store { SID := "", UID := "" } resp.Body with
      | error e =>
        rw [newSession_of_decode_error c resp e hp hd]
        constructor
        · intro _
          exact Or.inr ⟨resp, e, rfl, hd⟩
        · intro _
          simp
      | ok si =>
        rw [newSession_of_decoded c resp si hp hd]
        constructor
        · intro h
          exact absurd rfl h
        · rintro (⟨err, h⟩ | ⟨resp2, e2, h1, h2⟩)
          · cases h
          · simp only [Except.ok.injEq] at h1
            subst h1
            rw [hd] at h2
            cases h2
  · intro status
    rfl

/-- C16: `Refresh` is atomic on the held session.  When the login succeeds
with session `s`, it returns nil and the client holds `s`, so every request
prepared afterwards carries the `SID` of `s`; when the login fails, it returns
the error and the client is unchanged, so requests are prepared as before. -/
theorem Refresh_atomic {F : Type} (rt : GoRuntime F) (c : clientImpl) :
    (∀ s, newSession c = (some s, none) →
      Refresh c = ({ c with sessionInfo := some s }, none) ∧
      ∀ method path qParams body req,
        prepareRequest rt (Refresh c).1 method path qParams body = .ok req →
        req.SessionID = s.SID) ∧
    (∀ si err, newSession c = (si, some err) →
      Refresh c = (c, some err) ∧
      (Refresh c).1.sessionInfo = c.sessionInfo ∧
      ∀ method path qParams body,
        prepareRequest rt (Refresh c).1 method path qParams body
          = prepareRequest rt c method path qParams body) := by
  constructor
  · intro s hs
    have hr : Refresh c = ({ c with sessionInfo := some s }, none) := by
      simp only [Refresh, hs]
    refine ⟨hr, ?_⟩
    intro method path qParams body req hreq
    rw [hr] at hreq
    unfold prepareRequest at hreq
    split at hreq
    · simp only [Except.ok.injEq] at hreq
      subst hreq
      rfl
    · simp at hreq
  · intro si err hs
    have hr : Refresh c = (c, some err) := by
      simp only [Refresh, hs]
    refine ⟨hr, ?_, ?_⟩
    · rw [hr]
    · intro method path qParams body
      rw [hr]

/-- C17, at the failing input: `NewClient` over a transport whose login fails
returns the client together with the error and with no session held; on that
client `prepareRequest` dereferences the nil session, so the operations panic
instead of dispatching a request without session header. -/
theorem no_session_panics :
    (NewClient refusingClient (some emptyParams) [refusingClient]).map
        (fun r => (r.1.sessionInfo, r.2))
      = .ok (none, some (.transport "connection refused")) ∧
    (NewClient refusingClient (some emptyParams) [refusingClient]).bind
        (fun r => CursorGetNextBatch wholeRuntime r.1 "7")
      = .error GoPanic.nilDereference ∧
    (NewClient refusingClient (some emptyParams) [refusingClient]).bind
        (fun r => CursorQuery wholeRuntime r.1 (some countParams))
      = .error GoPanic.nilDereference ∧
    (NewClient refusingClient (some emptyParams) [refusingClient]).bind
        (fun r => GetDoc wholeRuntime r.1 "users" "1")
      = .error GoPanic.nilDereference ∧
    (NewClient refusingClient (some emptyParams) [refusingClient]).bind
        (fun r => CreateColl wholeRuntime r.1 "test")
      = .error GoPanic.nilDereference :=
  ⟨rfl, rfl, rfl, rfl, rfl⟩

/-! ## The body of a modifying query -/

/-- C19, at the failing input: the body `InsertQuery`, `UpdateQuery` and
`RemoveQuery` send for the insert parameters of the tests has the keys
`WriteCollection`, `ReadCollections`, `Query` and `BindVars`, the names of the
untagged Go fields, not `writeCollection`, `readCollections`, `query` and
`bindVars`. -/
theorem modifying_query_body_keys :
    encodeModifyingQueryParams (some insertParams)
      = .ok (.obj [("WriteCollection", .str "test"), ("ReadCollections", .null),
                   ("Query", .str "FOR i in 1..100 INSERT { value: i, type: @type } IN test"),
                   ("BindVars", .obj [("type", .str "a")])]) ∧
    (InsertQuery wholeRuntime { testClient firstPage with httpClient := keyEchoClient }
        (some insertParams)).map (fun r => r.Message)
      = .ok "WriteCollection,ReadCollections,Query,BindVars" ∧
    (UpdateQuery wholeRuntime { testClient firstPage with httpClient := keyEchoClient }
        (some insertParams)).map (fun r => r.Message)
      = .ok "WriteCollection,ReadCollections,Query,BindVars" ∧
    (RemoveQuery wholeRuntime { testClient firstPage with httpClient := keyEchoClient }
        (some insertParams)).map (fun r => r.Message)
      = .ok "WriteCollection,ReadCollections,Query,BindVars" ∧
    "WriteCollection,ReadCollections,Query,BindVars"
      ≠ "writeCollection,readCollections,query,bindVars" :=
  ⟨rfl, rfl, rfl, rfl, by decide⟩

/-! ## What each operation returns, case by case -/

/-- What `CursorQuery` returns when the transport returns an error. -/
theorem CursorQuery_of_transport_error {F : Type} (rt : GoRuntime F) (c : clientImpl)
    (params : Option CursorQueryParams) (b : JSON) (err : GoError)
    (henc : encodeCursorQueryParams params = .ok b)
    (hr : refused c
      (prepareRequest rt c "POST" cursorEndpoint none (some (.value b))) err) :
    CursorQuery rt c params = .ok { Err := some err } := by
  obtain ⟨req, hreq, hdo⟩ := hr
  simp only [CursorQuery, henc, hreq, hdo]

/-- What `CursorQuery` returns when the body of a response with status
200 or 201 fails to decode. -/
theorem CursorQuery_of_decode_error {F : Type} (rt : GoRuntime F) (c : clientImpl)
    (params : Option CursorQueryParams) (b : JSON) (resp : Response) (e : DecodeError)
    (henc : encodeCursorQueryParams params = .ok b)
    (hd : dispatched c
      (prepareRequest rt c "POST" cursorEndpoint none (some (.value b))) resp)
    (hst : resp.StatusCode = 200 ∨ resp.StatusCode = 201)
    (hdec : decodeCursorQueryBody rt resp.Body = .error e) :
    CursorQuery rt c params =
      .ok { Err := some (.decode e) } := by
  obtain ⟨req, hreq, hdo⟩ := hd
  simp only [CursorQuery, henc, hreq, hdo, hdec]
  rw [if_pos hst]

/-- What `CursorGetNextBatch` returns when the transport returns an error. -/
theorem CursorGetNextBatch_of_transport_error {F : Type} (rt : GoRuntime F) (c : clientImpl)
    (cursorID : String) (err : GoError)
    (hr : refused c
      (prepareRequest rt c "PUT" (cursorEndpoint ++ "/" ++ cursorID) none none) err) :
    CursorGetNextBatch rt c cursorID = .ok { Err := some err } := by
  obtain ⟨req, hreq, hdo⟩ := hr
  simp only [CursorGetNextBatch, hreq, hdo]

/-- What `CursorGetNextBatch` returns when the body of a response with status
200 or 201 fails to decode. -/
theorem CursorGetNextBatch_of_decode_error {F : Type} (rt : GoRuntime F) (c : clientImpl)
    (cursorID : String) (resp : Response) (e : DecodeError)
    (hd : dispatched c
      (prepareRequest rt c "PUT" (cursorEndpoint ++ "/" ++ cursorID) none none) resp)
    (hst : resp.StatusCode = 200 ∨ resp.StatusCode = 201)
    (hdec : decodeNextBatchBody rt resp.Body = .error e) :
    CursorGetNextBatch rt c cursorID =
      .ok { Err := some (.decode e) } := by
  obtain ⟨req, hreq, hdo⟩ := hd
  simp only [CursorGetNextBatch, hreq, hdo, hdec]
  rw [if_pos hst]

/-- What `CreateColl` returns when the transport returns an error. -/
theorem CreateColl_of_transport_error {F : Type} (rt : GoRuntime F) (c : clientImpl)
    (name : String) (b : JSON) (err : GoError)
    (henc : encodeCollName name = .ok b)
    (hr : refused c
      (prepareRequest rt c "POST" createCollEndpoint none (some (.value b))) err) :
    CreateColl rt c name = .ok { Err := some err } := by
  obtain ⟨req, hreq, hdo⟩ := hr
  simp only [CreateColl, henc, hreq, hdo]

/-- What `CreateColl` returns when the body of a response with status
200 or 201 fails to decode. -/
theorem CreateColl_of_decode_error {F : Type} (rt : GoRuntime F) (c : clientImpl)
    (name : String) (b : JSON) (resp : Response) (e : DecodeError)
    (henc : encodeCollName name = .ok b)
    (hd : dispatched c
      (prepareRequest rt c "POST" createCollEndpoint none (some (.value b))) resp)
    (hst : resp.StatusCode = 200 ∨ resp.StatusCode = 201)
    (hdec : decodeStruct CreateCollBody.store { ID := "", Message := "" } resp.Body = .error e) :
    CreateColl rt c name =
      .ok { StatusCode := resp.StatusCode, Err := some (.decode e) } := by
  obtain ⟨req, hreq, hdo⟩ := hd
  simp only [CreateColl, henc, hreq, hdo, hdec]
  rw [if_pos (Or.symm hst)]

/-- What `CreateColl` returns on a response with status 200 or 201 whose
body decodes. -/
theorem CreateColl_of_success {F : Type} (rt : GoRuntime F) (c : clientImpl)
    (name : String) (b : JSON) (resp : Response) (im : CreateCollBody)
    (henc : encodeCollName name = .ok b)
    (hd : dispatched c
      (prepareRequest rt c "POST" createCollEndpoint none (some (.value b))) resp)
    (hst : resp.StatusCode = 200 ∨ resp.StatusCode = 201)
    (hdec : decodeStruct CreateCollBody.store { ID := "", Message := "" } resp.Body = .ok im) :
    CreateColl rt c name =
      .ok { StatusCode := resp.StatusCode, CreatedIDs := some [im.ID], Message := im.Message } := by
  obtain ⟨req, hreq, hdo⟩ := hd
  simp only [CreateColl, henc, hreq, hdo, hdec, encodeToBuffer]
  rw [if_pos (Or.symm hst)]

/-- What `CreateGraph` returns when the transport returns an error. -/
theorem CreateGraph_of_transport_error {F : Type} (rt : GoRuntime F) (c : clientImpl)
    (graphDef : Option Graph) (b : JSON) (err : GoError)
    (henc : encodeGraph graphDef = .ok b)
    (hr : refused c
      (prepareRequest rt c "POST" graphEndpoint none (some (.value b))) err) :
    CreateGraph rt c graphDef = .ok { Err := some err } := by
  obtain ⟨req, hreq, hdo⟩ := hr
  simp only [CreateGraph, henc, hreq, hdo]

/-- What `CreateGraph` returns when the body of a response with status
200 or 201 fails to decode. -/
theorem CreateGraph_of_decode_error {F : Type} (rt : GoRuntime F) (c : clientImpl)
    (graphDef : Option Graph) (b : JSON) (resp : Response) (e : DecodeError)
    (henc : encodeGraph graphDef = .ok b)
    (hd : dispatched c
      (prepareRequest rt c "POST" graphEndpoint none (some (.value b))) resp)
    (hst : resp.StatusCode = 200 ∨ resp.StatusCode = 201)
    (hdec : decodeStruct MessageBody.store { Message := "" } resp.Body = .error e) :
    CreateGraph rt c graphDef =
      .ok { StatusCode := resp.StatusCode, Err := some (.decode e) } := by
  obtain ⟨req, hreq, hdo⟩ := hd
  simp only [CreateGraph, henc, hreq, hdo, hdec]
  rw [if_pos (Or.symm hst)]

/-- What `CreateGraph` returns on a response with status 200 or 201 whose
body decodes. -/
theorem CreateGraph_of_success {F : Type} (rt : GoRuntime F) (c : clientImpl)
    (graphDef : Option Graph) (b : JSON) (resp : Response) (im : MessageBody)
    (henc : encodeGraph graphDef = .ok b)
    (hd : dispatched c
      (prepareRequest rt c "POST" graphEndpoint none (some (.value b))) resp)
    (hst : resp.StatusCode = 200 ∨ resp.StatusCode = 201)
    (hdec : decodeStruct MessageBody.store { Message := "" } resp.Body = .ok im) :
    CreateGraph rt c graphDef =
      .ok { StatusCode := resp.StatusCode, Message := im.Message } := by
  obtain ⟨req, hreq, hdo⟩ := hd
  simp only [CreateGraph, henc, hreq, hdo, hdec, encodeToBuffer]
  rw [if_pos (Or.symm hst)]

/-- What `CreateRelation` returns when the transport returns an error. -/
theorem CreateRelation_of_transport_error {F : Type} (rt : GoRuntime F) (c : clientImpl)
    (graph : String) (relation : Option Relation) (b : JSON) (err : GoError)
    (henc : encodeRelation relation = .ok b)
    (hr : refused c
      (prepareRequest rt c "POST" (graphEndpoint ++ "/" ++ graph ++ relationEndpoint) none
        (some (.value b))) err) :
    CreateRelation rt c graph relation = .ok { Err := some err } := by
  obtain ⟨req, hreq, hdo⟩ := hr
  simp only [CreateRelation, henc, hreq, hdo]

/-- What `CreateRelation` returns when the body of a response with status
200 or 201 fails to decode. -/
theorem CreateRelation_of_decode_error {F : Type} (rt : GoRuntime F) (c : clientImpl)
    (graph : String) (relation : Option Relation) (b : JSON) (resp : Response) (e : DecodeError)
    (henc : encodeRelation relation = .ok b)
    (hd : dispatched c
      (prepareRequest rt c "POST" (graphEndpoint ++ "/" ++ graph ++ relationEndpoint) none
        (some (.value b))) resp)
    (hst : resp.StatusCode = 200 ∨ resp.StatusCode = 201)
    (hdec : decodeStruct MessageBody.store { Message := "" } resp.Body = .error e) :
    CreateRelation rt c graph relation =
      .ok { StatusCode := resp.StatusCode, Err := some (.decode e) } := by
  obtain ⟨req, hreq, hdo⟩ := hd
  simp only [CreateRelation, henc, hreq, hdo, hdec]
  rw [if_pos (Or.symm hst)]

/-- What `CreateRelation` returns on a response with status 200 or 201 whose
body decodes. -/
theorem CreateRelation_of_success {F : Type} (rt : GoRuntime F) (c : clientImpl)
    (graph : String) (relation : Option Relation) (b : JSON) (resp : Response) (im : MessageBody)
    (henc : encodeRelation relation = .ok b)
    (hd : dispatched c
      (prepareRequest rt c "POST" (graphEndpoint ++ "/" ++ graph ++ relationEndpoint) none
        (some (.value b))) resp)
    (hst : resp.StatusCode = 200 ∨ resp.StatusCode = 201)
    (hdec : decodeStruct MessageBody.store { Message := "" } resp.Body = .ok im) :
    CreateRelation rt c graph relation =
      .ok { StatusCode := resp.StatusCode, Message := im.Message } := by
  obtain ⟨req, hreq, hdo⟩ := hd
  simp only [CreateRelation, henc, hreq, hdo, hdec, encodeToBuffer]
  rw [if_pos (Or.symm hst)]

/-- What `GetIndexes` returns when the transport returns an error. -/
theorem GetIndexes_of_transport_error {F : Type} (rt : GoRuntime F) (c : clientImpl)
    (coll : String) (err : GoError)
    (hr : refused c
      (prepareRequest rt c "GET" (indexEndpoint ++ "/" ++ coll) none none) err) :
    GetIndexes rt c coll = .ok { Err := some err } := by
  obtain ⟨req, hreq, hdo⟩ := hr
  simp only [GetIndexes, hreq, hdo]

/-- What `GetIndexes` returns when the body of a response with status
200 fails to decode. -/
theorem GetIndexes_of_decode_error {F : Type} (rt : GoRuntime F) (c : clientImpl)
    (coll : String) (resp : Response) (e : DecodeError)
    (hd : dispatched c
      (prepareRequest rt c "GET" (indexEndpoint ++ "/" ++ coll) none none) resp)
    (hst : resp.StatusCode = 200)
    (hdec : decodeIndexes resp.Body = .error e) :
    GetIndexes rt c coll =
      .ok { Err := some (.decode e) } := by
  obtain ⟨req, hreq, hdo⟩ := hd
  simp only [GetIndexes, hreq, hdo, hdec]
  rw [if_pos hst]

/-- What `GetIndexes` returns on a response with status 200 whose
body decodes. -/
theorem GetIndexes_of_success {F : Type} (rt : GoRuntime F) (c : clientImpl)
    (coll : String) (resp : Response) (im : Option (List (Option Index)))
    (hd : dispatched c
      (prepareRequest rt c "GET" (indexEndpoint ++ "/" ++ coll) none none) resp)
    (hst : resp.StatusCode = 200)
    (hdec : decodeIndexes resp.Body = .ok im) :
    GetIndexes rt c coll =
      .ok { StatusCode := resp.StatusCode, Indexes := im } := by
  obtain ⟨req, hreq, hdo⟩ := hd
  simp only [GetIndexes, hreq, hdo, hdec, encodeToBuffer]
  rw [if_pos hst]

/-- What `RemoveIndex` returns when the transport returns an error. -/
theorem RemoveIndex_of_transport_error {F : Type} (rt : GoRuntime F) (c : clientImpl)
    (handle : String) (err : GoError)
    (hr : refused c
      (prepareRequest rt c "DELETE" (indexEndpoint ++ "/" ++ handle) none none) err) :
    RemoveIndex rt c handle = .ok { Err := some err } := by
  obtain ⟨req, hreq, hdo⟩ := hr
  simp only [RemoveIndex, hreq, hdo]

/-- What `RemoveIndex` returns when the body of a response with status
200 fails to decode. -/
theorem RemoveIndex_of_decode_error {F : Type} (rt : GoRuntime F) (c : clientImpl)
    (handle : String) (resp : Response) (e : DecodeError)
    (hd : dispatched c
      (prepareRequest rt c "DELETE" (indexEndpoint ++ "/" ++ handle) none none) resp)
    (hst : resp.StatusCode = 200)
    (hdec : decodeStruct MessageBody.store { Message := "" } resp.Body = .error e) :
    RemoveIndex rt c handle =
      .ok { Err := some (.decode e) } := by
  obtain ⟨req, hreq, hdo⟩ := hd
  simp only [RemoveIndex, hreq, hdo, hdec]
  rw [if_pos hst]

/-- What `RemoveIndex` returns on a response with status 200 whose
body decodes. -/
theorem RemoveIndex_of_success {F : Type} (rt : GoRuntime F) (c : clientImpl)
    (handle : String) (resp : Response) (im : MessageBody)
    (hd : dispatched c
      (prepareRequest rt c "DELETE" (indexEndpoint ++ "/" ++ handle) none none) resp)
    (hst : resp.StatusCode = 200)
    (hdec : decodeStruct MessageBody.store { Message := "" } resp.Body = .ok im) :
    RemoveIndex rt c handle =
      .ok { StatusCode := resp.StatusCode, Message := im.Message } := by
  obtain ⟨req, hreq, hdo⟩ := hd
  simp only [RemoveIndex, hreq, hdo, hdec, encodeToBuffer]
  rw [if_pos hst]

/-- What `CreateIndex` returns when the transport returns an error. -/
theorem CreateIndex_of_transport_error {F : Type} (rt : GoRuntime F) (c : clientImpl)
    (params : Option IndexParams) (b : JSON) (err : GoError)
    (henc : encodeIndexParams params = .ok b)
    (hr : refused c
      (prepareRequest rt c "POST" indexEndpoint none (some (.value b))) err) :
    CreateIndex rt c params = .ok { Err := some err } := by
  obtain ⟨req, hreq, hdo⟩ := hr
  simp only [CreateIndex, henc, hreq, hdo]

/-- What `CreateIndex` returns on a response with status 201. -/
theorem CreateIndex_of_success {F : Type} (rt : GoRuntime F) (c : clientImpl)
    (params : Option IndexParams) (b : JSON) (resp : Response)
    (henc : encodeIndexParams params = .ok b)
    (hd : dispatched c
      (prepareRequest rt c "POST" indexEndpoint none (some (.value b))) resp)
    (hst : resp.StatusCode = 201) :
    CreateIndex rt c params =
      .ok { StatusCode := resp.StatusCode } := by
  obtain ⟨req, hreq, hdo⟩ := hd
  simp only [CreateIndex, henc, hreq, hdo]
  rw [if_neg (not_not.mpr hst)]

/-- What `CreateDoc` returns when the transport returns an error. -/
theorem CreateDoc_of_transport_error {F : Type} (rt : GoRuntime F) (c : clientImpl)
    (coll : String) (doc : GoAny) (b : JSON) (err : GoError)
    (henc : doc = .ok b)
    (hr : refused c
      (prepareRequest rt c "POST" ("/" ++ coll) none (some (.value b))) err) :
    CreateDoc rt c coll doc = .ok { Err := some err } := by
  obtain ⟨req, hreq, hdo⟩ := hr
  subst henc
  simp only [CreateDoc, hreq, hdo]

/-- What `CreateDoc` returns when the body of a response with status
200 or 201 fails to decode. -/
theorem CreateDoc_of_decode_error {F : Type} (rt : GoRuntime F) (c : clientImpl)
    (coll : String) (doc : GoAny) (b : JSON) (resp : Response) (e : DecodeError)
    (henc : doc = .ok b)
    (hd : dispatched c
      (prepareRequest rt c "POST" ("/" ++ coll) none (some (.value b))) resp)
    (hst : resp.StatusCode = 200 ∨ resp.StatusCode = 201)
    (hdec : decodeStruct (DocEventBody.store rt) { Document := none, Event := none } resp.Body = .error e) :
    CreateDoc rt c coll doc =
      .ok { StatusCode := resp.StatusCode, Err := some (.decode e) } := by
  obtain ⟨req, hreq, hdo⟩ := hd
  subst henc
  simp only [CreateDoc, hreq, hdo, hdec]
  rw [if_pos (Or.symm hst)]

/-- What `CreateDoc` returns on a response with status 200 or 201 whose
body decodes. -/
theorem CreateDoc_of_success {F : Type} (rt : GoRuntime F) (c : clientImpl)
    (coll : String) (doc : GoAny) (b : JSON) (resp : Response) (im : DocEventBody F)
    (henc : doc = .ok b)
    (hd : dispatched c
      (prepareRequest rt c "POST" ("/" ++ coll) none (some (.value b))) resp)
    (hst : resp.StatusCode = 200 ∨ resp.StatusCode = 201)
    (hdec : decodeStruct (DocEventBody.store rt) { Document := none, Event := none } resp.Body = .ok im) :
    CreateDoc rt c coll doc =
      .ok { StatusCode := resp.StatusCode, Document := some (.value (encodeMap rt im.Document)),
            Event := some (.value (encodeMap rt im.Event)) } := by
  obtain ⟨req, hreq, hdo⟩ := hd
  subst henc
  simp only [CreateDoc, hreq, hdo, hdec, encodeToBuffer]
  rw [if_pos (Or.symm hst)]

/-- What `GetDocs` returns when the transport returns an error. -/
theorem GetDocs_of_transport_error {F : Type} (rt : GoRuntime F) (c : clientImpl)
    (coll : String) (params : DocumentRetrievalParams) (err : GoError)
    (hr : refused c
      (prepareRequest rt c "GET" ("/" ++ coll) (some (getDocsParams params)) none) err) :
    GetDocs rt c coll (some params) = .ok { Err := some err } := by
  obtain ⟨req, hreq, hdo⟩ := hr
  simp only [GetDocs, hreq, hdo]

/-- What `GetDocs` returns when the body of a response with status
200 fails to decode. -/
theorem GetDocs_of_decode_error {F : Type} (rt : GoRuntime F) (c : clientImpl)
    (coll : String) (params : DocumentRetrievalParams) (resp : Response) (e : DecodeError)
    (hd : dispatched c
      (prepareRequest rt c "GET" ("/" ++ coll) (some (getDocsParams params)) none) resp)
    (hst : resp.StatusCode = 200)
    (hdec : decodeMapSlice rt resp.Body = .error e) :
    GetDocs rt c coll (some params) =
      .ok { StatusCode := resp.StatusCode, Err := some (.decode e) } := by
  obtain ⟨req, hreq, hdo⟩ := hd
  simp only [GetDocs, hreq, hdo, hdec]
  rw [if_pos hst]

/-- What `GetDocs` returns on a response with status 200 whose
body decodes. -/
theorem GetDocs_of_success {F : Type} (rt : GoRuntime F) (c : clientImpl)
    (coll : String) (params : DocumentRetrievalParams) (resp : Response) (im : Option (GoSlice (GoMap F)))
    (hd : dispatched c
      (prepareRequest rt c "GET" ("/" ++ coll) (some (getDocsParams params)) none) resp)
    (hst : resp.StatusCode = 200)
    (hdec : decodeMapSlice rt resp.Body = .ok im) :
    GetDocs rt c coll (some params) =
      .ok { StatusCode := resp.StatusCode, Documents := some (.value (encodeMapSlice rt im)) } := by
  obtain ⟨req, hreq, hdo⟩ := hd
  simp only [GetDocs, hreq, hdo, hdec, encodeToBuffer]
  rw [if_pos hst]

/-- What `GetDoc` returns when the transport returns an error. -/
theorem GetDoc_of_transport_error {F : Type} (rt : GoRuntime F) (c : clientImpl)
    (coll key : String) (err : GoError)
    (hr : refused c
      (prepareRequest rt c "GET" ("/" ++ coll ++ "/" ++ key) none none) err) :
    GetDoc rt c coll key = .ok { Err := some err } := by
  obtain ⟨req, hreq, hdo⟩ := hr
  simp only [GetDoc, hreq, hdo]

/-- What `GetDoc` returns on a response with status 200. -/
theorem GetDoc_of_success {F : Type} (rt : GoRuntime F) (c : clientImpl)
    (coll key : String) (resp : Response)
    (hd : dispatched c
      (prepareRequest rt c "GET" ("/" ++ coll ++ "/" ++ key) none none) resp)
    (hst : resp.StatusCode = 200) :
    GetDoc rt c coll key =
      .ok { Document := some resp.Body, StatusCode := resp.StatusCode } := by
  obtain ⟨req, hreq, hdo⟩ := hd
  simp only [GetDoc, hreq, hdo]
  rw [if_pos hst]

/-- What `UpdateDoc` returns when the transport returns an error. -/
theorem UpdateDoc_of_transport_error {F : Type} (rt : GoRuntime F) (c : clientImpl)
    (coll key : String) (doc : GoAny) (b : JSON) (err : GoError)
    (henc : doc = .ok b)
    (hr : refused c
      (prepareRequest rt c "PUT" ("/" ++ coll ++ "/" ++ key) none (some (.value b))) err) :
    UpdateDoc rt c coll key doc = .ok { Err := some err } := by
  obtain ⟨req, hreq, hdo⟩ := hr
  subst henc
  simp only [UpdateDoc, hreq, hdo]

/-- What `UpdateDoc` returns when the body of a response with status
200 fails to decode. -/
theorem UpdateDoc_of_decode_error {F : Type} (rt : GoRuntime F) (c : clientImpl)
    (coll key : String) (doc : GoAny) (b : JSON) (resp : Response) (e : DecodeError)
    (henc : doc = .ok b)
    (hd : dispatched c
      (prepareRequest rt c "PUT" ("/" ++ coll ++ "/" ++ key) none (some (.value b))) resp)
    (hst : resp.StatusCode = 200)
    (hdec : decodeStruct (DocEventBody.store rt) { Document := none, Event := none } resp.Body = .error e) :
    UpdateDoc rt c coll key doc =
      .ok { StatusCode := resp.StatusCode, Err := some (.decode e) } := by
  obtain ⟨req, hreq, hdo⟩ := hd
  subst henc
  simp only [UpdateDoc, hreq, hdo, hdec]
  rw [if_pos hst]

/-- What `UpdateDoc` returns on a response with status 200 whose
body decodes. -/
theorem UpdateDoc_of_success {F : Type} (rt : GoRuntime F) (c : clientImpl)
    (coll key : String) (doc : GoAny) (b : JSON) (resp : Response) (im : DocEventBody F)
    (henc : doc = .ok b)
    (hd : dispatched c
      (prepareRequest rt c "PUT" ("/" ++ coll ++ "/" ++ key) none (some (.value b))) resp)
    (hst : resp.StatusCode = 200)
    (hdec : decodeStruct (DocEventBody.store rt) { Document := none, Event := none } resp.Body = .ok im) :
    UpdateDoc rt c coll key doc =
      .ok { StatusCode := resp.StatusCode, Document := some (.value (encodeMap rt im.Document)),
            Event := some (.value (encodeMap rt im.Event)) } := by
  obtain ⟨req, hreq, hdo⟩ := hd
  subst henc
  simp only [UpdateDoc, hreq, hdo, hdec, encodeToBuffer]
  rw [if_pos hst]

/-- What `InsertQuery` returns when the transport returns an error. -/
theorem InsertQuery_of_transport_error {F : Type} (rt : GoRuntime F) (c : clientImpl)
    (params : Option ModifyingQueryParams) (b : JSON) (err : GoError)
    (henc : encodeModifyingQueryParams params = .ok b)
    (hr : refused c
      (prepareRequest rt c "POST" "/insert" none (some (.value b))) err) :
    InsertQuery rt c params = .ok { Err := some err } := by
  obtain ⟨req, hreq, hdo⟩ := hr
  simp only [InsertQuery, henc, hreq, hdo]

/-- What `InsertQuery` returns when the body of a response with status
200 or 201 fails to decode. -/
theorem InsertQuery_of_decode_error {F : Type} (rt : GoRuntime F) (c : clientImpl)
    (params : Option ModifyingQueryParams) (b : JSON) (resp : Response) (e : DecodeError)
    (henc : encodeModifyingQueryParams params = .ok b)
    (hd : dispatched c
      (prepareRequest rt c "POST" "/insert" none (some (.value b))) resp)
    (hst : resp.StatusCode = 200 ∨ resp.StatusCode = 201)
    (hdec : decodeStruct (ModifyingQueryBody.store rt) { Events := none, Documents := none } resp.Body = .error e) :
    InsertQuery rt c params =
      .ok { Err := some (.decode e) } := by
  obtain ⟨req, hreq, hdo⟩ := hd
  simp only [InsertQuery, henc, hreq, hdo, hdec]
  rw [if_pos (Or.symm hst)]

/-- What `InsertQuery` returns on a response with status 200 or 201 whose
body decodes. -/
theorem InsertQuery_of_success {F : Type} (rt : GoRuntime F) (c : clientImpl)
    (params : Option ModifyingQueryParams) (b : JSON) (resp : Response) (im : ModifyingQueryBody F)
    (henc : encodeModifyingQueryParams params = .ok b)
    (hd : dispatched c
      (prepareRequest rt c "POST" "/insert" none (some (.value b))) resp)
    (hst : resp.StatusCode = 200 ∨ resp.StatusCode = 201)
    (hdec : decodeStruct (ModifyingQueryBody.store rt) { Events := none, Documents := none } resp.Body = .ok im) :
    InsertQuery rt c params =
      .ok { StatusCode := resp.StatusCode,
            Documents := some (.value (encodeMapSlice rt im.Documents)),
            Events := some (.value (encodeMapSlice rt im.Events)) } := by
  obtain ⟨req, hreq, hdo⟩ := hd
  simp only [InsertQuery, henc, hreq, hdo, hdec, encodeToBuffer]
  rw [if_pos (Or.symm hst)]

/-- What `UpdateQuery` returns when the transport returns an error. -/
theorem UpdateQuery_of_transport_error {F : Type} (rt : GoRuntime F) (c : clientImpl)
    (params : Option ModifyingQueryParams) (b : JSON) (err : GoError)
    (henc : encodeModifyingQueryParams params = .ok b)
    (hr : refused c
      (prepareRequest rt c "POST" "/update" none (some (.value b))) err) :
    UpdateQuery rt c params = .ok { Err := some err } := by
  obtain ⟨req, hreq, hdo⟩ := hr
  simp only [UpdateQuery, henc, hreq, hdo]

/-- What `UpdateQuery` returns when the body of a response with status
200 or 201 fails to decode. -/
theorem UpdateQuery_of_decode_error {F : Type} (rt : GoRuntime F) (c : clientImpl)
    (params : Option ModifyingQueryParams) (b : JSON) (resp : Response) (e : DecodeError)
    (henc : encodeModifyingQueryParams params = .ok b)
    (hd : dispatched c
      (prepareRequest rt c "POST" "/update" none (some (.value b))) resp)
    (hst : resp.StatusCode = 200 ∨ resp.StatusCode = 201)
    (hdec : decodeStruct (ModifyingQueryBody.store rt) { Events := none, Documents := none } resp.Body = .error e) :
    UpdateQuery rt c params =
      .ok { Err := some (.decode e) } := by
  obtain ⟨req, hreq, hdo⟩ := hd
  simp only [UpdateQuery, henc, hreq, hdo, hdec]
  rw [if_pos (Or.symm hst)]

/-- What `UpdateQuery` returns on a response with status 200 or 201 whose
body decodes. -/
theorem UpdateQuery_of_success {F : Type} (rt : GoRuntime F) (c : clientImpl)
    (params : Option ModifyingQueryParams) (b : JSON) (resp : Response) (im : ModifyingQueryBody F)
    (henc : encodeModifyingQueryParams params = .ok b)
    (hd : dispatched c
      (prepareRequest rt c "POST" "/update" none (some (.value b))) resp)
    (hst : resp.StatusCode = 200 ∨ resp.StatusCode = 201)
    (hdec : decodeStruct (ModifyingQueryBody.store rt) { Events := none, Documents := none } resp.Body = .ok im) :
    UpdateQuery rt c params =
      .ok { StatusCode := resp.StatusCode,
            Documents := some (.value (encodeMapSlice rt im.Documents)),
            Events := some (.value (encodeMapSlice rt im.Events)) } := by
  obtain ⟨req, hreq, hdo⟩ := hd
  simp only [UpdateQuery, henc, hreq, hdo, hdec, encodeToBuffer]
  rw [if_pos (Or.symm hst)]

/-- What `RemoveQuery` returns when the transport returns an error. -/
theorem RemoveQuery_of_transport_error {F : Type} (rt : GoRuntime F) (c : clientImpl)
    (params : Option ModifyingQueryParams) (b : JSON) (err : GoError)
    (henc : encodeModifyingQueryParams params = .ok b)
    (hr : refused c
      (prepareRequest rt c "POST" "/remove" none (some (.value b))) err) :
    RemoveQuery rt c params = .ok { Err := some err } := by
  obtain ⟨req, hreq, hdo⟩ := hr
  simp only [RemoveQuery, henc, hreq, hdo]

/-- What `RemoveQuery` returns when the body of a response with status
200 or 201 fails to decode. -/
theorem RemoveQuery_of_decode_error {F : Type} (rt : GoRuntime F) (c : clientImpl)
    (params : Option ModifyingQueryParams) (b : JSON) (resp : Response) (e : DecodeError)
    (henc : encodeModifyingQueryParams params = .ok b)
    (hd : dispatched c
      (prepareRequest rt c "POST" "/remove" none (some (.value b))) resp)
    (hst : resp.StatusCode = 200 ∨ resp.StatusCode = 201)
    (hdec : decodeStruct (ModifyingQueryBody.store rt) { Events := none, Documents := none } resp.Body = .error e) :
    RemoveQuery rt c params =
      .ok { Err := some (.decode e) } := by
  obtain ⟨req, hreq, hdo⟩ := hd
  simp only [RemoveQuery, henc, hreq, hdo, hdec]
  rw [if_pos (Or.symm hst)]

/-- What `RemoveQuery` returns on a response with status 200 or 201 whose
body decodes. -/
theorem RemoveQuery_of_success {F : Type} (rt : GoRuntime F) (c : clientImpl)
    (params : Option ModifyingQueryParams) (b : JSON) (resp : Response) (im : ModifyingQueryBody F)
    (henc : encodeModifyingQueryParams params = .ok b)
    (hd : dispatched c
      (prepareRequest rt c "POST" "/remove" none (some (.value b))) resp)
    (hst : resp.StatusCode = 200 ∨ resp.StatusCode = 201)
    (hdec : decodeStruct (ModifyingQueryBody.store rt) { Events := none, Documents := none } resp.Body = .ok im) :
    RemoveQuery rt c params =
      .ok { StatusCode := resp.StatusCode,
            Documents := some (.value (encodeMapSlice rt im.Documents)),
            Events := some (.value (encodeMapSlice rt im.Events)) } := by
  obtain ⟨req, hreq, hdo⟩ := hd
  simp only [RemoveQuery, henc, hreq, hdo, hdec, encodeToBuffer]
  rw [if_pos (Or.symm hst)]

/-- What `GetDocCount` returns when the transport returns an error. -/
theorem GetDocCount_of_transport_error {F : Type} (rt : GoRuntime F) (c : clientImpl)
    (coll : String) (params : DocumentRetrievalParams) (err : GoError)
    (hr : refused c
      (prepareRequest rt c "GET" ("/" ++ coll ++ "/count")
        (some (addFields params.Fields [])) none) err) :
    GetDocCount rt c coll (some params) = .ok { Count := -1, Err := some err } := by
  obtain ⟨req, hreq, hdo⟩ := hr
  simp only [GetDocCount, hreq, hdo]

/-- What `GetDocCount` returns when the body fails to decode. -/
theorem GetDocCount_of_decode_error {F : Type} (rt : GoRuntime F) (c : clientImpl)
    (coll : String) (params : DocumentRetrievalParams) (resp : Response) (e : DecodeError)
    (hd : dispatched c
      (prepareRequest rt c "GET" ("/" ++ coll ++ "/count")
        (some (addFields params.Fields [])) none) resp)
    (hdec : decodeMap rt resp.Body = .error e) :
    GetDocCount rt c coll (some params) = .ok { Count := -1, Err := some (.decode e) } := by
  obtain ⟨req, hreq, hdo⟩ := hd
  simp only [GetDocCount, hreq, hdo, hdec]

/-- What `GetDocCount` returns on a response with status 200 whose body holds
a numeric `count`. -/
theorem GetDocCount_of_success {F : Type} (rt : GoRuntime F) (c : clientImpl)
    (coll : String) (params : DocumentRetrievalParams) (resp : Response) (m : GoMap F) (n : F)
    (hd : dispatched c
      (prepareRequest rt c "GET" ("/" ++ coll ++ "/count")
        (some (addFields params.Fields [])) none) resp)
    (hst : resp.StatusCode = 200)
    (hdec : decodeMap rt resp.Body = .ok m)
    (hcount : mapIndex m "count" = some (.float64 n)) :
    GetDocCount rt c coll (some params) = .ok { Count := rt.floatToInt n } := by
  obtain ⟨req, hreq, hdo⟩ := hd
  simp only [GetDocCount, hreq, hdo, hdec, hcount]
  rw [if_pos hst]

/-- What `GetDocCount` returns on a response with a status other than 200
whose body decodes to a map the classifier accepts. -/
theorem GetDocCount_of_failure {F : Type} (rt : GoRuntime F) (c : clientImpl)
    (coll : String) (params : DocumentRetrievalParams) (resp : Response) (m : GoMap F)
    (msg : String) (err : Option GoError)
    (hd : dispatched c
      (prepareRequest rt c "GET" ("/" ++ coll ++ "/count")
        (some (addFields params.Fields [])) none) resp)
    (hst : resp.StatusCode ≠ 200)
    (hdec : decodeMap rt resp.Body = .ok m)
    (hcl : prepareExceptionResponseFromMap resp.StatusCode m = .ok (msg, err)) :
    GetDocCount rt c coll (some params) =
      .ok { Count := -1, Err := err, Message := msg, StatusCode := resp.StatusCode } := by
  obtain ⟨req, hreq, hdo⟩ := hd
  simp only [GetDocCount, hreq, hdo, hdec, hcl]
  rw [if_neg hst]

/-- What `RemoveDoc` returns when the transport returns an error. -/
theorem RemoveDoc_of_transport_error {F : Type} (rt : GoRuntime F) (c : clientImpl)
    (coll key : String) (err : GoError)
    (hr : refused c
      (prepareRequest rt c "DELETE" ("/" ++ coll ++ "/" ++ key) none none) err) :
    RemoveDoc rt c coll key = .ok { Err := some err } := by
  obtain ⟨req, hreq, hdo⟩ := hr
  simp only [RemoveDoc, hreq, hdo]

/-- What `RemoveDoc` returns when the body fails to decode. -/
theorem RemoveDoc_of_decode_error {F : Type} (rt : GoRuntime F) (c : clientImpl)
    (coll key : String) (resp : Response) (e : DecodeError)
    (hd : dispatched c
      (prepareRequest rt c "DELETE" ("/" ++ coll ++ "/" ++ key) none none) resp)
    (hdec : decodeMap rt resp.Body = .error e) :
    RemoveDoc rt c coll key = .ok { Err := some (.decode e) } := by
  obtain ⟨req, hreq, hdo⟩ := hd
  simp only [RemoveDoc, hreq, hdo, hdec]

/-- What `RemoveDoc` returns on a response with status 200 whose body holds
the maps `doc` and `event`. -/
theorem RemoveDoc_of_success {F : Type} (rt : GoRuntime F) (c : clientImpl)
    (coll key : String) (resp : Response) (m : GoMap F)
    (doc evt : List (String × GoValue F))
    (hd : dispatched c
      (prepareRequest rt c "DELETE" ("/" ++ coll ++ "/" ++ key) none none) resp)
    (hst : resp.StatusCode = 200)
    (hdec : decodeMap rt resp.Body = .ok m)
    (hdoc : mapIndex m "doc" = some (.map doc))
    (hevt : mapIndex m "event" = some (.map evt)) :
    RemoveDoc rt c coll key =
      .ok { Document := some (.value (encodeMap rt (some doc))),
            Event := some (.value (encodeMap rt (some evt))),
            StatusCode := resp.StatusCode } := by
  obtain ⟨req, hreq, hdo⟩ := hd
  simp only [RemoveDoc, hreq, hdo, hdec, hdoc, hevt, encodeToBuffer]
  rw [if_pos hst]

/-- What `RemoveDoc` returns on a response with a status other than 200
whose body decodes to a map the classifier accepts. -/
theorem RemoveDoc_of_failure {F : Type} (rt : GoRuntime F) (c : clientImpl)
    (coll key : String) (resp : Response) (m : GoMap F) (msg : String) (err : Option GoError)
    (hd : dispatched c
      (prepareRequest rt c "DELETE" ("/" ++ coll ++ "/" ++ key) none none) resp)
    (hst : resp.StatusCode ≠ 200)
    (hdec : decodeMap rt resp.Body = .ok m)
    (hcl : prepareExceptionResponseFromMap resp.StatusCode m = .ok (msg, err)) :
    RemoveDoc rt c coll key =
      .ok { Err := err, Message := msg, StatusCode := resp.StatusCode } := by
  obtain ⟨req, hreq, hdo⟩ := hd
  simp only [RemoveDoc, hreq, hdo, hdec, hcl]
  rw [if_neg hst]

/-! ## The status rule of the facade operations -/

/-- C18 as stated fails: `UpdateDoc` on a response with status 201 and a
well-formed `{doc, event}` body, and `CreateIndex` on a response with status
200, classify the response and return `ErrGeneral`. -/
theorem facade_status_rule_counterexample :
    (UpdateDoc wholeRuntime
        (testClient ⟨201, .value (.obj [("doc", .obj []), ("event", .obj [])])⟩)
        "users" "1" (.ok (.obj []))).map (fun r => (r.Err, r.Document))
      = .ok (some GoError.ErrGeneral, none) ∧
    (CreateIndex wholeRuntime (testClient ⟨200, .value (.obj [])⟩) none).map (fun r => r.Err)
      = .ok (some GoError.ErrGeneral) :=
  ⟨rfl, rfl⟩

/-- C18, amended: every facade operation branches on its own success set,
`{200, 201}` for `CreateColl`, `CreateGraph`, `CreateRelation`, `CreateDoc`,
`InsertQuery`, `UpdateQuery` and `RemoveQuery`, `{200}` for `GetIndexes`,
`RemoveIndex`, `GetDocs`, `GetDoc`, `UpdateDoc`, `GetDocCount` and `RemoveDoc`,
and `{201}` for `CreateIndex`.  A response with a status in the success set
and a well-formed body yields `Err = nil` with the decoded payload; a response
with any other status is classified into `(Message, Err)`, by
`prepareExceptionResponse`, and for `GetDocCount` and `RemoveDoc` by
`prepareExceptionResponseFromMap` on the decoded body whenever it returns. -/
theorem facade_status_rule {F : Type} (rt : GoRuntime F) (c : clientImpl) (resp : Response) :
    (resp.StatusCode = 200 ∨ resp.StatusCode = 201 →
      (∀ (name : String) (b : JSON) (im : CreateCollBody), encodeCollName name = .ok b →
        dispatched c
          (prepareRequest rt c "POST" createCollEndpoint none (some (.value b))) resp →
        decodeStruct CreateCollBody.store { ID := "", Message := "" } resp.Body = .ok im →
        ∃ r, CreateColl rt c name = .ok r ∧ r.Err = none ∧ r.StatusCode = resp.StatusCode ∧
          r.CreatedIDs = some [im.ID] ∧
          r.Message = im.Message) ∧
      (∀ (graphDef : Option Graph) (b : JSON) (im : MessageBody), encodeGraph graphDef = .ok b →
        dispatched c
          (prepareRequest rt c "POST" graphEndpoint none (some (.value b))) resp →
        decodeStruct MessageBody.store { Message := "" } resp.Body = .ok im →
        ∃ r, CreateGraph rt c graphDef = .ok r ∧ r.Err = none ∧ r.StatusCode = resp.StatusCode ∧
          r.Message = im.Message) ∧
      (∀ (graph : String) (relation : Option Relation) (b : JSON) (im : MessageBody), encodeRelation relation = .ok b →
        dispatched c
          (prepareRequest rt c "POST" (graphEndpoint ++ "/" ++ graph ++ relationEndpoint) none
        (some (.value b))) resp →
        decodeStruct MessageBody.store { Message := "" } resp.Body = .ok im →
        ∃ r, CreateRelation rt c graph relation = .ok r ∧ r.Err = none ∧ r.StatusCode = resp.StatusCode ∧
          r.Message = im.Message) ∧
      (∀ (coll : String) (doc : GoAny) (b : JSON) (im : DocEventBody F), doc = .ok b →
        dispatched c
          (prepareRequest rt c "POST" ("/" ++ coll) none (some (.value b))) resp →
        decodeStruct (DocEventBody.store rt) { Document := none, Event := none } resp.Body = .ok im →
        ∃ r, CreateDoc rt c coll doc = .ok r ∧ r.Err = none ∧ r.StatusCode = resp.StatusCode ∧
          r.Document = some (.value (encodeMap rt im.Document)) ∧
          r.Event = some (.value (encodeMap rt im.Event))) ∧
      (∀ (params : Option ModifyingQueryParams) (b : JSON) (im : ModifyingQueryBody F), encodeModifyingQueryParams params = .ok b →
        dispatched c
          (prepareRequest rt c "POST" "/insert" none (some (.value b))) resp →
        decodeStruct (ModifyingQueryBody.store rt) { Events := none, Documents := none } resp.Body = .ok im →
        ∃ r, InsertQuery rt c params = .ok r ∧ r.Err = none ∧ r.StatusCode = resp.StatusCode ∧
          r.Documents = some (.value (encodeMapSlice rt im.Documents)) ∧
          r.Events = some (.value (encodeMapSlice rt im.Events))) ∧
      (∀ (params : Option ModifyingQueryParams) (b : JSON) (im : ModifyingQueryBody F), encodeModifyingQueryParams params = .ok b →
        dispatched c
          (prepareRequest rt c "POST" "/update" none (some (.value b))) resp →
        decodeStruct (ModifyingQueryBody.store rt) { Events := none, Documents := none } resp.Body = .ok im →
        ∃ r, UpdateQuery rt c params = .ok r ∧ r.Err = none ∧ r.StatusCode = resp.StatusCode ∧
          r.Documents = some (.value (encodeMapSlice rt im.Documents)) ∧
          r.Events = some (.value (encodeMapSlice rt im.Events))) ∧
      (∀ (params : Option ModifyingQueryParams) (b : JSON) (im : ModifyingQueryBody F), encodeModifyingQueryParams params = .ok b →
        dispatched c
          (prepareRequest rt c "POST" "/remove" none (some (.value b))) resp →
        decodeStruct (ModifyingQueryBody.store rt) { Events := none, Documents := none } resp.Body = .ok im →
        ∃ r, RemoveQuery rt c params = .ok r ∧ r.Err = none ∧ r.StatusCode = resp.StatusCode ∧
          r.Documents = some (.value (encodeMapSlice rt im.Documents)) ∧
          r.Events = some (.value (encodeMapSlice rt im.Events)))) ∧
    (resp.StatusCode ≠ 200 → resp.StatusCode ≠ 201 →
      (∀ (name : String) (b : JSON), encodeCollName name = .ok b →
        dispatched c
          (prepareRequest rt c "POST" createCollEndpoint none (some (.value b))) resp →
        ∃ r, CreateColl rt c name = .ok r ∧ r.StatusCode = resp.StatusCode ∧
          (r.Message, r.Err) = prepareExceptionResponse resp) ∧
      (∀ (graphDef : Option Graph) (b : JSON), encodeGraph graphDef = .ok b →
        dispatched c
          (prepareRequest rt c "POST" graphEndpoint none (some (.value b))) resp →
        ∃ r, CreateGraph rt c graphDef = .ok r ∧ r.StatusCode = resp.StatusCode ∧
          (r.Message, r.Err) = prepareExceptionResponse resp) ∧
      (∀ (graph : String) (relation : Option Relation) (b : JSON), encodeRelation relation = .ok b →
        dispatched c
          (prepareRequest rt c "POST" (graphEndpoint ++ "/" ++ graph ++ relationEndpoint) none
        (some (.value b))) resp →
        ∃ r, CreateRelation rt c graph relation = .ok r ∧ r.StatusCode = resp.StatusCode ∧
          (r.Message, r.Err) = prepareExceptionResponse resp) ∧
      (∀ (coll : String) (doc : GoAny) (b : JSON), doc = .ok b →
        dispatched c
          (prepareRequest rt c "POST" ("/" ++ coll) none (some (.value b))) resp →
        ∃ r, CreateDoc rt c coll doc = .ok r ∧ r.StatusCode = resp.StatusCode ∧
          (r.Message, r.Err) = prepareExceptionResponse resp) ∧
      (∀ (params : Option ModifyingQueryParams) (b : JSON), encodeModifyingQueryParams params = .ok b →
        dispatched c
          (prepareRequest rt c "POST" "/insert" none (some (.value b))) resp →
        ∃ r, InsertQuery rt c params = .ok r ∧ r.StatusCode = resp.StatusCode ∧
          (r.Message, r.Err) = prepareExceptionResponse resp) ∧
      (∀ (params : Option ModifyingQueryParams) (b : JSON), encodeModifyingQueryParams params = .ok b →
        dispatched c
          (prepareRequest rt c "POST" "/update" none (some (.value b))) resp →
        ∃ r, UpdateQuery rt c params = .ok r ∧ r.StatusCode = resp.StatusCode ∧
          (r.Message, r.Err) = prepareExceptionResponse resp) ∧
      (∀ (params : Option ModifyingQueryParams) (b : JSON), encodeModifyingQueryParams params = .ok b →
        dispatched c
          (prepareRequest rt c "POST" "/remove" none (some (.value b))) resp →
        ∃ r, RemoveQuery rt c params = .ok r ∧ r.StatusCode = resp.StatusCode ∧
          (r.Message, r.Err) = prepareExceptionResponse resp)) ∧
    (resp.StatusCode = 200 →
      (∀ (coll : String) (im : Option (List (Option Index))), dispatched c
          (prepareRequest rt c "GET" (indexEndpoint ++ "/" ++ coll) none none) resp →
        decodeIndexes resp.Body = .ok im →
        ∃ r, GetIndexes rt c coll = .ok r ∧ r.Err = none ∧ r.StatusCode = resp.StatusCode ∧
          r.Indexes = im) ∧
      (∀ (handle : String) (im : MessageBody), dispatched c
          (prepareRequest rt c "DELETE" (indexEndpoint ++ "/" ++ handle) none none) resp →
        decodeStruct MessageBody.store { Message := "" } resp.Body = .ok im →
        ∃ r, RemoveIndex rt c handle = .ok r ∧ r.Err = none ∧ r.StatusCode = resp.StatusCode ∧
          r.Message = im.Message) ∧
      (∀ (coll : String) (params : DocumentRetrievalParams) (im : Option (GoSlice (GoMap F))), dispatched c
          (prepareRequest rt c "GET" ("/" ++ coll) (some (getDocsParams params)) none) resp →
        decodeMapSlice rt resp.Body = .ok im →
        ∃ r, GetDocs rt c coll (some params) = .ok r ∧ r.Err = none ∧ r.StatusCode = resp.StatusCode ∧
          r.Documents = some (.value (encodeMapSlice rt im))) ∧
      (∀ (coll key : String), dispatched c
          (prepareRequest rt c "GET" ("/" ++ coll ++ "/" ++ key) none none) resp →
        ∃ r, GetDoc rt c coll key = .ok r ∧ r.Err = none ∧ r.StatusCode = resp.StatusCode ∧
          r.Document = some resp.Body) ∧
      (∀ (coll key : String) (doc : GoAny) (b : JSON) (im : DocEventBody F), doc = .ok b →
        dispatched c
          (prepareRequest rt c "PUT" ("/" ++ coll ++ "/" ++ key) none (some (.value b))) resp →
        decodeStruct (DocEventBody.store rt) { Document := none, Event := none } resp.Body = .ok im →
        ∃ r, UpdateDoc rt c coll key doc = .ok r ∧ r.Err = none ∧ r.StatusCode = resp.StatusCode ∧
          r.Document = some (.value (encodeMap rt im.Document)) ∧
          r.Event = some (.value (encodeMap rt im.Event))) ∧
      (∀ (coll : String) (params : DocumentRetrievalParams) (m : GoMap F) (n : F), dispatched c
          (prepareRequest rt c "GET" ("/" ++ coll ++ "/count")
            (some (addFields params.Fields [])) none) resp →
        decodeMap rt resp.Body = .ok m → mapIndex m "count" = some (.float64 n) →
        ∃ r, GetDocCount rt c coll (some params) = .ok r ∧ r.Err = none ∧
          r.Count = rt.floatToInt n) ∧
      (∀ (coll key : String) (m : GoMap F) (doc evt : List (String × GoValue F)), dispatched c
          (prepareRequest rt c "DELETE" ("/" ++ coll ++ "/" ++ key) none none) resp →
        decodeMap rt resp.Body = .ok m → mapIndex m "doc" = some (.map doc) →
        mapIndex m "event" = some (.map evt) →
        ∃ r, RemoveDoc rt c coll key = .ok r ∧ r.Err = none ∧ r.StatusCode = resp.StatusCode ∧
          r.Document = some (.value (encodeMap rt (some doc))) ∧
          r.Event = some (.value (encodeMap rt (some evt))))) ∧
    (resp.StatusCode ≠ 200 →
      (∀ (coll : String), dispatched c
          (prepareRequest rt c "GET" (indexEndpoint ++ "/" ++ coll) none none) resp →
        ∃ r, GetIndexes rt c coll = .ok r ∧ r.StatusCode = resp.StatusCode ∧
          (r.Message, r.Err) = prepareExceptionResponse resp) ∧
      (∀ (handle : String), dispatched c
          (prepareRequest rt c "DELETE" (indexEndpoint ++ "/" ++ handle) none none) resp →
        ∃ r, RemoveIndex rt c handle = .ok r ∧ r.StatusCode = resp.StatusCode ∧
          (r.Message, r.Err) = prepareExceptionResponse resp) ∧
      (∀ (coll : String) (params : DocumentRetrievalParams), dispatched c
          (prepareRequest rt c "GET" ("/" ++ coll) (some (getDocsParams params)) none) resp →
        ∃ r, GetDocs rt c coll (some params) = .ok r ∧ r.StatusCode = resp.StatusCode ∧
          (r.Message, r.Err) = prepareExceptionResponse resp) ∧
      (∀ (coll key : String), dispatched c
          (prepareRequest rt c "GET" ("/" ++ coll ++ "/" ++ key) none none) resp →
        ∃ r, GetDoc rt c coll key = .ok r ∧ r.StatusCode = resp.StatusCode ∧
          (r.Message, r.Err) = prepareExceptionResponse resp) ∧
      (∀ (coll key : String) (doc : GoAny) (b : JSON), doc = .ok b →
        dispatched c
          (prepareRequest rt c "PUT" ("/" ++ coll ++ "/" ++ key) none (some (.value b))) resp →
        ∃ r, UpdateDoc rt c coll key doc = .ok r ∧ r.StatusCode = resp.StatusCode ∧
          (r.Message, r.Err) = prepareExceptionResponse resp) ∧
      (∀ (coll : String) (params : DocumentRetrievalParams) (m : GoMap F) (msg : String)
          (err : Option GoError), dispatched c
          (prepareRequest rt c "GET" ("/" ++ coll ++ "/count")
            (some (addFields params.Fields [])) none) resp →
        decodeMap rt resp.Body = .ok m →
        prepareExceptionResponseFromMap resp.StatusCode m = .ok (msg, err) →
        ∃ r, GetDocCount rt c coll (some params) = .ok r ∧ r.StatusCode = resp.StatusCode ∧
          (r.Message, r.Err) = (msg, err)) ∧
      (∀ (coll key : String) (m : GoMap F) (msg : String) (err : Option GoError), dispatched c
          (prepareRequest rt c "DELETE" ("/" ++ coll ++ "/" ++ key) none none) resp →
        decodeMap rt resp.Body = .ok m →
        prepareExceptionResponseFromMap resp.StatusCode m = .ok (msg, err) →
        ∃ r, RemoveDoc rt c coll key = .ok r ∧ r.StatusCode = resp.StatusCode ∧
          (r.Message, r.Err) = (msg, err))) ∧
    (resp.StatusCode = 201 →
      (∀ (params : Option IndexParams) (b : JSON), encodeIndexParams params = .ok b →
        dispatched c
          (prepareRequest rt c "POST" indexEndpoint none (some (.value b))) resp →
        ∃ r, CreateIndex rt c params = .ok r ∧ r.Err = none ∧ r.StatusCode = resp.StatusCode)) ∧
    (resp.StatusCode ≠ 201 →
      (∀ (params : Option IndexParams) (b : JSON), encodeIndexParams params = .ok b →
        dispatched c
          (prepareRequest rt c "POST" indexEndpoint none (some (.value b))) resp →
        ∃ r, CreateIndex rt c params = .ok r ∧ r.StatusCode = resp.StatusCode ∧
          (r.Message, r.Err) = prepareExceptionResponse resp)) := by
  refine ⟨?_, ?_, ?_, ?_, ?_, ?_⟩
  · intro hst
    refine ⟨?_, ?_, ?_, ?_, ?_, ?_, ?_⟩
    · intro name b im henc hd hdec
      exact ⟨_, CreateColl_of_success rt c name b resp im henc hd hst hdec, rfl, rfl, rfl, rfl⟩
    · intro graphDef b im henc hd hdec
      exact ⟨_, CreateGraph_of_success rt c graphDef b resp im henc hd hst hdec, rfl, rfl, rfl⟩
    · intro graph relation b im henc hd hdec
      exact ⟨_, CreateRelation_of_success rt c graph relation b resp im henc hd hst hdec, rfl, rfl, rfl⟩
    · intro coll doc b im henc hd hdec
      exact ⟨_, CreateDoc_of_success rt c coll doc b resp im henc hd hst hdec, rfl, rfl, rfl, rfl⟩
    · intro params b im henc hd hdec
      exact ⟨_, InsertQuery_of_success rt c params b resp im henc hd hst hdec, rfl, rfl, rfl, rfl⟩
    · intro params b im henc hd hdec
      exact ⟨_, UpdateQuery_of_success rt c params b resp im henc hd hst hdec, rfl, rfl, rfl, rfl⟩
    · intro params b im henc hd hdec
      exact ⟨_, RemoveQuery_of_success rt c params b resp im henc hd hst hdec, rfl, rfl, rfl, rfl⟩
  · intro h200 h201
    refine ⟨?_, ?_, ?_, ?_, ?_, ?_, ?_⟩
    · intro name b henc hd
      exact ⟨_, CreateColl_of_failure rt c name b resp henc hd h200 h201, rfl, rfl⟩
    · intro graphDef b henc hd
      exact ⟨_, CreateGraph_of_failure rt c graphDef b resp henc hd h200 h201, rfl, rfl⟩
    · intro graph relation b henc hd
      exact ⟨_, CreateRelation_of_failure rt c graph relation b resp henc hd h200 h201, rfl, rfl⟩
    · intro coll doc b henc hd
      exact ⟨_, CreateDoc_of_failure rt c coll doc b resp henc hd h200 h201, rfl, rfl⟩
    · intro params b henc hd
      exact ⟨_, InsertQuery_of_failure rt c params b resp henc hd h200 h201, rfl, rfl⟩
    · intro params b henc hd
      exact ⟨_, UpdateQuery_of_failure rt c params b resp henc hd h200 h201, rfl, rfl⟩
    · intro params b henc hd
      exact ⟨_, RemoveQuery_of_failure rt c params b resp henc hd h200 h201, rfl, rfl⟩
  · intro hst
    refine ⟨?_, ?_, ?_, ?_, ?_, ?_, ?_⟩
    · intro coll im hd hdec
      exact ⟨_, GetIndexes_of_success rt c coll resp im hd hst hdec, rfl, rfl, rfl⟩
    · intro handle im hd hdec
      exact ⟨_, RemoveIndex_of_success rt c handle resp im hd hst hdec, rfl, rfl, rfl⟩
    · intro coll params im hd hdec
      exact ⟨_, GetDocs_of_success rt c coll params resp im hd hst hdec, rfl, rfl, rfl⟩
    · intro coll key hd
      exact ⟨_, GetDoc_of_success rt c coll key resp hd hst, rfl, rfl, rfl⟩
    · intro coll key doc b im henc hd hdec
      exact ⟨_, UpdateDoc_of_success rt c coll key doc b resp im henc hd hst hdec, rfl, rfl, rfl, rfl⟩
    · intro coll params m n hd hdec hcount
      exact ⟨_, GetDocCount_of_success rt c coll params resp m n hd hst hdec hcount, rfl, rfl⟩
    · intro coll key m doc evt hd hdec hdoc hevt
      exact ⟨_, RemoveDoc_of_success rt c coll key resp m doc evt hd hst hdec hdoc hevt,
        rfl, rfl, rfl, rfl⟩
  · intro h200
    refine ⟨?_, ?_, ?_, ?_, ?_, ?_, ?_⟩
    · intro coll hd
      exact ⟨_, GetIndexes_of_failure rt c coll resp hd h200, rfl, rfl⟩
    · intro handle hd
      exact ⟨_, RemoveIndex_of_failure rt c handle resp hd h200, rfl, rfl⟩
    · intro coll params hd
      exact ⟨_, GetDocs_of_failure rt c coll params resp hd h200, rfl, rfl⟩
    · intro coll key hd
      exact ⟨_, GetDoc_of_failure rt c coll key resp hd h200, rfl, rfl⟩
    · intro coll key doc b henc hd
      exact ⟨_, UpdateDoc_of_failure rt c coll key doc b resp henc hd h200, rfl, rfl⟩
    · intro coll params m msg err hd hdec hcl
      exact ⟨_, GetDocCount_of_failure rt c coll params resp m msg err hd h200 hdec hcl,
        rfl, rfl⟩
    · intro coll key m msg err hd hdec hcl
      exact ⟨_, RemoveDoc_of_failure rt c coll key resp m msg err hd h200 hdec hcl, rfl, rfl⟩
  · intro hst
    intro params b henc hd
    exact ⟨_, CreateIndex_of_success rt c params b resp henc hd hst, rfl, rfl⟩
  · intro h201
    intro params b henc hd
    exact ⟨_, CreateIndex_of_failure rt c params b resp henc hd h201, rfl, rfl⟩

/-! ## Faults leave no payload -/

/-- C20: for every operation, when the transport returns an error, and when
the operation's decoding of a success body fails, the returned result carries
that fault as `Err` and every payload field of the result (`Documents`,
`Document`, `Event`, `Events`, `Indexes`, `CreatedIDs`) is nil; `GetDocCount`
reports the count `-1`.  `GetDoc` and `CreateIndex` decode no success body. -/
theorem fault_leaves_no_payload {F : Type} (rt : GoRuntime F) (c : clientImpl) :
    (∀ err : GoError,
      (∀ (params : Option CursorQueryParams) (b : JSON), encodeCursorQueryParams params = .ok b →
        refused c
          (prepareRequest rt c "POST" cursorEndpoint none (some (.value b))) err →
        ∃ r, CursorQuery rt c params = .ok r ∧ r.Err = some err ∧ r.Documents = none) ∧
      (∀ (cursorID : String), refused c
          (prepareRequest rt c "PUT" (cursorEndpoint ++ "/" ++ cursorID) none none) err →
        ∃ r, CursorGetNextBatch rt c cursorID = .ok r ∧ r.Err = some err ∧ r.Documents = none) ∧
      (∀ (name : String) (b : JSON), encodeCollName name = .ok b →
        refused c
          (prepareRequest rt c "POST" createCollEndpoint none (some (.value b))) err →
        ∃ r, CreateColl rt c name = .ok r ∧ r.Err = some err ∧ r.CreatedIDs = none) ∧
      (∀ (graphDef : Option Graph) (b : JSON), encodeGraph graphDef = .ok b →
        refused c
          (prepareRequest rt c "POST" graphEndpoint none (some (.value b))) err →
        ∃ r, CreateGraph rt c graphDef = .ok r ∧ r.Err = some err ∧ r.CreatedIDs = none) ∧
      (∀ (graph : String) (relation : Option Relation) (b : JSON), encodeRelation relation = .ok b →
        refused c
          (prepareRequest rt c "POST" (graphEndpoint ++ "/" ++ graph ++ relationEndpoint) none
        (some (.value b))) err →
        ∃ r, CreateRelation rt c graph relation = .ok r ∧ r.Err = some err ∧ r.CreatedIDs = none) ∧
      (∀ (coll : String), refused c
          (prepareRequest rt c "GET" (indexEndpoint ++ "/" ++ coll) none none) err →
        ∃ r, GetIndexes rt c coll = .ok r ∧ r.Err = some err ∧ r.Indexes = none) ∧
      (∀ (handle : String), refused c
          (prepareRequest rt c "DELETE" (indexEndpoint ++ "/" ++ handle) none none) err →
        ∃ r, RemoveIndex rt c handle = .ok r ∧ r.Err = some err) ∧
      (∀ (params : Option IndexParams) (b : JSON), encodeIndexParams params = .ok b →
        refused c
          (prepareRequest rt c "POST" indexEndpoint none (some (.value b))) err →
        ∃ r, CreateIndex rt c params = .ok r ∧ r.Err = some err) ∧
      (∀ (coll : String) (doc : GoAny) (b : JSON), doc = .ok b →
        refused c
          (prepareRequest rt c "POST" ("/" ++ coll) none (some (.value b))) err →
        ∃ r, CreateDoc rt c coll doc = .ok r ∧ r.Err = some err ∧ r.Document = none ∧ r.Event = none) ∧
      (∀ (coll : String) (params : DocumentRetrievalParams), refused c
          (prepareRequest rt c "GET" ("/" ++ coll) (some (getDocsParams params)) none) err →
        ∃ r, GetDocs rt c coll (some params) = .ok r ∧ r.Err = some err ∧ r.Documents = none) ∧
      (∀ (coll key : String), refused c
          (prepareRequest rt c "GET" ("/" ++ coll ++ "/" ++ key) none none) err →
        ∃ r, GetDoc rt c coll key = .ok r ∧ r.Err = some err ∧ r.Document = none) ∧
      (∀ (coll key : String) (doc : GoAny) (b : JSON), doc = .ok b →
        refused c
          (prepareRequest rt c "PUT" ("/" ++ coll ++ "/" ++ key) none (some (.value b))) err →
        ∃ r, UpdateDoc rt c coll key doc = .ok r ∧ r.Err = some err ∧ r.Document = none ∧ r.Event = none) ∧
      (∀ (params : Option ModifyingQueryParams) (b : JSON), encodeModifyingQueryParams params = .ok b →
        refused c
          (prepareRequest rt c "POST" "/insert" none (some (.value b))) err →
        ∃ r, InsertQuery rt c params = .ok r ∧ r.Err = some err ∧ r.Documents = none ∧ r.Events = none) ∧
      (∀ (params : Option ModifyingQueryParams) (b : JSON), encodeModifyingQueryParams params = .ok b →
        refused c
          (prepareRequest rt c "POST" "/update" none (some (.value b))) err →
        ∃ r, UpdateQuery rt c params = .ok r ∧ r.Err = some err ∧ r.Documents = none ∧ r.Events = none) ∧
      (∀ (params : Option ModifyingQueryParams) (b : JSON), encodeModifyingQueryParams params = .ok b →
        refused c
          (prepareRequest rt c "POST" "/remove" none (some (.value b))) err →
        ∃ r, RemoveQuery rt c params = .ok r ∧ r.Err = some err ∧ r.Documents = none ∧ r.Events = none) ∧
      (∀ (coll : String) (params : DocumentRetrievalParams), refused c
          (prepareRequest rt c "GET" ("/" ++ coll ++ "/count")
            (some (addFields params.Fields [])) none) err →
        ∃ r, GetDocCount rt c coll (some params) = .ok r ∧ r.Err = some err ∧ r.Count = -1) ∧
      (∀ (coll key : String), refused c
          (prepareRequest rt c "DELETE" ("/" ++ coll ++ "/" ++ key) none none) err →
        ∃ r, RemoveDoc rt c coll key = .ok r ∧ r.Err = some err ∧ r.Document = none ∧
          r.Event = none)) ∧
    (∀ (resp : Response) (e : DecodeError),
      (∀ (params : Option CursorQueryParams) (b : JSON), encodeCursorQueryParams params = .ok b →
        dispatched c
          (prepareRequest rt c "POST" cursorEndpoint none (some (.value b))) resp →
        resp.StatusCode = 200 ∨ resp.StatusCode = 201 →
        decodeCursorQueryBody rt resp.Body = .error e →
        ∃ r, CursorQuery rt c params = .ok r ∧ r.Err = some (.decode e) ∧ r.Documents = none) ∧
      (∀ (cursorID : String), dispatched c
          (prepareRequest rt c "PUT" (cursorEndpoint ++ "/" ++ cursorID) none none) resp →
        resp.StatusCode = 200 ∨ resp.StatusCode = 201 →
        decodeNextBatchBody rt resp.Body = .error e →
        ∃ r, CursorGetNextBatch rt c cursorID = .ok r ∧ r.Err = some (.decode e) ∧ r.Documents = none) ∧
      (∀ (name : String) (b : JSON), encodeCollName name = .ok b →
        dispatched c
          (prepareRequest rt c "POST" createCollEndpoint none (some (.value b))) resp →
        resp.StatusCode = 200 ∨ resp.StatusCode = 201 →
        decodeStruct CreateCollBody.store { ID := "", Message := "" } resp.Body = .error e →
        ∃ r, CreateColl rt c name = .ok r ∧ r.Err = some (.decode e) ∧ r.CreatedIDs = none) ∧
      (∀ (graphDef : Option Graph) (b : JSON), encodeGraph graphDef = .ok b →
        dispatched c
          (prepareRequest rt c "POST" graphEndpoint none (some (.value b))) resp →
        resp.StatusCode = 200 ∨ resp.StatusCode = 201 →
        decodeStruct MessageBody.store { Message := "" } resp.Body = .error e →
        ∃ r, CreateGraph rt c graphDef = .ok r ∧ r.Err = some (.decode e) ∧ r.CreatedIDs = none) ∧
      (∀ (graph : String) (relation : Option Relation) (b : JSON), encodeRelation relation = .ok b →
        dispatched c
          (prepareRequest rt c "POST" (graphEndpoint ++ "/" ++ graph ++ relationEndpoint) none
        (some (.value b))) resp →
        resp.StatusCode = 200 ∨ resp.StatusCode = 201 →
        decodeStruct MessageBody.store { Message := "" } resp.Body = .error e →
        ∃ r, CreateRelation rt c graph relation = .ok r ∧ r.Err = some (.decode e) ∧ r.CreatedIDs = none) ∧
      (∀ (coll : String), dispatched c
          (prepareRequest rt c "GET" (indexEndpoint ++ "/" ++ coll) none none) resp →
        resp.StatusCode = 200 →
        decodeIndexes resp.Body = .error e →
        ∃ r, GetIndexes rt c coll = .ok r ∧ r.Err = some (.decode e) ∧ r.Indexes = none) ∧
      (∀ (handle : String), dispatched c
          (prepareRequest rt c "DELETE" (indexEndpoint ++ "/" ++ handle) none none) resp →
        resp.StatusCode = 200 →
        decodeStruct MessageBody.store { Message := "" } resp.Body = .error e →
        ∃ r, RemoveIndex rt c handle = .ok r ∧ r.Err = some (.decode e)) ∧
      (∀ (coll : String) (doc : GoAny) (b : JSON), doc = .ok b →
        dispatched c
          (prepareRequest rt c "POST" ("/" ++ coll) none (some (.value b))) resp →
        resp.StatusCode = 200 ∨ resp.StatusCode = 201 →
        decodeStruct (DocEventBody.store rt) { Document := none, Event := none } resp.Body = .error e →
        ∃ r, CreateDoc rt c coll doc = .ok r ∧ r.Err = some (.decode e) ∧ r.Document = none ∧ r.Event = none) ∧
      (∀ (coll : String) (params : DocumentRetrievalParams), dispatched c
          (prepareRequest rt c "GET" ("/" ++ coll) (some (getDocsParams params)) none) resp →
        resp.StatusCode = 200 →
        decodeMapSlice rt resp.Body = .error e →
        ∃ r, GetDocs rt c coll (some params) = .ok r ∧ r.Err = some (.decode e) ∧ r.Documents = none) ∧
      (∀ (coll key : String) (doc : GoAny) (b : JSON), doc = .ok b →
        dispatched c
          (prepareRequest rt c "PUT" ("/" ++ coll ++ "/" ++ key) none (some (.value b))) resp →
        resp.StatusCode = 200 →
        decodeStruct (DocEventBody.store rt) { Document := none, Event := none } resp.Body = .error e →
        ∃ r, UpdateDoc rt c coll key doc = .ok r ∧ r.Err = some (.decode e) ∧ r.Document = none ∧ r.Event = none) ∧
      (∀ (params : Option ModifyingQueryParams) (b : JSON), encodeModifyingQueryParams params = .ok b →
        dispatched c
          (prepareRequest rt c "POST" "/insert" none (some (.value b))) resp →
        resp.StatusCode = 200 ∨ resp.StatusCode = 201 →
        decodeStruct (ModifyingQueryBody.store rt) { Events := none, Documents := none } resp.Body = .error e →
        ∃ r, InsertQuery rt c params = .ok r ∧ r.Err = some (.decode e) ∧ r.Documents = none ∧ r.Events = none) ∧
      (∀ (params : Option ModifyingQueryParams) (b : JSON), encodeModifyingQueryParams params = .ok b →
        dispatched c
          (prepareRequest rt c "POST" "/update" none (some (.value b))) resp →
        resp.StatusCode = 200 ∨ resp.StatusCode = 201 →
        decodeStruct (ModifyingQueryBody.store rt) { Events := none, Documents := none } resp.Body = .error e →
        ∃ r, UpdateQuery rt c params = .ok r ∧ r.Err = some (.decode e) ∧ r.Documents = none ∧ r.Events = none) ∧
      (∀ (params : Option ModifyingQueryParams) (b : JSON), encodeModifyingQueryParams params = .ok b →
        dispatched c
          (prepareRequest rt c "POST" "/remove" none (some (.value b))) resp →
        resp.StatusCode = 200 ∨ resp.StatusCode = 201 →
        decodeStruct (ModifyingQueryBody.store rt) { Events := none, Documents := none } resp.Body = .error e →
        ∃ r, RemoveQuery rt c params = .ok r ∧ r.Err = some (.decode e) ∧ r.Documents = none ∧ r.Events = none) ∧
      (∀ (coll : String) (params : DocumentRetrievalParams), dispatched c
          (prepareRequest rt c "GET" ("/" ++ coll ++ "/count")
            (some (addFields params.Fields [])) none) resp →
        decodeMap rt resp.Body = .error e →
        ∃ r, GetDocCount rt c coll (some params) = .ok r ∧ r.Err = some (.decode e) ∧
          r.Count = -1) ∧
      (∀ (coll key : String), dispatched c
          (prepareRequest rt c "DELETE" ("/" ++ coll ++ "/" ++ key) none none) resp →
        decodeMap rt resp.Body = .error e →
        ∃ r, RemoveDoc rt c coll key = .ok r ∧ r.Err = some (.decode e) ∧ r.Document = none ∧
          r.Event = none)) := by
  constructor
  · intro err
    refine ⟨?_, ?_, ?_, ?_, ?_, ?_, ?_, ?_, ?_, ?_, ?_, ?_, ?_, ?_, ?_, ?_, ?_⟩
    · intro params b henc hr
      exact ⟨_, CursorQuery_of_transport_error rt c params b err henc hr, rfl, rfl⟩
    · intro cursorID hr
      exact ⟨_, CursorGetNextBatch_of_transport_error rt c cursorID err hr, rfl, rfl⟩
    · intro name b henc hr
      exact ⟨_, CreateColl_of_transport_error rt c name b err henc hr, rfl, rfl⟩
    · intro graphDef b henc hr
      exact ⟨_, CreateGraph_of_transport_error rt c graphDef b err henc hr, rfl, rfl⟩
    · intro graph relation b henc hr
      exact ⟨_, CreateRelation_of_transport_error rt c graph relation b err henc hr, rfl, rfl⟩
    · intro coll hr
      exact ⟨_, GetIndexes_of_transport_error rt c coll err hr, rfl, rfl⟩
    · intro handle hr
      exact ⟨_, RemoveIndex_of_transport_error rt c handle err hr, rfl⟩
    · intro params b henc hr
      exact ⟨_, CreateIndex_of_transport_error rt c params b err henc hr, rfl⟩
    · intro coll doc b henc hr
      exact ⟨_, CreateDoc_of_transport_error rt c coll doc b err henc hr, rfl, rfl, rfl⟩
    · intro coll params hr
      exact ⟨_, GetDocs_of_transport_error rt c coll params err hr, rfl, rfl⟩
    · intro coll key hr
      exact ⟨_, GetDoc_of_transport_error rt c coll key err hr, rfl, rfl⟩
    · intro coll key doc b henc hr
      exact ⟨_, UpdateDoc_of_transport_error rt c coll key doc b err henc hr, rfl, rfl, rfl⟩
    · intro params b henc hr
      exact ⟨_, InsertQuery_of_transport_error rt c params b err henc hr, rfl, rfl, rfl⟩
    · intro params b henc hr
      exact ⟨_, UpdateQuery_of_transport_error rt c params b err henc hr, rfl, rfl, rfl⟩
    · intro params b henc hr
      exact ⟨_, RemoveQuery_of_transport_error rt c params b err henc hr, rfl, rfl, rfl⟩
    · intro coll params hr
      exact ⟨_, GetDocCount_of_transport_error rt c coll params err hr, rfl, rfl⟩
    · intro coll key hr
      exact ⟨_, RemoveDoc_of_transport_error rt c coll key err hr, rfl, rfl, rfl⟩
  · intro resp e
    refine ⟨?_, ?_, ?_, ?_, ?_, ?_, ?_, ?_, ?_, ?_, ?_, ?_, ?_, ?_, ?_⟩
    · intro params b henc hd hst hdec
      exact ⟨_, CursorQuery_of_decode_error rt c params b resp e henc hd hst hdec, rfl, rfl⟩
    · intro cursorID hd hst hdec
      exact ⟨_, CursorGetNextBatch_of_decode_error rt c cursorID resp e hd hst hdec, rfl, rfl⟩
    · intro name b henc hd hst hdec
      exact ⟨_, CreateColl_of_decode_error rt c name b resp e henc hd hst hdec, rfl, rfl⟩
    · intro graphDef b henc hd hst hdec
      exact ⟨_, CreateGraph_of_decode_error rt c graphDef b resp e henc hd hst hdec, rfl, rfl⟩
    · intro graph relation b henc hd hst hdec
      exact ⟨_, CreateRelation_of_decode_error rt c graph relation b resp e henc hd hst hdec, rfl, rfl⟩
    · intro coll hd hst hdec
      exact ⟨_, GetIndexes_of_decode_error rt c coll resp e hd hst hdec, rfl, rfl⟩
    · intro handle hd hst hdec
      exact ⟨_, RemoveIndex_of_decode_error rt c handle resp e hd hst hdec, rfl⟩
    · intro coll doc b henc hd hst hdec
      exact ⟨_, CreateDoc_of_decode_error rt c coll doc b resp e henc hd hst hdec, rfl, rfl, rfl⟩
    · intro coll params hd hst hdec
      exact ⟨_, GetDocs_of_decode_error rt c coll params resp e hd hst hdec, rfl, rfl⟩
    · intro coll key doc b henc hd hst hdec
      exact ⟨_, UpdateDoc_of_decode_error rt c coll key doc b resp e henc hd hst hdec, rfl, rfl, rfl⟩
    · intro params b henc hd hst hdec
      exact ⟨_, InsertQuery_of_decode_error rt c params b resp e henc hd hst hdec, rfl, rfl, rfl⟩
    · intro params b henc hd hst hdec
      exact ⟨_, UpdateQuery_of_decode_error rt c params b resp e henc hd hst hdec, rfl, rfl, rfl⟩
    · intro params b henc hd hst hdec
      exact ⟨_, RemoveQuery_of_decode_error rt c params b resp e henc hd hst hdec, rfl, rfl, rfl⟩
    · intro coll params hd hdec
      exact ⟨_, GetDocCount_of_decode_error rt c coll params resp e hd hdec, rfl, rfl⟩
    · intro coll key hd hdec
      exact ⟨_, RemoveDoc_of_decode_error rt c coll key resp e hd hdec, rfl, rfl, rfl⟩

theorem fault_leaves_no_payload_witness :
    (∃ r, InsertQuery wholeRuntime (testClient ⟨201, .value (.arr [])⟩) (some insertParams)
        = .ok r ∧ r.Err = some (.decode .unmarshalType) ∧ r.Documents = none ∧
        r.Events = none) ∧
    (∃ r, GetDoc wholeRuntime
        { testClient firstPage with
            httpClient := { Do := fun _ => .error (.transport "timeout"),
                            Post := fun _ _ _ => .error (.transport "timeout") } }
        "users" "1" = .ok r ∧ r.Err = some (.transport "timeout") ∧ r.Document = none) :=
  have h := fault_leaves_no_payload wholeRuntime
  ⟨(h (testClient ⟨201, .value (.arr [])⟩)).2 ⟨201, .value (.arr [])⟩ .unmarshalType
      |>.2.2.2.2.2.2.2.2.2.2.1 (some insertParams)
        (.obj [("WriteCollection", .str "test"), ("ReadCollections", .null),
               ("Query", .str "FOR i in 1..100 INSERT { value: i, type: @type } IN test"),
               ("BindVars", .obj [("type", .str "a")])])
        rfl ⟨_, rfl, rfl⟩ (Or.inr rfl) rfl,
   (h _).1 (.transport "timeout") |>.2.2.2.2.2.2.2.2.2.2.1 "users" "1" ⟨_, rfl, rfl⟩⟩

/-! ## Evaluations of the session and facade theorems -/

theorem Refresh_atomic_witness :
    (Refresh { testClient firstPage with
        httpClient := dummySessionClient, sessionInfo := some { SID := "old", UID := "u" } }).1.sessionInfo
      = some { SID := "12345", UID := "6789" } ∧
    (Refresh { testClient firstPage with
        httpClient := refusingClient, sessionInfo := some { SID := "old", UID := "u" } })
      = ({ testClient firstPage with
            httpClient := refusingClient, sessionInfo := some { SID := "old", UID := "u" } },
         some (.transport "connection refused")) :=
  ⟨congrArg (fun r => r.1.sessionInfo)
      ((Refresh_atomic wholeRuntime { testClient firstPage with
          httpClient := dummySessionClient,
          sessionInfo := some { SID := "old", UID := "u" } }).1
        { SID := "12345", UID := "6789" } rfl).1,
   ((Refresh_atomic wholeRuntime { testClient firstPage with
          httpClient := refusingClient,
          sessionInfo := some { SID := "old", UID := "u" } }).2
        none (.transport "connection refused") rfl).1⟩

theorem facade_status_rule_witness :
    ∃ r, CreateColl wholeRuntime
        (testClient ⟨201, .value (.obj [("message", .str "created"), ("_id", .str "test")])⟩)
        "test" = .ok r ∧
      r.Err = none ∧ r.StatusCode = 201 ∧ r.CreatedIDs = some ["test"] ∧ r.Message = "created" :=
  (facade_status_rule wholeRuntime
      (testClient ⟨201, .value (.obj [("message", .str "created"), ("_id", .str "test")])⟩)
      ⟨201, .value (.obj [("message", .str "created"), ("_id", .str "test")])⟩).1
    (Or.inr rfl) |>.1 "test" (.obj [("name", .str "test")]) ⟨"test", "created"⟩ rfl
      ⟨_, rfl, rfl⟩ rfl

/-! ## Status codes, panics and the count (claims C21 to C23) -/

/-- C21 (the code at the failing input): the transport delivers status 200 with
the body `{"count":34}` and `GetDocCount` returns the count with `Err` nil and
`StatusCode` 0; `CursorQuery` and `RemoveDoc`, answered with status 200 and a
body that does not decode, return `StatusCode` 0 as well, while `GetDocs`
keeps the status 200 in the same situation. -/
theorem status_code_dropped :
    GetDocCount wholeRuntime (testClient countResponse) "test" (some noFilter)
        = .ok { Count := 34, Err := none, StatusCode := 0, Message := "" } ∧
      CursorQuery wholeRuntime (testClient ⟨200, .malformed⟩) none
        = .ok { Err := some (.decode .badSyntax), StatusCode := 0 } ∧
      RemoveDoc wholeRuntime (testClient ⟨200, .malformed⟩) "test" "1"
        = .ok { Err := some (.decode .badSyntax), StatusCode := 0 } ∧
      GetDocs wholeRuntime (testClient ⟨200, .malformed⟩) "test" (some noFilter)
        = .ok { Err := some (.decode .badSyntax), StatusCode := 200 } :=
  ⟨rfl, rfl, rfl, rfl⟩

/-- C22 (the code at the failing input): answered with status 404 and the body
`{"errorMessage":"gone"}`, an object without a string `exception`, both
`RemoveDoc` and `GetDocCount` panic on the type assertion; answered with
status 200 and the body `{}`, an object without `doc`, `RemoveDoc` panics too.
No result is returned in any of the three calls. -/
theorem map_operations_panic :
    RemoveDoc wholeRuntime (testClient goneResponse) "test" "1" = .error .interfaceConversion ∧
      GetDocCount wholeRuntime (testClient goneResponse) "test" (some noFilter)
        = .error .interfaceConversion ∧
      RemoveDoc wholeRuntime (testClient ⟨200, .value (.obj [])⟩) "test" "1"
        = .error .interfaceConversion :=
  ⟨rfl, rfl, rfl⟩


/-- The classifier on a decoded map never returns a nil error. -/
theorem prepareExceptionResponseFromMap_err {F : Type} (statusCode : Int) (respMap : GoMap F)
    (msg : String) (err : Option GoError)
    (h : prepareExceptionResponseFromMap statusCode respMap = .ok (msg, err)) : err ≠ none := by
  unfold prepareExceptionResponseFromMap at h
  split at h
  · simp only [Except.ok.injEq, Prod.mk.injEq] at h
    rw [← h.2]
    exact Option.some_ne_none _
  · exact absurd h (by simp)

/-- Whenever `GetDocCount` returns a result, `Err` is nil exactly when the
transport delivered a response with status 200 whose body decodes to a map
holding a `float64` under `count`, and `Count` is then its conversion to `int`;
in every other returning case `Err` is non-nil and `Count` is -1. -/
theorem GetDocCount_returned {F : Type} (rt : GoRuntime F) (c : clientImpl) (coll : String)
    (params : DocumentRetrievalParams) (r : DocumentCountResult)
    (h : GetDocCount rt c coll (some params) = .ok r) :
    (r.Err = none ↔
      ∃ resp respItems count,
        dispatched c
          (prepareRequest rt c "GET" ("/" ++ coll ++ "/count")
            (some (addFields params.Fields [])) none) resp ∧
        resp.StatusCode = 200 ∧ decodeMap rt resp.Body = .ok respItems ∧
        mapIndex respItems "count" = some (.float64 count) ∧
        r.Count = rt.floatToInt count) ∧
      (r.Err ≠ none → r.Count = -1) := by
  unfold GetDocCount at h
  simp only at h
  cases hp : prepareRequest rt c "GET" ("/" ++ coll ++ "/count")
      (some (addFields params.Fields [])) none with
  | error p => rw [hp] at h; exact absurd h (by simp)
  | ok req =>
    rw [hp] at h
    simp only at h
    have huniq : ∀ resp, dispatched c (Except.ok req) resp → c.httpClient.Do req = .ok resp := by
      rintro resp ⟨req2, h1, h2⟩
      cases h1
      exact h2
    cases hd : c.httpClient.Do req with
    | error err =>
      rw [hd] at h
      simp only [Except.ok.injEq] at h
      subst h
      refine ⟨⟨fun h0 => absurd h0 (by simp), ?_⟩, fun _ => rfl⟩
      rintro ⟨resp, _, _, hdis, _⟩
      have := huniq resp hdis
      rw [hd] at this
      exact absurd this (by simp)
    | ok resp =>
      rw [hd] at h
      simp only at h
      cases hm : decodeMap rt resp.Body with
      | error e =>
        rw [hm] at h
        simp only [Except.ok.injEq] at h
        subst h
        refine ⟨⟨fun h0 => absurd h0 (by simp), ?_⟩, fun _ => rfl⟩
        rintro ⟨resp2, m, _, hdis, _, hdec, _⟩
        have h2 := huniq resp2 hdis
        rw [hd] at h2
        cases h2
        rw [hm] at hdec
        exact absurd hdec (by simp)
      | ok respItems =>
        rw [hm] at h
        simp only at h
        by_cases hst : resp.StatusCode = StatusOK
        · rw [if_pos hst] at h
          split at h
          · rename_i count hc
            simp only [Except.ok.injEq] at h
            subst h
            exact ⟨⟨fun _ => ⟨resp, respItems, count, ⟨req, rfl, hd⟩, hst, hm, hc, rfl⟩,
              fun _ => rfl⟩, fun h0 => absurd rfl h0⟩
          · rename_i hc
            simp only [Except.ok.injEq] at h
            subst h
            refine ⟨⟨fun h0 => absurd h0 (by simp), ?_⟩, fun _ => rfl⟩
            rintro ⟨resp2, m, count, hdis, _, hdec, hcount, _⟩
            have h2 := huniq resp2 hdis
            rw [hd] at h2
            cases h2
            rw [hm] at hdec
            cases hdec
            exact (hc count hcount).elim
        · rw [if_neg hst] at h
          split at h
          · exact absurd h (by simp)
          · rename_i message err hcl
            simp only [Except.ok.injEq] at h
            subst h
            have herr := prepareExceptionResponseFromMap_err _ _ _ _ hcl
            refine ⟨⟨fun h0 => absurd h0 herr, ?_⟩, fun _ => rfl⟩
            rintro ⟨resp2, m, count, hdis, hst2, _⟩
            have h2 := huniq resp2 hdis
            rw [hd] at h2
            cases h2
            exact absurd hst2 hst


/-! ## Creating a collection (claim C25) -/

/-- C25: once the transport has answered the request of `CreateColl`, a status
200 or 201 with the body `{"message": m, "_id": i}` gives a result with `Err`
nil, `StatusCode` the status received, `Message` `m` and `CreatedIDs` `[i]`;
a status 400 with the body `{"exception": e}` gives `Err = ErrBadRequest`,
`StatusCode` 400, `Message` `e` and no created IDs. -/
theorem CreateColl_outcomes {F : Type} (rt : GoRuntime F) (c : clientImpl) (name : String)
    (resp : Response) (m i e : String)
    (hd : dispatched c
      (prepareRequest rt c "POST" createCollEndpoint none
        (some (.value (.obj [("name", .str name)])))) resp) :
    ((resp.StatusCode = 200 ∨ resp.StatusCode = 201) →
      resp.Body = .value (.obj [("message", .str m), ("_id", .str i)]) →
      CreateColl rt c name =
        .ok { Err := none, StatusCode := resp.StatusCode, Message := m, CreatedIDs := some [i] }) ∧
    (resp.StatusCode = 400 →
      resp.Body = .value (.obj [("exception", .str e)]) →
      CreateColl rt c name =
        .ok { Err := some .ErrBadRequest, StatusCode := 400, Message := e, CreatedIDs := none }) := by
  constructor
  · intro hst hb
    have hdec : decodeStruct CreateCollBody.store { ID := "", Message := "" } resp.Body
        = .ok { ID := i, Message := m } := by
      rw [hb]; rfl
    exact CreateColl_of_success rt c name _ resp _ rfl hd hst hdec
  · intro hst hb
    have henv : decodeExceptionEnvelope resp.Body = .ok { Message := e, ErrMessage := "" } := by
      rw [hb]; rfl
    rw [CreateColl_of_failure rt c name _ resp rfl hd (by rw [hst]; decide) (by rw [hst]; decide),
      prepareExceptionResponse_of_ok resp _ henv, hst]
    by_cases he : e = ""
    · subst he; rfl
    · simp [he]

/-- Witness for C25: the two answers of the test server to `CreateColl`. -/
theorem CreateColl_outcomes_witness :
    CreateColl wholeRuntime (testClient collCreated) "test"
      = .ok { Err := none, StatusCode := 201,
              Message := "Successfully created the test collection", CreatedIDs := some ["test"] } ∧
    CreateColl wholeRuntime (testClient collExists) "test"
      = .ok { Err := some .ErrBadRequest, StatusCode := 400,
              Message := "Error 2016: Collection already exists", CreatedIDs := none } :=
  ⟨(CreateColl_outcomes wholeRuntime (testClient collCreated) "test" collCreated
      "Successfully created the test collection" "test" ""
      ⟨createCollRequest, rfl, rfl⟩).1 (Or.inr rfl) rfl,
   (CreateColl_outcomes wholeRuntime (testClient collExists) "test" collExists
      "" "" "Error 2016: Collection already exists" ⟨createCollRequest, rfl, rfl⟩).2 rfl rfl⟩


/-! ## Messages and errors (claims C26 and C27) -/

/-- The classifier never returns a nil error. -/
theorem prepareExceptionResponse_err (resp : Response) :
    (prepareExceptionResponse resp).2 ≠ none := by
  unfold prepareExceptionResponse
  split <;> simp

/-- A result of `CursorQuery` with a nil `Err` has an empty `Message`. -/
theorem CursorQuery_message {F : Type} (rt : GoRuntime F) (c : clientImpl)
    (params : Option CursorQueryParams) (r : CursorQueryResult)
    (h : CursorQuery rt c params = .ok r) (he : r.Err = none) : r.Message = "" := by
  unfold CursorQuery at h
  repeat' split at h
  all_goals
    first
    | exact Except.noConfusion h
    | (cases h
       first
       | rfl
       | exact absurd he (Option.some_ne_none _)
       | (rename_i msg err hcl
          exact absurd ((congrArg Prod.snd hcl).trans he) (prepareExceptionResponse_err _)))

/-- A result of `CursorGetNextBatch` with a nil `Err` has an empty `Message`. -/
theorem CursorGetNextBatch_message {F : Type} (rt : GoRuntime F) (c : clientImpl)
    (cursorID : String) (r : CursorQueryResult)
    (h : CursorGetNextBatch rt c cursorID = .ok r) (he : r.Err = none) : r.Message = "" := by
  unfold CursorGetNextBatch at h
  repeat' split at h
  all_goals
    first
    | exact Except.noConfusion h
    | (cases h
       first
       | rfl
       | exact absurd he (Option.some_ne_none _)
       | (rename_i msg err hcl
          exact absurd ((congrArg Prod.snd hcl).trans he) (prepareExceptionResponse_err _)))

/-- A result of `CreateDoc` with a nil `Err` has an empty `Message`. -/
theorem CreateDoc_message {F : Type} (rt : GoRuntime F) (c : clientImpl)
    (coll : String) (doc : GoAny) (r : DocumentOpResult)
    (h : CreateDoc rt c coll doc = .ok r) (he : r.Err = none) : r.Message = "" := by
  unfold CreateDoc at h
  repeat' split at h
  all_goals
    first
    | exact Except.noConfusion h
    | (cases h
       first
       | rfl
       | exact absurd he (Option.some_ne_none _)
       | (rename_i msg err hcl
          exact absurd ((congrArg Prod.snd hcl).trans he) (prepareExceptionResponse_err _)))

/-- A result of `GetDocs` with a nil `Err` has an empty `Message`. -/
theorem GetDocs_message {F : Type} (rt : GoRuntime F) (c : clientImpl)
    (coll : String) (params : Option DocumentRetrievalParams) (r : DocumentsResult)
    (h : GetDocs rt c coll params = .ok r) (he : r.Err = none) : r.Message = "" := by
  unfold GetDocs at h
  repeat' split at h
  all_goals
    first
    | exact Except.noConfusion h
    | (cases h
       first
       | rfl
       | exact absurd he (Option.some_ne_none _)
       | (rename_i msg err hcl
          exact absurd ((congrArg Prod.snd hcl).trans he) (prepareExceptionResponse_err _)))

/-- A result of `GetDocCount` with a nil `Err` has an empty `Message`. -/
theorem GetDocCount_message {F : Type} (rt : GoRuntime F) (c : clientImpl)
    (coll : String) (params : Option DocumentRetrievalParams) (r : DocumentCountResult)
    (h : GetDocCount rt c coll params = .ok r) (he : r.Err = none) : r.Message = "" := by
  unfold GetDocCount at h
  repeat' split at h
  all_goals
    first
    | exact Except.noConfusion h
    | (cases h
       first
       | rfl
       | exact absurd he (Option.some_ne_none _)
       | (rename_i msg err hcl
          exact absurd he (prepareExceptionResponseFromMap_err _ _ _ _ hcl)))

/-- A result of `RemoveDoc` with a nil `Err` has an empty `Message`. -/
theorem RemoveDoc_message {F : Type} (rt : GoRuntime F) (c : clientImpl)
    (coll key : String) (r : DocumentOpResult)
    (h : RemoveDoc rt c coll key = .ok r) (he : r.Err = none) : r.Message = "" := by
  unfold RemoveDoc at h
  repeat' split at h
  all_goals
    first
    | exact Except.noConfusion h
    | (cases h
       first
       | rfl
       | exact absurd he (Option.some_ne_none _)
       | (rename_i msg err hcl
          exact absurd he (prepareExceptionResponseFromMap_err _ _ _ _ hcl)))

/-- A result of `GetDoc` with a nil `Err` has an empty `Message`. -/
theorem GetDoc_message {F : Type} (rt : GoRuntime F) (c : clientImpl)
    (coll key : String) (r : DocumentResult)
    (h : GetDoc rt c coll key = .ok r) (he : r.Err = none) : r.Message = "" := by
  unfold GetDoc at h
  repeat' split at h
  all_goals
    first
    | exact Except.noConfusion h
    | (cases h
       first
       | rfl
       | exact absurd he (Option.some_ne_none _)
       | (rename_i msg err hcl
          exact absurd ((congrArg Prod.snd hcl).trans he) (prepareExceptionResponse_err _)))

/-- A result of `UpdateDoc` with a nil `Err` has an empty `Message`. -/
theorem UpdateDoc_message {F : Type} (rt : GoRuntime F) (c : clientImpl)
    (coll key : String) (doc : GoAny) (r : DocumentOpResult)
    (h : UpdateDoc rt c coll key doc = .ok r) (he : r.Err = none) : r.Message = "" := by
  unfold UpdateDoc at h
  repeat' split at h
  all_goals
    first
    | exact Except.noConfusion h
    | (cases h
       first
       | rfl
       | exact absurd he (Option.some_ne_none _)
       | (rename_i msg err hcl
          exact absurd ((congrArg Prod.snd hcl).trans he) (prepareExceptionResponse_err _)))

/-- A result of `InsertQuery` with a nil `Err` has an empty `Message`. -/
theorem InsertQuery_message {F : Type} (rt : GoRuntime F) (c : clientImpl)
    (params : Option ModifyingQueryParams) (r : DocumentsOpResult)
    (h : InsertQuery rt c params = .ok r) (he : r.Err = none) : r.Message = "" := by
  unfold InsertQuery at h
  repeat' split at h
  all_goals
    first
    | exact Except.noConfusion h
    | (cases h
       first
       | rfl
       | exact absurd he (Option.some_ne_none _)
       | (rename_i msg err hcl
          exact absurd ((congrArg Prod.snd hcl).trans he) (prepareExceptionResponse_err _)))

/-- A result of `UpdateQuery` with a nil `Err` has an empty `Message`. -/
theorem UpdateQuery_message {F : Type} (rt : GoRuntime F) (c : clientImpl)
    (params : Option ModifyingQueryParams) (r : DocumentsOpResult)
    (h : UpdateQuery rt c params = .ok r) (he : r.Err = none) : r.Message = "" := by
  unfold UpdateQuery at h
  repeat' split at h
  all_goals
    first
    | exact Except.noConfusion h
    | (cases h
       first
       | rfl
       | exact absurd he (Option.some_ne_none _)
       | (rename_i msg err hcl
          exact absurd ((congrArg Prod.snd hcl).trans he) (prepareExceptionResponse_err _)))

/-- A result of `RemoveQuery` with a nil `Err` has an empty `Message`. -/
theorem RemoveQuery_message {F : Type} (rt : GoRuntime F) (c : clientImpl)
    (params : Option ModifyingQueryParams) (r : DocumentsOpResult)
    (h : RemoveQuery rt c params = .ok r) (he : r.Err = none) : r.Message = "" := by
  unfold RemoveQuery at h
  repeat' split at h
  all_goals
    first
    | exact Except.noConfusion h
    | (cases h
       first
       | rfl
       | exact absurd he (Option.some_ne_none _)
       | (rename_i msg err hcl
          exact absurd ((congrArg Prod.snd hcl).trans he) (prepareExceptionResponse_err _)))

/-- C26: for `CursorQuery`, `CursorGetNextBatch`, `CreateDoc`, `GetDocs`,
`GetDocCount`, `RemoveDoc`, `GetDoc`, `UpdateDoc`, `InsertQuery`, `UpdateQuery`
and `RemoveQuery`, whatever the arguments and whatever the transport does,
a result whose `Err` is nil has an empty `Message`. -/
theorem message_only_with_error {F : Type} (rt : GoRuntime F) (c : clientImpl) :
    (∀ (params : Option CursorQueryParams) (r : CursorQueryResult),
        CursorQuery rt c params = .ok r → r.Err = none → r.Message = "") ∧
      (∀ (cursorID : String) (r : CursorQueryResult),
        CursorGetNextBatch rt c cursorID = .ok r → r.Err = none → r.Message = "") ∧
      (∀ (coll : String) (doc : GoAny) (r : DocumentOpResult),
        CreateDoc rt c coll doc = .ok r → r.Err = none → r.Message = "") ∧
      (∀ (coll : String) (params : Option DocumentRetrievalParams) (r : DocumentsResult),
        GetDocs rt c coll params = .ok r → r.Err = none → r.Message = "") ∧
      (∀ (coll : String) (params : Option DocumentRetrievalParams) (r : DocumentCountResult),
        GetDocCount rt c coll params = .ok r → r.Err = none → r.Message = "") ∧
      (∀ (coll key : String) (r : DocumentOpResult),
        RemoveDoc rt c coll key = .ok r → r.Err = none → r.Message = "") ∧
      (∀ (coll key : String) (r : DocumentResult),
        GetDoc rt c coll key = .ok r → r.Err = none → r.Message = "") ∧
      (∀ (coll key : String) (doc : GoAny) (r : DocumentOpResult),
        UpdateDoc rt c coll key doc = .ok r → r.Err = none → r.Message = "") ∧
      (∀ (params : Option ModifyingQueryParams) (r : DocumentsOpResult),
        InsertQuery rt c params = .ok r → r.Err = none → r.Message = "") ∧
      (∀ (params : Option ModifyingQueryParams) (r : DocumentsOpResult),
        UpdateQuery rt c params = .ok r → r.Err = none → r.Message = "") ∧
      (∀ (params : Option ModifyingQueryParams) (r : DocumentsOpResult),
        RemoveQuery rt c params = .ok r → r.Err = none → r.Message = "") :=
  ⟨fun _ r h he => CursorQuery_message rt c _ r h he,
    fun _ r h he => CursorGetNextBatch_message rt c _ r h he,
    fun _ _ r h he => CreateDoc_message rt c _ _ r h he,
    fun _ _ r h he => GetDocs_message rt c _ _ r h he,
    fun _ _ r h he => GetDocCount_message rt c _ _ r h he,
    fun _ _ r h he => RemoveDoc_message rt c _ _ r h he,
    fun _ _ r h he => GetDoc_message rt c _ _ r h he,
    fun _ _ _ r h he => UpdateDoc_message rt c _ _ _ r h he,
    fun _ r h he => InsertQuery_message rt c _ r h he,
    fun _ r h he => UpdateQuery_message rt c _ r h he,
    fun _ r h he => RemoveQuery_message rt c _ r h he⟩

/-- Witness for C26: `GetDocs` answered with a page of documents returns a nil
`Err` and an empty `Message`. -/
theorem message_only_with_error_witness :
    GetDocs wholeRuntime (testClient ⟨200, .value (.arr [])⟩) "test" (some noFilter)
        = .ok { StatusCode := 200, Documents := some (.value (.arr [])) } ∧
      ({ StatusCode := 200, Documents := some (.value (.arr [])) } : DocumentsResult).Message = "" :=
  ⟨rfl, (message_only_with_error wholeRuntime (testClient ⟨200, .value (.arr [])⟩)).2.2.2.1
    "test" (some noFilter) _ rfl rfl⟩

/-- C27 (the code at the failing input): `prepareExceptionResponse` itself never
returns a nil error, but `GetDocCount` and `RemoveDoc` classify through
`prepareExceptionResponseFromMap`: answered with status 500, outside their
success set, and the body `{"error":true,"code":500}`, they panic and no
result, with or without an error, is returned. -/
theorem failure_without_result :
    (∀ resp, (prepareExceptionResponse resp).2 ≠ none) ∧
      GetDocCount wholeRuntime (testClient serverFault) "test" (some noFilter)
        = .error .interfaceConversion ∧
      RemoveDoc wholeRuntime (testClient serverFault) "test" "1" = .error .interfaceConversion ∧
      (¬ ∃ r, GetDocCount wholeRuntime (testClient serverFault) "test" (some noFilter) = .ok r) ∧
      (¬ ∃ r, RemoveDoc wholeRuntime (testClient serverFault) "test" "1" = .ok r) :=
  ⟨prepareExceptionResponse_err, rfl, rfl,
    fun ⟨r, h⟩ =>
      Except.noConfusion (show Except.error GoPanic.interfaceConversion = Except.ok r from h),
    fun ⟨r, h⟩ =>
      Except.noConfusion (show Except.error GoPanic.interfaceConversion = Except.ok r from h)⟩


/-! ## The `sort` parameter of `GetDocs` (claim C28) -/

/-- The loop over the sort fields, entered with a separator pending, is the
accumulating join of the fields. -/
theorem sortLoop_go (n : Nat) :
    ∀ (rest : List String) (i : Nat) (acc : String), rest ≠ [] → i + rest.length = n →
      sortLoop n i rest (acc ++ ",") = String.intercalate.go acc "," rest := by
  intro rest
  induction rest with
  | nil => intro _ _ h; exact absurd rfl h
  | cons f rest ih =>
    intro i acc _ hlen
    cases rest with
    | nil =>
      have hi : ¬ i < n - 1 := by simp only [List.length_cons, List.length_nil] at hlen; omega
      simp only [sortLoop, if_neg hi, String.intercalate.go]
    | cons g rest2 =>
      have hi : i < n - 1 := by simp only [List.length_cons] at hlen; omega
      have h2 := ih (i + 1) (acc ++ "," ++ f) (List.cons_ne_nil _ _)
        (by simp only [List.length_cons] at hlen ⊢; omega)
      rw [sortLoop, if_pos hi, h2]
      rfl

/-- The loop of `GetDocs` over the sort fields joins them with `,`. -/
theorem sortLoop_eq_intercalate (fields : List String) :
    sortLoop fields.length 0 fields "" = String.intercalate "," fields := by
  cases fields with
  | nil => rfl
  | cons f rest =>
    cases rest with
    | nil =>
      simp only [sortLoop, List.length_cons, List.length_nil, String.intercalate,
        String.intercalate.go]
      simp
    | cons g rest2 =>
      have h := sortLoop_go (rest2.length + 1 + 1) (g :: rest2) 1 f (List.cons_ne_nil _ _)
        (by simp only [List.length_cons]; omega)
      rw [sortLoop, List.length_cons, List.length_cons, if_pos (by omega)]
      simp only [String.intercalate]
      rw [← h]
      simp

/-- Adding a value under one key leaves the values of every other key. -/
theorem lookup_Add_of_ne (k k2 v : String) (hne : k ≠ k2) :
    ∀ q : Values, (Values.Add k2 v q).lookup k = q.lookup k := by
  have hb : (k == k2) = false := by simp [hne]
  intro q
  induction q with
  | nil => simp only [Values.Add, List.lookup, hb]
  | cons kv rest ih =>
    obtain ⟨k3, vs⟩ := kv
    simp only [Values.Add]
    split
    · simp only [List.lookup, hb]
    · split
      · rename_i h3
        subst h3
        simp only [List.lookup, hb]
      · by_cases h3 : k = k3
        · subst h3
          simp only [List.lookup, beq_self_eq_true]
        · have hb3 : (k == k3) = false := by simp [h3]
          simp only [List.lookup, hb3, ih]

/-! ## Field filters in the query string (claim C29) -/

/-- C29 (the code at the failing input): for the field filter `name = "a b"`
both `GetDocs` and `GetDocCount` send the query string `name=a%2Bb`: the value
is escaped by `url.QueryEscape` and escaped again by `Values.Encode`.  Decoding
that query string gives `a+b` for `name`, not `a b`. -/
theorem field_filter_escaped_twice :
    (GetDocs wholeRuntime { testClient firstPage with httpClient := queryEchoClient } "test"
        (some spaceFilter)).map (fun r => r.Message) = .ok "name=a%2Bb" ∧
      (GetDocCount wholeRuntime { testClient firstPage with httpClient := queryEchoClient } "test"
        (some spaceFilter)).map (fun r => r.Message) = .ok "name=a%2Bb" ∧
      ParseQuery "name=a%2Bb" = [(some (stringBytes "name"), some (stringBytes "a+b"))] ∧
      stringBytes "a+b" ≠ stringBytes "a b" ∧
      ParseQuery (Values.Encode [("name", ["a b"])])
        = [(some (stringBytes "name"), some (stringBytes "a b"))] :=
  ⟨rfl, rfl, by decide, by decide, by decide⟩


/-! ## The three modifying queries (claim C30) -/

/-- C30: `InsertQuery`, `UpdateQuery` and `RemoveQuery` are one operation
applied to the paths `/insert`, `/update` and `/remove`; the request of each
has the method `POST`, the encoded parameters as body and the endpoint followed
by its path as URL; and the three return equal results when the parameters do
not encode, and when the transport gives the same outcome to their three
requests. -/
theorem modifying_queries_agree {F : Type} (rt : GoRuntime F) (c : clientImpl)
    (params : Option ModifyingQueryParams) :
    (InsertQuery rt c params = modifyingQuery rt c "/insert" params ∧
      UpdateQuery rt c params = modifyingQuery rt c "/update" params ∧
      RemoveQuery rt c params = modifyingQuery rt c "/remove" params) ∧
    (∀ (path : String) (b : JSON) (req : Request),
      prepareRequest rt c "POST" path none (some (.value b)) = .ok req →
      req.Method = "POST" ∧ req.Body = some (.value b) ∧ req.URL = c.endpoint ++ path ∧
        req.RawQuery = none) ∧
    (∀ err, encodeModifyingQueryParams params = .error err →
      InsertQuery rt c params = UpdateQuery rt c params ∧
        UpdateQuery rt c params = RemoveQuery rt c params) ∧
    (∀ (b : JSON) (reqI reqU reqR : Request),
      encodeModifyingQueryParams params = .ok b →
      prepareRequest rt c "POST" "/insert" none (some (.value b)) = .ok reqI →
      prepareRequest rt c "POST" "/update" none (some (.value b)) = .ok reqU →
      prepareRequest rt c "POST" "/remove" none (some (.value b)) = .ok reqR →
      c.httpClient.Do reqI = c.httpClient.Do reqU →
      c.httpClient.Do reqU = c.httpClient.Do reqR →
      InsertQuery rt c params = UpdateQuery rt c params ∧
        UpdateQuery rt c params = RemoveQuery rt c params) := by
  refine ⟨⟨rfl, rfl, rfl⟩, ?_, ?_, ?_⟩
  · intro path b req h
    unfold prepareRequest at h
    split at h
    · split at h
      · exact absurd h (by simp)
      · simp only [Except.ok.injEq] at h
        subst h
        exact ⟨rfl, rfl, rfl, rfl⟩
    · exact absurd h (by simp)
  · intro err henc
    simp only [InsertQuery, UpdateQuery, RemoveQuery, henc, and_self]
  · intro b reqI reqU reqR henc hI hU hR hIU hUR
    simp only [InsertQuery, UpdateQuery, RemoveQuery, henc, hI, hU, hR, hIU, hUR, and_self]

/-- Witness for C30: answered with the same not-found response, the three
queries of the tests return the same result. -/
theorem modifying_queries_agree_witness :
    InsertQuery wholeRuntime (testClient cursorGone) (some insertParams)
        = UpdateQuery wholeRuntime (testClient cursorGone) (some insertParams) ∧
      UpdateQuery wholeRuntime (testClient cursorGone) (some insertParams)
        = RemoveQuery wholeRuntime (testClient cursorGone) (some insertParams) :=
  (modifying_queries_agree wholeRuntime (testClient cursorGone) (some insertParams)).2.2.2
    _ _ _ _ rfl rfl rfl rfl rfl rfl


/-! ## The methods as steps of a world: lemmas -/

theorem prepareRequest_clientAt {F σ : Type} (rt : GoRuntime F) (c : clientImpl)
    (t : StatefulTransport σ) (s : σ) (method path : String) (qParams : Option Values)
    (body : Option Body) :
    prepareRequest rt (clientAt c t s) method path qParams body
      = prepareRequest rt c method path qParams body := rfl

theorem clientAt_Do {σ : Type} (c : clientImpl) (t : StatefulTransport σ) (s : σ)
    (req : Request) : (clientAt c t s).httpClient.Do req = (t.Do s req).1 := rfl

/-- A step of `CursorQuery` that returns leaves the struct of the client as it was
and moves the transport by at most one `Do`. -/
theorem CursorQueryStep_frame {F σ : Type} (rt : GoRuntime F) (t : StatefulTransport σ)
    (w w2 : World σ) (params : Option CursorQueryParams) (r : CursorQueryResult)
    (h : CursorQueryStep rt t w params = .ok (r, w2)) :
    w2.client = w.client ∧ (w2.server = w.server ∨ ∃ req, w2.server = (t.Do w.server req).2) := by
  unfold CursorQueryStep at h
  repeat' split at h
  all_goals
    first
    | exact Except.noConfusion h
    | (simp only [Except.ok.injEq, Prod.mk.injEq] at h
       obtain ⟨_, h2⟩ := h
       subst h2
       first
       | exact ⟨rfl, Or.inl rfl⟩
       | (have hdo := ‹t.Do w.server _ = _›
          exact ⟨rfl, Or.inr ⟨_, (congrArg Prod.snd hdo).symm⟩⟩))

/-- The result of a step of `CursorQuery` is what `CursorQuery` returns on the client
talking to the transport in the state of the world. -/
theorem CursorQueryStep_result {F σ : Type} (rt : GoRuntime F) (t : StatefulTransport σ)
    (w : World σ) (params : Option CursorQueryParams) :
    (CursorQueryStep rt t w params).map Prod.fst
      = CursorQuery rt (clientAt w.client t w.server) params := by
  unfold CursorQueryStep CursorQuery
  simp only [prepareRequest_clientAt, clientAt_Do]
  repeat' split
  all_goals simp_all [Except.map]

/-- A step of `CursorGetNextBatch` that returns leaves the struct of the client as it was
and moves the transport by at most one `Do`. -/
theorem CursorGetNextBatchStep_frame {F σ : Type} (rt : GoRuntime F) (t : StatefulTransport σ)
    (w w2 : World σ) (cursorID : String) (r : CursorQueryResult)
    (h : CursorGetNextBatchStep rt t w cursorID = .ok (r, w2)) :
    w2.client = w.client ∧ (w2.server = w.server ∨ ∃ req, w2.server = (t.Do w.server req).2) := by
  unfold CursorGetNextBatchStep at h
  repeat' split at h
  all_goals
    first
    | exact Except.noConfusion h
    | (simp only [Except.ok.injEq, Prod.mk.injEq] at h
       obtain ⟨_, h2⟩ := h
       subst h2
       first
       | exact ⟨rfl, Or.inl rfl⟩
       | (have hdo := ‹t.Do w.server _ = _›
          exact ⟨rfl, Or.inr ⟨_, (congrArg Prod.snd hdo).symm⟩⟩))

/-- The result of a step of `CursorGetNextBatch` is what `CursorGetNextBatch` returns on the client
talking to the transport in the state of the world. -/
theorem CursorGetNextBatchStep_result {F σ : Type} (rt : GoRuntime F) (t : StatefulTransport σ)
    (w : World σ) (cursorID : String) :
    (CursorGetNextBatchStep rt t w cursorID).map Prod.fst
      = CursorGetNextBatch rt (clientAt w.client t w.server) cursorID := by
  unfold CursorGetNextBatchStep CursorGetNextBatch
  simp only [prepareRequest_clientAt, clientAt_Do]
  repeat' split
  all_goals simp_all [Except.map]

/-- A step of `CreateColl` that returns leaves the struct of the client as it was
and moves the transport by at most one `Do`. -/
theorem CreateCollStep_frame {F σ : Type} (rt : GoRuntime F) (t : StatefulTransport σ)
    (w w2 : World σ) (name : String) (r : CreationResult)
    (h : CreateCollStep rt t w name = .ok (r, w2)) :
    w2.client = w.client ∧ (w2.server = w.server ∨ ∃ req, w2.server = (t.Do w.server req).2) := by
  unfold CreateCollStep at h
  repeat' split at h
  all_goals
    first
    | exact Except.noConfusion h
    | (simp only [Except.ok.injEq, Prod.mk.injEq] at h
       obtain ⟨_, h2⟩ := h
       subst h2
       first
       | exact ⟨rfl, Or.inl rfl⟩
       | (have hdo := ‹t.Do w.server _ = _›
          exact ⟨rfl, Or.inr ⟨_, (congrArg Prod.snd hdo).symm⟩⟩))

/-- The result of a step of `CreateColl` is what `CreateColl` returns on the client
talking to the transport in the state of the world. -/
theorem CreateCollStep_result {F σ : Type} (rt : GoRuntime F) (t : StatefulTransport σ)
    (w : World σ) (name : String) :
    (CreateCollStep rt t w name).map Prod.fst
      = CreateColl rt (clientAt w.client t w.server) name := by
  unfold CreateCollStep CreateColl
  simp only [prepareRequest_clientAt, clientAt_Do]
  repeat' split
  all_goals simp_all [Except.map]

/-- A step of `CreateGraph` that returns leaves the struct of the client as it was
and moves the transport by at most one `Do`. -/
theorem CreateGraphStep_frame {F σ : Type} (rt : GoRuntime F) (t : StatefulTransport σ)
    (w w2 : World σ) (graphDef : Option Graph) (r : CreationResult)
    (h : CreateGraphStep rt t w graphDef = .ok (r, w2)) :
    w2.client = w.client ∧ (w2.server = w.server ∨ ∃ req, w2.server = (t.Do w.server req).2) := by
  unfold CreateGraphStep at h
  repeat' split at h
  all_goals
    first
    | exact Except.noConfusion h
    | (simp only [Except.ok.injEq, Prod.mk.injEq] at h
       obtain ⟨_, h2⟩ := h
       subst h2
       first
       | exact ⟨rfl, Or.inl rfl⟩
       | (have hdo := ‹t.Do w.server _ = _›
          exact ⟨rfl, Or.inr ⟨_, (congrArg Prod.snd hdo).symm⟩⟩))

/-- The result of a step of `CreateGraph` is what `CreateGraph` returns on the client
talking to the transport in the state of the world. -/
theorem CreateGraphStep_result {F σ : Type} (rt : GoRuntime F) (t : StatefulTransport σ)
    (w : World σ) (graphDef : Option Graph) :
    (CreateGraphStep rt t w graphDef).map Prod.fst
      = CreateGraph rt (clientAt w.client t w.server) graphDef := by
  unfold CreateGraphStep CreateGraph
  simp only [prepareRequest_clientAt, clientAt_Do]
  repeat' split
  all_goals simp_all [Except.map]

/-- A step of `CreateRelation` that returns leaves the struct of the client as it was
and moves the transport by at most one `Do`. -/
theorem CreateRelationStep_frame {F σ : Type} (rt : GoRuntime F) (t : StatefulTransport σ)
    (w w2 : World σ) (graph : String) (relation : Option Relation) (r : CreationResult)
    (h : CreateRelationStep rt t w graph relation = .ok (r, w2)) :
    w2.client = w.client ∧ (w2.server = w.server ∨ ∃ req, w2.server = (t.Do w.server req).2) := by
  unfold CreateRelationStep at h
  repeat' split at h
  all_goals
    first
    | exact Except.noConfusion h
    | (simp only [Except.ok.injEq, Prod.mk.injEq] at h
       obtain ⟨_, h2⟩ := h
       subst h2
       first
       | exact ⟨rfl, Or.inl rfl⟩
       | (have hdo := ‹t.Do w.server _ = _›
          exact ⟨rfl, Or.inr ⟨_, (congrArg Prod.snd hdo).symm⟩⟩))

/-- The result of a step of `CreateRelation` is what `CreateRelation` returns on the client
talking to the transport in the state of the world. -/
theorem CreateRelationStep_result {F σ : Type} (rt : GoRuntime F) (t : StatefulTransport σ)
    (w : World σ) (graph : String) (relation : Option Relation) :
    (CreateRelationStep rt t w graph relation).map Prod.fst
      = CreateRelation rt (clientAt w.client t w.server) graph relation := by
  unfold CreateRelationStep CreateRelation
  simp only [prepareRequest_clientAt, clientAt_Do]
  repeat' split
  all_goals simp_all [Except.map]

/-- A step of `GetIndexes` that returns leaves the struct of the client as it was
and moves the transport by at most one `Do`. -/
theorem GetIndexesStep_frame {F σ : Type} (rt : GoRuntime F) (t : StatefulTransport σ)
    (w w2 : World σ) (coll : String) (r : IndexListResult)
    (h : GetIndexesStep rt t w coll = .ok (r, w2)) :
    w2.client = w.client ∧ (w2.server = w.server ∨ ∃ req, w2.server = (t.Do w.server req).2) := by
  unfold GetIndexesStep at h
  repeat' split at h
  all_goals
    first
    | exact Except.noConfusion h
    | (simp only [Except.ok.injEq, Prod.mk.injEq] at h
       obtain ⟨_, h2⟩ := h
       subst h2
       first
       | exact ⟨rfl, Or.inl rfl⟩
       | (have hdo := ‹t.Do w.server _ = _›
          exact ⟨rfl, Or.inr ⟨_, (congrArg Prod.snd hdo).symm⟩⟩))

/-- The result of a step of `GetIndexes` is what `GetIndexes` returns on the client
talking to the transport in the state of the world. -/
theorem GetIndexesStep_result {F σ : Type} (rt : GoRuntime F) (t : StatefulTransport σ)
    (w : World σ) (coll : String) :
    (GetIndexesStep rt t w coll).map Prod.fst
      = GetIndexes rt (clientAt w.client t w.server) coll := by
  unfold GetIndexesStep GetIndexes
  simp only [prepareRequest_clientAt, clientAt_Do]
  repeat' split
  all_goals simp_all [Except.map]

/-- A step of `RemoveIndex` that returns leaves the struct of the client as it was
and moves the transport by at most one `Do`. -/
theorem RemoveIndexStep_frame {F σ : Type} (rt : GoRuntime F) (t : StatefulTransport σ)
    (w w2 : World σ) (handle : String) (r : IndexOpResult)
    (h : RemoveIndexStep rt t w handle = .ok (r, w2)) :
    w2.client = w.client ∧ (w2.server = w.server ∨ ∃ req, w2.server = (t.Do w.server req).2) := by
  unfold RemoveIndexStep at h
  repeat' split at h
  all_goals
    first
    | exact Except.noConfusion h
    | (simp only [Except.ok.injEq, Prod.mk.injEq] at h
       obtain ⟨_, h2⟩ := h
       subst h2
       first
       | exact ⟨rfl, Or.inl rfl⟩
       | (have hdo := ‹t.Do w.server _ = _›
          exact ⟨rfl, Or.inr ⟨_, (congrArg Prod.snd hdo).symm⟩⟩))

/-- The result of a step of `RemoveIndex` is what `RemoveIndex` returns on the client
talking to the transport in the state of the world. -/
theorem RemoveIndexStep_result {F σ : Type} (rt : GoRuntime F) (t : StatefulTransport σ)
    (w : World σ) (handle : String) :
    (RemoveIndexStep rt t w handle).map Prod.fst
      = RemoveIndex rt (clientAt w.client t w.server) handle := by
  unfold RemoveIndexStep RemoveIndex
  simp only [prepareRequest_clientAt, clientAt_Do]
  repeat' split
  all_goals simp_all [Except.map]

/-- A step of `CreateIndex` that returns leaves the struct of the client as it was
and moves the transport by at most one `Do`. -/
theorem CreateIndexStep_frame {F σ : Type} (rt : GoRuntime F) (t : StatefulTransport σ)
    (w w2 : World σ) (params : Option IndexParams) (r : IndexOpResult)
    (h : CreateIndexStep rt t w params = .ok (r, w2)) :
    w2.client = w.client ∧ (w2.server = w.server ∨ ∃ req, w2.server = (t.Do w.server req).2) := by
  unfold CreateIndexStep at h
  repeat' split at h
  all_goals
    first
    | exact Except.noConfusion h
    | (simp only [Except.ok.injEq, Prod.mk.injEq] at h
       obtain ⟨_, h2⟩ := h
       subst h2
       first
       | exact ⟨rfl, Or.inl rfl⟩
       | (have hdo := ‹t.Do w.server _ = _›
          exact ⟨rfl, Or.inr ⟨_, (congrArg Prod.snd hdo).symm⟩⟩))

/-- The result of a step of `CreateIndex` is what `CreateIndex` returns on the client
talking to the transport in the state of the world. -/
theorem CreateIndexStep_result {F σ : Type} (rt : GoRuntime F) (t : StatefulTransport σ)
    (w : World σ) (params : Option IndexParams) :
    (CreateIndexStep rt t w params).map Prod.fst
      = CreateIndex rt (clientAt w.client t w.server) params := by
  unfold CreateIndexStep CreateIndex
  simp only [prepareRequest_clientAt, clientAt_Do]
  repeat' split
  all_goals simp_all [Except.map]

/-- A step of `CreateDoc` that returns leaves the struct of the client as it was
and moves the transport by at most one `Do`. -/
theorem CreateDocStep_frame {F σ : Type} (rt : GoRuntime F) (t : StatefulTransport σ)
    (w w2 : World σ) (coll : String) (doc : GoAny) (r : DocumentOpResult)
    (h : CreateDocStep rt t w coll doc = .ok (r, w2)) :
    w2.client = w.client ∧ (w2.server = w.server ∨ ∃ req, w2.server = (t.Do w.server req).2) := by
  unfold CreateDocStep at h
  repeat' split at h
  all_goals
    first
    | exact Except.noConfusion h
    | (simp only [Except.ok.injEq, Prod.mk.injEq] at h
       obtain ⟨_, h2⟩ := h
       subst h2
       first
       | exact ⟨rfl, Or.inl rfl⟩
       | (have hdo := ‹t.Do w.server _ = _›
          exact ⟨rfl, Or.inr ⟨_, (congrArg Prod.snd hdo).symm⟩⟩))

/-- The result of a step of `CreateDoc` is what `CreateDoc` returns on the client
talking to the transport in the state of the world. -/
theorem CreateDocStep_result {F σ : Type} (rt : GoRuntime F) (t : StatefulTransport σ)
    (w : World σ) (coll : String) (doc : GoAny) :
    (CreateDocStep rt t w coll doc).map Prod.fst
      = CreateDoc rt (clientAt w.client t w.server) coll doc := by
  unfold CreateDocStep CreateDoc
  simp only [prepareRequest_clientAt, clientAt_Do]
  repeat' split
  all_goals simp_all [Except.map]

/-- A step of `GetDocs` that returns leaves the struct of the client as it was
and moves the transport by at most one `Do`. -/
theorem GetDocsStep_frame {F σ : Type} (rt : GoRuntime F) (t : StatefulTransport σ)
    (w w2 : World σ) (coll : String) (params : Option DocumentRetrievalParams) (r : DocumentsResult)
    (h : GetDocsStep rt t w coll params = .ok (r, w2)) :
    w2.client = w.client ∧ (w2.server = w.server ∨ ∃ req, w2.server = (t.Do w.server req).2) := by
  unfold GetDocsStep at h
  repeat' split at h
  all_goals
    first
    | exact Except.noConfusion h
    | (simp only [Except.ok.injEq, Prod.mk.injEq] at h
       obtain ⟨_, h2⟩ := h
       subst h2
       first
       | exact ⟨rfl, Or.inl rfl⟩
       | (have hdo := ‹t.Do w.server _ = _›
          exact ⟨rfl, Or.inr ⟨_, (congrArg Prod.snd hdo).symm⟩⟩))

/-- The result of a step of `GetDocs` is what `GetDocs` returns on the client
talking to the transport in the state of the world. -/
theorem GetDocsStep_result {F σ : Type} (rt : GoRuntime F) (t : StatefulTransport σ)
    (w : World σ) (coll : String) (params : Option DocumentRetrievalParams) :
    (GetDocsStep rt t w coll params).map Prod.fst
      = GetDocs rt (clientAt w.client t w.server) coll params := by
  unfold GetDocsStep GetDocs
  simp only [prepareRequest_clientAt, clientAt_Do]
  repeat' split
  all_goals simp_all [Except.map]

/-- A step of `GetDocCount` that returns leaves the struct of the client as it was
and moves the transport by at most one `Do`. -/
theorem GetDocCountStep_frame {F σ : Type} (rt : GoRuntime F) (t : StatefulTransport σ)
    (w w2 : World σ) (coll : String) (params : Option DocumentRetrievalParams) (r : DocumentCountResult)
    (h : GetDocCountStep rt t w coll params = .ok (r, w2)) :
    w2.client = w.client ∧ (w2.server = w.server ∨ ∃ req, w2.server = (t.Do w.server req).2) := by
  unfold GetDocCountStep at h
  repeat' split at h
  all_goals
    first
    | exact Except.noConfusion h
    | (simp only [Except.ok.injEq, Prod.mk.injEq] at h
       obtain ⟨_, h2⟩ := h
       subst h2
       first
       | exact ⟨rfl, Or.inl rfl⟩
       | (have hdo := ‹t.Do w.server _ = _›
          exact ⟨rfl, Or.inr ⟨_, (congrArg Prod.snd hdo).symm⟩⟩))

/-- The result of a step of `GetDocCount` is what `GetDocCount` returns on the client
talking to the transport in the state of the world. -/
theorem GetDocCountStep_result {F σ : Type} (rt : GoRuntime F) (t : StatefulTransport σ)
    (w : World σ) (coll : String) (params : Option DocumentRetrievalParams) :
    (GetDocCountStep rt t w coll params).map Prod.fst
      = GetDocCount rt (clientAt w.client t w.server) coll params := by
  unfold GetDocCountStep GetDocCount
  simp only [prepareRequest_clientAt, clientAt_Do]
  repeat' split
  all_goals simp_all [Except.map]

/-- A step of `RemoveDoc` that returns leaves the struct of the client as it was
and moves the transport by at most one `Do`. -/
theorem RemoveDocStep_frame {F σ : Type} (rt : GoRuntime F) (t : StatefulTransport σ)
    (w w2 : World σ) (coll key : String) (r : DocumentOpResult)
    (h : RemoveDocStep rt t w coll key = .ok (r, w2)) :
    w2.client = w.client ∧ (w2.server = w.server ∨ ∃ req, w2.server = (t.Do w.server req).2) := by
  unfold RemoveDocStep at h
  repeat' split at h
  all_goals
    first
    | exact Except.noConfusion h
    | (simp only [Except.ok.injEq, Prod.mk.injEq] at h
       obtain ⟨_, h2⟩ := h
       subst h2
       first
       | exact ⟨rfl, Or.inl rfl⟩
       | (have hdo := ‹t.Do w.server _ = _›
          exact ⟨rfl, Or.inr ⟨_, (congrArg Prod.snd hdo).symm⟩⟩))

/-- The result of a step of `RemoveDoc` is what `RemoveDoc` returns on the client
talking to the transport in the state of the world. -/
theorem RemoveDocStep_result {F σ : Type} (rt : GoRuntime F) (t : StatefulTransport σ)
    (w : World σ) (coll key : String) :
    (RemoveDocStep rt t w coll key).map Prod.fst
      = RemoveDoc rt (clientAt w.client t w.server) coll key := by
  unfold RemoveDocStep RemoveDoc
  simp only [prepareRequest_clientAt, clientAt_Do]
  repeat' split
  all_goals simp_all [Except.map]

/-- A step of `GetDoc` that returns leaves the struct of the client as it was
and moves the transport by at most one `Do`. -/
theorem GetDocStep_frame {F σ : Type} (rt : GoRuntime F) (t : StatefulTransport σ)
    (w w2 : World σ) (coll key : String) (r : DocumentResult)
    (h : GetDocStep rt t w coll key = .ok (r, w2)) :
    w2.client = w.client ∧ (w2.server = w.server ∨ ∃ req, w2.server = (t.Do w.server req).2) := by
  unfold GetDocStep at h
  repeat' split at h
  all_goals
    first
    | exact Except.noConfusion h
    | (simp only [Except.ok.injEq, Prod.mk.injEq] at h
       obtain ⟨_, h2⟩ := h
       subst h2
       first
       | exact ⟨rfl, Or.inl rfl⟩
       | (have hdo := ‹t.Do w.server _ = _›
          exact ⟨rfl, Or.inr ⟨_, (congrArg Prod.snd hdo).symm⟩⟩))

/-- The result of a step of `GetDoc` is what `GetDoc` returns on the client
talking to the transport in the state of the world. -/
theorem GetDocStep_result {F σ : Type} (rt : GoRuntime F) (t : StatefulTransport σ)
    (w : World σ) (coll key : String) :
    (GetDocStep rt t w coll key).map Prod.fst
      = GetDoc rt (clientAt w.client t w.server) coll key := by
  unfold GetDocStep GetDoc
  simp only [prepareRequest_clientAt, clientAt_Do]
  repeat' split
  all_goals simp_all [Except.map]

/-- A step of `UpdateDoc` that returns leaves the struct of the client as it was
and moves the transport by at most one `Do`. -/
theorem UpdateDocStep_frame {F σ : Type} (rt : GoRuntime F) (t : StatefulTransport σ)
    (w w2 : World σ) (coll key : String) (doc : GoAny) (r : DocumentOpResult)
    (h : UpdateDocStep rt t w coll key doc = .ok (r, w2)) :
    w2.client = w.client ∧ (w2.server = w.server ∨ ∃ req, w2.server = (t.Do w.server req).2) := by
  unfold UpdateDocStep at h
  repeat' split at h
  all_goals
    first
    | exact Except.noConfusion h
    | (simp only [Except.ok.injEq, Prod.mk.injEq] at h
       obtain ⟨_, h2⟩ := h
       subst h2
       first
       | exact ⟨rfl, Or.inl rfl⟩
       | (have hdo := ‹t.Do w.server _ = _›
          exact ⟨rfl, Or.inr ⟨_, (congrArg Prod.snd hdo).symm⟩⟩))

/-- The result of a step of `UpdateDoc` is what `UpdateDoc` returns on the client
talking to the transport in the state of the world. -/
theorem UpdateDocStep_result {F σ : Type} (rt : GoRuntime F) (t : StatefulTransport σ)
    (w : World σ) (coll key : String) (doc : GoAny) :
    (UpdateDocStep rt t w coll key doc).map Prod.fst
      = UpdateDoc rt (clientAt w.client t w.server) coll key doc := by
  unfold UpdateDocStep UpdateDoc
  simp only [prepareRequest_clientAt, clientAt_Do]
  repeat' split
  all_goals simp_all [Except.map]

/-- A step of `InsertQuery` that returns leaves the struct of the client as it was
and moves the transport by at most one `Do`. -/
theorem InsertQueryStep_frame {F σ : Type} (rt : GoRuntime F) (t : StatefulTransport σ)
    (w w2 : World σ) (params : Option ModifyingQueryParams) (r : DocumentsOpResult)
    (h : InsertQueryStep rt t w params = .ok (r, w2)) :
    w2.client = w.client ∧ (w2.server = w.server ∨ ∃ req, w2.server = (t.Do w.server req).2) := by
  unfold InsertQueryStep at h
  repeat' split at h
  all_goals
    first
    | exact Except.noConfusion h
    | (simp only [Except.ok.injEq, Prod.mk.injEq] at h
       obtain ⟨_, h2⟩ := h
       subst h2
       first
       | exact ⟨rfl, Or.inl rfl⟩
       | (have hdo := ‹t.Do w.server _ = _›
          exact ⟨rfl, Or.inr ⟨_, (congrArg Prod.snd hdo).symm⟩⟩))

/-- The result of a step of `InsertQuery` is what `InsertQuery` returns on the client
talking to the transport in the state of the world. -/
theorem InsertQueryStep_result {F σ : Type} (rt : GoRuntime F) (t : StatefulTransport σ)
    (w : World σ) (params : Option ModifyingQueryParams) :
    (InsertQueryStep rt t w params).map Prod.fst
      = InsertQuery rt (clientAt w.client t w.server) params := by
  unfold InsertQueryStep InsertQuery
  simp only [prepareRequest_clientAt, clientAt_Do]
  repeat' split
  all_goals simp_all [Except.map]

/-- A step of `UpdateQuery` that returns leaves the struct of the client as it was
and moves the transport by at most one `Do`. -/
theorem UpdateQueryStep_frame {F σ : Type} (rt : GoRuntime F) (t : StatefulTransport σ)
    (w w2 : World σ) (params : Option ModifyingQueryParams) (r : DocumentsOpResult)
    (h : UpdateQueryStep rt t w params = .ok (r, w2)) :
    w2.client = w.client ∧ (w2.server = w.server ∨ ∃ req, w2.server = (t.Do w.server req).2) := by
  unfold UpdateQueryStep at h
  repeat' split at h
  all_goals
    first
    | exact Except.noConfusion h
    | (simp only [Except.ok.injEq, Prod.mk.injEq] at h
       obtain ⟨_, h2⟩ := h
       subst h2
       first
       | exact ⟨rfl, Or.inl rfl⟩
       | (have hdo := ‹t.Do w.server _ = _›
          exact ⟨rfl, Or.inr ⟨_, (congrArg Prod.snd hdo).symm⟩⟩))

/-- The result of a step of `UpdateQuery` is what `UpdateQuery` returns on the client
talking to the transport in the state of the world. -/
theorem UpdateQueryStep_result {F σ : Type} (rt : GoRuntime F) (t : StatefulTransport σ)
    (w : World σ) (params : Option ModifyingQueryParams) :
    (UpdateQueryStep rt t w params).map Prod.fst
      = UpdateQuery rt (clientAt w.client t w.server) params := by
  unfold UpdateQueryStep UpdateQuery
  simp only [prepareRequest_clientAt, clientAt_Do]
  repeat' split
  all_goals simp_all [Except.map]

/-- A step of `RemoveQuery` that returns leaves the struct of the client as it was
and moves the transport by at most one `Do`. -/
theorem RemoveQueryStep_frame {F σ : Type} (rt : GoRuntime F) (t : StatefulTransport σ)
    (w w2 : World σ) (params : Option ModifyingQueryParams) (r : DocumentsOpResult)
    (h : RemoveQueryStep rt t w params = .ok (r, w2)) :
    w2.client = w.client ∧ (w2.server = w.server ∨ ∃ req, w2.server = (t.Do w.server req).2) := by
  unfold RemoveQueryStep at h
  repeat' split at h
  all_goals
    first
    | exact Except.noConfusion h
    | (simp only [Except.ok.injEq, Prod.mk.injEq] at h
       obtain ⟨_, h2⟩ := h
       subst h2
       first
       | exact ⟨rfl, Or.inl rfl⟩
       | (have hdo := ‹t.Do w.server _ = _›
          exact ⟨rfl, Or.inr ⟨_, (congrArg Prod.snd hdo).symm⟩⟩))

/-- The result of a step of `RemoveQuery` is what `RemoveQuery` returns on the client
talking to the transport in the state of the world. -/
theorem RemoveQueryStep_result {F σ : Type} (rt : GoRuntime F) (t : StatefulTransport σ)
    (w : World σ) (params : Option ModifyingQueryParams) :
    (RemoveQueryStep rt t w params).map Prod.fst
      = RemoveQuery rt (clientAt w.client t w.server) params := by
  unfold RemoveQueryStep RemoveQuery
  simp only [prepareRequest_clientAt, clientAt_Do]
  repeat' split
  all_goals simp_all [Except.map]

/-! ## Next batches against a transport with state (claim C11) -/

/-- The result of `CursorGetNextBatch` is a function of the transport's answer. -/
theorem CursorGetNextBatch_of_answer {F : Type} (rt : GoRuntime F) (c1 c2 : clientImpl)
    (id1 id2 : String) (req1 req2 : Request)
    (h1 : prepareRequest rt c1 "PUT" (cursorEndpoint ++ "/" ++ id1) none none = .ok req1)
    (h2 : prepareRequest rt c2 "PUT" (cursorEndpoint ++ "/" ++ id2) none none = .ok req2)
    (hd : c1.httpClient.Do req1 = c2.httpClient.Do req2) :
    CursorGetNextBatch rt c1 id1 = CursorGetNextBatch rt c2 id2 := by
  simp only [CursorGetNextBatch, h1, h2, hd]

/-- The request of `CursorGetNextBatch` on a client with a session. -/
theorem prepareRequest_nextBatch {F : Type} (rt : GoRuntime F) (c : clientImpl)
    (sessionInfo : SessionInfo) (cursorID : String)
    (hs : c.sessionInfo = some sessionInfo) (hnr : ∀ url, rt.newRequestOk "PUT" url = true) :
    prepareRequest rt c "PUT" (cursorEndpoint ++ "/" ++ cursorID) none none
      = .ok (nextBatchRequestFor c sessionInfo cursorID) := by
  simp only [prepareRequest, hnr, hs, if_true, nextBatchRequestFor]

/-- A step of `CursorGetNextBatch` whose request could be built hands that
request to the transport, once, and returns what the answer makes of it. -/
theorem CursorGetNextBatchStep_forwards {F σ : Type} (rt : GoRuntime F)
    (t : StatefulTransport σ) (w : World σ) (cursorID : String) (req : Request)
    (hreq : prepareRequest rt w.client "PUT" (cursorEndpoint ++ "/" ++ cursorID) none none
      = .ok req) :
    ∃ r, CursorGetNextBatch rt (clientAt w.client t w.server) cursorID = .ok r ∧
      CursorGetNextBatchStep rt t w cursorID = .ok (r, ⟨w.client, (t.Do w.server req).2⟩) := by
  unfold CursorGetNextBatchStep CursorGetNextBatch
  simp only [prepareRequest_clientAt, clientAt_Do, hreq]
  rcases hd : t.Do w.server req with ⟨out, s⟩
  cases out with
  | error err => exact ⟨_, rfl, rfl⟩
  | ok resp =>
    simp only []
    split
    · split
      · exact ⟨_, rfl, rfl⟩
      · exact ⟨_, rfl, rfl⟩
    · exact ⟨_, rfl, rfl⟩

/-- Every call of a history of next-batch calls returns and hands its request
to the transport: the transport ends in the state the requests of the history,
in order, lead to, and the struct of the client is as before. -/
theorem nextBatchHistory_forwards {F σ : Type} (rt : GoRuntime F) (t : StatefulTransport σ)
    (c : clientImpl) (sessionInfo : SessionInfo)
    (hs : c.sessionInfo = some sessionInfo) (hnr : ∀ url, rt.newRequestOk "PUT" url = true) :
    ∀ (hist : List String) (s : σ),
      ∃ rs, nextBatchHistory rt t ⟨c, s⟩ hist
          = .ok (rs, ⟨c, serverAfter t c sessionInfo s hist⟩) ∧
        rs.length = hist.length := by
  intro hist
  induction hist with
  | nil => intro s; exact ⟨[], rfl, rfl⟩
  | cons cursorID rest ih =>
    intro s
    obtain ⟨r, _, hstep⟩ := CursorGetNextBatchStep_forwards rt t ⟨c, s⟩ cursorID _
      (prepareRequest_nextBatch rt c sessionInfo cursorID hs hnr)
    obtain ⟨rs, hrs, hlen⟩ := ih (t.Do s (nextBatchRequestFor c sessionInfo cursorID)).2
    refine ⟨r :: rs, ?_, by simp [hlen]⟩
    simp only [nextBatchHistory, hstep, hrs, serverAfter]

/-- C11: `CursorGetNextBatch` keeps no memory of exhausted handles.  On a client
with a session, after every history of earlier next-batch calls (each of which
returned and handed its request to the transport), a call for any handle hands
its request to the transport once more and leaves the struct of the client as
it was; two such calls that receive the same answer return equal results,
whatever their histories and handles; and an answer with status 404 and a
decodable envelope gives `Err = ErrNotFound` with the status 404 and no
documents. -/
theorem nextBatch_no_client_memory {F σ : Type} (rt : GoRuntime F) (t : StatefulTransport σ)
    (w : World σ) (sessionInfo : SessionInfo)
    (hs : w.client.sessionInfo = some sessionInfo)
    (hnr : ∀ url, rt.newRequestOk "PUT" url = true)
    (hist1 hist2 : List String) (id1 id2 : String) :
    ∃ rs1 rs2 r1 r2,
      nextBatchHistory rt t w hist1
        = .ok (rs1, ⟨w.client, serverAfter t w.client sessionInfo w.server hist1⟩) ∧
      nextBatchHistory rt t w hist2
        = .ok (rs2, ⟨w.client, serverAfter t w.client sessionInfo w.server hist2⟩) ∧
      rs1.length = hist1.length ∧ rs2.length = hist2.length ∧
      CursorGetNextBatchStep rt t
          ⟨w.client, serverAfter t w.client sessionInfo w.server hist1⟩ id1
        = .ok (r1, ⟨w.client,
            (t.Do (serverAfter t w.client sessionInfo w.server hist1)
              (nextBatchRequestFor w.client sessionInfo id1)).2⟩) ∧
      CursorGetNextBatchStep rt t
          ⟨w.client, serverAfter t w.client sessionInfo w.server hist2⟩ id2
        = .ok (r2, ⟨w.client,
            (t.Do (serverAfter t w.client sessionInfo w.server hist2)
              (nextBatchRequestFor w.client sessionInfo id2)).2⟩) ∧
      ((t.Do (serverAfter t w.client sessionInfo w.server hist1)
            (nextBatchRequestFor w.client sessionInfo id1)).1
          = (t.Do (serverAfter t w.client sessionInfo w.server hist2)
            (nextBatchRequestFor w.client sessionInfo id2)).1 → r1 = r2) ∧
      (∀ resp env,
        (t.Do (serverAfter t w.client sessionInfo w.server hist1)
          (nextBatchRequestFor w.client sessionInfo id1)).1 = .ok resp →
        resp.StatusCode = 404 → decodeExceptionEnvelope resp.Body = .ok env →
        r1.Err = some GoError.ErrNotFound ∧ r1.StatusCode = 404 ∧ r1.Documents = none ∧
          r1.HasMore = false) := by
  obtain ⟨c, s⟩ := w
  simp only at hs ⊢
  obtain ⟨rs1, hrs1, hlen1⟩ := nextBatchHistory_forwards rt t c sessionInfo hs hnr hist1 s
  obtain ⟨rs2, hrs2, hlen2⟩ := nextBatchHistory_forwards rt t c sessionInfo hs hnr hist2 s
  have hreq1 := prepareRequest_nextBatch rt c sessionInfo id1 hs hnr
  have hreq2 := prepareRequest_nextBatch rt c sessionInfo id2 hs hnr
  obtain ⟨r1, hp1, hstep1⟩ := CursorGetNextBatchStep_forwards rt t
    ⟨c, serverAfter t c sessionInfo s hist1⟩ id1 _ hreq1
  obtain ⟨r2, hp2, hstep2⟩ := CursorGetNextBatchStep_forwards rt t
    ⟨c, serverAfter t c sessionInfo s hist2⟩ id2 _ hreq2
  refine ⟨rs1, rs2, r1, r2, hrs1, hrs2, hlen1, hlen2, hstep1, hstep2, ?_, ?_⟩
  · intro hd
    have := CursorGetNextBatch_of_answer rt
      (clientAt c t (serverAfter t c sessionInfo s hist1))
      (clientAt c t (serverAfter t c sessionInfo s hist2)) id1 id2 _ _
      ((prepareRequest_clientAt rt c t _ _ _ _ _).trans hreq1)
      ((prepareRequest_clientAt rt c t _ _ _ _ _).trans hreq2) hd
    rw [hp1, hp2] at this
    exact Except.ok.inj this
  · intro resp env hd h404 henv
    have hfail := CursorGetNextBatch_of_failure rt
      (clientAt c t (serverAfter t c sessionInfo s hist1)) id1 _ resp
      ((prepareRequest_clientAt rt c t _ _ _ _ _).trans hreq1) hd
      (by rw [h404]; decide)
    rw [hp1] at hfail
    have hr := Except.ok.inj hfail
    subst hr
    refine ⟨?_, h404, rfl, rfl⟩
    simp only [prepareExceptionResponse_of_ok resp env henv, h404]
    rfl

/-- Witness for C11: a server holding one cursor answers the last batch to the
first call for handle `7` and not-found to every later one; the second and the
third call both reach the server and both return `ErrNotFound`. -/
theorem nextBatch_no_client_memory_witness :
    ∃ rs1 rs2 r1 r2,
      nextBatchHistory wholeRuntime oneCursorServer ⟨testClient lastBatch, true⟩ ["7"]
        = .ok (rs1, ⟨testClient lastBatch, false⟩) ∧
      nextBatchHistory wholeRuntime oneCursorServer ⟨testClient lastBatch, true⟩ ["7", "7"]
        = .ok (rs2, ⟨testClient lastBatch, false⟩) ∧
      rs1.map (fun r => r.Err) = [none] ∧
      rs2.map (fun r => r.Err) = [none, some GoError.ErrNotFound] ∧
      CursorGetNextBatchStep wholeRuntime oneCursorServer ⟨testClient lastBatch, false⟩ "7"
        = .ok (r1, ⟨testClient lastBatch, false⟩) ∧
      r1 = r2 ∧ r1.Err = some GoError.ErrNotFound ∧ r1.StatusCode = 404 ∧ r1.Documents = none :=
  let ⟨rs1, rs2, r1, r2, h1, h2, _, _, hs1, _, heq, h404⟩ :=
    nextBatch_no_client_memory wholeRuntime oneCursorServer ⟨testClient lastBatch, true⟩
      ⟨"12345", "6789"⟩ rfl (fun _ => rfl) ["7"] ["7", "7"] "7" "7"
  have hn := h404 cursorGone ⟨"", "cursor not found"⟩ rfl rfl rfl
  ⟨rs1, rs2, r1, r2, h1, h2,
    congrArg (fun x => x.1.map (fun r => r.Err)) (Except.ok.inj (h1.symm.trans rfl)),
    congrArg (fun x => x.1.map (fun r => r.Err)) (Except.ok.inj (h2.symm.trans rfl)),
    hs1, heq rfl, hn.1, hn.2.1, hn.2.2.1⟩


/-! ## The client across calls (claim C24) -/

/-- A call other than `Refresh` that returns leaves the struct of the client as
it was, and moves the transport by at most one `Do`. -/
theorem callStep_frame {F σ : Type} (rt : GoRuntime F) (t : StatefulTransport σ)
    (w w2 : World σ) (call : Call) (hne : call ≠ .Refresh) (h : callStep rt t w call = .ok w2) :
    w2.client = w.client ∧ (w2.server = w.server ∨ ∃ req, w2.server = (t.Do w.server req).2) := by
  cases call with
  | Refresh => exact absurd rfl hne
  | CursorQuery params =>
    simp only [callStep] at h
    cases hs : CursorQueryStep rt t w params with
    | error p => rw [hs] at h; exact Except.noConfusion h
    | ok rw2 =>
      rw [hs] at h
      cases Except.ok.inj h
      exact CursorQueryStep_frame rt t w rw2.2 params rw2.1 hs
  | CursorGetNextBatch cursorID =>
    simp only [callStep] at h
    cases hs : CursorGetNextBatchStep rt t w cursorID with
    | error p => rw [hs] at h; exact Except.noConfusion h
    | ok rw2 =>
      rw [hs] at h
      cases Except.ok.inj h
      exact CursorGetNextBatchStep_frame rt t w rw2.2 cursorID rw2.1 hs
  | CreateColl name =>
    simp only [callStep] at h
    cases hs : CreateCollStep rt t w name with
    | error p => rw [hs] at h; exact Except.noConfusion h
    | ok rw2 =>
      rw [hs] at h
      cases Except.ok.inj h
      exact CreateCollStep_frame rt t w rw2.2 name rw2.1 hs
  | CreateGraph graphDef =>
    simp only [callStep] at h
    cases hs : CreateGraphStep rt t w graphDef with
    | error p => rw [hs] at h; exact Except.noConfusion h
    | ok rw2 =>
      rw [hs] at h
      cases Except.ok.inj h
      exact CreateGraphStep_frame rt t w rw2.2 graphDef rw2.1 hs
  | CreateRelation graph relation =>
    simp only [callStep] at h
    cases hs : CreateRelationStep rt t w graph relation with
    | error p => rw [hs] at h; exact Except.noConfusion h
    | ok rw2 =>
      rw [hs] at h
      cases Except.ok.inj h
      exact CreateRelationStep_frame rt t w rw2.2 graph relation rw2.1 hs
  | GetIndexes coll =>
    simp only [callStep] at h
    cases hs : GetIndexesStep rt t w coll with
    | error p => rw [hs] at h; exact Except.noConfusion h
    | ok rw2 =>
      rw [hs] at h
      cases Except.ok.inj h
      exact GetIndexesStep_frame rt t w rw2.2 coll rw2.1 hs
  | RemoveIndex handle =>
    simp only [callStep] at h
    cases hs : RemoveIndexStep rt t w handle with
    | error p => rw [hs] at h; exact Except.noConfusion h
    | ok rw2 =>
      rw [hs] at h
      cases Except.ok.inj h
      exact RemoveIndexStep_frame rt t w rw2.2 handle rw2.1 hs
  | CreateIndex params =>
    simp only [callStep] at h
    cases hs : CreateIndexStep rt t w params with
    | error p => rw [hs] at h; exact Except.noConfusion h
    | ok rw2 =>
      rw [hs] at h
      cases Except.ok.inj h
      exact CreateIndexStep_frame rt t w rw2.2 params rw2.1 hs
  | CreateDoc coll doc =>
    simp only [callStep] at h
    cases hs : CreateDocStep rt t w coll doc with
    | error p => rw [hs] at h; exact Except.noConfusion h
    | ok rw2 =>
      rw [hs] at h
      cases Except.ok.inj h
      exact CreateDocStep_frame rt t w rw2.2 coll doc rw2.1 hs
  | GetDocs coll params =>
    simp only [callStep] at h
    cases hs : GetDocsStep rt t w coll params with
    | error p => rw [hs] at h; exact Except.noConfusion h
    | ok rw2 =>
      rw [hs] at h
      cases Except.ok.inj h
      exact GetDocsStep_frame rt t w rw2.2 coll params rw2.1 hs
  | GetDocCount coll params =>
    simp only [callStep] at h
    cases hs : GetDocCountStep rt t w coll params with
    | error p => rw [hs] at h; exact Except.noConfusion h
    | ok rw2 =>
      rw [hs] at h
      cases Except.ok.inj h
      exact GetDocCountStep_frame rt t w rw2.2 coll params rw2.1 hs
  | RemoveDoc coll key =>
    simp only [callStep] at h
    cases hs : RemoveDocStep rt t w coll key with
    | error p => rw [hs] at h; exact Except.noConfusion h
    | ok rw2 =>
      rw [hs] at h
      cases Except.ok.inj h
      exact RemoveDocStep_frame rt t w rw2.2 coll key rw2.1 hs
  | GetDoc coll key =>
    simp only [callStep] at h
    cases hs : GetDocStep rt t w coll key with
    | error p => rw [hs] at h; exact Except.noConfusion h
    | ok rw2 =>
      rw [hs] at h
      cases Except.ok.inj h
      exact GetDocStep_frame rt t w rw2.2 coll key rw2.1 hs
  | UpdateDoc coll key doc =>
    simp only [callStep] at h
    cases hs : UpdateDocStep rt t w coll key doc with
    | error p => rw [hs] at h; exact Except.noConfusion h
    | ok rw2 =>
      rw [hs] at h
      cases Except.ok.inj h
      exact UpdateDocStep_frame rt t w rw2.2 coll key doc rw2.1 hs
  | InsertQuery params =>
    simp only [callStep] at h
    cases hs : InsertQueryStep rt t w params with
    | error p => rw [hs] at h; exact Except.noConfusion h
    | ok rw2 =>
      rw [hs] at h
      cases Except.ok.inj h
      exact InsertQueryStep_frame rt t w rw2.2 params rw2.1 hs
  | UpdateQuery params =>
    simp only [callStep] at h
    cases hs : UpdateQueryStep rt t w params with
    | error p => rw [hs] at h; exact Except.noConfusion h
    | ok rw2 =>
      rw [hs] at h
      cases Except.ok.inj h
      exact UpdateQueryStep_frame rt t w rw2.2 params rw2.1 hs
  | RemoveQuery params =>
    simp only [callStep] at h
    cases hs : RemoveQueryStep rt t w params with
    | error p => rw [hs] at h; exact Except.noConfusion h
    | ok rw2 =>
      rw [hs] at h
      cases Except.ok.inj h
      exact RemoveQueryStep_frame rt t w rw2.2 params rw2.1 hs

/-- C24: the client is stateless between calls apart from the session.  After
any sequence of calls other than `Refresh` that return, whatever the transport
answered, the struct of the client is the one before the sequence: the held
session, the endpoint and the connection parameters are unchanged.  Each such
call moves the transport by at most one `Do` and by no `Post`, so none logs in
again. -/
theorem client_unchanged_by_calls {F σ : Type} (rt : GoRuntime F) (t : StatefulTransport σ)
    (w w2 : World σ) (calls : List Call) (hne : Call.Refresh ∉ calls)
    (h : runCalls rt t w calls = .ok w2) :
    (w2.client = w.client ∧ w2.client.sessionInfo = w.client.sessionInfo ∧
      w2.client.endpoint = w.client.endpoint ∧
      w2.client.connectionParams = w.client.connectionParams) ∧
    (∀ (call : Call) (w1 w3 : World σ), call ≠ .Refresh → callStep rt t w1 call = .ok w3 →
      w3.client = w1.client ∧
        (w3.server = w1.server ∨ ∃ req, w3.server = (t.Do w1.server req).2)) := by
  refine ⟨?_, fun call w1 w3 hc hstep => callStep_frame rt t w1 w3 call hc hstep⟩
  have hc : w2.client = w.client := by
    induction calls generalizing w with
    | nil =>
      simp only [runCalls, Except.ok.injEq] at h
      rw [h]
    | cons call rest ih =>
      simp only [List.mem_cons, not_or] at hne
      simp only [runCalls] at h
      cases hcall : callStep rt t w call with
      | error p => rw [hcall] at h; exact Except.noConfusion h
      | ok w1 =>
        rw [hcall] at h
        have h1 := (callStep_frame rt t w w1 call (fun e => hne.1 e.symm) hcall).1
        exact (ih w1 hne.2 h).trans h1
  exact ⟨hc, by rw [hc], by rw [hc], by rw [hc]⟩

/-- Witness for C24: a query, a next batch and a document read in a row, the
last two answered with status 404, leave the test client with the session it
had. -/
theorem client_unchanged_by_calls_witness :
    Call.Refresh ∉ [Call.CursorQuery none, Call.CursorGetNextBatch "7", Call.GetDoc "test" "1"] ∧
      runCalls wholeRuntime oneCursorServer ⟨testClient firstPage, true⟩
        [Call.CursorQuery none, Call.CursorGetNextBatch "7", Call.GetDoc "test" "1"]
        = .ok ⟨testClient firstPage, false⟩ ∧
      (testClient firstPage).sessionInfo = some { SID := "12345", UID := "6789" } :=
  ⟨by simp, rfl,
    (client_unchanged_by_calls wholeRuntime oneCursorServer ⟨testClient firstPage, true⟩
      ⟨testClient firstPage, false⟩
      [Call.CursorQuery none, Call.CursorGetNextBatch "7", Call.GetDoc "test" "1"]
      (by simp) rfl).1.2.1.trans rfl⟩


theorem Add_keys (k v : String) (q : Values) :
    ∀ x ∈ (Values.Add k v q).map Prod.fst, x = k ∨ x ∈ q.map Prod.fst := by
  induction q with
  | nil =>
    intro x hx
    simp only [Values.Add, List.map_cons, List.map_nil, List.mem_singleton] at hx
    exact Or.inl hx
  | cons kv rest ih =>
    obtain ⟨k2, vs⟩ := kv
    intro x hx
    unfold Values.Add at hx
    split at hx
    · simp only [List.map_cons, List.mem_cons] at hx ⊢
      exact hx
    · split at hx
      · simp only [List.map_cons, List.mem_cons] at hx ⊢
        exact Or.inr hx
      · simp only [List.map_cons, List.mem_cons] at hx ⊢
        rcases hx with h | h
        · exact Or.inr (Or.inl h)
        · rcases ih x h with h2 | h2
          · exact Or.inl h2
          · exact Or.inr (Or.inr h2)

/-- `Values.Add` keeps the keys in strictly ascending order. -/
theorem Add_ascending (k v : String) (q : Values)
    (h : keysAscending (q.map Prod.fst) = true) :
    keysAscending ((Values.Add k v q).map Prod.fst) = true := by
  induction q with
  | nil => simp [Values.Add, keysAscending]
  | cons kv rest ih =>
    obtain ⟨k2, vs⟩ := kv
    rw [keysAscending_iff] at h ⊢
    simp only [List.map_cons, List.pairwise_cons] at h
    obtain ⟨hall, hrest⟩ := h
    unfold Values.Add
    split
    · rename_i hlt
      simp only [List.map_cons, List.pairwise_cons, List.mem_cons]
      refine ⟨?_, hall, hrest⟩
      intro x hx
      rcases hx with hx | hx
      · rw [hx]; exact hlt
      · exact keyLess_trans hlt (hall x hx)
    · rename_i hnlt
      split
      · simp only [List.map_cons, List.pairwise_cons]
        exact ⟨hall, hrest⟩
      · rename_i hne
        simp only [List.map_cons, List.pairwise_cons]
        have hgt : keyLess k2 k = true := keyLess_total (by simpa using hnlt) hne
        refine ⟨?_, ?_⟩
        · intro x hx
          rcases Add_keys k v rest x hx with h1 | h1
          · rw [h1]; exact hgt
          · exact hall x h1
        · rw [← keysAscending_iff]
          exact ih ((keysAscending_iff _).2 hrest)

theorem lookup_none_of_not_mem (k : String) (q : Values) (h : k ∉ q.map Prod.fst) :
    q.lookup k = none := by
  induction q with
  | nil => rfl
  | cons kv rest ih =>
    obtain ⟨k2, vs⟩ := kv
    simp only [List.map_cons, List.mem_cons, not_or] at h
    have hb : (k == k2) = false := by simp [h.1]
    simp only [List.lookup, hb]
    exact ih h.2

/-- On parameters in key order, `Values.Add` appends the value to the values
its key already has. -/
theorem lookup_Add_self (k v : String) (q : Values)
    (h : keysAscending (q.map Prod.fst) = true) :
    (Values.Add k v q).lookup k = some ((q.lookup k).getD [] ++ [v]) := by
  induction q with
  | nil => simp only [Values.Add, List.lookup, beq_self_eq_true, Option.getD_none, List.nil_append]
  | cons kv rest ih =>
    obtain ⟨k2, vs⟩ := kv
    rw [keysAscending_iff] at h
    simp only [List.map_cons, List.pairwise_cons] at h
    obtain ⟨hall, hrest⟩ := h
    unfold Values.Add
    split
    · rename_i hlt
      have hne : k ≠ k2 := fun e => keyLess_ne hlt e.symm
      have hb : (k == k2) = false := by simp [hne]
      have hnot : k ∉ rest.map Prod.fst := fun hm =>
        keyLess_ne (keyLess_trans hlt (hall k hm)) rfl
      simp only [List.lookup, beq_self_eq_true, hb, lookup_none_of_not_mem k rest hnot,
        Option.getD_none, List.nil_append]
    · split
      · rename_i hk
        subst hk
        simp only [List.lookup, beq_self_eq_true, Option.getD_some]
      · rename_i hne
        have hb : (k == k2) = false := by simp [hne]
        simp only [List.lookup, hb]
        exact ih ((keysAscending_iff _).2 hrest)

/-- Appending values to the values a key has. -/
theorem lookup_addFields_general (k : String) (fields : List (String × String)) :
    ∀ q : Values, keysAscending (q.map Prod.fst) = true →
      keysAscending
        ((fields.foldl (fun q kv => Values.Add kv.1 (QueryEscape kv.2) q) q).map Prod.fst) = true ∧
      (fields.foldl (fun q kv => Values.Add kv.1 (QueryEscape kv.2) q) q).lookup k =
        (if (fields.filter (fun kv => kv.1 = k)).map (fun kv => QueryEscape kv.2) = [] then
          q.lookup k
        else
          some ((q.lookup k).getD [] ++
            (fields.filter (fun kv => kv.1 = k)).map (fun kv => QueryEscape kv.2))) := by
  induction fields with
  | nil => intro q hq; exact ⟨hq, by simp⟩
  | cons kv rest ih =>
    intro q hq
    obtain ⟨hasc, hlook⟩ := ih (Values.Add kv.1 (QueryEscape kv.2) q)
      (Add_ascending kv.1 (QueryEscape kv.2) q hq)
    refine ⟨hasc, ?_⟩
    rw [List.foldl_cons, hlook]
    by_cases hk : kv.1 = k
    · have hfil : (kv :: rest).filter (fun kv => kv.1 = k)
          = kv :: rest.filter (fun kv => kv.1 = k) := by
        simp [List.filter_cons, hk]
      rw [hfil, hk, lookup_Add_self _ _ q hq]
      simp only [List.map_cons]
      generalize (rest.filter (fun kv => kv.1 = k)).map (fun kv => QueryEscape kv.2) = rs
      cases rs with
      | nil => simp
      | cons x xs => simp
    · have hne : k ≠ kv.1 := fun e => hk e.symm
      have hfil : (kv :: rest).filter (fun kv => kv.1 = k)
          = rest.filter (fun kv => kv.1 = k) := by
        simp [List.filter_cons, hk]
      rw [hfil, lookup_Add_of_ne k kv.1 _ hne q]

/-- The values `GetDocs` puts under `sort` are those of the filters named
`sort` followed by the `sort` parameter. -/
theorem getDocsParams_sort (params : DocumentRetrievalParams) :
    (getDocsParams params).lookup "sort" =
      (if sortValuesSent params = [] then none else some (sortValuesSent params)) := by
  have hval : params.SortFields ≠ [] → sortParameter params = some (sortValues params) := by
    intro hne
    simp only [sortParameter, if_neg hne, sortValues, sortLoop_eq_intercalate]
    by_cases ho : params.SortOrder = ""
    · simp [ho]
    · simp [ho, String.append_assoc]
  obtain ⟨hasc, hq1⟩ := lookup_addFields_general "sort" (params.Fields.getD []) [] rfl
  have hlimit : ∀ (v : String) (q : Values),
      (Values.Add "limit" v q).lookup "sort" = q.lookup "sort" :=
    fun v q => lookup_Add_of_ne "sort" "limit" v (by decide) q
  have hq2 : (if params.SortFields.length > 0 then
        Values.Add "sort" (sortValues params) (addFields params.Fields []) else
        addFields params.Fields []).lookup "sort" =
      (if sortValuesSent params = [] then none else some (sortValuesSent params)) := by
    unfold addFields
    have hnil : List.lookup "sort" ([] : Values) = none := rfl
    rw [hnil] at hq1
    by_cases hne : params.SortFields = []
    · have hlen : ¬ params.SortFields.length > 0 := by simp [hne]
      have hsp : sortParameter params = none := by simp [sortParameter, hne]
      rw [if_neg hlen, hq1]
      simp only [sortValuesSent, hsp, Option.toList_none, List.append_nil, Option.getD_none,
        List.nil_append]
    · have hlen : params.SortFields.length > 0 := List.length_pos.mpr hne
      rw [if_pos hlen, lookup_Add_self _ _ _ hasc, hq1]
      simp only [sortValuesSent, hval hne, Option.toList_some]
      generalize ((params.Fields.getD []).filter (fun kv => kv.1 = "sort")).map
          (fun kv => QueryEscape kv.2) = fs
      cases fs with
      | nil => simp
      | cons x xs => simp
  simp only [getDocsParams]
  split
  · rw [hlimit]; exact hq2
  · exact hq2

/-- A step of `GetDocs` whose request could be built hands that request to the
transport, once, and returns what the answer makes of it. -/
theorem GetDocsStep_forwards {F σ : Type} (rt : GoRuntime F) (t : StatefulTransport σ)
    (w : World σ) (coll : String) (params : DocumentRetrievalParams) (req : Request)
    (hreq : prepareRequest rt w.client "GET" ("/" ++ coll) (some (getDocsParams params)) none
      = .ok req) :
    ∃ r, GetDocs rt (clientAt w.client t w.server) coll (some params) = .ok r ∧
      GetDocsStep rt t w coll (some params) = .ok (r, ⟨w.client, (t.Do w.server req).2⟩) := by
  unfold GetDocsStep GetDocs
  simp only [prepareRequest_clientAt, clientAt_Do, hreq]
  rcases hd : t.Do w.server req with ⟨out, s⟩
  cases out with
  | error err => exact ⟨_, rfl, rfl⟩
  | ok resp =>
    simp only []
    split
    · split
      · exact ⟨_, rfl, rfl⟩
      · exact ⟨_, rfl, rfl⟩
    · exact ⟨_, rfl, rfl⟩

/-- The request `prepareRequest` builds on a client with a session. -/
theorem prepareRequest_of_session {F : Type} (rt : GoRuntime F) (c : clientImpl)
    (sessionInfo : SessionInfo) (method path : String) (qParams : Values) (body : Option Body)
    (hs : c.sessionInfo = some sessionInfo)
    (hnr : rt.newRequestOk method (c.endpoint ++ path) = true) :
    prepareRequest rt c method path (some qParams) body =
      .ok { Method := method, URL := c.endpoint ++ path,
            RawQuery :=
              (match qParams with
               | [] => none
               | kv :: kvs => some (Values.Encode (kv :: kvs))),
            SessionID := sessionInfo.SID, Body := body } := by
  simp only [prepareRequest, hnr, hs, if_true]
  cases qParams <;> rfl

/-- C28, the claim at a field filter named `sort`: with empty `SortFields` the
request `GetDocs` hands to the transport still carries the query `sort=f`, the
filter; and with `SortFields = ["a"]` it carries `sort=f&sort=a`, two values. -/
theorem sort_parameter_counterexample :
    sortAsFilter.SortFields = [] ∧
      (GetDocsStep wholeRuntime recorder ⟨testClient firstPage, []⟩ "test"
          (some sortAsFilter)).map (fun rw => rw.2.server.map Request.query)
        = .ok ["sort=f"] ∧
      (GetDocsStep wholeRuntime recorder ⟨testClient firstPage, []⟩ "test"
          (some { sortAsFilter with SortFields := ["a"] })).map
            (fun rw => rw.2.server.map Request.query)
        = .ok ["sort=f&sort=a"] ∧
      ParseQuery "sort=f&sort=a"
        = [(some (stringBytes "sort"), some (stringBytes "f")),
           (some (stringBytes "sort"), some (stringBytes "a"))] :=
  ⟨rfl, rfl, rfl, by decide⟩

/-- C28, amended: on a client with a session `GetDocs` hands the transport one
`GET` request for the collection whose query is the encoding of its query
parameters.  Under `sort` the parameters hold the values of the field filters
named `sort` followed, exactly when `SortFields` is non-empty, by `SortFields`
joined with `,` with `::` and `SortOrder` appended when an order is given.  So
when no filter is named `sort` there is a `sort` parameter exactly when
`SortFields` is non-empty, with that single value; and with empty `SortFields`
the parameters do not depend on `SortOrder`. -/
theorem GetDocs_sort_parameter {F σ : Type} (rt : GoRuntime F) (t : StatefulTransport σ)
    (w : World σ) (sessionInfo : SessionInfo) (coll : String) (params : DocumentRetrievalParams)
    (hs : w.client.sessionInfo = some sessionInfo)
    (hnr : rt.newRequestOk "GET" (w.client.endpoint ++ ("/" ++ coll)) = true) :
    ∃ req r,
      GetDocsStep rt t w coll (some params) = .ok (r, ⟨w.client, (t.Do w.server req).2⟩) ∧
      req.Method = "GET" ∧ req.URL = w.client.endpoint ++ ("/" ++ coll) ∧
      req.SessionID = sessionInfo.SID ∧
      req.RawQuery =
        (match getDocsParams params with
         | [] => none
         | kv :: kvs => some (Values.Encode (kv :: kvs))) ∧
      (getDocsParams params).lookup "sort" =
        (if sortValuesSent params = [] then none else some (sortValuesSent params)) ∧
      ((∀ kv ∈ params.Fields.getD [], kv.1 ≠ "sort") →
        (getDocsParams params).lookup "sort" = (sortParameter params).map (fun v => [v])) ∧
      (params.SortFields = [] → sortParameter params = none ∧
        ∀ order, getDocsParams { params with SortOrder := order } = getDocsParams params) := by
  have hreq := prepareRequest_of_session rt w.client sessionInfo "GET" ("/" ++ coll)
    (getDocsParams params) none hs hnr
  obtain ⟨r, _, hstep⟩ := GetDocsStep_forwards rt t w coll params _ hreq
  refine ⟨_, r, hstep, rfl, rfl, rfl, rfl, getDocsParams_sort params, ?_, ?_⟩
  · intro hf
    rw [getDocsParams_sort]
    have hfil : (params.Fields.getD []).filter (fun kv => kv.1 = "sort") = [] := by
      rw [List.filter_eq_nil_iff]
      intro kv hkv
      simpa using hf kv hkv
    simp only [sortValuesSent, hfil, List.map_nil, List.nil_append]
    cases sortParameter params <;> simp
  · intro he
    refine ⟨by simp [sortParameter, he], fun order => ?_⟩
    have hlen : ¬ params.SortFields.length > 0 := by simp [he]
    simp only [getDocsParams, if_neg hlen]

/-- Witness for C28: for the parameters of the tests the transport is handed
one request, whose query holds `sort=height,name::DESC` in escaped form. -/
theorem GetDocs_sort_parameter_witness :
    ∃ req r,
      GetDocsStep wholeRuntime recorder ⟨testClient firstPage, []⟩ "test" (some testFilter)
        = .ok (r, ⟨testClient firstPage, [req]⟩) ∧
      req.RawQuery = some "limit=10%2C5&rating=high&sort=height%2Cname%3A%3ADESC" ∧
      (getDocsParams testFilter).lookup "sort" = some ["height,name::DESC"] ∧
      ParseQuery "limit=10%2C5&rating=high&sort=height%2Cname%3A%3ADESC"
        = [(some (stringBytes "limit"), some (stringBytes "10,5")),
           (some (stringBytes "rating"), some (stringBytes "high")),
           (some (stringBytes "sort"), some (stringBytes "height,name::DESC"))] :=
  let ⟨req, r, hstep, _, _, _, hq, hsort, _, _⟩ :=
    GetDocs_sort_parameter wholeRuntime recorder ⟨testClient firstPage, []⟩
      ⟨"12345", "6789"⟩ "test" testFilter rfl rfl
  ⟨req, r, hstep, hq.trans rfl, hsort.trans rfl, by decide⟩


/-! ## The count, stated from the response (claim C23) -/

theorem lookup_mapInsert_self {α : Type} (k : String) (v : α) (m : List (String × α)) :
    (mapInsert k v m).lookup k = some v := by
  induction m with
  | nil => simp only [mapInsert, List.lookup, beq_self_eq_true]
  | cons kv rest ih =>
    obtain ⟨k2, v2⟩ := kv
    unfold mapInsert
    split
    · simp only [List.lookup, beq_self_eq_true]
    · split
      · simp only [List.lookup, beq_self_eq_true]
      · rename_i hne
        have hb : (k == k2) = false := by simp [hne]
        simp only [List.lookup, hb, ih]

theorem lookup_mapInsert_of_ne {α : Type} (k k2 : String) (v : α) (hne : k ≠ k2)
    (m : List (String × α)) : (mapInsert k2 v m).lookup k = m.lookup k := by
  have hb : (k == k2) = false := by simp [hne]
  induction m with
  | nil => simp only [mapInsert, List.lookup, hb]
  | cons kv rest ih =>
    obtain ⟨k3, v3⟩ := kv
    unfold mapInsert
    split
    · simp only [List.lookup, hb]
    · split
      · rename_i h3
        subst h3
        simp only [List.lookup, hb]
      · by_cases h3 : k = k3
        · subst h3
          simp only [List.lookup, beq_self_eq_true]
        · have hb3 : (k == k3) = false := by simp [h3]
          simp only [List.lookup, hb3, ih]

/-- What a decoded object holds under a key is the decoding of the last member
with that key, and what the map held before when there is no such member. -/
theorem decodeMembers_lookup {F : Type} (rt : GoRuntime F) (k : String) :
    ∀ (kvs : List (String × JSON)) (acc m : List (String × GoValue F)),
      decodeMembers rt kvs acc = .ok m →
      m.lookup k =
        (match lastMember k kvs with
         | some x => (decodeInterface rt x).toOption
         | none => acc.lookup k)
  | [], acc, m, h => by
    simp only [decodeMembers, Except.ok.injEq] at h
    subst h
    rfl
  | (k1, x) :: rest, acc, m, h => by
    simp only [decodeMembers] at h
    cases hx : decodeInterface rt x with
    | error e => simp [hx] at h
    | ok v =>
      simp only [hx] at h
      have ih := decodeMembers_lookup rt k rest (mapInsert k1 v acc) m h
      rw [ih]
      simp only [lastMember]
      cases hl : lastMember k rest with
      | some y => rfl
      | none =>
        simp only []
        by_cases hk : k1 = k
        · subst hk
          simp only [if_true, lookup_mapInsert_self, hx, Except.toOption]
        · have hne : k ≠ k1 := fun e => hk e.symm
          simp only [if_neg hk, lookup_mapInsert_of_ne k k1 v hne]

/-- A body that is a JSON object whose last `count` member is a number holds,
once decoded, the `float64` of that number under `count`. -/
theorem decodeMap_count {F : Type} (rt : GoRuntime F) (kvs : List (String × JSON))
    (m : GoMap F) (n : JNumber) (count : F)
    (hdec : decodeMap rt (.value (.obj kvs)) = .ok m)
    (hlast : lastMember "count" kvs = some (.num n))
    (hparse : rt.parseFloat n = some count) :
    mapIndex m "count" = some (.float64 count) := by
  simp only [decodeMap, storeMap, Option.getD_none] at hdec
  cases hd : decodeMembers rt kvs [] with
  | error e => simp [hd] at hdec
  | ok entries =>
    simp only [hd, Except.ok.injEq] at hdec
    subst hdec
    simp only [mapIndex, decodeMembers_lookup rt "count" kvs [] entries hd, hlast,
      decodeInterface, hparse, Except.toOption]

/-- C23, the claim at a count with a fraction: answered with status 200 and the
body `{"count":34.7}`, `GetDocCount` returns `Count = 34` with a nil `Err`,
although the count is not the integer 34. -/
theorem count_fraction_counterexample :
    GetDocCount binary64 (testClient fractionCount) "test" (some noFilter)
        = .ok { Count := 34, Err := none, StatusCode := 0, Message := "" } ∧
      binary64.parseFloat ⟨false, 34, [7], none⟩ ≠ binary64.parseFloat ⟨false, 34, [], none⟩ :=
  ⟨rfl, by decide⟩

/-- C23, amended: once the transport has answered the request of `GetDocCount`
with status 200 and a body that decodes to an object holding a number under
`count` (a JSON object whose last `count` member is a number), the call returns
`Err = nil` and `Count = int(count)`, the conversion of the decoded `float64`;
a returned result has `Err = nil` only in that case; every other returned
result has `Count = -1` and a non-nil `Err`, which is what a transport error,
an undecodable body and a missing or non-numeric count give. -/
theorem GetDocCount_count {F : Type} (rt : GoRuntime F) (c : clientImpl) (coll : String)
    (params : DocumentRetrievalParams) :
    (∀ resp respItems count,
      dispatched c
        (prepareRequest rt c "GET" ("/" ++ coll ++ "/count")
          (some (addFields params.Fields [])) none) resp →
      resp.StatusCode = 200 → decodeMap rt resp.Body = .ok respItems →
      mapIndex respItems "count" = some (.float64 count) →
      GetDocCount rt c coll (some params)
        = .ok { Count := rt.floatToInt count, Err := none, StatusCode := 0, Message := "" }) ∧
    (∀ resp kvs respItems n count,
      dispatched c
        (prepareRequest rt c "GET" ("/" ++ coll ++ "/count")
          (some (addFields params.Fields [])) none) resp →
      resp.StatusCode = 200 → resp.Body = .value (.obj kvs) →
      decodeMap rt resp.Body = .ok respItems →
      lastMember "count" kvs = some (.num n) → rt.parseFloat n = some count →
      GetDocCount rt c coll (some params)
        = .ok { Count := rt.floatToInt count, Err := none, StatusCode := 0, Message := "" }) ∧
    (∀ r, GetDocCount rt c coll (some params) = .ok r → r.Err = none →
      ∃ resp respItems count,
        dispatched c
          (prepareRequest rt c "GET" ("/" ++ coll ++ "/count")
            (some (addFields params.Fields [])) none) resp ∧
        resp.StatusCode = 200 ∧ decodeMap rt resp.Body = .ok respItems ∧
        mapIndex respItems "count" = some (.float64 count) ∧
        r.Count = rt.floatToInt count) ∧
    (∀ r, GetDocCount rt c coll (some params) = .ok r → r.Err ≠ none → r.Count = -1) ∧
    (∀ err,
      refused c
        (prepareRequest rt c "GET" ("/" ++ coll ++ "/count")
          (some (addFields params.Fields [])) none) err →
      GetDocCount rt c coll (some params) = .ok { Count := -1, Err := some err }) ∧
    (∀ resp e,
      dispatched c
        (prepareRequest rt c "GET" ("/" ++ coll ++ "/count")
          (some (addFields params.Fields [])) none) resp →
      decodeMap rt resp.Body = .error e →
      GetDocCount rt c coll (some params) = .ok { Count := -1, Err := some (.decode e) }) ∧
    (∀ resp respItems,
      dispatched c
        (prepareRequest rt c "GET" ("/" ++ coll ++ "/count")
          (some (addFields params.Fields [])) none) resp →
      resp.StatusCode = 200 → decodeMap rt resp.Body = .ok respItems →
      (∀ count, mapIndex respItems "count" ≠ some (.float64 count)) →
      GetDocCount rt c coll (some params)
        = .ok { Count := -1, Err := some GoError.ErrGeneral }) := by
  refine ⟨?_, ?_, ?_, ?_, ?_, ?_, ?_⟩
  · intro resp respItems count hd hst hdec hcount
    exact GetDocCount_of_success rt c coll params resp respItems count hd hst hdec hcount
  · intro resp kvs respItems n count hd hst hb hdec hlast hparse
    have hdec2 := hdec
    rw [hb] at hdec2
    exact GetDocCount_of_success rt c coll params resp respItems count hd hst hdec
      (decodeMap_count rt kvs respItems n count hdec2 hlast hparse)
  · intro r h he
    exact (GetDocCount_returned rt c coll params r h).1.1 he
  · intro r h he
    exact (GetDocCount_returned rt c coll params r h).2 he
  · intro err hr
    exact GetDocCount_of_transport_error rt c coll params err hr
  · intro resp e hd hdec
    exact GetDocCount_of_decode_error rt c coll params resp e hd hdec
  · intro resp respItems hd hst hdec hno
    obtain ⟨req, hreq, hdo⟩ := hd
    simp only [GetDocCount, hreq, hdo, hdec]
    rw [if_pos hst]

/-- Witness for C23: the count response of the tests, `{"count":34}`, gives
`Count = 34` with a nil `Err` on the concrete `float64`. -/
theorem GetDocCount_count_witness :
    GetDocCount binary64 (testClient countResponse) "test" (some noFilter)
      = .ok { Count := 34, Err := none, StatusCode := 0, Message := "" } :=
  (GetDocCount_count binary64 (testClient countResponse) "test" noFilter).2.1
    countResponse [("count", .num ⟨false, 34, [], none⟩)]
    (some [("count", .float64 ⟨false, 17, 1⟩)]) ⟨false, 34, [], none⟩ ⟨false, 17, 1⟩
    ⟨countRequest, rfl, rfl⟩ rfl rfl rfl rfl rfl


/-! ## The records of a page (claim C10) -/

set_option maxRecDepth 100000 in
/-- C10, the claim at a number beyond `2 ^ 53`: the record received holds
`9007199254740993`, and the record in `Documents` holds `9007199254740992`,
the literal of the nearest `float64`. -/
theorem records_value_counterexample :
    (CursorGetNextBatch binary64 (testClient bigNumberPage) "7").map (fun r => r.Documents)
        = .ok (some (.value (.arr [.obj [("n", .num ⟨false, 9007199254740992, [], none⟩)]]))) ∧
      (⟨false, 9007199254740993, [], none⟩ : JNumber) ≠ ⟨false, 9007199254740992, [], none⟩ :=
  ⟨rfl, by decide⟩

theorem map_getElem?_encode {F : Type} (rt : GoRuntime F) (ms : List (GoMap F)) (i : Nat)
    (m : GoMap F) (h : ms[i]? = some m) :
    (ms.map (encodeMap rt))[i]? = some (encodeMap rt m) := by
  simp [List.getElem?_map, h]

/-- C10, amended: for every successful `CursorQuery` or `CursorGetNextBatch`
response whose `results` is an array of `n` records, `Documents` holds an
array of exactly `n` records, the `i`-th of which is the encoding of the
`i`-th received record as decoded: nothing is dropped, duplicated or
reordered.  On a runtime that reads back every float it writes, decoding the
stream gives, record by record, what decoding the received records gives. -/
theorem documents_records_preserved {F : Type} (rt : GoRuntime F)
    (c : clientImpl) (resp : Response) (kvs : List (String × JSON)) (xs : List JSON)
    (hst : resp.StatusCode = 200 ∨ resp.StatusCode = 201)
    (hb : resp.Body = .value (.obj kvs)) :
    (∀ params b req im, encodeCursorQueryParams params = .ok b →
      prepareRequest rt c "POST" cursorEndpoint none (some (.value b)) = .ok req →
      c.httpClient.Do req = .ok resp →
      decodeCursorQueryBody rt resp.Body = .ok im →
      memberValues cursorQueryFields "results" kvs = [.arr xs] →
      ∃ r ms, CursorQuery rt c params = .ok r ∧ r.Err = none ∧
        r.Documents = some (.value (.arr (ms.map (encodeMap rt)))) ∧
        ms.length = xs.length ∧
        (∀ (i : Nat) (x : JSON), xs[i]? = some x →
          ∃ m, storeMap rt none x = .ok m ∧ ms[i]? = some m ∧
            (ms.map (encodeMap rt))[i]? = some (encodeMap rt m)) ∧
        ((∀ f, rt.parseFloat (rt.formatFloat f) = some f) →
          decodeMapSlice rt (.value (.arr (ms.map (encodeMap rt))))
            = .ok (some { elems := ms, spare := [] }))) ∧
    (∀ cursorID req im,
      prepareRequest rt c "PUT" (cursorEndpoint ++ "/" ++ cursorID) none none = .ok req →
      c.httpClient.Do req = .ok resp →
      decodeNextBatchBody rt resp.Body = .ok im →
      memberValues nextBatchFields "results" kvs = [.arr xs] →
      ∃ r ms, CursorGetNextBatch rt c cursorID = .ok r ∧ r.Err = none ∧
        r.Documents = some (.value (.arr (ms.map (encodeMap rt)))) ∧
        ms.length = xs.length ∧
        (∀ (i : Nat) (x : JSON), xs[i]? = some x →
          ∃ m, storeMap rt none x = .ok m ∧ ms[i]? = some m ∧
            (ms.map (encodeMap rt))[i]? = some (encodeMap rt m)) ∧
        ((∀ f, rt.parseFloat (rt.formatFloat f) = some f) →
          decodeMapSlice rt (.value (.arr (ms.map (encodeMap rt))))
            = .ok (some { elems := ms, spare := [] }))) := by
  constructor
  · intro params b req im henc hreq hdo hdec hres
    have hdec2 := hdec
    rw [hb] at hdec2
    obtain ⟨hr, _⟩ := cursorQueryBody_fields rt kvs _ im hdec2
    rw [hres] at hr
    obtain ⟨ms, hms, hlen, him⟩ := storeMapSlice_single rt _ xs hr
    refine ⟨_, ms, CursorQuery_of_decoded rt c params b req resp im henc hreq hdo hst hdec,
      rfl, ?_, hlen, ?_, ?_⟩
    · simp only [him, encodeMapSlice]
    · intro i x hx
      obtain ⟨m, hm, hs⟩ := decodeMapElems_get rt xs ms hms i x hx
      exact ⟨m, hs, hm, map_getElem?_encode rt ms i m hm⟩
    · intro hrt
      exact decodeMapSlice_encodeMapSlice rt hrt xs ms hms
  · intro cursorID req im hreq hdo hdec hres
    have hdec2 := hdec
    rw [hb] at hdec2
    obtain ⟨hr, _⟩ := nextBatchBody_fields rt kvs _ im hdec2
    rw [hres] at hr
    obtain ⟨ms, hms, hlen, him⟩ := storeMapSlice_single rt _ xs hr
    refine ⟨_, ms, CursorGetNextBatch_of_decoded rt c cursorID req resp im hreq hdo hst hdec,
      rfl, ?_, hlen, ?_, ?_⟩
    · simp only [him, encodeMapSlice]
    · intro i x hx
      obtain ⟨m, hm, hs⟩ := decodeMapElems_get rt xs ms hms i x hx
      exact ⟨m, hs, hm, map_getElem?_encode rt ms i m hm⟩
    · intro hrt
      exact decodeMapSlice_encodeMapSlice rt hrt xs ms hms

/-- Witness for C10: a page of two records comes back as two records in the
order received, each with its keys and values, and decodes to them. -/
theorem documents_records_preserved_witness :
    ∃ r ms, CursorQuery wholeRuntime (testClient twoRecords) none = .ok r ∧
      r.Documents = some (.value (.arr [.obj [("_key", .str "1"), ("name", .str "n1")],
                                        .obj [("_key", .str "2"), ("name", .str "n2")]])) ∧
      ms = [some [("_key", .string "1"), ("name", .string "n1")],
            some [("_key", .string "2"), ("name", .string "n2")]] ∧
      decodeMapSlice wholeRuntime (.value (.arr (ms.map (encodeMap wholeRuntime))))
        = .ok (some { elems := ms, spare := [] }) :=
  let ⟨r, ms, hr, _, hd, _, hget, hback⟩ :=
    (documents_records_preserved wholeRuntime (testClient twoRecords) twoRecords
      [("results", .arr [.obj [("name", .str "n1"), ("_key", .str "1")],
                         .obj [("name", .str "n2"), ("_key", .str "2")]]),
       ("hasMore", .bool false)]
      [.obj [("name", .str "n1"), ("_key", .str "1")],
       .obj [("name", .str "n2"), ("_key", .str "2")]]
      (Or.inl rfl) rfl).1 none .null nilQueryRequest
      { Results := some ⟨[some [("_key", .string "1"), ("name", .string "n1")],
          some [("_key", .string "2"), ("name", .string "n2")]], []⟩,
        Cursor := "", HasMore := false, Count := 0 }
      rfl rfl rfl rfl rfl
  have hr2 : r.Documents
      = some (.value (.arr [.obj [("_key", .str "1"), ("name", .str "n1")],
                            .obj [("_key", .str "2"), ("name", .str "n2")]])) :=
    congrArg (fun x : CursorQueryResult => x.Documents) (Except.ok.inj (hr.symm.trans rfl))
  have hms : (ms.map (encodeMap wholeRuntime))
      = [.obj [("_key", .str "1"), ("name", .str "n1")],
         .obj [("_key", .str "2"), ("name", .str "n2")]] := by
    have h1 := hr2.symm.trans hd
    simp only [Option.some.injEq, Body.value.injEq, JSON.arr.injEq] at h1
    exact h1.symm
  ⟨r, ms, hr, hr2, (by
    obtain ⟨m0, hs0, hm0, _⟩ := hget 0 (.obj [("name", .str "n1"), ("_key", .str "1")]) rfl
    obtain ⟨m1, hs1, hm1, _⟩ := hget 1 (.obj [("name", .str "n2"), ("_key", .str "2")]) rfl
    have e0 : m0 = some [("_key", .string "1"), ("name", .string "n1")] :=
      (Except.ok.inj (hs0.symm.trans rfl))
    have e1 : m1 = some [("_key", .string "2"), ("name", .string "n2")] :=
      (Except.ok.inj (hs1.symm.trans rfl))
    have hl : ms.length = 2 := by
      have := congrArg List.length hms
      simpa using this
    match ms, hl, hm0, hm1 with
    | [a, b], _, hm0, hm1 =>
      simp only [List.getElem?_cons_zero, List.getElem?_cons_succ, Option.some.injEq] at hm0 hm1
      rw [hm0, hm1, e0, e1]),
    hback wholeRuntime_parse_format⟩


/-! ## A member given twice -/

/-- A `results` member given twice is decoded into the slice the first one
left: the record at an index both arrays have is merged, and a record the
shorter array cut off comes back when a later array is longer again. -/
theorem results_given_twice :
    (CursorGetNextBatch wholeRuntime
        (testClient ⟨200, .value (.obj
          [("results", .arr [.obj [("a", .num ⟨false, 1, [], none⟩)]]),
           ("results", .arr [.obj [("b", .num ⟨false, 2, [], none⟩)]])])⟩) "7").map
        (fun r => r.Documents)
      = .ok (some (.value (.arr [.obj [("a", .num ⟨false, 1, [], none⟩),
                                       ("b", .num ⟨false, 2, [], none⟩)]]))) ∧
    decodeNextBatchBody wholeRuntime (.value (.obj
        [("results", .arr [.obj [("a", .str "1")], .obj [("c", .str "3")]]),
         ("results", .arr [.obj [("b", .str "2")]]),
         ("results", .arr [.obj [("x", .str "1")], .obj [("y", .str "2")]])]))
      = .ok { Results := some ⟨[some [("a", .string "1"), ("b", .string "2"), ("x", .string "1")],
                                some [("c", .string "3"), ("y", .string "2")]], []⟩,
              HasMore := false } ∧
    storeIndexPtr (.obj [("fields", .arr [.str "a", .str "b"]), ("fields", .arr [.null])])
      = .ok (some { ID := "", Type_ := "", Fields := some ⟨["a"], ["b"]⟩,
                    SelectivityEstimate := 0, Unique := false, Sparse := false }) :=
  ⟨rfl, rfl, rfl⟩


end Microfoxx
